import Mathlib

/-!
# YaspGrid: grid-level construction and neighbour displacement

A shallow embedding of `src/dune/grid/yaspgrid.hh` (dune-grid):
the routines `EquidistantSetup`, `makelevel` and the send-buffer loop of
`intersections`.

Conventions of the embedding

* `Dune::array<int,dim>` (`iTupel`) is a function `Fin dim → Int`, a
  `std::bitset<dim>` is a function `Fin dim → Bool`.  C++ `int` is modelled by
  unbounded `Int`; none of the properties below concerns overflow.
* `for (int i=0; i<dim; i++) body` is `forAxes dim body`, a left fold over the
  axes `0, 1, …, dim-1`; an assignment `a[i] = v` is `setAt a i v`.
* Floating point data (the domain extension `L`, the mesh width `h`) is not
  modelled; it never influences an index range.
-/

namespace Dune

/-! ## Arrays, bitsets and loops over the axes -/

/-- Integer tuple `Dune::array<int,dim>` (the typedef `iTupel`). -/
abbrev iTupel (dim : Nat) := Fin dim → Int

/-- Bit mask `std::bitset<dim>`. -/
abbrev Bitset (dim : Nat) := Fin dim → Bool

/-- Array assignment `a[i] = v`. -/
def setAt {dim : Nat} {α : Type} (a : Fin dim → α) (i : Fin dim) (v : α) : Fin dim → α :=
  fun k => if k = i then v else a k

/-- Loop `for (int i=0; i<dim; i++) body(i)` acting on a state of type `σ`. -/
def forAxes {σ : Type} (dim : Nat) (body : Fin dim → σ → σ) (s : σ) : σ :=
  (List.finRange dim).foldl (fun acc i => body i acc) s

/-- Bitset built from an unsigned integer, `std::bitset<dim> r(index)`. -/
def bitsetOfIndex (dim : Nat) (index : Nat) : Bitset dim :=
  fun i => index.testBit i.val

/-- Number of set bits, `r.count()`. -/
def Bitset.count {dim : Nat} (r : Bitset dim) : Nat :=
  ((List.finRange dim).filter (fun i => r i)).length

/-! ## Collaborators that are consumed only through their interface -/

/-- Modelled from the spec: the coordinate container (`coordinates.hh`, not part
of the sources at hand).  The grid-level builder consumes it only through
`size(axis)`, the number of cells it holds on each axis. -/
structure CoordCont (dim : Nat) where
  /-- Cells held per axis, `coords.size(i)`. -/
  size : iTupel dim

/-- Modelled from the spec: `EquidistantCoordinates(h, s)` is a container that
holds `s[i]` cells on axis `i` (the mesh width `h` is floating point and is not
modelled). -/
def EquidistantCoordinates {dim : Nat} (s : iTupel dim) : CoordCont dim :=
  { size := s }

/-- Index range (`YGridComponent` of `ygrid.hh`): an axis-aligned integer box
given by its origin and its size per axis.  These are the two members that
`mpifriendly_ygrid` copies and that the constructors called in `makelevel` set
from their `origin` and `size` arguments. -/
structure YGridComponent (dim : Nat) where
  /-- Origin per axis. -/
  origin : iTupel dim
  /-- Size per axis. -/
  size : iTupel dim

/-- Modelled from the spec: the default constructed `YGridComponent()` of
`ygrid.hh`, the empty grid: origin zero and size zero on every axis (as the
default `mpifriendly_ygrid` of the source). -/
def YGridComponent.default (dim : Nat) : YGridComponent dim :=
  { origin := fun _ => 0, size := fun _ => 0 }

/-- Modelled from the spec: `move(displacement)` returns a translated copy. -/
def YGridComponent.move {dim : Nat} (g : YGridComponent dim) (v : iTupel dim) :
    YGridComponent dim :=
  { origin := fun i => g.origin i + v i, size := g.size }

/-- Modelled from the spec: `intersection(other)` returns the component-wise
overlap (possibly empty): on every axis the overlap of the two intervals
`[origin, origin+size)`, of size zero where they do not overlap, so that the
invariant `size[i] >= 0` is kept. -/
def YGridComponent.intersection {dim : Nat} (a b : YGridComponent dim) : YGridComponent dim :=
  { origin := fun i => max (a.origin i) (b.origin i)
    size := fun i =>
      max 0 (min (a.origin i + a.size i) (b.origin i + b.size i)
        - max (a.origin i) (b.origin i)) }

/-- Modelled from the spec: a range is empty iff any `size[i] == 0`. -/
def YGridComponent.empty {dim : Nat} (g : YGridComponent dim) : Bool :=
  (List.finRange dim).any (fun i => decide (g.size i = 0))

/-- Modelled from the spec: `totalSize()` is the product of the sizes. -/
def YGridComponent.totalsize {dim : Nat} (g : YGridComponent dim) : Int :=
  ((List.finRange dim).map g.size).prod

/-- Modelled from the spec: `max(i)`, the last index of the range on axis `i`,
`origin + size - 1`. -/
def YGridComponent.max {dim : Nat} (g : YGridComponent dim) (i : Fin dim) : Int :=
  g.origin i + g.size i - 1

/-- Record `Intersection` of the send and receive lists: the remote rank, the
local index range and the topological distance of the neighbour. -/
structure Intersection (dim : Nat) where
  /-- Local index range to send or receive. -/
  grid : YGridComponent dim
  /-- Rank of the remote process. -/
  rank : Int
  /-- Number of axes along which the neighbour differs. -/
  distance : Int

/-- Modelled from the spec: a neighbour as the `ProcListIterator` of the
process topology presents it: the signed offset per axis, the rank, the
distance and the index of its exchange buffers. -/
structure ProcListEntry (dim : Nat) where
  /-- Offset to the neighbour, `delta()`. -/
  delta : iTupel dim
  /-- Rank of the neighbour, `rank()`. -/
  rank : Int
  /-- Distance of the neighbour, `distance()`. -/
  distance : Int
  /-- Buffer index of the neighbour, `index()`. -/
  index : Nat

/-- Slice of a component array (`YGrid` of `ygrid.hh`): the positions
`[dataBegin, dataEnd)` set by `setBegin` and `finalize`. -/
structure YGrid where
  /-- Position set by `setBegin`. -/
  dataBegin : Nat
  /-- Position set by `finalize`. -/
  dataEnd : Nat
  deriving DecidableEq, Repr

/-! ## Grid levels and the grid -/

/-- Grid level `YGridLevel`: the coordinate container, the four families of
index ranges (one `YGrid` slice per codimension into the corresponding `_data`
array), the send and receive lists of the four interface classes (one slice per
codimension into the corresponding array of deques) and the overlap width. -/
structure YGridLevel (dim : Nat) where
  /-- Coordinate container of the level. -/
  coords : CoordCont dim
  /-- Slices per codimension into `overlapfront_data`. -/
  overlapfront : List YGrid
  /-- Components of the overlapfront family in insertion order. -/
  overlapfront_data : List (YGridComponent dim)
  /-- Slices per codimension into `overlap_data`. -/
  overlap : List YGrid
  /-- Components of the overlap family in insertion order. -/
  overlap_data : List (YGridComponent dim)
  /-- Slices per codimension into `interiorborder_data`. -/
  interiorborder : List YGrid
  /-- Components of the interiorborder family in insertion order. -/
  interiorborder_data : List (YGridComponent dim)
  /-- Slices per codimension into `interior_data`. -/
  interior : List YGrid
  /-- Components of the interior family in insertion order. -/
  interior_data : List (YGridComponent dim)
  /-- Slices per codimension into `send_overlapfront_overlapfront_data`. -/
  send_overlapfront_overlapfront : List YGrid := []
  /-- Deques of the list `send_overlapfront_overlapfront` in insertion order. -/
  send_overlapfront_overlapfront_data : List (List (Intersection dim)) := []
  /-- Slices per codimension into `recv_overlapfront_overlapfront_data`. -/
  recv_overlapfront_overlapfront : List YGrid := []
  /-- Deques of the list `recv_overlapfront_overlapfront` in insertion order. -/
  recv_overlapfront_overlapfront_data : List (List (Intersection dim)) := []
  /-- Slices per codimension into `send_overlap_overlapfront_data`. -/
  send_overlap_overlapfront : List YGrid := []
  /-- Deques of the list `send_overlap_overlapfront` in insertion order. -/
  send_overlap_overlapfront_data : List (List (Intersection dim)) := []
  /-- Slices per codimension into `recv_overlapfront_overlap_data`. -/
  recv_overlapfront_overlap : List YGrid := []
  /-- Deques of the list `recv_overlapfront_overlap` in insertion order. -/
  recv_overlapfront_overlap_data : List (List (Intersection dim)) := []
  /-- Slices per codimension into `send_interiorborder_interiorborder_data`. -/
  send_interiorborder_interiorborder : List YGrid := []
  /-- Deques of the list `send_interiorborder_interiorborder` in insertion order. -/
  send_interiorborder_interiorborder_data : List (List (Intersection dim)) := []
  /-- Slices per codimension into `recv_interiorborder_interiorborder_data`. -/
  recv_interiorborder_interiorborder : List YGrid := []
  /-- Deques of the list `recv_interiorborder_interiorborder` in insertion order. -/
  recv_interiorborder_interiorborder_data : List (List (Intersection dim)) := []
  /-- Slices per codimension into `send_interiorborder_overlapfront_data`. -/
  send_interiorborder_overlapfront : List YGrid := []
  /-- Deques of the list `send_interiorborder_overlapfront` in insertion order. -/
  send_interiorborder_overlapfront_data : List (List (Intersection dim)) := []
  /-- Slices per codimension into `recv_overlapfront_interiorborder_data`. -/
  recv_overlapfront_interiorborder : List YGrid := []
  /-- Deques of the list `recv_overlapfront_interiorborder` in insertion order. -/
  recv_overlapfront_interiorborder_data : List (List (Intersection dim)) := []
  /-- Overlap in mesh cells on this level. -/
  overlapSize : Int
  /-- Level number within the hierarchy. -/
  level_ : Int

/-- Default constructed (empty) grid level. -/
def YGridLevel.empty (dim : Nat) : YGridLevel dim :=
  { coords := { size := fun _ => 0 }
    overlapfront := [], overlapfront_data := []
    overlap := [], overlap_data := []
    interiorborder := [], interiorborder_data := []
    interior := [], interior_data := []
    overlapSize := 0, level_ := 0 }

/-- Exchange record `mpifriendly_ygrid`: origin and size of a grid. -/
structure YaspGrid.mpifriendly_ygrid (dim : Nat) where
  /-- Origin per axis. -/
  origin : iTupel dim
  /-- Size per axis. -/
  size : iTupel dim

/-- Default constructor `mpifriendly_ygrid()`: origin and size filled with 0. -/
def YaspGrid.mpifriendly_ygrid.zero (dim : Nat) : YaspGrid.mpifriendly_ygrid dim :=
  { origin := fun _ => 0, size := fun _ => 0 }

/-- Constructor `mpifriendly_ygrid(grid)`: copies origin and size. -/
def YaspGrid.mpifriendly_ygrid.ofGrid {dim : Nat} (grid : YGridComponent dim) :
    YaspGrid.mpifriendly_ygrid dim :=
  { origin := grid.origin, size := grid.size }

/-- Grid built from a received record, `YGridComponent(yg.origin, yg.size)`. -/
def YaspGrid.mpifriendly_ygrid.toGrid {dim : Nat} (yg : YaspGrid.mpifriendly_ygrid dim) :
    YGridComponent dim :=
  { origin := yg.origin, size := yg.size }

/-- Modelled from the spec: the process topology (`Torus` of `torus.hh`), as far
as `intersections` uses it: the logical coordinate of this process in the
Cartesian process grid, the number of processes per axis (a count), the two
enumerations of the neighbours, and what the exchanges deliver.  The records
that arrive are determined by the other processes; the model holds them as the
table `received`, keyed by the level being made, the number (0 to 3) of the
`intersections` call within the loop body of `makelevel`, the index of the
shift pattern and the buffer index of the neighbour, and giving the contents of
`mpifriendly_recv_sendgrid` and `mpifriendly_recv_recvgrid` after the
exchanges. -/
structure Torus (dim : Nat) where
  /-- Logical coordinate of this process, `coord()`. -/
  coord : iTupel dim
  /-- Number of processes per axis, `dims(k)`. -/
  dims : Fin dim → Nat
  /-- Neighbours in the order of `sendbegin()` to `sendend()`. -/
  sendlist : List (ProcListEntry dim) := []
  /-- Neighbours in the order of `recvbegin()` to `recvend()`. -/
  recvlist : List (ProcListEntry dim) := []
  /-- Records delivered by the exchanges: send grid and recv grid of the
  neighbour, per level, call, shift index and buffer index. -/
  received : Int → Nat → Nat → Nat →
      YaspGrid.mpifriendly_ygrid dim × YaspGrid.mpifriendly_ygrid dim :=
    fun _ _ _ _ => (YaspGrid.mpifriendly_ygrid.zero dim, YaspGrid.mpifriendly_ygrid.zero dim)

/-- State of a `YaspGrid` object, as far as level construction reads or writes
it. -/
structure YaspGrid (dim : Nat) where
  /-- Process topology `_torus`. -/
  _torus : Torus dim
  /-- Levels `_levels`, coarsest first. -/
  _levels : List (YGridLevel dim)
  /-- Periodicity mask `_periodic`. -/
  _periodic : Bitset dim
  /-- Cells of the coarse grid per axis, `_coarseSize`. -/
  _coarseSize : iTupel dim
  /-- Overlap of the coarse grid, `_overlap`. -/
  _overlap : Int
  /-- Refinement option `keep_ovlp`: keep the physical size of the overlap. -/
  keep_ovlp : Bool := true
  /-- Refinement counter `adaptRefCount` set by `mark`. -/
  adaptRefCount : Int := 0
  /-- Flag `adaptActive`, set between `preAdapt` and `postAdapt`. -/
  adaptActive : Bool := false
  /-- Level index sets `indexsets`, each recorded by the level it was made for. -/
  indexsets : List Int := []
  /-- Number of boundary segments `nBSegments`, set by `boundarysegmentssize`. -/
  nBSegments : Int := 0

/-! ## Exceptions and the refinement of the coordinate container -/

/-- Exception classes thrown by the grid. -/
inductive DuneException where
  /-- The class `GridError`. -/
  | GridError
  /-- The class `RangeError`. -/
  | RangeError
  deriving DecidableEq, Repr

/-- Modelled from the spec: `refine(lowerOverlapFlags, upperOverlapFlags,
keepPhysicalOverlap, currentOverlapWidth)` of the coordinate container.  The
next level has ranges of exactly double size plus adjusted overlap relative to
the interior range, and its overlap width is twice or once the current one: the
new container holds twice the cells of the old one, less, if the physical
overlap is not kept, the current overlap width on each side that has an
overlap. -/
def CoordCont.refine {dim : Nat} (c : CoordCont dim) (ovlp_low ovlp_up : Bitset dim)
    (keep_ovlp : Bool) (overlap : Int) : CoordCont dim :=
  { size := fun i =>
      2 * c.size i
        - (if keep_ovlp then 0
           else (if ovlp_low i then overlap else 0) + (if ovlp_up i then overlap else 0)) }

namespace YaspGrid

variable {dim : Nat}

/-- Maximum level defined in this grid: `_levels.size()-1`. -/
def maxLevel (G : YaspGrid dim) : Int :=
  (G._levels.length : Int) - 1

/-- Size of the grid (in cells) on level `l` in direction `i`:
`_coarseSize[i] * (1 << l)`. -/
def levelSize (G : YaspGrid dim) (l : Int) (i : Fin dim) : Int :=
  G._coarseSize i * 2 ^ l.toNat

/-- Number of cells on the finest level in direction `i` on all processors. -/
def globalSize (G : YaspGrid dim) (i : Fin dim) : Int :=
  G.levelSize G.maxLevel i

/-- Whether the grid is periodic in direction `i`. -/
def isPeriodic (G : YaspGrid dim) (i : Fin dim) : Bool :=
  G._periodic i

/-! ## makelevel -/

/-- Local variables of `makelevel` that its first loop fills: the origin and
size of the box with overlap and the flags telling whether an overlap area
exists below and above in each direction. -/
structure OverlapInfo (dim : Nat) where
  /-- Origin of the grid with overlap, `o_overlap`. -/
  o_overlap : iTupel dim
  /-- Size of the grid with overlap in cells, `s_overlap`. -/
  s_overlap : iTupel dim
  /-- Flag per axis: overlap area below, `ovlp_low`. -/
  ovlp_low : Bitset dim
  /-- Flag per axis: overlap area above, `ovlp_up`. -/
  ovlp_up : Bitset dim

/-- Body of the loop at lines 357-385 of `makelevel` for axis `i`. -/
def overlapInfoStep (G : YaspGrid dim) (coords : CoordCont dim) (periodic : Bitset dim)
    (o_interior : iTupel dim) (overlap : Int) (i : Fin dim) (st : OverlapInfo dim) :
    OverlapInfo dim :=
  let st1 : OverlapInfo dim := { st with s_overlap := setAt st.s_overlap i (coords.size i) }
  if periodic i then
    { st1 with
      o_overlap := setAt st1.o_overlap i (o_interior i - overlap)
      ovlp_low := setAt st1.ovlp_low i true
      ovlp_up := setAt st1.ovlp_up i true }
  else
    let st2 : OverlapInfo dim :=
      if o_interior i - overlap < 0 then
        { st1 with o_overlap := setAt st1.o_overlap i 0 }
      else
        { st1 with
          o_overlap := setAt st1.o_overlap i (o_interior i - overlap)
          ovlp_low := setAt st1.ovlp_low i true }
    if st2.o_overlap i + coords.size i < G.globalSize i then
      { st2 with ovlp_up := setAt st2.ovlp_up i true }
    else st2

/-- First loop of `makelevel` (lines 349-385): both flag sets start as
`bitset(0)`; every entry of `o_overlap` and `s_overlap` is assigned by the
loop, their initial value is immaterial. -/
def overlapInfo (G : YaspGrid dim) (coords : CoordCont dim) (periodic : Bitset dim)
    (o_interior : iTupel dim) (overlap : Int) : OverlapInfo dim :=
  forAxes dim (overlapInfoStep G coords periodic o_interior overlap)
    { o_overlap := fun _ => 0, s_overlap := fun _ => 0
      ovlp_low := fun _ => false, ovlp_up := fun _ => false }

/-- Working arrays `origin` and `size` of the loop body over the shifts. -/
structure OriginSize (dim : Nat) where
  /-- Local array `origin`. -/
  origin : iTupel dim
  /-- Local array `size`. -/
  size : iTupel dim

/-- Lines 418-419, build overlapfront, axis `i`: extend the element size by
one in all directions without shift. -/
def buildOverlapfrontStep (r : Bitset dim) (i : Fin dim) (st : OriginSize dim) :
    OriginSize dim :=
  if !r i then { st with size := setAt st.size i (st.size i + 1) } else st

/-- Lines 415-419, build overlapfront. -/
def buildOverlapfront (r : Bitset dim) (os : OriginSize dim) : OriginSize dim :=
  forAxes dim (buildOverlapfrontStep r) os

/-- Lines 425-434, build overlap, axis `i`. -/
def buildOverlapStep (info : OverlapInfo dim) (r : Bitset dim) (i : Fin dim)
    (st : OriginSize dim) : OriginSize dim :=
  if !r i then
    let st1 : OriginSize dim :=
      if info.ovlp_low i then
        { origin := setAt st.origin i (st.origin i + 1)
          size := setAt st.size i (st.size i - 1) }
      else st
    if info.ovlp_up i then
      { st1 with size := setAt st1.size i (st1.size i - 1) }
    else st1
  else st

/-- Lines 422-435, build overlap. -/
def buildOverlap (info : OverlapInfo dim) (r : Bitset dim) (os : OriginSize dim) :
    OriginSize dim :=
  forAxes dim (buildOverlapStep info r) os

/-- Lines 441-456, build interiorborder, axis `i`. -/
def buildInteriorborderStep (info : OverlapInfo dim) (overlap : Int) (r : Bitset dim)
    (i : Fin dim) (st : OriginSize dim) : OriginSize dim :=
  let st1 : OriginSize dim :=
    if info.ovlp_low i then
      let a : OriginSize dim :=
        { origin := setAt st.origin i (st.origin i + overlap)
          size := setAt st.size i (st.size i - overlap) }
      if !r i then
        { origin := setAt a.origin i (a.origin i - 1)
          size := setAt a.size i (a.size i + 1) }
      else a
    else st
  if info.ovlp_up i then
    let b : OriginSize dim := { st1 with size := setAt st1.size i (st1.size i - overlap) }
    if !r i then
      { b with size := setAt b.size i (b.size i + 1) }
    else b
  else st1

/-- Lines 438-457, build interiorborder. -/
def buildInteriorborder (info : OverlapInfo dim) (overlap : Int) (r : Bitset dim)
    (os : OriginSize dim) : OriginSize dim :=
  forAxes dim (buildInteriorborderStep info overlap r) os

/-- Lines 463-472, build interior, axis `i`. -/
def buildInteriorStep (info : OverlapInfo dim) (r : Bitset dim) (i : Fin dim)
    (st : OriginSize dim) : OriginSize dim :=
  if !r i then
    let st1 : OriginSize dim :=
      if info.ovlp_low i then
        { origin := setAt st.origin i (st.origin i + 1)
          size := setAt st.size i (st.size i - 1) }
      else st
    if info.ovlp_up i then
      { st1 with size := setAt st1.size i (st1.size i - 1) }
    else st1
  else st

/-- Lines 460-473, build interior. -/
def buildInterior (info : OverlapInfo dim) (r : Bitset dim) (os : OriginSize dim) :
    OriginSize dim :=
  forAxes dim (buildInteriorStep info r) os

/-- Component constructed from the working arrays: both constructor calls of
`makelevel` take the current `origin` and `size`. -/
def OriginSize.toComponent (os : OriginSize dim) : YGridComponent dim :=
  { origin := os.origin, size := os.size }

/-- The four index ranges that one pass of the loop body (lines 411-474) builds
for a shift pattern. -/
structure ShiftComponents (dim : Nat) where
  /-- Value stored through `overlapfront_it`. -/
  overlapfront : YGridComponent dim
  /-- Value stored through `overlap_it`. -/
  overlap : YGridComponent dim
  /-- Value stored through `interiorborder_it`. -/
  interiorborder : YGridComponent dim
  /-- Value stored through `interior_it`. -/
  interior : YGridComponent dim

/-- Lines 411-474 of `makelevel` for the shift pattern `r`: the arrays `origin`
and `size` start as `o_overlap` and `s_overlap` and are modified in place from
one range to the next. -/
def shiftComponents (info : OverlapInfo dim) (overlap : Int) (r : Bitset dim) :
    ShiftComponents dim :=
  let os0 : OriginSize dim := { origin := info.o_overlap, size := info.s_overlap }
  let os1 := buildOverlapfront r os0
  let os2 := buildOverlap info r os1
  let os3 := buildInteriorborder info overlap r os2
  let os4 := buildInterior info r os3
  { overlapfront := os1.toComponent
    overlap := os2.toComponent
    interiorborder := os3.toComponent
    interior := os4.toComponent }

/-- The four index ranges that `makelevel`, called with the given arguments on
the grid `G`, builds for the shift pattern `r`: the flags of its first loop fed
into the loop body over the shifts. -/
def makelevelComponents (G : YaspGrid dim) (coords : CoordCont dim) (periodic : Bitset dim)
    (o_interior : iTupel dim) (overlap : Int) (r : Bitset dim) : ShiftComponents dim :=
  shiftComponents (overlapInfo G coords periodic o_interior overlap) overlap r

/-! ## intersections: the send buffers -/

/-- Local variables `v` (grid movement) and `skip` of the loop over the
neighbours in `intersections`. -/
structure MoveState (dim : Nat) where
  /-- Grid movement `v`. -/
  v : iTupel dim
  /-- Flag `skip`. -/
  skip : Bool

/-- Lines 568-569: `nb = coord; nb[k] += delta[k]`. -/
def neighborCoord (G : YaspGrid dim) (delta : iTupel dim) : iTupel dim :=
  forAxes dim (fun k nb => setAt nb k (nb k + delta k)) G._torus.coord

/-- Lines 575-588, axis `k`: two independent tests of the neighbour coordinate
against the lower and the upper end of the process grid. -/
def moveStep (G : YaspGrid dim) (size nb : iTupel dim) (k : Fin dim) (st : MoveState dim) :
    MoveState dim :=
  let st1 : MoveState dim :=
    if nb k < 0 then
      if G._periodic k then { st with v := setAt st.v k (st.v k + size k) }
      else { st with skip := true }
    else st
  if nb k ≥ (G._torus.dims k : Int) then
    if G._periodic k then { st1 with v := setAt st1.v k (st1.v k - size k) }
    else { st1 with skip := true }
  else st1

/-- Lines 565-590: movement and skip flag for the neighbour reached by `delta`;
`size` is `globalSize()`, `v` starts as zero and `skip` as false. -/
def neighborMove (G : YaspGrid dim) (delta : iTupel dim) : MoveState dim :=
  forAxes dim (moveStep G (fun i => G.globalSize i) (neighborCoord G delta))
    { v := fun _ => 0, skip := false }

/-- Lines 592-602: the pair `send_sendgrid[i.index()]`, `send_recvgrid[i.index()]`
stored for the neighbour reached by `delta`. -/
def sendBuffers (G : YaspGrid dim) (sendgrid recvgrid : YGridComponent dim)
    (delta : iTupel dim) : YGridComponent dim × YGridComponent dim :=
  let m := neighborMove G delta
  if !m.skip then (sendgrid.move m.v, recvgrid.move m.v)
  else (YGridComponent.default dim, YGridComponent.default dim)

/-- Lines 606-624: the two records handed to `_torus.send` for the neighbour
reached by `delta`, first the send grid, then the recv grid. -/
def sentGrids (G : YaspGrid dim) (sendgrid recvgrid : YGridComponent dim)
    (delta : iTupel dim) : mpifriendly_ygrid dim × mpifriendly_ygrid dim :=
  let b := sendBuffers G sendgrid recvgrid delta
  (mpifriendly_ygrid.ofGrid b.1, mpifriendly_ygrid.ofGrid b.2)

/-! ## intersections: the receive buffers and the two lists -/

/-- Lines 606-624: what `intersections` hands to `_torus.send`, neighbour by
neighbour in the order of the send enumeration: the rank and the two records
(send grid, recv grid). -/
def intersectionsSent (G : YaspGrid dim) (sendgrid recvgrid : YGridComponent dim) :
    List (Int × mpifriendly_ygrid dim × mpifriendly_ygrid dim) :=
  G._torus.sendlist.map (fun i => (i.rank, sentGrids G sendgrid recvgrid i.delta))

/-- Lines 636-651: one pass of the loop over the receive enumeration.  The
arguments `mpifriendly_recv_sendgrid` and `mpifriendly_recv_recvgrid` are the
receive buffers after the two exchanges, addressed by `i.index()`. -/
def intersectionsStep (sendgrid recvgrid : YGridComponent dim)
    (mpifriendly_recv_sendgrid mpifriendly_recv_recvgrid : Nat → mpifriendly_ygrid dim)
    (lists : List (Intersection dim) × List (Intersection dim)) (i : ProcListEntry dim) :
    List (Intersection dim) × List (Intersection dim) :=
  let recv_recvgrid := (mpifriendly_recv_recvgrid i.index).toGrid
  let send_intersection : Intersection dim :=
    { grid := sendgrid.intersection recv_recvgrid, rank := i.rank, distance := i.distance }
  let sendlist :=
    if !send_intersection.grid.empty then send_intersection :: lists.1 else lists.1
  let recv_sendgrid := (mpifriendly_recv_sendgrid i.index).toGrid
  let recv_intersection : Intersection dim :=
    { grid := recvgrid.intersection recv_sendgrid, rank := i.rank, distance := i.distance }
  let recvlist :=
    if !recv_intersection.grid.empty then lists.2 ++ [recv_intersection] else lists.2
  (sendlist, recvlist)

/-- Lines 633-652 of `intersections`: the deques `sendlist` (filled by
`push_front`) and `recvlist` (filled by `push_back`) after the loop over the
receive enumeration, given the receive buffers after the exchanges. -/
def intersections (G : YaspGrid dim) (sendgrid recvgrid : YGridComponent dim)
    (mpifriendly_recv_sendgrid mpifriendly_recv_recvgrid : Nat → mpifriendly_ygrid dim)
    (sendlist recvlist : List (Intersection dim)) :
    List (Intersection dim) × List (Intersection dim) :=
  G._torus.recvlist.foldl
    (intersectionsStep sendgrid recvgrid mpifriendly_recv_sendgrid mpifriendly_recv_recvgrid)
    (sendlist, recvlist)

/-- The send intersection computed for the neighbour `i` (lines 637-642). -/
def sendIntersection (sendgrid : YGridComponent dim)
    (mpifriendly_recv_recvgrid : Nat → mpifriendly_ygrid dim) (i : ProcListEntry dim) :
    Intersection dim :=
  { grid := sendgrid.intersection (mpifriendly_recv_recvgrid i.index).toGrid
    rank := i.rank, distance := i.distance }

/-- The receive intersection computed for the neighbour `i` (lines 645-650). -/
def recvIntersection (recvgrid : YGridComponent dim)
    (mpifriendly_recv_sendgrid : Nat → mpifriendly_ygrid dim) (i : ProcListEntry dim) :
    Intersection dim :=
  { grid := recvgrid.intersection (mpifriendly_recv_sendgrid i.index).toGrid
    rank := i.rank, distance := i.distance }

/-- One of the four calls of `intersections` in the loop body of `makelevel`
(lines 476-479), for the shift pattern with the given index: the call fills a
fresh pair of deques (send list, receive list) from the records the exchanges
deliver for it. -/
def shiftLists (G : YaspGrid dim) (index : Nat) (call : Nat)
    (sendgrid recvgrid : YGridComponent dim) :
    List (Intersection dim) × List (Intersection dim) :=
  intersections G sendgrid recvgrid
    (fun n => (G._torus.received G.maxLevel call index n).1)
    (fun n => (G._torus.received G.maxLevel call index n).2) [] []

/-- Body of the loop over `index` (lines 404-494) for one codimension: shifts
of another codimension are skipped, otherwise the four ranges are stored at the
insertion positions, the four pairs of lists are filled by `intersections`, and
the iterators advance. -/
def makelevelIndex (G : YaspGrid dim) (info : OverlapInfo dim) (overlap : Int) (codim : Nat)
    (g : YGridLevel dim) (index : Nat) : YGridLevel dim :=
  let r : Bitset dim := bitsetOfIndex dim index
  if r.count ≠ dim - codim then g
  else
    let c := shiftComponents info overlap r
    let l0 := shiftLists G index 0 c.overlapfront c.overlapfront
    let l1 := shiftLists G index 1 c.overlap c.overlapfront
    let l2 := shiftLists G index 2 c.interiorborder c.interiorborder
    let l3 := shiftLists G index 3 c.interiorborder c.overlapfront
    { g with
      overlapfront_data := g.overlapfront_data ++ [c.overlapfront]
      overlap_data := g.overlap_data ++ [c.overlap]
      interiorborder_data := g.interiorborder_data ++ [c.interiorborder]
      interior_data := g.interior_data ++ [c.interior]
      send_overlapfront_overlapfront_data := g.send_overlapfront_overlapfront_data ++ [l0.1]
      recv_overlapfront_overlapfront_data := g.recv_overlapfront_overlapfront_data ++ [l0.2]
      send_overlap_overlapfront_data := g.send_overlap_overlapfront_data ++ [l1.1]
      recv_overlapfront_overlap_data := g.recv_overlapfront_overlap_data ++ [l1.2]
      send_interiorborder_interiorborder_data := g.send_interiorborder_interiorborder_data ++ [l2.1]
      recv_interiorborder_interiorborder_data := g.recv_interiorborder_interiorborder_data ++ [l2.2]
      send_interiorborder_overlapfront_data := g.send_interiorborder_overlapfront_data ++ [l3.1]
      recv_overlapfront_interiorborder_data := g.recv_overlapfront_interiorborder_data ++ [l3.2] }

/-- Body of the loop over `codim` (lines 387-509): `setBegin` at the current
insertion positions, the loop over all `1<<dim` indices, then `finalize`. -/
def makelevelCodim (G : YaspGrid dim) (info : OverlapInfo dim) (overlap : Int)
    (g : YGridLevel dim) (codim : Nat) : YGridLevel dim :=
  let g1 := (List.range (2 ^ dim)).foldl (makelevelIndex G info overlap codim) g
  { g1 with
    overlapfront := g1.overlapfront ++
      [{ dataBegin := g.overlapfront_data.length, dataEnd := g1.overlapfront_data.length }]
    overlap := g1.overlap ++
      [{ dataBegin := g.overlap_data.length, dataEnd := g1.overlap_data.length }]
    interiorborder := g1.interiorborder ++
      [{ dataBegin := g.interiorborder_data.length
         dataEnd := g1.interiorborder_data.length }]
    interior := g1.interior ++
      [{ dataBegin := g.interior_data.length, dataEnd := g1.interior_data.length }]
    send_overlapfront_overlapfront := g1.send_overlapfront_overlapfront ++
      [{ dataBegin := g.send_overlapfront_overlapfront_data.length, dataEnd := g1.send_overlapfront_overlapfront_data.length }]
    recv_overlapfront_overlapfront := g1.recv_overlapfront_overlapfront ++
      [{ dataBegin := g.recv_overlapfront_overlapfront_data.length, dataEnd := g1.recv_overlapfront_overlapfront_data.length }]
    send_overlap_overlapfront := g1.send_overlap_overlapfront ++
      [{ dataBegin := g.send_overlap_overlapfront_data.length, dataEnd := g1.send_overlap_overlapfront_data.length }]
    recv_overlapfront_overlap := g1.recv_overlapfront_overlap ++
      [{ dataBegin := g.recv_overlapfront_overlap_data.length, dataEnd := g1.recv_overlapfront_overlap_data.length }]
    send_interiorborder_interiorborder := g1.send_interiorborder_interiorborder ++
      [{ dataBegin := g.send_interiorborder_interiorborder_data.length, dataEnd := g1.send_interiorborder_interiorborder_data.length }]
    recv_interiorborder_interiorborder := g1.recv_interiorborder_interiorborder ++
      [{ dataBegin := g.recv_interiorborder_interiorborder_data.length, dataEnd := g1.recv_interiorborder_interiorborder_data.length }]
    send_interiorborder_overlapfront := g1.send_interiorborder_overlapfront ++
      [{ dataBegin := g.send_interiorborder_overlapfront_data.length, dataEnd := g1.send_interiorborder_overlapfront_data.length }]
    recv_overlapfront_interiorborder := g1.recv_overlapfront_interiorborder ++
      [{ dataBegin := g.recv_overlapfront_interiorborder_data.length, dataEnd := g1.recv_overlapfront_interiorborder_data.length }] }

/-- The level that `makelevel` builds in `_levels.back()`, a level that holds
no ranges and no lists before.  The arrays are written from their first
position on; the lists hold the written entries. -/
def buildLevel (G : YaspGrid dim) (coords : CoordCont dim) (periodic : Bitset dim)
    (o_interior : iTupel dim) (overlap : Int) : YGridLevel dim :=
  let g0 : YGridLevel dim :=
    { YGridLevel.empty dim with overlapSize := overlap, level_ := G.maxLevel, coords := coords }
  let info := overlapInfo G coords periodic o_interior overlap
  (List.range (dim + 1)).foldl (makelevelCodim G info overlap) g0

/-- Make a new `YGridLevel` structure in the last entry of `_levels` (which the
callers create by a `resize` right before the call). -/
def makelevel (G : YaspGrid dim) (coords : CoordCont dim) (periodic : Bitset dim)
    (o_interior : iTupel dim) (overlap : Int) : YaspGrid dim :=
  { G with _levels := G._levels.dropLast ++ [buildLevel G coords periodic o_interior overlap] }

/-- Indices of the shift patterns of codimension `codim` in the order in which
the loop over `index` accepts them. -/
def shiftsOfCodim (dim codim : Nat) : List Nat :=
  (List.range (2 ^ dim)).filter (fun index => (bitsetOfIndex dim index).count = dim - codim)

/-- Indices of all shift patterns in the order in which `makelevel` stores
their components: by codimension, then by index. -/
def levelShifts (dim : Nat) : List Nat :=
  (List.range (dim + 1)).flatMap (shiftsOfCodim dim)

/-- Resize of the level stack, `_levels.resize(n)`. -/
def resizeLevels (n : Nat) (l : List (YGridLevel dim)) : List (YGridLevel dim) :=
  l.take n ++ List.replicate (n - l.length) (YGridLevel.empty dim)

/-- Lines 810-813 of `EquidistantSetup`, axis `i`. -/
def equidistantOverlapSizeStep (G : YaspGrid dim) (periodic : Bitset dim) (overlap : Int)
    (o_interior s_interior : iTupel dim) (i : Fin dim) (s_overlap : iTupel dim) : iTupel dim :=
  let s1 : iTupel dim :=
    if o_interior i - overlap > 0 ∨ periodic i = true then
      setAt s_overlap i (s_overlap i + overlap)
    else s_overlap
  if o_interior i + s_interior i + overlap ≤ G._coarseSize i ∨ periodic i = true then
    setAt s1 i (s1 i + overlap)
  else s1

/-- Lines 807-814 of `EquidistantSetup`: size of the coordinate container,
the interior block extended by the overlap (`s_overlap` starts as a copy of
`s_interior`). -/
def equidistantOverlapSize (G : YaspGrid dim) (periodic : Bitset dim) (overlap : Int)
    (o_interior s_interior : iTupel dim) : iTupel dim :=
  forAxes dim (equidistantOverlapSizeStep G periodic overlap o_interior s_interior) s_interior

/-- Lines 788-791 of `EquidistantSetup`: the members set before the level is
made. -/
def equidistantInit (G : YaspGrid dim) (s : iTupel dim) (periodic : Bitset dim)
    (overlap : Int) : YaspGrid dim :=
  { G with
    _periodic := periodic
    _levels := resizeLevels 1 G._levels
    _overlap := overlap
    _coarseSize := s }

/-- Initialize an equidistant grid.  The pair `o_interior`, `s_interior` is
the block of this process: what `_torus.partition` returns for it with MPI, and
origin zero with size `s` without MPI. -/
def EquidistantSetup (G : YaspGrid dim) (s : iTupel dim) (periodic : Bitset dim)
    (overlap : Int) (o_interior s_interior : iTupel dim) : YaspGrid dim :=
  let G1 := equidistantInit G s periodic overlap
  let s_overlap := equidistantOverlapSize G1 periodic overlap o_interior s_interior
  makelevel G1 (EquidistantCoordinates s_overlap) periodic o_interior overlap

/-- Codim-0 cell range of a family: the component at `dataBegin()` of the
slice of codimension 0. -/
def firstCell (slices : List YGrid) (data : List (YGridComponent dim)) :
    Option (YGridComponent dim) :=
  match slices.head? with
  | none => none
  | some y => data.get? y.dataBegin

/-! ## Concrete one-dimensional inputs -/

/-- One-dimensional tuple with the entry `c`. -/
def tuple1 (c : Int) : iTupel 1 := fun _ => c

/-- One-dimensional bitset with the entry `b`. -/
def bits1 (b : Bool) : Bitset 1 := fun _ => b

/-- One-dimensional grid object before setup, on a process grid of `np`
processes at coordinate `c`. -/
def grid1 (np : Nat) (c : Int) : YaspGrid 1 :=
  { _torus := { coord := tuple1 c, dims := fun _ => np }
    _levels := []
    _periodic := bits1 false
    _coarseSize := tuple1 0
    _overlap := 0 }

/-- The one-dimensional grid object at the time `EquidistantSetup` calls
`makelevel`: one level allocated, `s` coarse cells. -/
def grid1Ready (np : Nat) (c s : Int) (periodic : Bool) (overlap : Int) : YaspGrid 1 :=
  equidistantInit (grid1 np c) (tuple1 s) (bits1 periodic) overlap

/-- Level 0 of the one-dimensional equidistant grid with `s` cells, for the
process that owns the block of `s_interior` cells starting at `o_interior`. -/
def level1 (np : Nat) (c s : Int) (periodic : Bool) (overlap o_interior s_interior : Int) :
    YGridLevel 1 :=
  ((EquidistantSetup (grid1 np c) (tuple1 s) (bits1 periodic) overlap (tuple1 o_interior)
    (tuple1 s_interior))._levels.getLast?).getD (YGridLevel.empty 1)

/-- Origin and size on axis 0 of a list of one-dimensional components. -/
def boxes1 (l : List (YGridComponent 1)) : List (Int × Int) :=
  l.map (fun c => (c.origin 0, c.size 0))

/-- One-dimensional index range `[o, o+s)`. -/
def box1 (o s : Int) : YGridComponent 1 :=
  { origin := tuple1 o, size := tuple1 s }

/-- One-dimensional exchange record of the range `[o, o+s)`. -/
def record1 (o s : Int) : mpifriendly_ygrid 1 :=
  { origin := tuple1 o, size := tuple1 s }

/-- One-dimensional neighbour with offset `delta`, of distance 1. -/
def entry1 (delta rank : Int) (index : Nat) : ProcListEntry 1 :=
  { delta := tuple1 delta, rank := rank, distance := 1, index := index }

/-- One-dimensional grid object before setup whose process topology enumerates
the neighbours `nbs`, for sending in this order and for receiving in the same
order. -/
def grid1N (np : Nat) (c : Int) (nbs : List (ProcListEntry 1)) : YaspGrid 1 :=
  { _torus := { coord := tuple1 c, dims := fun _ => np, sendlist := nbs, recvlist := nbs }
    _levels := []
    _periodic := bits1 false
    _coarseSize := tuple1 0
    _overlap := 0 }

/-- Whether every deque of every send and receive list of a level is empty. -/
def allListsEmpty (g : YGridLevel dim) : Bool :=
  g.send_overlapfront_overlapfront_data.all List.isEmpty &&
  g.recv_overlapfront_overlapfront_data.all List.isEmpty &&
  g.send_overlap_overlapfront_data.all List.isEmpty &&
  g.recv_overlapfront_overlap_data.all List.isEmpty &&
  g.send_interiorborder_interiorborder_data.all List.isEmpty &&
  g.recv_interiorborder_interiorborder_data.all List.isEmpty &&
  g.send_interiorborder_overlapfront_data.all List.isEmpty &&
  g.recv_overlapfront_interiorborder_data.all List.isEmpty


/-- Grids handed to the call with the number `call` (0 to 3) of `intersections`
in the loop body of `makelevel` (lines 476-479): send grid and recv grid. -/
def callGrids (c : ShiftComponents dim) (call : Nat) : YGridComponent dim × YGridComponent dim :=
  match call with
  | 0 => (c.overlapfront, c.overlapfront)
  | 1 => (c.overlap, c.overlapfront)
  | 2 => (c.interiorborder, c.interiorborder)
  | _ => (c.interiorborder, c.overlapfront)

/-- Modelled from the spec: the reciprocal exchange.  The neighbour with the
buffer index `n`, reached by the offset `delta n`, is the process with the grid
object `Q n`, which makes its own level from the container `coordsQ n` and the
block origin `o_interiorQ n`; the exchanges of a call deliver the two records
that this process sends, in the call of the same number for the same shift
pattern, to its own neighbour with the offset `-delta n`. -/
def receivedFromPeers (Q : Nat → YaspGrid dim) (coordsQ : Nat → CoordCont dim)
    (periodic : Bitset dim) (o_interiorQ : Nat → iTupel dim) (overlap : Int)
    (delta : Nat → iTupel dim) :
    Int → Nat → Nat → Nat → mpifriendly_ygrid dim × mpifriendly_ygrid dim :=
  fun _ call index n =>
    sentGrids (Q n)
      (callGrids (makelevelComponents (Q n) (coordsQ n) periodic (o_interiorQ n) overlap
        (bitsetOfIndex dim index)) call).1
      (callGrids (makelevelComponents (Q n) (coordsQ n) periodic (o_interiorQ n) overlap
        (bitsetOfIndex dim index)) call).2
      (fun k => - delta n k)

/-- The grid object with the table of delivered records replaced. -/
def withReceived (G : YaspGrid dim)
    (r : Int → Nat → Nat → Nat → mpifriendly_ygrid dim × mpifriendly_ygrid dim) : YaspGrid dim :=
  { G with _torus := { G._torus with received := r } }

/-- All Intersections of the list of one codimension: the deques in the slice
of that codimension, one after the other. -/
def codimLists (slices : List YGrid) (data : List (List (Intersection dim))) (codim : Nat) :
    List (Intersection dim) :=
  match slices.get? codim with
  | none => []
  | some y => ((data.drop y.dataBegin).take (y.dataEnd - y.dataBegin)).flatten

/-- The single process of a one-dimensional non-periodic grid with `s` cells at
the time `makelevel` is called: both neighbour entries (offsets -1 and +1) lead
to the process itself. -/
def single1 (s overlap : Int) : YaspGrid 1 :=
  withReceived
    (equidistantInit (grid1N 1 0 [entry1 (-1) 0 0, entry1 1 0 1]) (tuple1 s) (bits1 false)
      overlap)
    (receivedFromPeers
      (fun _ => equidistantInit (grid1N 1 0 [entry1 (-1) 0 0, entry1 1 0 1]) (tuple1 s)
        (bits1 false) overlap)
      (fun _ => EquidistantCoordinates (tuple1 s)) (bits1 false) (fun _ => tuple1 0) overlap
      (fun n => tuple1 (if n = 0 then -1 else 1)))

/-- Process `c` (0 or 1) of the two processes of the one-dimensional
non-periodic grid with 8 cells and overlap 1, before setup: its block of 4
cells starts at `4 c`, and both neighbour entries (offsets -1 and +1) lead to
the other process, of rank `1 - c`. -/
def twoProc (c : Int) : YaspGrid 1 :=
  withReceived (grid1N 2 c [entry1 (-1) (1 - c) 0, entry1 1 (1 - c) 1])
    (receivedFromPeers (fun _ => grid1Ready 2 (1 - c) 8 false 1)
      (fun _ => EquidistantCoordinates
        (equidistantOverlapSize (grid1Ready 2 (1 - c) 8 false 1) (bits1 false) 1
          (tuple1 (4 * (1 - c))) (tuple1 4)))
      (bits1 false) (fun _ => tuple1 (4 * (1 - c))) 1
      (fun n => tuple1 (if n = 0 then -1 else 1)))

/-- Level 0 that `EquidistantSetup` makes for process `c` of the two. -/
def twoProcLevel (c : Int) : YGridLevel 1 :=
  ((EquidistantSetup (twoProc c) (tuple1 8) (bits1 false) 1 (tuple1 (4 * c))
    (tuple1 4))._levels.getLast?).getD (YGridLevel.empty 1)

/-- Rank, origin and number of entities of the Intersections of a
one-dimensional list. -/
def ranks1 (l : List (Intersection 1)) : List (Int × Int × Int) :=
  l.map (fun x => (x.rank, x.grid.origin 0, x.grid.totalsize))

/-! ## globalRefine -/

/-- Capacity of the level stack, `ReservedVector<YGridLevel,32>`. -/
def levelCapacity : Nat := 32

/-- The component `slices[0].dataBegin()`: the entry of the fixed-size
component array at the begin position of the slice of codimension 0 (a default
constructed component where no entry has been written). -/
def firstComponent (slices : List YGrid) (data : List (YGridComponent dim)) :
    YGridComponent dim :=
  data.getD ((slices.head?.map (fun y => y.dataBegin)).getD 0) (YGridComponent.default dim)

/-- Access to the finest level, `_levels[maxLevel()]`. -/
def finestLevel (G : YaspGrid dim) : YGridLevel dim :=
  (G._levels.getLast?).getD (YGridLevel.empty dim)

/-- One pass of the coarsening loop (lines 1086-1093): the last level is
overwritten by an empty one and removed, and so is its index set. -/
def coarsenStep (G : YaspGrid dim) : YaspGrid dim :=
  { G with _levels := G._levels.dropLast, indexsets := G.indexsets.dropLast }

/-- Lines 1101-1108: the overlap flags that a refinement step computes from
the cell range of the overlap family of the finest level. -/
def refineFlags (G : YaspGrid dim) : Bitset dim × Bitset dim :=
  forAxes dim (fun i (st : Bitset dim × Bitset dim) =>
    let cg := G.finestLevel
    let st1 : Bitset dim × Bitset dim :=
      if (firstComponent cg.overlap cg.overlap_data).origin i > 0 then
        (setAt st.1 i true, st.2)
      else st
    if (firstComponent cg.overlap cg.overlap_data).max i + 1 < G.globalSize i then
      (st1.1, setAt st1.2 i true)
    else st1) (fun _ => false, fun _ => false)

/-- Lines 1114-1117: the new origin, twice the origin of the cell range of the
interior family of the finest level. -/
def refineOrigin (G : YaspGrid dim) : iTupel dim :=
  forAxes dim (fun i o =>
    setAt o i (2 * (firstComponent G.finestLevel.interior G.finestLevel.interior_data).origin i))
    (fun _ => 0)

/-- Line 1112: the overlap of the new level. -/
def refineOverlap (G : YaspGrid dim) : Int :=
  if G.keep_ovlp then 2 * G.finestLevel.overlapSize else G.finestLevel.overlapSize

/-- One pass of the refinement loop (lines 1098-1124), for a level stack that
has room for one more level. -/
def refineStep (G : YaspGrid dim) : YaspGrid dim :=
  let cg := G.finestLevel
  let newcont := cg.coords.refine (refineFlags G).1 (refineFlags G).2 G.keep_ovlp cg.overlapSize
  let overlap := refineOverlap G
  let o_interior := refineOrigin G
  let G1 : YaspGrid dim := { G with _levels := resizeLevels (G._levels.length + 1) G._levels }
  let G2 := makelevel G1 newcont G._periodic o_interior overlap
  { G2 with indexsets := G2.indexsets ++ [G2.maxLevel] }

/-- The refinement loop `for (int k=0; k<refCount; k++)`, run `n` times; a
pass that would exceed the capacity of the level stack is not modelled and
stops the loop. -/
def refineLoop : Nat → YaspGrid dim → YaspGrid dim
  | 0, G => G
  | n + 1, G => if G._levels.length + 1 ≤ levelCapacity then refineLoop n (refineStep G) else G

/-- The coarsening loop `for (int k=refCount; k<0; k++)`, run `n` times. -/
def coarsenLoop : Nat → YaspGrid dim → YaspGrid dim
  | 0, G => G
  | n + 1, G => coarsenLoop n (coarsenStep G)

/-- Refine the grid `refCount` times: the exception thrown, if any, and the
grid after the call. -/
def globalRefine (G : YaspGrid dim) (refCount : Int) : Option DuneException × YaspGrid dim :=
  if refCount < - G.maxLevel then (some DuneException.GridError, G)
  else (none, refineLoop refCount.toNat (coarsenLoop (- refCount).toNat G))

/-- Set options for refinement. -/
def refineOptions (G : YaspGrid dim) (keepPhysicalOverlap : Bool) : YaspGrid dim :=
  { G with keep_ovlp := keepPhysicalOverlap }

/-- Iterator pointing to the given level, `begin(i)`: the level, or the
`GridError` thrown for a level that does not exist. -/
def begin (G : YaspGrid dim) (i : Int) : Except DuneException (YGridLevel dim) :=
  if i < 0 ∨ i > G.maxLevel then Except.error DuneException.GridError
  else Except.ok ((G._levels.get? i.toNat).getD (YGridLevel.empty dim))

/-- Size of the overlap region, `overlapSize(level, codim)`. -/
def overlapSize (G : YaspGrid dim) (level : Int) (_codim : Nat) : Except DuneException Int :=
  match G.begin level with
  | Except.error e => Except.error e
  | Except.ok g => Except.ok g.overlapSize



/-- Access to the coarsest level, `begin()`. -/
def coarsestLevel (G : YaspGrid dim) : YGridLevel dim :=
  (G._levels.get? 0).getD (YGridLevel.empty dim)

/-- Lines 671-680 of `boundarysegmentssize`: per axis, the number of sides of
the cell range of the overlap family of level 0 that lie on the border of the
domain. -/
def boundarySides (G : YaspGrid dim) : iTupel dim :=
  forAxes dim (fun i sides =>
    setAt sides i
      ((if (firstComponent G.coarsestLevel.overlap G.coarsestLevel.overlap_data).origin i = 0
          then 1 else 0)
        + (if (firstComponent G.coarsestLevel.overlap G.coarsestLevel.overlap_data).origin i
              + (firstComponent G.coarsestLevel.overlap G.coarsestLevel.overlap_data).size i
            = G.levelSize 0 i then 1 else 0)))
    (fun _ => 0)

/-- Lines 684-689 of `boundarysegmentssize`: the product of the sizes of the
cell range of the overlap family of level 0 over the axes other than `k`. -/
def boundaryOffset (G : YaspGrid dim) (k : Fin dim) : Int :=
  forAxes dim (fun l offset =>
    if l = k then offset
    else offset * (firstComponent G.coarsestLevel.overlap G.coarsestLevel.overlap_data).size l) 1

/-- The value that `boundarysegmentssize` stores in `nBSegments`. -/
def boundarysegmentssize (G : YaspGrid dim) : Int :=
  forAxes dim (fun k nBSegments => nBSegments + boundarySides G k * boundaryOffset G k) 0

/-- The parts of `init()` that set members of the grid: the index set of level
0 is appended and `boundarysegmentssize` sets `nBSegments`. -/
def init (G : YaspGrid dim) : YaspGrid dim :=
  { G with indexsets := G.indexsets ++ [0], nBSegments := boundarysegmentssize G }

/-- The number of boundary segments within the macro grid,
`numBoundarySegments()`. -/
def numBoundarySegments (G : YaspGrid dim) : Int :=
  G.nBSegments

/-- Constructor of an equidistant grid (lines 834-851): the member
initialisers `keep_ovlp(true), adaptRefCount(0), adaptActive(false)`, then
`EquidistantSetup` and `init`.  The block `o_interior`, `s_interior` is what
the partition of the process topology assigns to this process. -/
def construct (torus : Torus dim) (s : iTupel dim) (periodic : Bitset dim) (overlap : Int)
    (o_interior s_interior : iTupel dim) : YaspGrid dim :=
  init (EquidistantSetup
    { _torus := torus, _levels := [], _periodic := fun _ => false, _coarseSize := fun _ => 0
      _overlap := 0, keep_ovlp := true, adaptRefCount := 0, adaptActive := false
      indexsets := [] }
    s periodic overlap o_interior s_interior)

/-- Whether level `i` of the stack reports `level() = i`, for all levels. -/
def levelsNumbered (G : YaspGrid dim) : Prop :=
  G._levels.map (fun g => g.level_) = (List.range G._levels.length).map (fun i => (i : Int))



/-- One-dimensional grid of a single process with 4 cells and overlap 1, as
constructed. -/
def serial1 : YaspGrid 1 :=
  construct { coord := tuple1 0, dims := fun _ => 1 } (tuple1 4) (bits1 false) 1 (tuple1 0)
    (tuple1 4)

/-- The grid `serial1` refined twice: three levels. -/
def serial1Refined : YaspGrid 1 :=
  (globalRefine serial1 2).2

/-- The grid `serial1` at the time `EquidistantSetup` calls `makelevel` for its
level 0: the members are set and the level stack holds one empty level. -/
def serial1Base : YaspGrid 1 :=
  equidistantInit
    { _torus := { coord := tuple1 0, dims := fun _ => 1 }, _levels := []
      _periodic := fun _ => false, _coarseSize := fun _ => 0
      _overlap := 0, keep_ovlp := true, adaptRefCount := 0, adaptActive := false
      indexsets := [] }
    (tuple1 4) (bits1 false) 1

/-- The coordinate container that `EquidistantSetup` hands to `makelevel` for
level 0 of `serial1`. -/
def serial1Coords : CoordCont 1 :=
  EquidistantCoordinates (equidistantOverlapSize serial1Base (bits1 false) 1 (tuple1 0) (tuple1 4))

/-! ## mark, getMark, adapt, preAdapt, postAdapt -/

/-- Entity of codimension 0 as far as `mark` and `getMark` look at it: its
level, `e.level()`. -/
structure Entity where
  /-- Level of the entity, `e.level()`. -/
  level : Int
  deriving DecidableEq, Repr

/-- Modelled from the spec: `globalMax(value)`, the collective reduction of the
process topology that `comm().max(value)` stands for: the maximum of the values
that all processes pass in; `others` holds the values of the other
processes. -/
def commMax (others : List Int) (value : Int) : Int :=
  others.foldl max value

/-- Marks an entity to be refined or coarsened in a subsequent adapt: the
return value and the grid after the call, or nothing if the assertion
`adaptActive == false` fails. -/
def mark (G : YaspGrid dim) (refCount : Int) (e : Entity) : Option (Bool × YaspGrid dim) :=
  if G.adaptActive then none
  else if e.level ≠ G.maxLevel then some (false, G)
  else some (true, { G with adaptRefCount := max G.adaptRefCount refCount })

/-- Adaptation mark of the given entity, `getMark(e)`. -/
def getMark (G : YaspGrid dim) (e : Entity) : Int :=
  if e.level = G.maxLevel then G.adaptRefCount else 0

/-- Map adapt to global refine, `adapt()`: the return value, the exception that
`globalRefine` throws, if any, and the grid after the call. -/
def adapt (G : YaspGrid dim) : Bool × Option DuneException × YaspGrid dim :=
  (decide (G.adaptRefCount > 0), globalRefine G G.adaptRefCount)

/-- Text of `preAdapt()`: returns true if the grid will be coarsened; `others`
holds the refine counters that the other processes pass to the collective
maximum. -/
def preAdapt (G : YaspGrid dim) (others : List Int) : Bool × YaspGrid dim :=
  let G1 : YaspGrid dim := { G with adaptActive := true }
  let G2 : YaspGrid dim := { G1 with adaptRefCount := commMax others G1.adaptRefCount }
  (decide (G2.adaptRefCount < 0), G2)

/-- Clean up some markers, `postAdapt()`. -/
def postAdapt (G : YaspGrid dim) : YaspGrid dim :=
  { G with adaptActive := false, adaptRefCount := 0 }

/-! ## communicate -/

/-- The interface types that `communicateCodim` tells apart (enumeration
`InterfaceType`). -/
inductive InterfaceType where
  /-- Send and receive interior and border entities. -/
  | InteriorBorder_InteriorBorder_Interface
  /-- Send interior and border, receive all entities. -/
  | InteriorBorder_All_Interface
  /-- Send overlap, receive overlap and front entities. -/
  | Overlap_OverlapFront_Interface
  /-- Send overlap, receive all entities. -/
  | Overlap_All_Interface
  /-- Send all and receive all entities. -/
  | All_All_Interface
  deriving DecidableEq, Repr

/-- The two directions of a communication (enumeration
`CommunicationDirection`). -/
inductive CommunicationDirection where
  /-- Communicate as given in the interface type. -/
  | ForwardCommunication
  /-- Reverse the communication direction. -/
  | BackwardCommunication
  deriving DecidableEq, Repr

/-- The queries of the data handle that `communicateCodim` evaluates, for
entities of type `E`; `gather` and `scatter` act on the user data and appear as
calls only. -/
structure DataHandle (E : Type) where
  /-- Query `data.contains(dim, codim)`. -/
  contains : Nat → Nat → Bool
  /-- Query `data.fixedsize(dim, codim)`. -/
  fixedsize : Nat → Nat → Bool
  /-- Query `data.size(e)`. -/
  size : E → Nat

/-- What the level iterators built from `YGrid::Iterator(is->yg)` and
`YGrid::Iterator(is->yg,true)` denote for an Intersection `is` of a list. -/
structure EntityRange (dim : Nat) (E : Type) where
  /-- The entity `*it` of the freshly built iterator `it`. -/
  first : Intersection dim → E
  /-- The entities that the loop `for ( ; it!=itend; ++it)` visits, in its
  order. -/
  entities : Intersection dim → List E

/-- Calls that `communicateCodim` issues to the data handle and to the
torus. -/
inductive CommEvent (E : Type) where
  /-- Call `data.size(e)`. -/
  | size (e : E)
  /-- Call `data.gather(mb, e)`. -/
  | gather (e : E)
  /-- Call `data.scatter(mb, e, n)`. -/
  | scatter (e : E) (n : Nat)
  /-- Call `torus().send(rank, buf, count*sizeof(T))`. -/
  | send (rank : Int) (count : Int)
  /-- Call `torus().recv(rank, buf, count*sizeof(T))`. -/
  | recv (rank : Int) (count : Int)
  /-- Call `torus().exchange()`. -/
  | exchange
  deriving DecidableEq, Repr

/-- Whether the call is `torus().exchange()`. -/
def CommEvent.isExchange {E : Type} : CommEvent E → Bool
  | CommEvent.exchange => true
  | _ => false

/-- Whether the call is `torus().send` or `torus().recv`. -/
def CommEvent.isTransfer {E : Type} : CommEvent E → Bool
  | CommEvent.send _ _ => true
  | CommEvent.recv _ _ => true
  | _ => false

/-- Whether the call is one to the data handle. -/
def CommEvent.isDataCall {E : Type} : CommEvent E → Bool
  | CommEvent.size _ => true
  | CommEvent.gather _ => true
  | CommEvent.scatter _ _ => true
  | _ => false

/-- The entity of a `gather` call. -/
def CommEvent.gathered {E : Type} : CommEvent E → Option E
  | CommEvent.gather e => some e
  | _ => none

/-- The entity and the count of a `scatter` call. -/
def CommEvent.scattered {E : Type} : CommEvent E → Option (E × Nat)
  | CommEvent.scatter e n => some (e, n)
  | _ => none

/-- Local vectors `send_size`, `recv_size` of `communicateCodim` at its end and
the calls it issued, in order. -/
structure CommResult (E : Type) where
  /-- Vector `send_size`. -/
  send_size : List Int
  /-- Vector `recv_size`. -/
  recv_size : List Int
  /-- Calls to the data handle and to the torus, in the order issued. -/
  calls : List (CommEvent E)

/-- Lines 1355-1383: the pointers `sendlist` and `recvlist`, null (`none`)
at first, after the four tests of the interface type and the swap for the
backward direction. -/
def selectLists (g : YGridLevel dim) (iftype : InterfaceType) (dir : CommunicationDirection)
    (codim : Nat) : Option (List (Intersection dim)) × Option (List (Intersection dim)) :=
  let p0 : Option (List (Intersection dim)) × Option (List (Intersection dim)) := (none, none)
  let p1 :=
    if iftype = InterfaceType.InteriorBorder_InteriorBorder_Interface then
      (some (codimLists g.send_interiorborder_interiorborder
          g.send_interiorborder_interiorborder_data codim),
       some (codimLists g.recv_interiorborder_interiorborder
          g.recv_interiorborder_interiorborder_data codim))
    else p0
  let p2 :=
    if iftype = InterfaceType.InteriorBorder_All_Interface then
      (some (codimLists g.send_interiorborder_overlapfront
          g.send_interiorborder_overlapfront_data codim),
       some (codimLists g.recv_overlapfront_interiorborder
          g.recv_overlapfront_interiorborder_data codim))
    else p1
  let p3 :=
    if iftype = InterfaceType.Overlap_OverlapFront_Interface
        ∨ iftype = InterfaceType.Overlap_All_Interface then
      (some (codimLists g.send_overlap_overlapfront g.send_overlap_overlapfront_data codim),
       some (codimLists g.recv_overlapfront_overlap g.recv_overlapfront_overlap_data codim))
    else p2
  let p4 :=
    if iftype = InterfaceType.All_All_Interface then
      (some (codimLists g.send_overlapfront_overlapfront
          g.send_overlapfront_overlapfront_data codim),
       some (codimLists g.recv_overlapfront_overlapfront
          g.recv_overlapfront_overlapfront_data codim))
    else p3
  if dir = CommunicationDirection.BackwardCommunication then (p4.2, p4.1) else p4

/-- Loop `cnt=0; for (ListIt is=l->begin(); is!=l->end(); ++is) { body; cnt++; }`
over a list, acting on a state of type `σ`: the body sees the counter `cnt` and
the element `*is`. -/
def forList {α σ : Type} (l : List α) (body : Nat → α → σ → σ) (s : σ) : σ :=
  l.enum.foldl (fun st p => body p.1 p.2 st) s

/-- Lines 1396-1415, fixed size: the loops over the send list and over the
receive list write `send_size[cnt]` and `recv_size[cnt]` from the size of a
dummy entity, the first of the Intersection. -/
def sizesFixed {E : Type} (data : DataHandle E) (visit : EntityRange dim E)
    (sendlist recvlist : List (Intersection dim)) (st : CommResult E) : CommResult E :=
  let st1 := forList sendlist (fun cnt s (st : CommResult E) =>
    { st with
      send_size := st.send_size.set cnt (s.grid.totalsize * (data.size (visit.first s) : Int))
      calls := st.calls ++ [CommEvent.size (visit.first s)] }) st
  forList recvlist (fun cnt s (st : CommResult E) =>
    { st with
      recv_size := st.recv_size.set cnt (s.grid.totalsize * (data.size (visit.first s) : Int))
      calls := st.calls ++ [CommEvent.size (visit.first s)] }) st1

/-- Lines 1416-1488, variable size: the sender determines the sizes.  The
per-entity sizes are asked for, summed up in `n` and sent; the receive requests
are stored; one exchange; then `recv_size[cnt]` is the sum of the entries
`buf[i]`, `i < totalsize`, of the buffer `recv_sizes[cnt]`, whose content after
the exchange is `recvSizes cnt i`. -/
def sizesVariable {E : Type} (data : DataHandle E) (visit : EntityRange dim E)
    (recvSizes : Nat → Nat → Nat) (sendlist recvlist : List (Intersection dim))
    (st : CommResult E) : CommResult E :=
  let st1 := forList sendlist (fun cnt s (st : CommResult E) =>
    let n : Nat := (visit.entities s).foldl (fun n e => n + data.size e) 0
    { st with
      send_size := st.send_size.set cnt (n : Int)
      calls := st.calls ++ (visit.entities s).map (fun e => CommEvent.size e)
        ++ [CommEvent.send s.rank s.grid.totalsize] }) st
  let st2 := forList recvlist (fun _ s (st : CommResult E) =>
    { st with calls := st.calls ++ [CommEvent.recv s.rank s.grid.totalsize] }) st1
  let st3 : CommResult E := { st2 with calls := st2.calls ++ [CommEvent.exchange] }
  forList recvlist (fun cnt s (st : CommResult E) =>
    let n : Nat := (List.range s.grid.totalsize.toNat).foldl (fun n i => n + recvSizes cnt i) 0
    { st with recv_size := st.recv_size.set cnt (n : Int) }) st3

/-- Lines 1491-1583: the send buffers are filled by `gather` and handed to the
torus, the receive requests are stored, one exchange, and the receive buffers
are read by `scatter`, with the size of the first entity as count for a fixed
size and with the received per-entity sizes `sbuf[i++]` otherwise. -/
def dataPhase {E : Type} (data : DataHandle E) (visit : EntityRange dim E)
    (recvSizes : Nat → Nat → Nat) (fixed : Bool)
    (sendlist recvlist : List (Intersection dim)) (st : CommResult E) : CommResult E :=
  let st1 := forList sendlist (fun cnt s (st : CommResult E) =>
    { st with
      calls := st.calls ++ (visit.entities s).map (fun e => CommEvent.gather e)
        ++ [CommEvent.send s.rank (st.send_size.getD cnt (-1))] }) st
  let st2 := forList recvlist (fun cnt s (st : CommResult E) =>
    { st with calls := st.calls ++ [CommEvent.recv s.rank (st.recv_size.getD cnt (-1))] }) st1
  let st3 : CommResult E := { st2 with calls := st2.calls ++ [CommEvent.exchange] }
  forList recvlist (fun cnt s (st : CommResult E) =>
    { st with
      calls := st.calls ++
        (if fixed then
          CommEvent.size (visit.first s)
            :: (visit.entities s).map (fun e => CommEvent.scatter e (data.size (visit.first s)))
         else
          (visit.entities s).enum.map (fun q => CommEvent.scatter q.2 (recvSizes cnt q.1))) }) st3

/-- Communicate objects for one codim, `communicateCodim<DataHandle,codim>`:
the exception thrown by `begin(level)`, or the size vectors and the calls
issued.  The size vectors start with -1 in every entry.  A null list pointer is
not dereferenced: both pointers are set for every interface type. -/
def communicateCodim {E : Type} (G : YaspGrid dim) (data : DataHandle E)
    (visit : EntityRange dim E) (recvSizes : Nat → Nat → Nat) (iftype : InterfaceType)
    (dir : CommunicationDirection) (level : Int) (codim : Nat) :
    Except DuneException (CommResult E) :=
  if !data.contains dim codim then
    Except.ok { send_size := [], recv_size := [], calls := [] }
  else
    match G.begin level with
    | Except.error e => Except.error e
    | Except.ok g =>
      let sendlist := ((selectLists g iftype dir codim).1).getD []
      let recvlist := ((selectLists g iftype dir codim).2).getD []
      let st0 : CommResult E :=
        { send_size := List.replicate sendlist.length (-1)
          recv_size := List.replicate recvlist.length (-1)
          calls := [] }
      let st1 :=
        if data.fixedsize dim codim then sizesFixed data visit sendlist recvlist st0
        else sizesVariable data visit recvSizes sendlist recvlist st0
      Except.ok (dataPhase data visit recvSizes (data.fixedsize dim codim) sendlist recvlist st1)

/-- The recursion `YaspCommunicateMeta<dim,codim>::comm`: for `codim` down to 0,
`communicateCodim` is called if the data handle contains the codimension.  The
result lists the codimensions for which it was called with what the call did,
in the order of the calls; `visit c` and `recvSizes c` belong to the call for
codimension `c`. -/
def YaspCommunicateMeta.comm {E : Type} (G : YaspGrid dim) (data : DataHandle E)
    (visit : Nat → EntityRange dim E) (recvSizes : Nat → Nat → Nat → Nat)
    (iftype : InterfaceType) (dir : CommunicationDirection) (level : Int) :
    Nat → Except DuneException (List (Nat × CommResult E))
  | 0 =>
    if data.contains dim 0 then
      match communicateCodim G data (visit 0) (recvSizes 0) iftype dir level 0 with
      | Except.error e => Except.error e
      | Except.ok r => Except.ok [(0, r)]
    else Except.ok []
  | codim + 1 =>
    if data.contains dim (codim + 1) then
      match communicateCodim G data (visit (codim + 1)) (recvSizes (codim + 1)) iftype dir level
          (codim + 1) with
      | Except.error e => Except.error e
      | Except.ok r =>
        match YaspCommunicateMeta.comm G data visit recvSizes iftype dir level codim with
        | Except.error e => Except.error e
        | Except.ok rs => Except.ok ((codim + 1, r) :: rs)
    else YaspCommunicateMeta.comm G data visit recvSizes iftype dir level codim

/-- Communicate objects for all codims on a given level. -/
def communicate {E : Type} (G : YaspGrid dim) (data : DataHandle E)
    (visit : Nat → EntityRange dim E) (recvSizes : Nat → Nat → Nat → Nat)
    (iftype : InterfaceType) (dir : CommunicationDirection) (level : Int) :
    Except DuneException (List (Nat × CommResult E)) :=
  YaspCommunicateMeta.comm G data visit recvSizes iftype dir level dim


/-- Process 0 of the two processes of the one-dimensional grid with 8 cells
after `EquidistantSetup`. -/
def twoProcGrid : YaspGrid 1 :=
  EquidistantSetup (twoProc 0) (tuple1 8) (bits1 false) 1 (tuple1 0) (tuple1 4)

/-- A data handle on one-dimensional entities named by their coordinate: it
contains all codimensions, and entity `e` holds `e` objects if the size is
variable (`fixed = false`). -/
def data1 (fixed : Bool) : DataHandle Int :=
  { contains := fun _ _ => true, fixedsize := fun _ _ => fixed, size := fun e => e.toNat }

/-- The entities of a one-dimensional Intersection named by their coordinate:
from the origin of its grid on, one per index. -/
def visit1 : EntityRange 1 Int :=
  { first := fun s => s.grid.origin 0
    entities := fun s => (List.range (s.grid.size 0).toNat).map (fun n => s.grid.origin 0 + n) }


/-! ## Requests indexed by a level -/

/-- Partition types of the level iterators (enumeration
`PartitionIteratorType`), in the order of their values. -/
inductive PartitionIteratorType where
  /-- Only interior entities. -/
  | Interior_Partition
  /-- Interior and border entities. -/
  | InteriorBorder_Partition
  /-- Interior, border and overlap entities. -/
  | Overlap_Partition
  /-- Interior, border, overlap and front entities. -/
  | OverlapFront_Partition
  /-- All entities. -/
  | All_Partition
  /-- Only ghost entities. -/
  | Ghost_Partition
  deriving DecidableEq, Repr

/-- Value of the enumerator, for the comparison `pitype<=All_Partition`. -/
def PartitionIteratorType.value : PartitionIteratorType → Nat
  | Interior_Partition => 0
  | InteriorBorder_Partition => 1
  | Overlap_Partition => 2
  | OverlapFront_Partition => 3
  | All_Partition => 4
  | Ghost_Partition => 5

/-- Level iterator `YaspLevelIterator<cd,pitype,GridImp>` as far as it is
built here: the components of the `YGrid` it runs over and whether it stands at
the begin or at the end. -/
structure YaspLevelIterator (dim : Nat) where
  /-- Components of the `YGrid` of codimension `cd` of the chosen family. -/
  components : List (YGridComponent dim)
  /-- Whether the iterator was built from `end()`. -/
  atEnd : Bool

/-- Components of `family[codim]`: the entries of the component array from
`dataBegin()` to `dataEnd()` of the slice. -/
def codimComponents (slices : List YGrid) (data : List (YGridComponent dim)) (codim : Nat) :
    List (YGridComponent dim) :=
  match slices.get? codim with
  | none => []
  | some y => (data.drop y.dataBegin).take (y.dataEnd - y.dataBegin)

/-- What a call throws, if anything. -/
def thrown {α : Type} : Except DuneException α → Option DuneException
  | Except.error e => some e
  | Except.ok _ => none

/-- Iterator to one past the last entity of given codim on level for partition
type, `levelend<cd,pitype>(level)`. -/
def levelend (G : YaspGrid dim) (cd : Nat) (pitype : PartitionIteratorType) (level : Int) :
    Except DuneException (YaspLevelIterator dim) :=
  match G.begin level with
  | Except.error e => Except.error e
  | Except.ok g =>
    if level < 0 ∨ level > G.maxLevel then Except.error DuneException.RangeError
    else if pitype = PartitionIteratorType.Interior_Partition then
      Except.ok { components := codimComponents g.interior g.interior_data cd, atEnd := true }
    else if pitype = PartitionIteratorType.InteriorBorder_Partition then
      Except.ok
        { components := codimComponents g.interiorborder g.interiorborder_data cd, atEnd := true }
    else if pitype = PartitionIteratorType.Overlap_Partition then
      Except.ok { components := codimComponents g.overlap g.overlap_data cd, atEnd := true }
    else if pitype.value ≤ PartitionIteratorType.All_Partition.value
        ∨ pitype = PartitionIteratorType.Ghost_Partition then
      Except.ok
        { components := codimComponents g.overlapfront g.overlapfront_data cd, atEnd := true }
    else Except.error DuneException.GridError

/-- Iterator to the first entity of given codim on level for partition type,
`levelbegin<cd,pitype>(level)`. -/
def levelbegin (G : YaspGrid dim) (cd : Nat) (pitype : PartitionIteratorType) (level : Int) :
    Except DuneException (YaspLevelIterator dim) :=
  match G.begin level with
  | Except.error e => Except.error e
  | Except.ok g =>
    if level < 0 ∨ level > G.maxLevel then Except.error DuneException.RangeError
    else if pitype = PartitionIteratorType.Interior_Partition then
      Except.ok { components := codimComponents g.interior g.interior_data cd, atEnd := false }
    else if pitype = PartitionIteratorType.InteriorBorder_Partition then
      Except.ok
        { components := codimComponents g.interiorborder g.interiorborder_data cd, atEnd := false }
    else if pitype = PartitionIteratorType.Overlap_Partition then
      Except.ok { components := codimComponents g.overlap g.overlap_data cd, atEnd := false }
    else if pitype.value ≤ PartitionIteratorType.All_Partition.value then
      Except.ok
        { components := codimComponents g.overlapfront g.overlapfront_data cd, atEnd := false }
    else if pitype = PartitionIteratorType.Ghost_Partition then
      levelend G cd pitype level
    else Except.error DuneException.GridError

/-- Number of entities per level and codim in this process, `size(level,
codim)`: the sum of `totalsize()` over the components of
`overlapfront[codim]`. -/
def size (G : YaspGrid dim) (level : Int) (codim : Nat) : Except DuneException Int :=
  match G.begin level with
  | Except.error e => Except.error e
  | Except.ok g =>
    Except.ok ((codimComponents g.overlapfront g.overlapfront_data codim).foldl
      (fun count it => count + it.totalsize) 0)

/-- Level index set, `levelIndexSet(level)`: the entry `indexsets[level]`, an
index set being named by the level it was made for. -/
def levelIndexSet (G : YaspGrid dim) (level : Int) : Except DuneException (Option Int) :=
  if level < 0 ∨ level > G.maxLevel then Except.error DuneException.RangeError
  else Except.ok (G.indexsets.get? level.toNat)

/-! ## Insertion positions and slices of makelevel -/

/-- Consecutive slices: each begins where the previous one ends, the first at
`n`, and the `c`-th holds `ks[c]` entries. -/
def codimSlices : List Nat → Nat → List YGrid
  | [], _ => []
  | k :: ks, n => { dataBegin := n, dataEnd := n + k } :: codimSlices ks (n + k)

/-- State of the twelve insertion iterators and of the twelve arrays of slices
of a level: every insertion iterator stands at position `n` (each of the twelve
component and deque arrays holds `n` entries) and each of the twelve arrays of
slices is `sl`. -/
def aligned (g : YGridLevel dim) (n : Nat) (sl : List YGrid) : Prop :=
  (g.overlapfront_data.length = n ∧ g.overlap_data.length = n ∧
    g.interiorborder_data.length = n ∧ g.interior_data.length = n ∧
    g.send_overlapfront_overlapfront_data.length = n ∧
    g.recv_overlapfront_overlapfront_data.length = n ∧
    g.send_overlap_overlapfront_data.length = n ∧
    g.recv_overlapfront_overlap_data.length = n ∧
    g.send_interiorborder_interiorborder_data.length = n ∧
    g.recv_interiorborder_interiorborder_data.length = n ∧
    g.send_interiorborder_overlapfront_data.length = n ∧
    g.recv_overlapfront_interiorborder_data.length = n) ∧
  (g.overlapfront = sl ∧ g.overlap = sl ∧ g.interiorborder = sl ∧ g.interior = sl ∧
    g.send_overlapfront_overlapfront = sl ∧ g.recv_overlapfront_overlapfront = sl ∧
    g.send_overlap_overlapfront = sl ∧ g.recv_overlapfront_overlap = sl ∧
    g.send_interiorborder_interiorborder = sl ∧ g.recv_interiorborder_interiorborder = sl ∧
    g.send_interiorborder_overlapfront = sl ∧ g.recv_overlapfront_interiorborder = sl)

/-- The grid object of the constructor at the time `EquidistantSetup` calls
`makelevel` for level 0: the members are set and the level stack holds one
empty level. -/
def constructBase (torus : Torus dim) (s : iTupel dim) (periodic : Bitset dim) (overlap : Int) :
    YaspGrid dim :=
  equidistantInit
    { _torus := torus, _levels := [], _periodic := fun _ => false, _coarseSize := fun _ => 0
      _overlap := 0, keep_ovlp := true, adaptRefCount := 0, adaptActive := false
      indexsets := [] }
    s periodic overlap

/-- The coordinate container that `EquidistantSetup` hands to `makelevel` for
level 0. -/
def constructCoords (torus : Torus dim) (s : iTupel dim) (periodic : Bitset dim) (overlap : Int)
    (o_interior s_interior : iTupel dim) : CoordCont dim :=
  EquidistantCoordinates
    (equidistantOverlapSize (constructBase torus s periodic overlap) periodic overlap o_interior
      s_interior)

/-- The two queries of a geometry type that `size(level, type)` evaluates. -/
structure GeometryType where
  /-- Query `type.isCube()`. -/
  isCube : Bool
  /-- Query `type.dim()`. -/
  dim : Nat

/-- Number of entities per level and geometry type in this process,
`size(level, type)`, for a type of dimension at most `dim`. -/
def sizeOfType (G : YaspGrid dim) (level : Int) (type : GeometryType) : Except DuneException Int :=
  if type.isCube then size G level (dim - type.dim) else Except.ok 0


/-- Two-dimensional tuple with the entries `a`, `b`. -/
def tuple2 (a b : Int) : iTupel 2 := fun i => if i.val = 0 then a else b

/-- Two-dimensional bitset with the entries `a`, `b`. -/
def bits2 (a b : Bool) : Bitset 2 := fun i => if i.val = 0 then a else b

/-- Two-dimensional grid of a single process with `2 x 3` cells, as
constructed: axis 0 is not periodic, axis 1 is periodic if `p` is set. -/
def serial2 (p : Bool) (overlap : Int) : YaspGrid 2 :=
  construct { coord := tuple2 0 0, dims := fun _ => 1 } (tuple2 2 3) (bits2 false p) overlap
    (tuple2 0 0) (tuple2 2 3)


/-- One-dimensional periodic grid of a single process with 4 cells and overlap
1, as constructed. -/
def periodic1 : YaspGrid 1 :=
  construct { coord := tuple1 0, dims := fun _ => 1 } (tuple1 4) (bits1 true) 1 (tuple1 0)
    (tuple1 4)

/-- The calls of the adaptation interface. -/
inductive AdaptCall where
  /-- Call `mark(refCount, e)`. -/
  | mark (refCount : Int) (e : Entity)
  /-- Call `preAdapt()`; `others` holds the counters of the other processes. -/
  | preAdapt (others : List Int)
  /-- Call `adapt()`. -/
  | adapt
  /-- Call `postAdapt()`. -/
  | postAdapt

/-- The grid after one call of the adaptation interface, or nothing if the
call does not return: the assertion of `mark` fails or `globalRefine` throws. -/
def applyCall (G : YaspGrid dim) : AdaptCall → Option (YaspGrid dim)
  | AdaptCall.mark refCount e => (mark G refCount e).map (fun r => r.2)
  | AdaptCall.preAdapt others => some (preAdapt G others).2
  | AdaptCall.adapt =>
    match (adapt G).2.1 with
    | some _ => none
    | none => some (adapt G).2.2
  | AdaptCall.postAdapt => some (postAdapt G)

/-- The grid after a sequence of calls of the adaptation interface, or nothing
if one of them does not return. -/
def runCalls : List AdaptCall → YaspGrid dim → Option (YaspGrid dim)
  | [], G => some G
  | c :: cs, G =>
    match applyCall G c with
    | none => none
    | some G1 => runCalls cs G1

end YaspGrid

namespace McmgMapper

/-! ## Mapper for multiple codimensions and multiple geometry types -/

/-- Geometry types as far as the mapper tells them apart: the enumerators
`simplex` and `cube`, which it names, and any other type. -/
inductive GeometryType where
  /-- Enumerator `simplex`. -/
  | simplex
  /-- Enumerator `cube`. -/
  | cube
  /-- Any other geometry type, by its number. -/
  | other (k : Nat)
  deriving DecidableEq, Repr

/-- The queries of the index set `is` and of the entities of type `E` that the
mapper evaluates. -/
structure IndexSet (E : Type) where
  /-- Query `is.geomTypes(c)`, the geometry types of codimension `c`. -/
  geomTypes : Nat → List GeometryType
  /-- Query `is.size(c, type)`. -/
  size : Nat → GeometryType → Int
  /-- Query `is.index(e)`. -/
  index : E → Int
  /-- Codimension of the entity, `EntityType::codimension`. -/
  codimension : E → Nat
  /-- Geometry type of the entity, `e.geometry().type()`. -/
  type : E → GeometryType

/-- Members of the mapper that the constructor computes: `n` and the array of
maps `offset`.  A map is read with `operator[]` only, which gives 0 for a key
that was never written. -/
structure Mapper where
  /-- Number of data elements required, `n`. -/
  n : Int
  /-- Offset per codimension and geometry type, `offset[c][type]`. -/
  offset : Nat → GeometryType → Int

/-- Assignment `offset[c][type] = v`. -/
def setOffset (offset : Nat → GeometryType → Int) (c : Nat) (type : GeometryType) (v : Int) :
    Nat → GeometryType → Int :=
  fun c1 t1 => if c1 = c ∧ t1 = type then v else offset c1 t1

/-- Body of the loop nest of the constructor (lines 66-79) for codimension `c`
and the geometry type `type = is.geomTypes(c)[i]`. -/
def constructStep {E : Type} (dimension : Nat) (is : IndexSet E)
    (contains : Nat → GeometryType → Bool) (m : Mapper) (p : Nat × GeometryType) : Mapper :=
  if contains p.1 p.2 then
    if (p.1 : Int) < (dimension : Int) - 1 then
      { offset := setOffset m.offset p.1 p.2 m.n, n := m.n + is.size p.1 p.2 }
    else
      { offset := setOffset (setOffset m.offset p.1 GeometryType.cube m.n) p.1
          GeometryType.simplex m.n
        n := m.n + is.size p.1 p.2 }
  else m

/-- The pairs `(c, is.geomTypes(c)[i])` in the order of the loop nest
`for c<=dimension`, `for i<is.geomTypes(c).size()`. -/
def loopPairs {E : Type} (dimension : Nat) (is : IndexSet E) : List (Nat × GeometryType) :=
  (List.range (dimension + 1)).flatMap (fun c => (is.geomTypes c).map (fun t => (c, t)))

/-- Constructor of the mapper for a grid of the given dimension, an index set
and a layout (its query `layout.contains(c, type)`). -/
def construct {E : Type} (dimension : Nat) (is : IndexSet E)
    (contains : Nat → GeometryType → Bool) : Mapper :=
  (loopPairs dimension is).foldl (constructStep dimension is contains)
    { n := 0, offset := fun _ _ => 0 }

/-- Map entity to array index, `map(e)`. -/
def map {E : Type} (is : IndexSet E) (m : Mapper) (e : E) : Int :=
  is.index e + m.offset (is.codimension e) (is.type e)

/-- Total number of entities in the entity set managed by the mapper,
`size()`. -/
def size (m : Mapper) : Int :=
  m.n

/-- An index set with two vertices of a one-dimensional grid, entity `false`
reported as a cube and entity `true` as a simplex, one of each type, both with
index 0 within their type. -/
def twoVertexTypes : IndexSet Bool :=
  { geomTypes := fun c => if c = 1 then [GeometryType.cube, GeometryType.simplex] else []
    size := fun c _ => if c = 1 then 1 else 0
    index := fun _ => 0
    codimension := fun _ => 1
    type := fun e => if e then GeometryType.simplex else GeometryType.cube }


/-- Whether the pass of the constructor loop for the contained pair `p` writes
the entry `offset[k.1][k.2]`. -/
def writes (dimension : Nat) (p k : Nat × GeometryType) : Prop :=
  k.1 = p.1 ∧
    if (p.1 : Int) < (dimension : Int) - 1 then k.2 = p.2
    else (k.2 = GeometryType.cube ∨ k.2 = GeometryType.simplex)

/-- Whether a pass writes an entry can be decided. -/
instance writesDecidable (dimension : Nat) (p k : Nat × GeometryType) :
    Decidable (writes dimension p k) := by
  unfold writes
  exact inferInstance

/-- An entity of a codimension of the grid whose geometry type is one of the
index set and is contained in the layout, and whose index lies in
`[0, is.size(codim, type))`. -/
def mapped {E : Type} (dimension : Nat) (is : IndexSet E)
    (contains : Nat → GeometryType → Bool) (e : E) : Prop :=
  is.codimension e ≤ dimension ∧ is.type e ∈ is.geomTypes (is.codimension e) ∧
    contains (is.codimension e) (is.type e) = true ∧
    0 ≤ is.index e ∧ is.index e < is.size (is.codimension e) (is.type e)

/-- Whether an entity is one of the mapped ones can be decided. -/
instance mappedDecidable {E : Type} (dimension : Nat) (is : IndexSet E)
    (contains : Nat → GeometryType → Bool) (e : E) :
    Decidable (mapped dimension is contains e) := by
  unfold mapped
  exact inferInstance


/-- Index set of a one-dimensional grid with 2 elements and 3 vertices, all
reported as cubes: entity `(false, i)` is element `i`, entity `(true, i)` is
vertex `i`, and the index within the type is `i`. -/
def lineIndexSet : IndexSet (Bool × Nat) :=
  { geomTypes := fun _ => [GeometryType.cube]
    size := fun c _ => if c = 0 then 2 else 3
    index := fun e => (e.2 : Int)
    codimension := fun e => if e.1 then 1 else 0
    type := fun _ => GeometryType.cube }

end McmgMapper

namespace OneDGrid

/-! ## OneDGridIntersectionIterator -/

/-- Element `OneDEntityImp<1>` as far as the intersection iterator reads it.
Pointers are addresses (natural numbers), a null pointer is `none`. -/
structure OneDEntityImp where
  /-- Pointer `pred_` to the element to the left on the same level. -/
  pred_ : Option Nat
  /-- Pointer `succ_` to the element to the right on the same level. -/
  succ_ : Option Nat
  /-- Pointer `father_`. -/
  father_ : Option Nat
  /-- Pointers `sons_[0]`, `sons_[1]`. -/
  sons_ : Fin 2 → Option Nat
  /-- Pointers `vertex_[0]`, `vertex_[1]` to the two vertices. -/
  vertex_ : Fin 2 → Nat
  /-- Member `level_`. -/
  level_ : Int
  /-- Query `isLeaf()`. -/
  isLeaf : Bool

/-- The memory: the element stored at each address. -/
abbrev Heap := Nat → OneDEntityImp

/-- Members `center_` and `neighbor_` of the intersection iterator. -/
structure OneDGridIntersectionIterator where
  /-- Pointer `center_`. -/
  center_ : Nat
  /-- Counter `neighbor_`: 0, 1 are the level neighbours, 2 and 3 the leaf
  neighbours, 4 is one after the last. -/
  neighbor_ : Int

/-- The loop `while (ancestor->level_!=0)` of `boundary()` for the side `side`
(0 left, 1 right), followed by its return statement; `next` reads `pred_` for
the left and `succ_` for the right side.  Nothing is returned if the loop does
not end within `fuel` passes or dereferences a null `father_`. -/
def boundaryLoop (heap : Heap) (side : Fin 2) (next : OneDEntityImp → Option Nat) :
    Nat → Nat → Option Bool
  | 0, _ => none
  | fuel + 1, ancestor =>
    if (heap ancestor).level_ ≠ 0 then
      match (heap ancestor).father_ with
      | none => none
      | some father =>
        if (heap father).sons_ side ≠ some ancestor then some false
        else boundaryLoop heap side next fuel father
    else some ((next (heap ancestor)).isNone)

/-- Return true if intersection is with boundary, `boundary()`. -/
def boundary (heap : Heap) (fuel : Nat) (it : OneDGridIntersectionIterator) : Option Bool :=
  if it.neighbor_ % 2 = 0 then
    if ((heap it.center_).pred_).isSome then some false
    else boundaryLoop heap 0 (fun e => e.pred_) fuel it.center_
  else
    if ((heap it.center_).succ_).isSome then some false
    else boundaryLoop heap 1 (fun e => e.succ_) fuel it.center_

/-- The test `center_->pred_!=NULL && center_->pred_->vertex_[1] ==
center_->vertex_[0] && center_->pred_->isLeaf()`. -/
def leftLeafLevelNeighbor (heap : Heap) (center : Nat) : Bool :=
  match (heap center).pred_ with
  | none => false
  | some p => decide ((heap p).vertex_ 1 = (heap center).vertex_ 0) && (heap p).isLeaf

/-- The test `center_->succ_!=NULL && center_->succ_->vertex_[0] ==
center_->vertex_[1] && center_->succ_->isLeaf()`. -/
def rightLeafLevelNeighbor (heap : Heap) (center : Nat) : Bool :=
  match (heap center).succ_ with
  | none => false
  | some s => decide ((heap s).vertex_ 0 = (heap center).vertex_ 1) && (heap s).isLeaf

/-- The block `if (neighbor_==2) { ... }` or `if (neighbor_==3) { ... }` of
`increment()`: whether the leaf intersection `slot` is skipped, for an iterator
that stands at `slot`. -/
def skipSlot (heap : Heap) (fuel : Nat) (center : Nat) (slot : Int)
    (leafLevelNeighbor : Bool) : Option Bool :=
  if !(heap center).isLeaf then some true
  else
    match boundary heap fuel { center_ := center, neighbor_ := slot } with
    | none => none
    | some true => some true
    | some false => some leafLevelNeighbor

/-- Prefix increment, `increment()`: the iterator after the call, or nothing if
a call of `boundary()` does not return. -/
def increment (heap : Heap) (fuel : Nat) (it : OneDGridIntersectionIterator) :
    Option OneDGridIntersectionIterator :=
  let n1 := it.neighbor_ + 1
  let r2 : Option Int :=
    if n1 = 2 then
      match skipSlot heap fuel it.center_ 2 (leftLeafLevelNeighbor heap it.center_) with
      | none => none
      | some skip => some (if skip then n1 + 1 else n1)
    else some n1
  match r2 with
  | none => none
  | some n2 =>
    if n2 = 3 then
      match skipSlot heap fuel it.center_ 3 (rightLeafLevelNeighbor heap it.center_) with
      | none => none
      | some skip => some { center_ := it.center_, neighbor_ := if skip then n2 + 1 else n2 }
    else some { center_ := it.center_, neighbor_ := n2 }

/-- Well-formed element tree: every level is at least 0, and every element of
a level other than 0 has a father one level lower. -/
def wellFormed (heap : Heap) : Prop :=
  ∀ a, 0 ≤ (heap a).level_ ∧
    ((heap a).level_ ≠ 0 → ∃ f, (heap a).father_ = some f ∧ (heap f).level_ = (heap a).level_ - 1)

/-- In the words of the specification: every element on the chain from `a` up
to its ancestor `top` of level 0 is the son number `side` of its father. -/
inductive SideChain (heap : Heap) (side : Fin 2) : Nat → Nat → Prop where
  /-- An element of level 0 is its own ancestor of level 0. -/
  | top (a : Nat) : (heap a).level_ = 0 → SideChain heap side a a
  /-- A son number `side` of a father whose chain has the property. -/
  | up (a f t : Nat) : (heap a).level_ ≠ 0 → (heap a).father_ = some f →
      (heap f).sons_ side = some a → SideChain heap side f t → SideChain heap side a t

/-- A memory with two adjacent leaf elements of level 0, at the addresses 0
(left) and 1 (right), and their refinement-free copies elsewhere. -/
def twoElements : Heap := fun a =>
  if a = 1 then
    { pred_ := some 0, succ_ := none, father_ := none, sons_ := fun _ => none
      vertex_ := fun i => 1 + i.val, level_ := 0, isLeaf := true }
  else
    { pred_ := none, succ_ := some 1, father_ := none, sons_ := fun _ => none
      vertex_ := fun i => i.val, level_ := 0, isLeaf := true }

end OneDGrid

namespace Alberta

/-! ## AlbertaMarkerVector -/

/-- The constants `Alberta::NumSubEntities< dim, codim >::value` of misc.hh.
No value is declared for other arguments than those listed (for dimensions
1 to 3 every codimension up to `dim` is listed); 0 stands for them here. -/
def NumSubEntities (dim codim : Nat) : Nat :=
  if codim = 0 then 1
  else if codim = dim then dim + 1
  else if dim = 2 ∧ codim = 1 then 3
  else if dim = 3 ∧ codim = 1 then 4
  else if dim = 3 ∧ codim = 2 then 6
  else 0

/-- The two requests that the marker vector makes to the hierarchic index set:
`size( codim )` and `subIndex< codim >( elementInfo, i )`. -/
structure HierarchicIndexSet (El : Type) where
  /-- Number of entities of a codimension, `size( codim )`. -/
  size : Nat → Nat
  /-- Index `subIndex< codim >( elementInfo, i )`. -/
  subIndex : Nat → El → Nat → Int

/-- Members of `AlbertaMarkerVector`: the index set, the array `marker_` of one
vector per codimension, and the flag `up2Date_`. -/
structure AlbertaMarkerVector (El : Type) where
  /-- Pointer `hIndexSet_`. -/
  hIndexSet_ : HierarchicIndexSet El
  /-- Array `marker_[ dimension+1 ]` of vectors. -/
  marker_ : Nat → List Int
  /-- Flag `up2Date_`. -/
  up2Date_ : Bool

/-- One pass of the loop `for( int i = 0; i < numSubEntities; ++i )` of
`MarkSubEntities< codim >::apply` on the vector `vec`; nothing is returned if
`subIndex` lies outside the vector. -/
def markStep {El : Type} (hIndexSet : HierarchicIndexSet El) (codim : Nat) (elementInfo : El)
    (index : Int) (vec : List Int) (i : Nat) : Option (List Int) :=
  let subIndex := hIndexSet.subIndex codim elementInfo i
  if 0 ≤ subIndex then
    match vec.get? subIndex.toNat with
    | none => none
    | some v => some (if v < 0 then vec.set subIndex.toNat index else vec)
  else none

/-- The function `MarkSubEntities< codim >::apply` on the vector
`marker[ codim ]`. -/
def MarkSubEntities.apply {El : Type} (dim : Nat) (hIndexSet : HierarchicIndexSet El)
    (codim : Nat) (marker : Nat → List Int) (elementInfo : El) : Option (Nat → List Int) :=
  let index := hIndexSet.subIndex 0 elementInfo 0
  ((List.range (NumSubEntities dim codim)).foldlM
      (markStep hIndexSet codim elementInfo index) (marker codim)).map
    (Function.update marker codim)

/-- The codimensions `firstCodim, ..., dimension` of the two loops of
`markSubEntities`. -/
def codims (firstCodim dim : Nat) : List Nat :=
  List.range' firstCodim (dim + 1 - firstCodim)

/-- The call `ForLoop< MarkSubEntities, firstCodim, dimension >::apply`. -/
def forLoopMark {El : Type} (dim firstCodim : Nat) (hIndexSet : HierarchicIndexSet El)
    (marker : Nat → List Int) (elementInfo : El) : Option (Nat → List Int) :=
  (codims firstCodim dim).foldlM
    (fun mk codim => MarkSubEntities.apply dim hIndexSet codim mk elementInfo) marker

/-- The function `markSubEntities< firstCodim >( begin, end )`; `range` lists
the element infos of the iterators from `begin` up to `end`. -/
def markSubEntities {El : Type} (dim firstCodim : Nat) (M : AlbertaMarkerVector El)
    (range : List El) : Option (AlbertaMarkerVector El) :=
  let cleared := (codims firstCodim dim).foldl
    (fun mk codim => Function.update mk codim (List.replicate (M.hIndexSet_.size codim) (-1)))
    M.marker_
  (range.foldlM (forLoopMark dim firstCodim M.hIndexSet_) cleared).map
    (fun mk => { M with marker_ := mk, up2Date_ := true })

/-- The function `subEntityOnElement< codim >( elementInfo, subEntity )`;
nothing is returned if the assertion fails or the vector is read outside its
range. -/
def subEntityOnElement {El : Type} (codim : Nat) (M : AlbertaMarkerVector El)
    (elementInfo : El) (subEntity : Nat) : Option Bool :=
  if (M.marker_ codim).length > 0 then
    let index := M.hIndexSet_.subIndex 0 elementInfo 0
    let subIndex := M.hIndexSet_.subIndex codim elementInfo subEntity
    if 0 ≤ subIndex then
      ((M.marker_ codim).get? subIndex.toNat).map (fun v => decide (v = index))
    else none
  else none

/-- Whether the element has the entity of index `s` as a subentity of
codimension `codim`. -/
def hasSubEntity {El : Type} (dim : Nat) (hIndexSet : HierarchicIndexSet El) (codim : Nat)
    (s : Int) (elementInfo : El) : Bool :=
  (List.range (NumSubEntities dim codim)).any
    (fun i => decide (hIndexSet.subIndex codim elementInfo i = s))

/-- In the words of the specification: the hierarchic index of the first
element in iteration order that has `s` as a subentity of codimension `codim`,
or -1 if no element has it. -/
def firstIndex {El : Type} (dim : Nat) (hIndexSet : HierarchicIndexSet El) (codim : Nat)
    (range : List El) (s : Int) : Int :=
  match range.find? (hasSubEntity dim hIndexSet codim s) with
  | none => -1
  | some e => hIndexSet.subIndex 0 e 0

/-- Two triangles 0 and 1 that share the vertices 1 and 2: element `e` has the
index `e` and the vertices `e, e+1, e+2`; its edges are numbered `2e+i`. -/
def twoTriangles : HierarchicIndexSet Nat where
  size := fun codim => if codim = 0 then 2 else if codim = 1 then 5 else 4
  subIndex := fun codim e i =>
    if codim = 0 then e else if codim = 1 then 2 * e + i else e + i

/-- A marker vector over `twoTriangles` that has not been filled. -/
def twoTrianglesMarker : AlbertaMarkerVector Nat where
  hIndexSet_ := twoTriangles
  marker_ := fun _ => []
  up2Date_ := false

/-! ## AlbertaGridTreeIterator -/

/-- Binary refinement tree below a macro element: an element is a leaf or has
the two children `child( 0 )` and `child( 1 )`. -/
inductive Tree where
  /-- An element that is not refined. -/
  | leaf : Tree
  /-- An element with its two children. -/
  | node (child0 child1 : Tree) : Tree
  deriving DecidableEq, Repr

/-- Modelled from the spec: a valid `ElementInfo`, an element of the forest of
refinement trees.  It is given by the index of its macro element, the tree
below it, and for each ancestor step (from the element upwards) its index in
the father together with the tree below its sibling. -/
structure ElementInfo where
  /-- Index of the macro element that the element lies in. -/
  macroIndex : Nat
  /-- Refinement tree below the element. -/
  tree : Tree
  /-- From the element upwards: `indexInFather()` and the tree of the sibling. -/
  up : List (Fin 2 × Tree)
  deriving DecidableEq, Repr

/-- Modelled from the spec: the query `isLeaf()`. -/
def ElementInfo.isLeaf (e : ElementInfo) : Bool :=
  match e.tree with
  | Tree.leaf => true
  | Tree.node _ _ => false

/-- Modelled from the spec: the query `level()`, the number of ancestors. -/
def ElementInfo.level (e : ElementInfo) : Int := e.up.length

/-- Tree below the father of an element with tree `t`, index `i` in the father
and sibling tree `sibling`. -/
def fatherTree (t : Tree) (i : Fin 2) (sibling : Tree) : Tree :=
  if i = 0 then Tree.node t sibling else Tree.node sibling t

/-- Modelled from the spec: `father()`; an element of level 0 has none (the
invalid element). -/
def ElementInfo.father (e : ElementInfo) : Option ElementInfo :=
  match e.up with
  | [] => none
  | (i, sibling) :: up =>
    some { macroIndex := e.macroIndex, tree := fatherTree e.tree i sibling, up := up }

/-- Modelled from the spec: `child( i )`; a leaf has none (the invalid
element). -/
def ElementInfo.child (e : ElementInfo) (i : Fin 2) : Option ElementInfo :=
  match e.tree with
  | Tree.leaf => none
  | Tree.node c0 c1 =>
    some (if i = 0 then { macroIndex := e.macroIndex, tree := c0, up := (0, c1) :: e.up }
      else { macroIndex := e.macroIndex, tree := c1, up := (1, c0) :: e.up })

/-- Modelled from the spec: `*macroIterator_`, the macro element at the position
of the macro iterator; one after the last macro element it is the invalid
element. -/
def macroElement (macros : List Tree) (macroIterator_ : Nat) : Option ElementInfo :=
  (macros.get? macroIterator_).map
    (fun t => { macroIndex := macroIterator_, tree := t, up := [] })

/-- The members `level_`, `macroIterator_` and the element info of the entity of
a tree iterator of codimension 0, with the template argument `leafIterator`;
`none` is the invalid element info. -/
structure AlbertaGridTreeIterator where
  /-- Template argument `leafIterator`. -/
  leafIterator : Bool
  /-- Member `level_`. -/
  level_ : Int
  /-- Member `macroIterator_`, a position in the list of macro elements. -/
  macroIterator_ : Nat
  /-- The `elementInfo_` of the entity. -/
  elementInfo : Option ElementInfo

/-- The loop `while( (elementInfo.level() > 0) && (elementInfo.indexInFather()
== 1) ) elementInfo = elementInfo.father();` of `nextElement`, on the tree and
the ancestor steps of the element. -/
def climb (macroIndex : Nat) : Tree → List (Fin 2 × Tree) → ElementInfo
  | t, [] => { macroIndex := macroIndex, tree := t, up := [] }
  | t, (i, sibling) :: up =>
    if i = 1 then climb macroIndex (fatherTree t i sibling) up
    else { macroIndex := macroIndex, tree := t, up := (i, sibling) :: up }

/-- The function `nextElement( elementInfo )` for a valid element info: the
macro iterator and the element info after the call. -/
def nextElement (macros : List Tree) (macroIterator_ : Nat) (elementInfo : ElementInfo) :
    Nat × Option ElementInfo :=
  if elementInfo.isLeaf then
    let e := climb elementInfo.macroIndex elementInfo.tree elementInfo.up
    if e.level = 0 then
      (macroIterator_ + 1, macroElement macros (macroIterator_ + 1))
    else
      (macroIterator_, e.father.bind (fun f => f.child 1))
  else
    (macroIterator_, elementInfo.child 0)

/-- The function `stopAtElement( elementInfo )`. -/
def stopAtElement (leafIterator : Bool) (level_ : Int) (elementInfo : Option ElementInfo) :
    Bool :=
  match elementInfo with
  | none => true
  | some e => if leafIterator then e.isLeaf else decide (level_ = e.level)

/-- The function `nextElementStop( elementInfo )`: the loop `while(
!(!elementInfo || stopAtElement( elementInfo )) ) nextElement( elementInfo );`
with at most `fuel` passes; nothing is returned if the loop has not ended by
then. -/
def nextElementStop (macros : List Tree) (leafIterator : Bool) (level_ : Int) :
    Nat → Nat × Option ElementInfo → Option (Nat × Option ElementInfo)
  | 0, _ => none
  | fuel + 1, (macroIterator_, elementInfo) =>
    match elementInfo with
    | none => some (macroIterator_, none)
    | some e =>
      if !(stopAtElement leafIterator level_ (some e)) then
        nextElementStop macros leafIterator level_ fuel (nextElement macros macroIterator_ e)
      else some (macroIterator_, some e)

/-- The function `goNextElement( elementInfo )` for a valid element info. -/
def goNextElement (macros : List Tree) (leafIterator : Bool) (level_ : Int) (fuel : Nat)
    (macroIterator_ : Nat) (elementInfo : ElementInfo) : Option (Nat × Option ElementInfo) :=
  nextElementStop macros leafIterator level_ fuel (nextElement macros macroIterator_ elementInfo)

/-- The constructor `AlbertaGridTreeIterator( grid, vertexMark, travLevel )` for
codimension 0: the macro iterator is put to the first macro element and
`nextElementStop` is called. -/
def AlbertaGridTreeIterator.construct (macros : List Tree) (leafIterator : Bool)
    (travLevel : Int) (fuel : Nat) : Option AlbertaGridTreeIterator :=
  (nextElementStop macros leafIterator travLevel fuel (0, macroElement macros 0)).map
    (fun r => { leafIterator := leafIterator, level_ := travLevel,
                macroIterator_ := r.1, elementInfo := r.2 })

/-- The function `increment()` for codimension 0, where `goNextEntity` is
`goNextElement`, at an iterator with a valid element info; at the invalid
element info nothing is returned. -/
def AlbertaGridTreeIterator.increment (macros : List Tree) (fuel : Nat)
    (it : AlbertaGridTreeIterator) : Option AlbertaGridTreeIterator :=
  match it.elementInfo with
  | none => none
  | some e =>
    (goNextElement macros it.leafIterator it.level_ fuel it.macroIterator_ e).map
      (fun r => { it with macroIterator_ := r.1, elementInfo := r.2 })

/-- The elements that an iterator visits from its position on by repeated
`increment()` until its element info is invalid; nothing is returned if the
invalid element info is not reached within `steps` increments or an increment
does not return. -/
def visited (macros : List Tree) (fuel : Nat) : Nat → AlbertaGridTreeIterator →
    Option (List ElementInfo)
  | 0, it =>
    match it.elementInfo with
    | none => some []
    | some _ => none
  | steps + 1, it =>
    match it.elementInfo with
    | none => some []
    | some e =>
      match AlbertaGridTreeIterator.increment macros fuel it with
      | none => none
      | some it1 => (visited macros fuel steps it1).map (fun l => e :: l)

/-- In the words of the specification: the elements of the refinement tree `t`
that hangs at the ancestor steps `up` in the macro element `macroIndex`, in
depth-first order: the element itself, then the elements below child 0, then
those below child 1. -/
def preorder (macroIndex : Nat) : Tree → List (Fin 2 × Tree) → List ElementInfo
  | Tree.leaf, up => [{ macroIndex := macroIndex, tree := Tree.leaf, up := up }]
  | Tree.node c0 c1, up =>
    { macroIndex := macroIndex, tree := Tree.node c0 c1, up := up } ::
      (preorder macroIndex c0 ((0, c1) :: up) ++ preorder macroIndex c1 ((1, c0) :: up))

/-- In the words of the specification: the elements of the macro elements
numbered from `first` on, in depth-first order, macro elements in macro order. -/
def preorderFrom : Nat → List Tree → List ElementInfo
  | _, [] => []
  | first, t :: ts => preorder first t [] ++ preorderFrom (first + 1) ts

/-- In the words of the specification: all elements of the forest in
depth-first order. -/
def elements (macros : List Tree) : List ElementInfo := preorderFrom 0 macros

/-- In the words of the specification: the elements that the iterator is to
visit, the leaf elements for a leaf iterator and the elements of level `level_`
for a level iterator. -/
def wanted (leafIterator : Bool) (level_ : Int) (e : ElementInfo) : Bool :=
  if leafIterator then e.isLeaf else decide (e.level = level_)

/-- The elements that follow, in depth-first order and within the macro
element, the elements of the tree `t` that hangs at the ancestor steps `up`. -/
def after (macroIndex : Nat) : Tree → List (Fin 2 × Tree) → List ElementInfo
  | _, [] => []
  | t, (i, sibling) :: up =>
    if i = 0 then
      preorder macroIndex sibling ((1, t) :: up) ++ after macroIndex (fatherTree t i sibling) up
    else after macroIndex (fatherTree t i sibling) up

/-- The elements of the forest that follow the element `e` in depth-first
order. -/
def future (macros : List Tree) (e : ElementInfo) : List ElementInfo :=
  (preorder e.macroIndex e.tree e.up).tail ++ after e.macroIndex e.tree e.up ++
    preorderFrom (e.macroIndex + 1) (macros.drop (e.macroIndex + 1))

/-- The elements of the forest from the element info on in depth-first order;
none for the invalid element info. -/
def remaining (macros : List Tree) : Option ElementInfo → List ElementInfo
  | none => []
  | some e => e :: future macros e

/-- A forest of two macro elements: the first is refined once and its child 1
once more, the second is not refined. -/
def smallForest : List Tree :=
  [Tree.node Tree.leaf (Tree.node Tree.leaf Tree.leaf), Tree.leaf]

end Alberta

/-! ## Loops that act axis by axis -/

/-- Reading an array after an assignment. -/
theorem setAt_apply {dim : Nat} {α : Type} (a : Fin dim → α) (i : Fin dim) (v : α)
    (k : Fin dim) : setAt a i v k = if k = i then v else a k := rfl

/-- A fold whose step `i` rewrites only component `i` of the state, as a
function of that component, acts component by component. -/
theorem foldl_axis_local {dim : Nat} {σ τ : Type} (get : σ → Fin dim → τ)
    (body : Fin dim → σ → σ) (f : Fin dim → τ → τ)
    (h : ∀ i s k, get (body i s) k = if k = i then f i (get s i) else get s k)
    (l : List (Fin dim)) (hl : l.Nodup) (s : σ) (k : Fin dim) :
    get (l.foldl (fun acc i => body i acc) s) k = if k ∈ l then f k (get s k) else get s k := by
  induction l generalizing s with
  | nil => simp
  | cons a l ih =>
    rw [List.foldl_cons, ih (List.nodup_cons.mp hl).2]
    have ha : a ∉ l := (List.nodup_cons.mp hl).1
    by_cases hk : k = a
    · subst hk
      simp [ha, h]
    · simp [hk, h]

/-- A loop over the axes whose pass `i` rewrites only component `i` of the
state applies the per-axis function once to every component. -/
theorem forAxes_local {dim : Nat} {σ τ : Type} (get : σ → Fin dim → τ)
    (body : Fin dim → σ → σ) (f : Fin dim → τ → τ)
    (h : ∀ i s k, get (body i s) k = if k = i then f i (get s i) else get s k)
    (s : σ) (k : Fin dim) :
    get (forAxes dim body s) k = f k (get s k) := by
  unfold forAxes
  rw [foldl_axis_local get body f h _ (List.nodup_finRange dim)]
  simp

/-- A fold that only ever raises a flag ends with the flag raised iff it was
raised before or some step raises it. -/
theorem foldl_axis_flag {dim : Nat} {σ : Type} (flag : σ → Bool)
    (body : Fin dim → σ → σ) (cond : Fin dim → Bool)
    (h : ∀ i s, flag (body i s) = (flag s || cond i))
    (l : List (Fin dim)) (s : σ) :
    flag (l.foldl (fun acc i => body i acc) s) = (flag s || l.any cond) := by
  induction l generalizing s with
  | nil => simp
  | cons a l ih =>
    rw [List.foldl_cons, ih, h, List.any_cons, Bool.or_assoc]

/-- A loop over the axes that only ever raises a flag: the flag is set at the
end iff it was set before or some axis sets it. -/
theorem forAxes_flag {dim : Nat} {σ : Type} (flag : σ → Bool)
    (body : Fin dim → σ → σ) (cond : Fin dim → Bool)
    (h : ∀ i s, flag (body i s) = (flag s || cond i)) (s : σ) :
    flag (forAxes dim body s) = true ↔ (flag s = true ∨ ∃ j, cond j = true) := by
  unfold forAxes
  rw [foldl_axis_flag flag body cond h]
  simp

namespace YaspGrid

variable {dim : Nat}

/-! ## The loops of makelevel and intersections, axis by axis -/

/-- The first loop of `makelevel` in closed form, axis by axis. -/
theorem overlapInfo_axis (G : YaspGrid dim) (coords : CoordCont dim) (periodic : Bitset dim)
    (o_interior : iTupel dim) (overlap : Int) (k : Fin dim) :
    let info := overlapInfo G coords periodic o_interior overlap
    info.s_overlap k = coords.size k ∧
    info.o_overlap k =
      (if periodic k = true then o_interior k - overlap
       else if o_interior k - overlap < 0 then 0 else o_interior k - overlap) ∧
    info.ovlp_low k = (periodic k || decide (0 ≤ o_interior k - overlap)) ∧
    info.ovlp_up k = (periodic k ||
      decide ((if o_interior k - overlap < 0 then 0 else o_interior k - overlap)
        + coords.size k < G.globalSize k)) := by
  intro info
  have key := forAxes_local
    (fun (st : OverlapInfo dim) j => (st.s_overlap j, st.o_overlap j, st.ovlp_low j, st.ovlp_up j))
    (overlapInfoStep G coords periodic o_interior overlap)
    (fun j t => (coords.size j,
      (if periodic j = true then o_interior j - overlap
       else if o_interior j - overlap < 0 then 0 else o_interior j - overlap),
      (t.2.2.1 || periodic j || decide (0 ≤ o_interior j - overlap)),
      (t.2.2.2 || periodic j ||
      decide ((if o_interior j - overlap < 0 then 0 else o_interior j - overlap)
        + coords.size j < G.globalSize j))))
    (by
      intro i s j
      simp only [overlapInfoStep]
      by_cases hj : j = i
      · subst hj
        split_ifs <;> simp_all [setAt_apply]
      · split_ifs <;> simp_all [setAt_apply])
    { o_overlap := fun _ => 0, s_overlap := fun _ => 0
      ovlp_low := fun _ => false, ovlp_up := fun _ => false } k
  simpa only [Prod.mk.injEq, Bool.false_or] using key

/-- Effect of the overlapfront pass on axis `k`. -/
theorem buildOverlapfront_axis (r : Bitset dim) (os : OriginSize dim) (k : Fin dim) :
    (buildOverlapfront r os).origin k = os.origin k ∧
    (buildOverlapfront r os).size k = os.size k + (if r k = true then 0 else 1) := by
  have key := forAxes_local
    (fun (st : OriginSize dim) j => (st.origin j, st.size j))
    (buildOverlapfrontStep r)
    (fun j t => (t.1, t.2 + (if r j = true then 0 else 1)))
    (by
      intro i s j
      simp only [buildOverlapfrontStep]
      by_cases hj : j = i
      · subst hj
        split_ifs <;> simp_all [setAt_apply]
      · split_ifs <;> simp_all [setAt_apply])
    os k
  simpa only [Prod.mk.injEq] using key

/-- Effect of the overlap pass on axis `k`. -/
theorem buildOverlap_axis (info : OverlapInfo dim) (r : Bitset dim) (os : OriginSize dim)
    (k : Fin dim) :
    (buildOverlap info r os).origin k =
      os.origin k + (if r k = false ∧ info.ovlp_low k = true then 1 else 0) ∧
    (buildOverlap info r os).size k =
      os.size k - (if r k = false ∧ info.ovlp_low k = true then 1 else 0)
        - (if r k = false ∧ info.ovlp_up k = true then 1 else 0) := by
  have key := forAxes_local
    (fun (st : OriginSize dim) j => (st.origin j, st.size j))
    (buildOverlapStep info r)
    (fun j t => (t.1 + (if r j = false ∧ info.ovlp_low j = true then 1 else 0),
      t.2 - (if r j = false ∧ info.ovlp_low j = true then 1 else 0)
        - (if r j = false ∧ info.ovlp_up j = true then 1 else 0)))
    (by
      intro i s j
      simp only [buildOverlapStep]
      by_cases hj : j = i
      · subst hj
        split_ifs <;> simp_all [setAt_apply]
      · split_ifs <;> simp_all [setAt_apply])
    os k
  simpa only [Prod.mk.injEq] using key

/-- Effect of the interior pass on axis `k`. -/
theorem buildInterior_axis (info : OverlapInfo dim) (r : Bitset dim) (os : OriginSize dim)
    (k : Fin dim) :
    (buildInterior info r os).origin k =
      os.origin k + (if r k = false ∧ info.ovlp_low k = true then 1 else 0) ∧
    (buildInterior info r os).size k =
      os.size k - (if r k = false ∧ info.ovlp_low k = true then 1 else 0)
        - (if r k = false ∧ info.ovlp_up k = true then 1 else 0) := by
  have key := forAxes_local
    (fun (st : OriginSize dim) j => (st.origin j, st.size j))
    (buildInteriorStep info r)
    (fun j t => (t.1 + (if r j = false ∧ info.ovlp_low j = true then 1 else 0),
      t.2 - (if r j = false ∧ info.ovlp_low j = true then 1 else 0)
        - (if r j = false ∧ info.ovlp_up j = true then 1 else 0)))
    (by
      intro i s j
      simp only [buildInteriorStep]
      by_cases hj : j = i
      · subst hj
        split_ifs <;> simp_all [setAt_apply]
      · split_ifs <;> simp_all [setAt_apply])
    os k
  simpa only [Prod.mk.injEq] using key

/-- Effect of the interiorborder pass on axis `k`. -/
theorem buildInteriorborder_axis (info : OverlapInfo dim) (overlap : Int) (r : Bitset dim)
    (os : OriginSize dim) (k : Fin dim) :
    (buildInteriorborder info overlap r os).origin k =
      os.origin k + (if info.ovlp_low k = true then overlap - (if r k = true then 0 else 1) else 0) ∧
    (buildInteriorborder info overlap r os).size k =
      os.size k - (if info.ovlp_low k = true then overlap - (if r k = true then 0 else 1) else 0)
        - (if info.ovlp_up k = true then overlap - (if r k = true then 0 else 1) else 0) := by
  have key := forAxes_local
    (fun (st : OriginSize dim) j => (st.origin j, st.size j))
    (buildInteriorborderStep info overlap r)
    (fun j t =>
      (t.1 + (if info.ovlp_low j = true then overlap - (if r j = true then 0 else 1) else 0),
       t.2 - (if info.ovlp_low j = true then overlap - (if r j = true then 0 else 1) else 0)
        - (if info.ovlp_up j = true then overlap - (if r j = true then 0 else 1) else 0)))
    (by
      intro i s j
      simp only [buildInteriorborderStep]
      by_cases hj : j = i
      · subst hj
        split_ifs <;> simp_all [setAt_apply] <;> omega
      · split_ifs <;> simp_all [setAt_apply])
    os k
  simpa only [Prod.mk.injEq] using key

/-- Size of the coordinate container that `EquidistantSetup` requests, axis by
axis. -/
theorem equidistantOverlapSize_axis (G : YaspGrid dim) (periodic : Bitset dim) (overlap : Int)
    (o_interior s_interior : iTupel dim) (k : Fin dim) :
    equidistantOverlapSize G periodic overlap o_interior s_interior k =
      s_interior k
        + (if o_interior k - overlap > 0 ∨ periodic k = true then overlap else 0)
        + (if o_interior k + s_interior k + overlap ≤ G._coarseSize k ∨ periodic k = true
            then overlap else 0) := by
  have key := forAxes_local
    (fun (st : iTupel dim) j => st j)
    (equidistantOverlapSizeStep G periodic overlap o_interior s_interior)
    (fun j t => t
        + (if o_interior j - overlap > 0 ∨ periodic j = true then overlap else 0)
        + (if o_interior j + s_interior j + overlap ≤ G._coarseSize j ∨ periodic j = true
            then overlap else 0))
    (by
      intro i s j
      simp only [equidistantOverlapSizeStep]
      by_cases hj : j = i
      · subst hj
        split_ifs <;> simp_all [setAt_apply]
      · split_ifs <;> simp_all [setAt_apply])
    s_interior k
  exact key

/-- Each of the four ranges of a shift pattern in terms of the range built just
before it. -/
theorem shiftComponents_axis (info : OverlapInfo dim) (overlap : Int) (r : Bitset dim)
    (k : Fin dim) :
    (shiftComponents info overlap r).overlapfront.origin k = info.o_overlap k ∧
    (shiftComponents info overlap r).overlapfront.size k =
      info.s_overlap k + (if r k = true then 0 else 1) ∧
    (shiftComponents info overlap r).overlap.origin k =
      (shiftComponents info overlap r).overlapfront.origin k
        + (if r k = false ∧ info.ovlp_low k = true then 1 else 0) ∧
    (shiftComponents info overlap r).overlap.size k =
      (shiftComponents info overlap r).overlapfront.size k
        - (if r k = false ∧ info.ovlp_low k = true then 1 else 0)
        - (if r k = false ∧ info.ovlp_up k = true then 1 else 0) ∧
    (shiftComponents info overlap r).interiorborder.origin k =
      (shiftComponents info overlap r).overlap.origin k
        + (if info.ovlp_low k = true then overlap - (if r k = true then 0 else 1) else 0) ∧
    (shiftComponents info overlap r).interiorborder.size k =
      (shiftComponents info overlap r).overlap.size k
        - (if info.ovlp_low k = true then overlap - (if r k = true then 0 else 1) else 0)
        - (if info.ovlp_up k = true then overlap - (if r k = true then 0 else 1) else 0) ∧
    (shiftComponents info overlap r).interior.origin k =
      (shiftComponents info overlap r).interiorborder.origin k
        + (if r k = false ∧ info.ovlp_low k = true then 1 else 0) ∧
    (shiftComponents info overlap r).interior.size k =
      (shiftComponents info overlap r).interiorborder.size k
        - (if r k = false ∧ info.ovlp_low k = true then 1 else 0)
        - (if r k = false ∧ info.ovlp_up k = true then 1 else 0) := by
  simp only [shiftComponents, OriginSize.toComponent]
  refine ⟨(buildOverlapfront_axis r _ k).1, (buildOverlapfront_axis r _ k).2,
    (buildOverlap_axis info r _ k).1, (buildOverlap_axis info r _ k).2,
    (buildInteriorborder_axis info overlap r _ k).1,
    (buildInteriorborder_axis info overlap r _ k).2,
    (buildInterior_axis info r _ k).1, (buildInterior_axis info r _ k).2⟩

/-- The four ranges of a shift pattern in closed form, in terms of `o_overlap`,
`coords.size` and the two overlap flags. -/
theorem makelevelComponents_axis (G : YaspGrid dim) (coords : CoordCont dim)
    (periodic : Bitset dim) (o_interior : iTupel dim) (overlap : Int) (r : Bitset dim)
    (k : Fin dim) :
    (makelevelComponents G coords periodic o_interior overlap r).overlapfront.origin k =
      (overlapInfo G coords periodic o_interior overlap).o_overlap k ∧
    (makelevelComponents G coords periodic o_interior overlap r).overlapfront.size k =
      coords.size k + (if r k = true then 0 else 1) ∧
    (makelevelComponents G coords periodic o_interior overlap r).overlap.origin k =
      (overlapInfo G coords periodic o_interior overlap).o_overlap k
        + (if r k = false ∧ (overlapInfo G coords periodic o_interior overlap).ovlp_low k = true
            then 1 else 0) ∧
    (makelevelComponents G coords periodic o_interior overlap r).overlap.size k =
      coords.size k + (if r k = true then 0 else 1)
        - (if r k = false ∧ (overlapInfo G coords periodic o_interior overlap).ovlp_low k = true
            then 1 else 0)
        - (if r k = false ∧ (overlapInfo G coords periodic o_interior overlap).ovlp_up k = true
            then 1 else 0) ∧
    (makelevelComponents G coords periodic o_interior overlap r).interiorborder.origin k =
      (overlapInfo G coords periodic o_interior overlap).o_overlap k
        + (if (overlapInfo G coords periodic o_interior overlap).ovlp_low k = true
            then overlap else 0) ∧
    (makelevelComponents G coords periodic o_interior overlap r).interiorborder.size k =
      coords.size k + (if r k = true then 0 else 1)
        - (if (overlapInfo G coords periodic o_interior overlap).ovlp_low k = true
            then overlap else 0)
        - (if (overlapInfo G coords periodic o_interior overlap).ovlp_up k = true
            then overlap else 0) ∧
    (makelevelComponents G coords periodic o_interior overlap r).interior.origin k =
      (overlapInfo G coords periodic o_interior overlap).o_overlap k
        + (if (overlapInfo G coords periodic o_interior overlap).ovlp_low k = true
            then overlap else 0)
        + (if r k = false ∧ (overlapInfo G coords periodic o_interior overlap).ovlp_low k = true
            then 1 else 0) ∧
    (makelevelComponents G coords periodic o_interior overlap r).interior.size k =
      coords.size k + (if r k = true then 0 else 1)
        - (if (overlapInfo G coords periodic o_interior overlap).ovlp_low k = true
            then overlap else 0)
        - (if (overlapInfo G coords periodic o_interior overlap).ovlp_up k = true
            then overlap else 0)
        - (if r k = false ∧ (overlapInfo G coords periodic o_interior overlap).ovlp_low k = true
            then 1 else 0)
        - (if r k = false ∧ (overlapInfo G coords periodic o_interior overlap).ovlp_up k = true
            then 1 else 0) := by
  obtain ⟨h1, h2, h3, h4, h5, h6, h7, h8⟩ :=
    shiftComponents_axis (overlapInfo G coords periodic o_interior overlap) overlap r k
  have hs := (overlapInfo_axis G coords periodic o_interior overlap k).1
  simp only [makelevelComponents]
  rw [h7, h8, h5, h6, h3, h4, h1, h2, hs]
  refine ⟨rfl, rfl, rfl, rfl, ?_, ?_, ?_, ?_⟩ <;> split_ifs <;> simp_all <;> omega

/-- The loop over `index` appends the ranges of the accepted shift patterns to
the four component arrays. -/
theorem makelevelIndex_data (G : YaspGrid dim) (info : OverlapInfo dim) (overlap : Int)
    (codim : Nat)
    (l : List Nat) (g : YGridLevel dim) :
    (l.foldl (makelevelIndex G info overlap codim) g).overlapfront_data =
      g.overlapfront_data ++
        (l.filter (fun index => (bitsetOfIndex dim index).count = dim - codim)).map
          (fun index => (shiftComponents info overlap (bitsetOfIndex dim index)).overlapfront) ∧
    (l.foldl (makelevelIndex G info overlap codim) g).overlap_data =
      g.overlap_data ++
        (l.filter (fun index => (bitsetOfIndex dim index).count = dim - codim)).map
          (fun index => (shiftComponents info overlap (bitsetOfIndex dim index)).overlap) ∧
    (l.foldl (makelevelIndex G info overlap codim) g).interiorborder_data =
      g.interiorborder_data ++
        (l.filter (fun index => (bitsetOfIndex dim index).count = dim - codim)).map
          (fun index => (shiftComponents info overlap (bitsetOfIndex dim index)).interiorborder) ∧
    (l.foldl (makelevelIndex G info overlap codim) g).interior_data =
      g.interior_data ++
        (l.filter (fun index => (bitsetOfIndex dim index).count = dim - codim)).map
          (fun index => (shiftComponents info overlap (bitsetOfIndex dim index)).interior) := by
  induction l generalizing g with
  | nil => simp
  | cons a l ih =>
    rw [List.foldl_cons]
    obtain ⟨h1, h2, h3, h4⟩ := ih (makelevelIndex G info overlap codim g a)
    rw [h1, h2, h3, h4]
    by_cases hc : (bitsetOfIndex dim a).count = dim - codim
    · simp [makelevelIndex, hc, List.filter_cons]
    · simp [makelevelIndex, hc, List.filter_cons]

/-- The loop over `codim` appends the ranges codimension by codimension. -/
theorem makelevelCodim_data (G : YaspGrid dim) (info : OverlapInfo dim) (overlap : Int)
    (cs : List Nat) (g : YGridLevel dim) :
    (cs.foldl (makelevelCodim G info overlap) g).overlapfront_data =
      g.overlapfront_data ++ (cs.flatMap (shiftsOfCodim dim)).map
          (fun index => (shiftComponents info overlap (bitsetOfIndex dim index)).overlapfront) ∧
    (cs.foldl (makelevelCodim G info overlap) g).overlap_data =
      g.overlap_data ++ (cs.flatMap (shiftsOfCodim dim)).map
          (fun index => (shiftComponents info overlap (bitsetOfIndex dim index)).overlap) ∧
    (cs.foldl (makelevelCodim G info overlap) g).interiorborder_data =
      g.interiorborder_data ++ (cs.flatMap (shiftsOfCodim dim)).map
          (fun index => (shiftComponents info overlap (bitsetOfIndex dim index)).interiorborder) ∧
    (cs.foldl (makelevelCodim G info overlap) g).interior_data =
      g.interior_data ++ (cs.flatMap (shiftsOfCodim dim)).map
          (fun index => (shiftComponents info overlap (bitsetOfIndex dim index)).interior) := by
  induction cs generalizing g with
  | nil => simp
  | cons c cs ih =>
    rw [List.foldl_cons]
    obtain ⟨h1, h2, h3, h4⟩ := ih (makelevelCodim G info overlap g c)
    obtain ⟨k1, k2, k3, k4⟩ := makelevelIndex_data G info overlap c (List.range (2 ^ dim)) g
    rw [h1, h2, h3, h4]
    simp only [makelevelCodim, k1, k2, k3, k4, shiftsOfCodim, List.flatMap_cons, List.map_append,
      List.append_assoc, and_self]

/-- The component arrays of the level that `makelevel` builds hold, position by
position, the four ranges of the shift patterns in the order of `levelShifts`. -/
theorem buildLevel_data (G : YaspGrid dim) (coords : CoordCont dim) (periodic : Bitset dim)
    (o_interior : iTupel dim) (overlap : Int) :
    (buildLevel G coords periodic o_interior overlap).overlapfront_data =
      (levelShifts dim).map (fun index =>
        (makelevelComponents G coords periodic o_interior overlap
          (bitsetOfIndex dim index)).overlapfront) ∧
    (buildLevel G coords periodic o_interior overlap).overlap_data =
      (levelShifts dim).map (fun index =>
        (makelevelComponents G coords periodic o_interior overlap
          (bitsetOfIndex dim index)).overlap) ∧
    (buildLevel G coords periodic o_interior overlap).interiorborder_data =
      (levelShifts dim).map (fun index =>
        (makelevelComponents G coords periodic o_interior overlap
          (bitsetOfIndex dim index)).interiorborder) ∧
    (buildLevel G coords periodic o_interior overlap).interior_data =
      (levelShifts dim).map (fun index =>
        (makelevelComponents G coords periodic o_interior overlap
          (bitsetOfIndex dim index)).interior) := by
  have key := makelevelCodim_data G
    (overlapInfo G coords periodic o_interior overlap) overlap (List.range (dim + 1))
    { YGridLevel.empty dim with overlapSize := overlap, level_ := G.maxLevel, coords := coords }
  simpa only [buildLevel, levelShifts, makelevelComponents, YGridLevel.empty,
    List.nil_append] using key

/-- At the time `EquidistantSetup` makes level 0 the global size is the coarse
size. -/
theorem equidistantInit_globalSize (G : YaspGrid dim) (s : iTupel dim) (periodic : Bitset dim)
    (overlap : Int) (i : Fin dim) :
    (equidistantInit G s periodic overlap).globalSize i = s i := by
  have hl : (resizeLevels 1 G._levels).length = 1 := by
    unfold resizeLevels
    cases G._levels <;> simp
  simp [globalSize, levelSize, maxLevel, equidistantInit, hl]

/-- Where the level built by `EquidistantSetup` reproduces the block of the
process: on a shifted axis (so for the cells) the interior range has origin
`o_interior` and size `s_interior` if the axis is periodic, or the overlap is
zero, or the part of the domain below the block and the part above it are each
either empty or wider than the overlap. -/
theorem EquidistantSetup_interior_block (G : YaspGrid dim) (s : iTupel dim)
    (periodic : Bitset dim) (overlap : Int) (o_interior s_interior : iTupel dim)
    (r : Bitset dim) (i : Fin dim) (hr : r i = true) (hov : 0 ≤ overlap)
    (ho : 0 ≤ o_interior i)
    (h : periodic i = true ∨ overlap = 0 ∨
      ((o_interior i = 0 ∨ overlap < o_interior i) ∧
       (o_interior i + s_interior i = s i ∨ o_interior i + s_interior i + overlap < s i))) :
    (makelevelComponents (equidistantInit G s periodic overlap)
      (EquidistantCoordinates (equidistantOverlapSize (equidistantInit G s periodic overlap)
        periodic overlap o_interior s_interior)) periodic o_interior overlap r).interior.origin i
      = o_interior i ∧
    (makelevelComponents (equidistantInit G s periodic overlap)
      (EquidistantCoordinates (equidistantOverlapSize (equidistantInit G s periodic overlap)
        periodic overlap o_interior s_interior)) periodic o_interior overlap r).interior.size i
      = s_interior i := by
  obtain ⟨-, -, -, -, -, -, h7, h8⟩ := makelevelComponents_axis
    (equidistantInit G s periodic overlap)
    (EquidistantCoordinates (equidistantOverlapSize (equidistantInit G s periodic overlap)
        periodic overlap o_interior s_interior)) periodic o_interior overlap r i
  obtain ⟨-, k2, k3, k4⟩ := overlapInfo_axis
    (equidistantInit G s periodic overlap)
    (EquidistantCoordinates (equidistantOverlapSize (equidistantInit G s periodic overlap)
        periodic overlap o_interior s_interior)) periodic o_interior overlap i
  have hc := equidistantOverlapSize_axis (equidistantInit G s periodic overlap) periodic overlap
    o_interior s_interior i
  have hg := equidistantInit_globalSize G s periodic overlap i
  have hcs : (equidistantInit G s periodic overlap)._coarseSize i = s i := rfl
  rw [h7, h8, k2, k3, k4]
  simp only [EquidistantCoordinates, hc, hg, hcs, hr]
  clear h7 h8 k2 k3 k4 hc hg hcs
  by_cases hp : periodic i = true
  · simp [hp]
  · have hpf : periodic i = false := by simpa using hp
    simp only [hpf, Bool.false_eq_true, or_false, if_false, Bool.false_or, decide_eq_true_eq]
    have key : overlap = 0 ∨
        ((o_interior i = 0 ∨ overlap < o_interior i) ∧
         (o_interior i + s_interior i = s i ∨ o_interior i + s_interior i + overlap < s i)) := by
      rcases h with h | h | h
      · exact absurd h hp
      · exact Or.inl h
      · exact Or.inr h
    clear h
    by_cases c1 : o_interior i - overlap < 0 <;>
    by_cases c2 : o_interior i - overlap > 0 <;>
    by_cases c3 : o_interior i + s_interior i + overlap ≤ s i <;>
    simp only [c1, c2, c3, if_true, if_false, false_and] <;>
    split_ifs <;> first | omega | (exfalso; simp_all)

/-- Coordinate of the neighbour, axis by axis. -/
theorem neighborCoord_axis (G : YaspGrid dim) (delta : iTupel dim) (k : Fin dim) :
    neighborCoord G delta k = G._torus.coord k + delta k := by
  have key := forAxes_local
    (fun (nb : iTupel dim) j => nb j)
    (fun k nb => setAt nb k (nb k + delta k))
    (fun j t => t + delta j)
    (by
      intro i s j
      simp only [setAt_apply])
    G._torus.coord k
  exact key

/-- Movement accumulated by the loop over the axes. -/
theorem moveStep_v (G : YaspGrid dim) (size nb : iTupel dim) (st : MoveState dim)
    (k : Fin dim) :
    (forAxes dim (moveStep G size nb) st).v k =
      st.v k + (if nb k < 0 ∧ G._periodic k = true then size k else 0)
        - (if nb k ≥ (G._torus.dims k : Int) ∧ G._periodic k = true then size k else 0) := by
  have key := forAxes_local
    (fun (s : MoveState dim) j => s.v j)
    (moveStep G size nb)
    (fun j t => t + (if nb j < 0 ∧ G._periodic j = true then size j else 0)
        - (if nb j ≥ (G._torus.dims j : Int) ∧ G._periodic j = true then size j else 0))
    (by
      intro i s j
      simp only [moveStep]
      by_cases hj : j = i
      · subst hj
        split_ifs <;> simp_all [setAt_apply]
      · split_ifs <;> simp_all [setAt_apply])
    st k
  exact key

/-- The skip flag is set iff the neighbour lies outside the process grid on a
non-periodic axis. -/
theorem moveStep_skip (G : YaspGrid dim) (size nb : iTupel dim) (st : MoveState dim) :
    (forAxes dim (moveStep G size nb) st).skip = true ↔
      (st.skip = true ∨
        ∃ j, G._periodic j = false ∧ (nb j < 0 ∨ nb j ≥ (G._torus.dims j : Int))) := by
  have key := forAxes_flag
    (fun (s : MoveState dim) => s.skip)
    (moveStep G size nb)
    (fun j => !G._periodic j && (decide (nb j < 0) || decide (nb j ≥ (G._torus.dims j : Int))))
    (by
      intro i s
      simp only [moveStep]
      split_ifs <;> simp_all)
    st
  simpa using key

/-! ## Properties of EquidistantSetup and makelevel -/

/-- C1 (evaluation at a failing input).  One-dimensional non-periodic grid with
8 cells on 8 processes, overlap 1: for the process that owns the block of one
cell starting at cell 1, the cell interior range that `EquidistantSetup` and
`makelevel` build has origin 1 and size 0, not the size 1 of the block. -/
theorem C1_interior_cells_differ_from_block :
    (firstCell (level1 8 1 8 false 1 1 1).interior
        (level1 8 1 8 false 1 1 1).interior_data).map (fun c => (c.origin 0, c.size 0))
      = some (1, 0) := by
  decide

/-- C2 (evaluation at a failing input).  One-dimensional non-periodic grid with
2 cells on 2 processes, overlap 1: for the process that owns the block of one
cell starting at cell 1, the interior ranges of the cells and of the vertices
have the sizes -1 and -2. -/
theorem C2_interior_sizes_negative :
    boxes1 (level1 2 1 2 false 1 1 1).interior_data = [(1, -1), (2, -2)] := by
  decide

/-- C3.  With overlap at least 1 the four ranges that `makelevel` builds for a
shift pattern are nested on every axis: the origins do not decrease and the end
indices origin+size do not increase from overlapfront to overlap to
interiorborder to interior. -/
theorem C3_ranges_nested (G : YaspGrid dim) (coords : CoordCont dim) (periodic : Bitset dim)
    (o_interior : iTupel dim) (overlap : Int) (r : Bitset dim) (i : Fin dim)
    (h : 1 ≤ overlap) :
    (makelevelComponents G coords periodic o_interior overlap r).overlapfront.origin i
      ≤ (makelevelComponents G coords periodic o_interior overlap r).overlap.origin i ∧
    (makelevelComponents G coords periodic o_interior overlap r).overlap.origin i
      ≤ (makelevelComponents G coords periodic o_interior overlap r).interiorborder.origin i ∧
    (makelevelComponents G coords periodic o_interior overlap r).interiorborder.origin i
      ≤ (makelevelComponents G coords periodic o_interior overlap r).interior.origin i ∧
    (makelevelComponents G coords periodic o_interior overlap r).interior.origin i
        + (makelevelComponents G coords periodic o_interior overlap r).interior.size i
      ≤ (makelevelComponents G coords periodic o_interior overlap r).interiorborder.origin i
        + (makelevelComponents G coords periodic o_interior overlap r).interiorborder.size i ∧
    (makelevelComponents G coords periodic o_interior overlap r).interiorborder.origin i
        + (makelevelComponents G coords periodic o_interior overlap r).interiorborder.size i
      ≤ (makelevelComponents G coords periodic o_interior overlap r).overlap.origin i
        + (makelevelComponents G coords periodic o_interior overlap r).overlap.size i ∧
    (makelevelComponents G coords periodic o_interior overlap r).overlap.origin i
        + (makelevelComponents G coords periodic o_interior overlap r).overlap.size i
      ≤ (makelevelComponents G coords periodic o_interior overlap r).overlapfront.origin i
        + (makelevelComponents G coords periodic o_interior overlap r).overlapfront.size i := by
  obtain ⟨h1, h2, h3, h4, h5, h6, h7, h8⟩ :=
    makelevelComponents_axis G coords periodic o_interior overlap r i
  rw [h1, h2, h3, h4, h5, h6, h7, h8]
  generalize (overlapInfo G coords periodic o_interior overlap).ovlp_low i = lo
  generalize (overlapInfo G coords periodic o_interior overlap).ovlp_up i = up
  generalize r i = ri
  cases lo <;> cases up <;> cases ri <;> simp <;> omega

/-- C3 at a concrete input: process 0 of 2 on the one-dimensional grid with 8
cells and overlap 1 (its coordinate container holds 5 cells), vertex ranges. -/
theorem C3_ranges_nested_witness :
    (1 : Int) ≤ 1 ∧
    ((makelevelComponents (grid1Ready 2 0 8 false 1) (EquidistantCoordinates (tuple1 5))
        (bits1 false) (tuple1 0) 1 (bits1 false)).overlapfront.origin 0
      ≤ (makelevelComponents (grid1Ready 2 0 8 false 1) (EquidistantCoordinates (tuple1 5))
        (bits1 false) (tuple1 0) 1 (bits1 false)).overlap.origin 0 ∧
    (makelevelComponents (grid1Ready 2 0 8 false 1) (EquidistantCoordinates (tuple1 5))
        (bits1 false) (tuple1 0) 1 (bits1 false)).overlap.origin 0
      ≤ (makelevelComponents (grid1Ready 2 0 8 false 1) (EquidistantCoordinates (tuple1 5))
        (bits1 false) (tuple1 0) 1 (bits1 false)).interiorborder.origin 0 ∧
    (makelevelComponents (grid1Ready 2 0 8 false 1) (EquidistantCoordinates (tuple1 5))
        (bits1 false) (tuple1 0) 1 (bits1 false)).interiorborder.origin 0
      ≤ (makelevelComponents (grid1Ready 2 0 8 false 1) (EquidistantCoordinates (tuple1 5))
        (bits1 false) (tuple1 0) 1 (bits1 false)).interior.origin 0 ∧
    (makelevelComponents (grid1Ready 2 0 8 false 1) (EquidistantCoordinates (tuple1 5))
        (bits1 false) (tuple1 0) 1 (bits1 false)).interior.origin 0
        + (makelevelComponents (grid1Ready 2 0 8 false 1) (EquidistantCoordinates (tuple1 5))
        (bits1 false) (tuple1 0) 1 (bits1 false)).interior.size 0
      ≤ (makelevelComponents (grid1Ready 2 0 8 false 1) (EquidistantCoordinates (tuple1 5))
        (bits1 false) (tuple1 0) 1 (bits1 false)).interiorborder.origin 0
        + (makelevelComponents (grid1Ready 2 0 8 false 1) (EquidistantCoordinates (tuple1 5))
        (bits1 false) (tuple1 0) 1 (bits1 false)).interiorborder.size 0 ∧
    (makelevelComponents (grid1Ready 2 0 8 false 1) (EquidistantCoordinates (tuple1 5))
        (bits1 false) (tuple1 0) 1 (bits1 false)).interiorborder.origin 0
        + (makelevelComponents (grid1Ready 2 0 8 false 1) (EquidistantCoordinates (tuple1 5))
        (bits1 false) (tuple1 0) 1 (bits1 false)).interiorborder.size 0
      ≤ (makelevelComponents (grid1Ready 2 0 8 false 1) (EquidistantCoordinates (tuple1 5))
        (bits1 false) (tuple1 0) 1 (bits1 false)).overlap.origin 0
        + (makelevelComponents (grid1Ready 2 0 8 false 1) (EquidistantCoordinates (tuple1 5))
        (bits1 false) (tuple1 0) 1 (bits1 false)).overlap.size 0 ∧
    (makelevelComponents (grid1Ready 2 0 8 false 1) (EquidistantCoordinates (tuple1 5))
        (bits1 false) (tuple1 0) 1 (bits1 false)).overlap.origin 0
        + (makelevelComponents (grid1Ready 2 0 8 false 1) (EquidistantCoordinates (tuple1 5))
        (bits1 false) (tuple1 0) 1 (bits1 false)).overlap.size 0
      ≤ (makelevelComponents (grid1Ready 2 0 8 false 1) (EquidistantCoordinates (tuple1 5))
        (bits1 false) (tuple1 0) 1 (bits1 false)).overlapfront.origin 0
        + (makelevelComponents (grid1Ready 2 0 8 false 1) (EquidistantCoordinates (tuple1 5))
        (bits1 false) (tuple1 0) 1 (bits1 false)).overlapfront.size 0) :=
  ⟨by decide, C3_ranges_nested (grid1Ready 2 0 8 false 1) (EquidistantCoordinates (tuple1 5))
    (bits1 false) (tuple1 0) 1 (bits1 false) 0 (by decide)⟩

/-- C4.  For every shift pattern `r` the overlapfront range built by `makelevel`
has origin `o_overlap` and on axis `i` the size `coords.size(i)+1` if the axis
is not shifted and `coords.size(i)` if it is shifted. -/
theorem C4_overlapfront (G : YaspGrid dim) (coords : CoordCont dim) (periodic : Bitset dim)
    (o_interior : iTupel dim) (overlap : Int) (r : Bitset dim) (i : Fin dim) :
    (makelevelComponents G coords periodic o_interior overlap r).overlapfront.origin i
      = (overlapInfo G coords periodic o_interior overlap).o_overlap i ∧
    (makelevelComponents G coords periodic o_interior overlap r).overlapfront.size i
      = (if r i = false then coords.size i + 1 else coords.size i) := by
  obtain ⟨h1, h2, -⟩ := makelevelComponents_axis G coords periodic o_interior overlap r i
  rw [h1, h2]
  refine ⟨rfl, ?_⟩
  split_ifs <;> simp_all

/-- C5 as stated fails.  Process 0 of 2 on the one-dimensional non-periodic
grid with 8 cells and overlap 2 (interior block of 4 cells at 0, container of 6
cells, overlap area above only): the overlap range of the cells is not the
overlapfront range with 2 cells trimmed above, it is the whole overlapfront
range. -/
theorem C5_overlap_not_trimmed_by_width :
    ¬ ((makelevelComponents (grid1Ready 2 0 8 false 2) (EquidistantCoordinates (tuple1 6))
          (bits1 false) (tuple1 0) 2 (bits1 true)).overlap.origin 0
        = (makelevelComponents (grid1Ready 2 0 8 false 2) (EquidistantCoordinates (tuple1 6))
            (bits1 false) (tuple1 0) 2 (bits1 true)).overlapfront.origin 0
          + 2 * (if (overlapInfo (grid1Ready 2 0 8 false 2) (EquidistantCoordinates (tuple1 6))
              (bits1 false) (tuple1 0) 2).ovlp_low 0 = true then 1 else 0) ∧
      (makelevelComponents (grid1Ready 2 0 8 false 2) (EquidistantCoordinates (tuple1 6))
          (bits1 false) (tuple1 0) 2 (bits1 true)).overlap.size 0
        = (makelevelComponents (grid1Ready 2 0 8 false 2) (EquidistantCoordinates (tuple1 6))
            (bits1 false) (tuple1 0) 2 (bits1 true)).overlapfront.size 0
          - 2 * (if (overlapInfo (grid1Ready 2 0 8 false 2) (EquidistantCoordinates (tuple1 6))
              (bits1 false) (tuple1 0) 2).ovlp_low 0 = true then 1 else 0)
          - 2 * (if (overlapInfo (grid1Ready 2 0 8 false 2) (EquidistantCoordinates (tuple1 6))
              (bits1 false) (tuple1 0) 2).ovlp_up 0 = true then 1 else 0)) := by
  decide

/-- C5 amended.  For every shift pattern the overlap range built by `makelevel`
is the overlapfront range with one index trimmed on each side that has an
overlap region on every axis that is not shifted, and it equals the
overlapfront range on every shifted axis. -/
theorem C5_overlap_trims_front_layer (G : YaspGrid dim) (coords : CoordCont dim)
    (periodic : Bitset dim) (o_interior : iTupel dim) (overlap : Int) (r : Bitset dim)
    (i : Fin dim) :
    (makelevelComponents G coords periodic o_interior overlap r).overlap.origin i
      = (makelevelComponents G coords periodic o_interior overlap r).overlapfront.origin i
        + (if r i = false ∧ (overlapInfo G coords periodic o_interior overlap).ovlp_low i = true
            then 1 else 0) ∧
    (makelevelComponents G coords periodic o_interior overlap r).overlap.size i
      = (makelevelComponents G coords periodic o_interior overlap r).overlapfront.size i
        - (if r i = false ∧ (overlapInfo G coords periodic o_interior overlap).ovlp_low i = true
            then 1 else 0)
        - (if r i = false ∧ (overlapInfo G coords periodic o_interior overlap).ovlp_up i = true
            then 1 else 0) := by
  obtain ⟨h1, h2, h3, h4, -⟩ := makelevelComponents_axis G coords periodic o_interior overlap r i
  rw [h1, h2, h3, h4]
  exact ⟨rfl, rfl⟩

/-- C6.  For every shift pattern and every axis, shifted or not, the
interiorborder range built by `makelevel` is the overlapfront range trimmed by
exactly `overlap` cells on each side that has an overlap region. -/
theorem C6_interiorborder (G : YaspGrid dim) (coords : CoordCont dim) (periodic : Bitset dim)
    (o_interior : iTupel dim) (overlap : Int) (r : Bitset dim) (i : Fin dim) :
    (makelevelComponents G coords periodic o_interior overlap r).interiorborder.origin i
      = (makelevelComponents G coords periodic o_interior overlap r).overlapfront.origin i
        + overlap * (if (overlapInfo G coords periodic o_interior overlap).ovlp_low i = true
            then 1 else 0) ∧
    (makelevelComponents G coords periodic o_interior overlap r).interiorborder.size i
      = (makelevelComponents G coords periodic o_interior overlap r).overlapfront.size i
        - overlap * (if (overlapInfo G coords periodic o_interior overlap).ovlp_low i = true
            then 1 else 0)
        - overlap * (if (overlapInfo G coords periodic o_interior overlap).ovlp_up i = true
            then 1 else 0) := by
  obtain ⟨h1, h2, -, -, h5, h6, -⟩ :=
    makelevelComponents_axis G coords periodic o_interior overlap r i
  rw [h1, h2, h5, h6]
  constructor <;> split_ifs <;> simp

/-- C7.  For every shift pattern the interior range built by `makelevel` equals
the interiorborder range on every shifted axis; on every axis that is not
shifted it is the interiorborder range with one index removed on each side that
has an overlap region (origin+1 and size-1 below, size-1 above). -/
theorem C7_interior (G : YaspGrid dim) (coords : CoordCont dim) (periodic : Bitset dim)
    (o_interior : iTupel dim) (overlap : Int) (r : Bitset dim) (i : Fin dim) :
    (makelevelComponents G coords periodic o_interior overlap r).interior.origin i
      = (if r i = true then
          (makelevelComponents G coords periodic o_interior overlap r).interiorborder.origin i
         else
          (makelevelComponents G coords periodic o_interior overlap r).interiorborder.origin i
            + (if (overlapInfo G coords periodic o_interior overlap).ovlp_low i = true
                then 1 else 0)) ∧
    (makelevelComponents G coords periodic o_interior overlap r).interior.size i
      = (if r i = true then
          (makelevelComponents G coords periodic o_interior overlap r).interiorborder.size i
         else
          (makelevelComponents G coords periodic o_interior overlap r).interiorborder.size i
            - (if (overlapInfo G coords periodic o_interior overlap).ovlp_low i = true
                then 1 else 0)
            - (if (overlapInfo G coords periodic o_interior overlap).ovlp_up i = true
                then 1 else 0)) := by
  obtain ⟨-, -, -, -, h5, h6, h7, h8⟩ :=
    makelevelComponents_axis G coords periodic o_interior overlap r i
  rw [h5, h6, h7, h8]
  constructor <;> split_ifs <;> simp_all

/-- C8 as stated fails.  Process 1 of 2 on the one-dimensional non-periodic
grid with 8 cells and overlap 0 (interior block of 4 cells at 4): the vertex
ranges of the four families are not identical, the vertex 4 on the process
boundary belongs to overlapfront and interiorborder but not to overlap and
interior. -/
theorem C8_ranges_differ_at_overlap_zero :
    ¬ (boxes1 (level1 2 1 8 false 0 4 4).interior_data
          = boxes1 (level1 2 1 8 false 0 4 4).interiorborder_data ∧
       boxes1 (level1 2 1 8 false 0 4 4).interiorborder_data
          = boxes1 (level1 2 1 8 false 0 4 4).overlap_data ∧
       boxes1 (level1 2 1 8 false 0 4 4).overlap_data
          = boxes1 (level1 2 1 8 false 0 4 4).overlapfront_data) := by
  decide

/-- C8 amended.  When `makelevel` is called with overlap 0, for every shift
pattern interiorborder has the origin and size of overlapfront and interior has
the origin and size of overlap; on a shifted axis all four ranges are identical
(so the cell ranges of codimension 0 are identical); on an axis that is not
shifted overlap is overlapfront with one index removed on each side whose
overlap flag is set. -/
theorem C8_overlap_zero (G : YaspGrid dim) (coords : CoordCont dim) (periodic : Bitset dim)
    (o_interior : iTupel dim) (r : Bitset dim) (i : Fin dim) :
    (makelevelComponents G coords periodic o_interior 0 r).interiorborder.origin i
      = (makelevelComponents G coords periodic o_interior 0 r).overlapfront.origin i ∧
    (makelevelComponents G coords periodic o_interior 0 r).interiorborder.size i
      = (makelevelComponents G coords periodic o_interior 0 r).overlapfront.size i ∧
    (makelevelComponents G coords periodic o_interior 0 r).interior.origin i
      = (makelevelComponents G coords periodic o_interior 0 r).overlap.origin i ∧
    (makelevelComponents G coords periodic o_interior 0 r).interior.size i
      = (makelevelComponents G coords periodic o_interior 0 r).overlap.size i ∧
    (if r i = true then
      (makelevelComponents G coords periodic o_interior 0 r).overlap.origin i
        = (makelevelComponents G coords periodic o_interior 0 r).overlapfront.origin i ∧
      (makelevelComponents G coords periodic o_interior 0 r).overlap.size i
        = (makelevelComponents G coords periodic o_interior 0 r).overlapfront.size i
     else
      (makelevelComponents G coords periodic o_interior 0 r).overlap.origin i
        = (makelevelComponents G coords periodic o_interior 0 r).overlapfront.origin i
          + (if (overlapInfo G coords periodic o_interior 0).ovlp_low i = true then 1 else 0) ∧
      (makelevelComponents G coords periodic o_interior 0 r).overlap.size i
        = (makelevelComponents G coords periodic o_interior 0 r).overlapfront.size i
          - (if (overlapInfo G coords periodic o_interior 0).ovlp_low i = true then 1 else 0)
          - (if (overlapInfo G coords periodic o_interior 0).ovlp_up i = true then 1 else 0)) := by
  obtain ⟨h1, h2, h3, h4, h5, h6, h7, h8⟩ :=
    makelevelComponents_axis G coords periodic o_interior 0 r i
  rw [h1, h2, h3, h4, h5, h6, h7, h8]
  generalize (overlapInfo G coords periodic o_interior 0).ovlp_low i = lo
  generalize (overlapInfo G coords periodic o_interior 0).ovlp_up i = up
  generalize r i = ri
  cases lo <;> cases up <;> cases ri <;> simp

/-- C9.  In `makelevel`, on a periodic axis both overlap flags are set and
`o_overlap = o_interior - overlap`; on a non-periodic axis the lower flag is set
iff `o_interior - overlap >= 0` (then `o_overlap = o_interior - overlap`,
otherwise `o_overlap = 0`) and the upper flag is set iff
`o_overlap + coords.size < globalSize` on that axis. -/
theorem C9_overlap_flags (G : YaspGrid dim) (coords : CoordCont dim) (periodic : Bitset dim)
    (o_interior : iTupel dim) (overlap : Int) (i : Fin dim) :
    if periodic i = true then
      (overlapInfo G coords periodic o_interior overlap).ovlp_low i = true ∧
      (overlapInfo G coords periodic o_interior overlap).ovlp_up i = true ∧
      (overlapInfo G coords periodic o_interior overlap).o_overlap i = o_interior i - overlap
    else
      ((overlapInfo G coords periodic o_interior overlap).ovlp_low i = true
        ↔ 0 ≤ o_interior i - overlap) ∧
      (overlapInfo G coords periodic o_interior overlap).o_overlap i
        = (if 0 ≤ o_interior i - overlap then o_interior i - overlap else 0) ∧
      ((overlapInfo G coords periodic o_interior overlap).ovlp_up i = true
        ↔ (overlapInfo G coords periodic o_interior overlap).o_overlap i + coords.size i
            < G.globalSize i) := by
  obtain ⟨-, h2, h3, h4⟩ := overlapInfo_axis G coords periodic o_interior overlap i
  rw [h2, h3, h4]
  by_cases hp : periodic i = true
  · simp [hp]
  · by_cases h0 : o_interior i - overlap < 0
    · have h0' : ¬ (0 ≤ o_interior i - overlap) := by omega
      simp [hp, h0, h0']
    · have h0' : 0 ≤ o_interior i - overlap := by omega
      simp [hp, h0, h0']

/-! ## Properties of the send buffers of intersections -/

/-- C10.  In `intersections`, for the neighbour reached by the topology offset
`delta`, the movement `v` is on axis `k`: `+globalSize(k)` if
`coord[k]+delta[k] < 0` and the axis is periodic, `-globalSize(k)` if
`coord[k]+delta[k] >= dims(k)` and the axis is periodic, and 0 otherwise.  If on
some non-periodic axis `coord+delta` lies outside `[0, dims)`, the neighbour is
skipped: the default grid with origin zero and size zero is sent for both the
send grid and the recv grid; otherwise both grids are sent moved by `v`. -/
theorem C10_displacement (G : YaspGrid dim) (sendgrid recvgrid : YGridComponent dim)
    (delta : iTupel dim) (k : Fin dim) :
    (neighborMove G delta).v k =
      (if G._torus.coord k + delta k < 0 ∧ G._periodic k = true then G.globalSize k
       else if G._torus.coord k + delta k ≥ (G._torus.dims k : Int) ∧ G._periodic k = true
         then - G.globalSize k
       else 0) ∧
    (if ∃ j, G._periodic j = false ∧
          (G._torus.coord j + delta j < 0 ∨ G._torus.coord j + delta j ≥ (G._torus.dims j : Int))
     then
      sentGrids G sendgrid recvgrid delta =
        ({ origin := fun _ => 0, size := fun _ => 0 }, { origin := fun _ => 0, size := fun _ => 0 })
     else
      sentGrids G sendgrid recvgrid delta =
        (mpifriendly_ygrid.ofGrid (sendgrid.move (neighborMove G delta).v),
         mpifriendly_ygrid.ofGrid (recvgrid.move (neighborMove G delta).v))) := by
  constructor
  · unfold neighborMove
    rw [moveStep_v, neighborCoord_axis]
    have hd : (0 : Int) ≤ (G._torus.dims k : Int) := Int.ofNat_nonneg _
    split_ifs <;> first | omega | simp_all
  · have hs := moveStep_skip G (fun i => G.globalSize i) (neighborCoord G delta)
      { v := fun _ => 0, skip := false }
    simp only [neighborCoord_axis] at hs
    by_cases hx : ∃ j, G._periodic j = false ∧
          (G._torus.coord j + delta j < 0 ∨ G._torus.coord j + delta j ≥ (G._torus.dims j : Int))
    · have hsk : (neighborMove G delta).skip = true := by
        unfold neighborMove
        exact hs.mpr (Or.inr hx)
      rw [if_pos hx]
      simp [sentGrids, sendBuffers, hsk, mpifriendly_ygrid.ofGrid, YGridComponent.default]
    · have hsk : (neighborMove G delta).skip = false := by
        unfold neighborMove
        cases hc : (forAxes dim (moveStep G (fun i => G.globalSize i) (neighborCoord G delta))
            { v := fun _ => 0, skip := false }).skip
        · rfl
        · rcases hs.mp hc with h | h
          · simp at h
          · exact absurd h hx
      rw [if_neg hx]
      simp [sentGrids, sendBuffers, hsk]

/-- The loop over the receive enumeration in closed form: the send list grows
at the front, the receive list at the back, by the non-empty intersections. -/
theorem intersections_fold (sendgrid recvgrid : YGridComponent dim)
    (rs rr : Nat → mpifriendly_ygrid dim) (l : List (ProcListEntry dim))
    (sendlist recvlist : List (Intersection dim)) :
    l.foldl (intersectionsStep sendgrid recvgrid rs rr) (sendlist, recvlist) =
      ((((l.filter (fun i => !(sendIntersection sendgrid rr i).grid.empty)).map
          (sendIntersection sendgrid rr)).reverse) ++ sendlist,
       recvlist ++ (l.filter (fun i => !(recvIntersection recvgrid rs i).grid.empty)).map
          (recvIntersection recvgrid rs)) := by
  induction l generalizing sendlist recvlist with
  | nil => simp
  | cons a l ih =>
    rw [List.foldl_cons]
    simp only [intersectionsStep]
    rw [ih]
    by_cases h1 : (sendIntersection sendgrid rr a).grid.empty = true <;>
    by_cases h2 : (recvIntersection recvgrid rs a).grid.empty = true <;>
    simp_all [sendIntersection, recvIntersection, List.filter_cons]


/-! ## Properties of the lists built by intersections -/

/-- C11.  After `intersections`, started with empty lists, the send list holds,
for exactly the neighbours whose received recv grid meets `sendgrid`, one
Intersection with that intersection as grid and the rank and distance of the
neighbour; likewise the receive list for `recvgrid` and the received send grids;
no Intersection with an empty grid is stored. -/
theorem C11_lists_hold_nonempty_intersections (G : YaspGrid dim)
    (sendgrid recvgrid : YGridComponent dim) (rs rr : Nat → mpifriendly_ygrid dim) :
    (intersections G sendgrid recvgrid rs rr [] []).1 =
      ((G._torus.recvlist.filter
          (fun i => !(sendgrid.intersection (rr i.index).toGrid).empty)).map
        (fun i => { grid := sendgrid.intersection (rr i.index).toGrid
                    rank := i.rank, distance := i.distance })).reverse ∧
    (intersections G sendgrid recvgrid rs rr [] []).2 =
      (G._torus.recvlist.filter
          (fun i => !(recvgrid.intersection (rs i.index).toGrid).empty)).map
        (fun i => { grid := recvgrid.intersection (rs i.index).toGrid
                    rank := i.rank, distance := i.distance }) ∧
    (intersections G sendgrid recvgrid rs rr [] []).1.all (fun x => !x.grid.empty) = true ∧
    (intersections G sendgrid recvgrid rs rr [] []).2.all (fun x => !x.grid.empty) = true := by
  unfold intersections
  rw [intersections_fold]
  refine ⟨by simp [sendIntersection], by simp [recvIntersection], ?_, ?_⟩
  · simp only [List.append_nil, List.all_eq_true, List.mem_reverse, List.mem_map,
      List.mem_filter]
    rintro x ⟨i, ⟨-, hi⟩, rfl⟩
    exact hi
  · simp only [List.nil_append, List.all_eq_true, List.mem_map, List.mem_filter]
    rintro x ⟨i, ⟨-, hi⟩, rfl⟩
    exact hi

/-- C13 as stated fails.  One-dimensional process with the neighbours of rank 1
and rank 2 enumerated in this order, all grids `[0,4)`: both neighbours yield
non-empty intersections, the receive list is in the order 1, 2 but the send
list is in the order 2, 1. -/
theorem C13_sendlist_not_in_enumeration_order :
    ¬ (List.Sublist [1, 2] ((intersections (grid1N 3 0 [entry1 (-1) 1 0, entry1 1 2 1])
            (box1 0 4) (box1 0 4) (fun _ => record1 0 4) (fun _ => record1 0 4) [] []).1.map
              (fun x => x.rank)) ∧
       List.Sublist [1, 2] ((intersections (grid1N 3 0 [entry1 (-1) 1 0, entry1 1 2 1])
            (box1 0 4) (box1 0 4) (fun _ => record1 0 4) (fun _ => record1 0 4) [] []).2.map
              (fun x => x.rank))) := by
  decide

/-- C13 amended.  If the neighbour `a` is enumerated before the neighbour `b` by
the receive enumeration and both yield non-empty intersections, then in the
receive list the Intersection of `a` precedes that of `b`, and in the send list
(filled at the front) the Intersection of `b` precedes that of `a`. -/
theorem C13_recvlist_in_order_sendlist_reversed (G : YaspGrid dim)
    (sendgrid recvgrid : YGridComponent dim) (rs rr : Nat → mpifriendly_ygrid dim)
    (a b : ProcListEntry dim) (hab : List.Sublist [a, b] G._torus.recvlist)
    (has : (sendIntersection sendgrid rr a).grid.empty = false)
    (hbs : (sendIntersection sendgrid rr b).grid.empty = false)
    (har : (recvIntersection recvgrid rs a).grid.empty = false)
    (hbr : (recvIntersection recvgrid rs b).grid.empty = false) :
    List.Sublist [recvIntersection recvgrid rs a, recvIntersection recvgrid rs b]
      (intersections G sendgrid recvgrid rs rr [] []).2 ∧
    List.Sublist [sendIntersection sendgrid rr b, sendIntersection sendgrid rr a]
      (intersections G sendgrid recvgrid rs rr [] []).1 := by
  unfold intersections
  rw [intersections_fold]
  constructor
  · have h1 := (hab.filter (fun i => !(recvIntersection recvgrid rs i).grid.empty)).map
      (recvIntersection recvgrid rs)
    simpa [List.filter_cons, har, hbr] using h1
  · have h1 := ((hab.filter (fun i => !(sendIntersection sendgrid rr i).grid.empty)).map
      (sendIntersection sendgrid rr)).reverse
    simpa [List.filter_cons, has, hbs] using h1


/-- C13 amended, at a concrete input: the two neighbours of rank 1 and 2 of a
one-dimensional process, all grids `[0,4)`. -/
theorem C13_recvlist_in_order_sendlist_reversed_witness :
    List.Sublist [entry1 (-1) 1 0, entry1 1 2 1]
      (grid1N 3 0 [entry1 (-1) 1 0, entry1 1 2 1])._torus.recvlist ∧
    (sendIntersection (box1 0 4) (fun _ => record1 0 4) (entry1 (-1) 1 0)).grid.empty = false ∧
    (sendIntersection (box1 0 4) (fun _ => record1 0 4) (entry1 1 2 1)).grid.empty = false ∧
    (recvIntersection (box1 0 4) (fun _ => record1 0 4) (entry1 (-1) 1 0)).grid.empty = false ∧
    (recvIntersection (box1 0 4) (fun _ => record1 0 4) (entry1 1 2 1)).grid.empty = false ∧
    (List.Sublist [recvIntersection (box1 0 4) (fun _ => record1 0 4) (entry1 (-1) 1 0),
        recvIntersection (box1 0 4) (fun _ => record1 0 4) (entry1 1 2 1)]
      (intersections (grid1N 3 0 [entry1 (-1) 1 0, entry1 1 2 1]) (box1 0 4) (box1 0 4)
        (fun _ => record1 0 4) (fun _ => record1 0 4) [] []).2 ∧
    List.Sublist [sendIntersection (box1 0 4) (fun _ => record1 0 4) (entry1 1 2 1),
        sendIntersection (box1 0 4) (fun _ => record1 0 4) (entry1 (-1) 1 0)]
      (intersections (grid1N 3 0 [entry1 (-1) 1 0, entry1 1 2 1]) (box1 0 4) (box1 0 4)
        (fun _ => record1 0 4) (fun _ => record1 0 4) [] []).1) :=
  ⟨List.Sublist.refl _, by decide, by decide, by decide, by decide,
    C13_recvlist_in_order_sendlist_reversed (grid1N 3 0 [entry1 (-1) 1 0, entry1 1 2 1])
      (box1 0 4) (box1 0 4) (fun _ => record1 0 4) (fun _ => record1 0 4)
      (entry1 (-1) 1 0) (entry1 1 2 1) (List.Sublist.refl _)
      (by decide) (by decide) (by decide) (by decide)⟩

/-- A range is empty iff its size is zero on some axis. -/
theorem empty_iff (g : YGridComponent dim) : g.empty = true ↔ ∃ i, g.size i = 0 := by
  simp [YGridComponent.empty]

/-- C16.  For all index ranges `A` and `B`, `A.intersection(B)` has the origin
and the size of `B.intersection(A)` on every axis, and the result is empty
unless on every axis the intervals `[origin, origin+size)` of `A` and `B`
overlap (the later interval begins before the earlier one ends). -/
theorem C16_intersection_commutes (A B : YGridComponent dim) (i : Fin dim) :
    (A.intersection B).origin i = (B.intersection A).origin i ∧
    (A.intersection B).size i = (B.intersection A).size i ∧
    ((A.intersection B).empty = true ∨
      ∀ j, max (A.origin j) (B.origin j) < min (A.origin j + A.size j) (B.origin j + B.size j)) := by
  refine ⟨?_, ?_, ?_⟩
  · simp only [YGridComponent.intersection]
    exact max_comm _ _
  · simp only [YGridComponent.intersection]
    rw [max_comm (A.origin i) (B.origin i), min_comm (A.origin i + A.size i)]
  · by_cases h : ∀ j, max (A.origin j) (B.origin j)
        < min (A.origin j + A.size j) (B.origin j + B.size j)
    · exact Or.inr h
    · left
      push_neg at h
      obtain ⟨j, hj⟩ := h
      rw [empty_iff]
      refine ⟨j, ?_⟩
      simp only [YGridComponent.intersection]
      omega

/-- Movement towards the neighbour reached by `delta`, axis by axis. -/
theorem neighborMove_v (G : YaspGrid dim) (delta : iTupel dim) (k : Fin dim) :
    (neighborMove G delta).v k =
      (if G._torus.coord k + delta k < 0 ∧ G._periodic k = true then G.globalSize k else 0)
        - (if G._torus.coord k + delta k ≥ (G._torus.dims k : Int) ∧ G._periodic k = true
            then G.globalSize k else 0) := by
  unfold neighborMove
  rw [moveStep_v, neighborCoord_axis]
  simp

/-- The neighbour reached by `delta` is skipped iff it lies outside the process
grid on a non-periodic axis. -/
theorem neighborMove_skip (G : YaspGrid dim) (delta : iTupel dim) :
    (neighborMove G delta).skip = true ↔
      ∃ j, G._periodic j = false ∧
        (G._torus.coord j + delta j < 0 ∨ G._torus.coord j + delta j ≥ (G._torus.dims j : Int)) := by
  unfold neighborMove
  rw [moveStep_skip]
  simp [neighborCoord_axis]

/-- A neighbour that is not skipped is sent both grids moved by `v`. -/
theorem sentGrids_of_not_skip (G : YaspGrid dim) (sendgrid recvgrid : YGridComponent dim)
    (delta : iTupel dim) (h : (neighborMove G delta).skip = false) :
    sentGrids G sendgrid recvgrid delta =
      (mpifriendly_ygrid.ofGrid (sendgrid.move (neighborMove G delta).v),
       mpifriendly_ygrid.ofGrid (recvgrid.move (neighborMove G delta).v)) := by
  simp [sentGrids, sendBuffers, h]

/-- A skipped neighbour is sent the default grid twice. -/
theorem sentGrids_of_skip (G : YaspGrid dim) (sendgrid recvgrid : YGridComponent dim)
    (delta : iTupel dim) (h : (neighborMove G delta).skip = true) :
    sentGrids G sendgrid recvgrid delta =
      (mpifriendly_ygrid.zero dim, mpifriendly_ygrid.zero dim) := by
  simp [sentGrids, sendBuffers, h, mpifriendly_ygrid.ofGrid, mpifriendly_ygrid.zero,
    YGridComponent.default]

/-- Intersecting with a range moved back by `v` and moving the result by `v` is
intersecting the moved range, axis by axis. -/
theorem intersection_move (A B : YGridComponent dim) (v w : iTupel dim) (k : Fin dim)
    (hw : w k = - v k) :
    ((A.intersection (B.move w)).move v).origin k = (B.intersection (A.move v)).origin k ∧
    ((A.intersection (B.move w)).move v).size k = (B.intersection (A.move v)).size k := by
  simp only [YGridComponent.intersection, YGridComponent.move, hw]
  constructor <;> omega


/-- A record made from a grid gives the grid back. -/
theorem toGrid_ofGrid (g : YGridComponent dim) :
    (mpifriendly_ygrid.ofGrid g).toGrid = g := by
  cases g
  rfl

/-- C12.  Let the process `Q` be reached from `P` by the offset `d` (and `P`
from `Q` by `-d`), both coordinates lying inside the process grid, wrapped
around on periodic axes only.  Then the movement `Q` computes for `P` is the
negation of the movement `v` that `P` computes for `Q`, the send intersection
of `P` towards `Q` moved by `v` has the origin and size of the receive
intersection of `Q` from `P`, and the two have the same totalsize. -/
theorem C12_reciprocal_intersections (P Q : YaspGrid dim)
    (sendgridP recvgridP sendgridQ recvgridQ : YGridComponent dim) (d : iTupel dim)
    (k : Fin dim)
    (hper : Q._periodic = P._periodic) (hdims : Q._torus.dims = P._torus.dims)
    (hgs : ∀ j, Q.globalSize j = P.globalSize j)
    (hP : ∀ j, 0 ≤ P._torus.coord j ∧ P._torus.coord j < (P._torus.dims j : Int))
    (hQ : ∀ j, 0 ≤ Q._torus.coord j ∧ Q._torus.coord j < (P._torus.dims j : Int))
    (hreach : ∀ j, Q._torus.coord j = P._torus.coord j + d j ∨
      (P._periodic j = true ∧
        (Q._torus.coord j = P._torus.coord j + d j + (P._torus.dims j : Int) ∨
         Q._torus.coord j = P._torus.coord j + d j - (P._torus.dims j : Int)))) :
    (neighborMove Q (fun j => - d j)).v k = - (neighborMove P d).v k ∧
    ((sendgridP.intersection
        (sentGrids Q sendgridQ recvgridQ (fun j => - d j)).2.toGrid).move
          (neighborMove P d).v).origin k
      = (recvgridQ.intersection (sentGrids P sendgridP recvgridP d).1.toGrid).origin k ∧
    ((sendgridP.intersection
        (sentGrids Q sendgridQ recvgridQ (fun j => - d j)).2.toGrid).move
          (neighborMove P d).v).size k
      = (recvgridQ.intersection (sentGrids P sendgridP recvgridP d).1.toGrid).size k ∧
    (sendgridP.intersection
        (sentGrids Q sendgridQ recvgridQ (fun j => - d j)).2.toGrid).totalsize
      = (recvgridQ.intersection (sentGrids P sendgridP recvgridP d).1.toGrid).totalsize := by
  have hv : ∀ j, (neighborMove Q (fun j => - d j)).v j = - (neighborMove P d).v j := by
    intro j
    rw [neighborMove_v, neighborMove_v, hper, hdims, hgs]
    have h1 := hP j
    have h2 := hQ j
    rcases hreach j with h3 | ⟨hp, h3 | h3⟩
    · have e1 : ¬ (Q._torus.coord j + -d j < 0) := by omega
      have e2 : ¬ (Q._torus.coord j + -d j ≥ (P._torus.dims j : Int)) := by omega
      have e3 : ¬ (P._torus.coord j + d j < 0) := by omega
      have e4 : ¬ (P._torus.coord j + d j ≥ (P._torus.dims j : Int)) := by omega
      simp [e1, e2, e3, e4]
    · have e1 : ¬ (Q._torus.coord j + -d j < 0) := by omega
      have e2 : Q._torus.coord j + -d j ≥ (P._torus.dims j : Int) := by omega
      have e3 : P._torus.coord j + d j < 0 := by omega
      have e4 : ¬ (P._torus.coord j + d j ≥ (P._torus.dims j : Int)) := by omega
      simp [e1, e2, e3, e4, hp]
    · have e1 : Q._torus.coord j + -d j < 0 := by omega
      have e2 : ¬ (Q._torus.coord j + -d j ≥ (P._torus.dims j : Int)) := by omega
      have e3 : ¬ (P._torus.coord j + d j < 0) := by omega
      have e4 : P._torus.coord j + d j ≥ (P._torus.dims j : Int) := by omega
      simp [e1, e2, e3, e4, hp]
  have hsP : (neighborMove P d).skip = false := by
    cases hc : (neighborMove P d).skip
    · rfl
    · obtain ⟨j, hj, hout⟩ := (neighborMove_skip P d).mp hc
      have h2 := hQ j
      rcases hreach j with h3 | ⟨hp, -⟩
      · omega
      · rw [hj] at hp
        exact absurd hp (by decide)
  have hsQ : (neighborMove Q (fun j => - d j)).skip = false := by
    cases hc : (neighborMove Q (fun j => - d j)).skip
    · rfl
    · obtain ⟨j, hj, hout⟩ := (neighborMove_skip Q (fun j => - d j)).mp hc
      rw [hper] at hj
      rw [hdims] at hout
      have h1 := hP j
      rcases hreach j with h3 | ⟨hp, -⟩
      · omega
      · rw [hj] at hp
        exact absurd hp (by decide)
  rw [sentGrids_of_not_skip _ _ _ _ hsP, sentGrids_of_not_skip _ _ _ _ hsQ]
  simp only [toGrid_ofGrid]
  have hpt : ∀ j, (sendgridP.intersection
      (recvgridQ.move (neighborMove Q (fun j => - d j)).v)).size j
      = (recvgridQ.intersection (sendgridP.move (neighborMove P d).v)).size j := by
    intro j
    exact (intersection_move sendgridP recvgridQ _ _ j (hv j)).2
  refine ⟨hv k, (intersection_move sendgridP recvgridQ _ _ k (hv k)).1,
    (intersection_move sendgridP recvgridQ _ _ k (hv k)).2, ?_⟩
  unfold YGridComponent.totalsize
  congr 1
  exact List.map_congr_left (fun j _ => hpt j)


/-- C12 at a concrete input: the two processes of a one-dimensional periodic
grid with 8 cells, `Q` reached from `P` by the offset -1 across the periodic
boundary; `P` sends `[0,5)` and `Q` receives into `[3,9)`. -/
theorem C12_reciprocal_intersections_witness :
    (grid1Ready 2 1 8 true 1)._periodic = (grid1Ready 2 0 8 true 1)._periodic ∧
    (grid1Ready 2 1 8 true 1)._torus.dims = (grid1Ready 2 0 8 true 1)._torus.dims ∧
    (∀ j, (grid1Ready 2 1 8 true 1).globalSize j = (grid1Ready 2 0 8 true 1).globalSize j) ∧
    (∀ j, 0 ≤ (grid1Ready 2 0 8 true 1)._torus.coord j ∧
      (grid1Ready 2 0 8 true 1)._torus.coord j
        < ((grid1Ready 2 0 8 true 1)._torus.dims j : Int)) ∧
    (∀ j, 0 ≤ (grid1Ready 2 1 8 true 1)._torus.coord j ∧
      (grid1Ready 2 1 8 true 1)._torus.coord j
        < ((grid1Ready 2 0 8 true 1)._torus.dims j : Int)) ∧
    (∀ j, (grid1Ready 2 1 8 true 1)._torus.coord j
        = (grid1Ready 2 0 8 true 1)._torus.coord j + tuple1 (-1) j ∨
      ((grid1Ready 2 0 8 true 1)._periodic j = true ∧
        ((grid1Ready 2 1 8 true 1)._torus.coord j
            = (grid1Ready 2 0 8 true 1)._torus.coord j + tuple1 (-1) j
              + ((grid1Ready 2 0 8 true 1)._torus.dims j : Int) ∨
         (grid1Ready 2 1 8 true 1)._torus.coord j
            = (grid1Ready 2 0 8 true 1)._torus.coord j + tuple1 (-1) j
              - ((grid1Ready 2 0 8 true 1)._torus.dims j : Int)))) ∧
    ((neighborMove (grid1Ready 2 1 8 true 1) (fun j => - tuple1 (-1) j)).v 0
        = - (neighborMove (grid1Ready 2 0 8 true 1) (tuple1 (-1))).v 0 ∧
    (((box1 0 5).intersection
        (sentGrids (grid1Ready 2 1 8 true 1) (box1 4 5) (box1 3 6)
          (fun j => - tuple1 (-1) j)).2.toGrid).move
          (neighborMove (grid1Ready 2 0 8 true 1) (tuple1 (-1))).v).origin 0
      = ((box1 3 6).intersection
          (sentGrids (grid1Ready 2 0 8 true 1) (box1 0 5) (box1 (-1) 6)
            (tuple1 (-1))).1.toGrid).origin 0 ∧
    (((box1 0 5).intersection
        (sentGrids (grid1Ready 2 1 8 true 1) (box1 4 5) (box1 3 6)
          (fun j => - tuple1 (-1) j)).2.toGrid).move
          (neighborMove (grid1Ready 2 0 8 true 1) (tuple1 (-1))).v).size 0
      = ((box1 3 6).intersection
          (sentGrids (grid1Ready 2 0 8 true 1) (box1 0 5) (box1 (-1) 6)
            (tuple1 (-1))).1.toGrid).size 0 ∧
    ((box1 0 5).intersection
        (sentGrids (grid1Ready 2 1 8 true 1) (box1 4 5) (box1 3 6)
          (fun j => - tuple1 (-1) j)).2.toGrid).totalsize
      = ((box1 3 6).intersection
          (sentGrids (grid1Ready 2 0 8 true 1) (box1 0 5) (box1 (-1) 6)
            (tuple1 (-1))).1.toGrid).totalsize) :=
  ⟨by decide, by decide, by decide, by decide, by decide, by decide,
    C12_reciprocal_intersections (grid1Ready 2 0 8 true 1) (grid1Ready 2 1 8 true 1)
      (box1 0 5) (box1 (-1) 6) (box1 4 5) (box1 3 6) (tuple1 (-1)) 0
      (by decide) (by decide) (by decide) (by decide) (by decide) (by decide)⟩

/-- The intersection with the grid of a zero record is empty in any positive
dimension. -/
theorem intersection_zero_empty (A : YGridComponent dim) (k : Fin dim) :
    (A.intersection (mpifriendly_ygrid.zero dim).toGrid).empty = true := by
  rw [empty_iff]
  refine ⟨k, ?_⟩
  simp only [YGridComponent.intersection, mpifriendly_ygrid.toGrid, mpifriendly_ygrid.zero]
  omega

/-- If only zero records arrive, `intersections` stores nothing. -/
theorem intersections_of_zero_records (G : YaspGrid dim)
    (sendgrid recvgrid : YGridComponent dim) (rs rr : Nat → mpifriendly_ygrid dim)
    (k : Fin dim) (hs : ∀ n, rs n = mpifriendly_ygrid.zero dim)
    (hr : ∀ n, rr n = mpifriendly_ygrid.zero dim) :
    intersections G sendgrid recvgrid rs rr [] [] = ([], []) := by
  unfold intersections
  rw [intersections_fold]
  simp [sendIntersection, recvIntersection, hs, hr, intersection_zero_empty _ k]


/-- A left fold keeps what every step keeps. -/
theorem foldl_keeps {α β : Type} (p : β → Prop) (f : β → α → β)
    (h : ∀ b a, p b → p (f b a)) (l : List α) (b : β) (hb : p b) : p (l.foldl f b) := by
  induction l generalizing b with
  | nil => exact hb
  | cons a l ih => exact ih (f b a) (h b a hb)

/-- If every call of `intersections` of a level yields two empty lists, the
level that `makelevel` builds has only empty lists. -/
theorem buildLevel_allListsEmpty (G : YaspGrid dim) (coords : CoordCont dim)
    (periodic : Bitset dim) (o_interior : iTupel dim) (overlap : Int)
    (h : ∀ index call sg rg, shiftLists G index call sg rg = ([], [])) :
    allListsEmpty (buildLevel G coords periodic o_interior overlap) = true := by
  unfold buildLevel
  apply foldl_keeps (fun g => allListsEmpty g = true)
  · intro g codim hg
    have h1 : allListsEmpty ((List.range (2 ^ dim)).foldl
        (makelevelIndex G (overlapInfo G coords periodic o_interior overlap) overlap codim) g)
        = true := by
      apply foldl_keeps (fun g => allListsEmpty g = true)
      · intro g index hg
        unfold makelevelIndex
        by_cases hc : (bitsetOfIndex dim index).count = dim - codim
        · simp only [hc, ne_eq, not_true_eq_false, if_false, h]
          simpa [allListsEmpty, List.all_append] using hg
        · simpa [hc] using hg
      · exact hg
    simpa [makelevelCodim, allListsEmpty] using h1
  · simp [allListsEmpty, YGridLevel.empty]

/-- C14.  On a single-process topology (one process per axis, so that every
record that arrives is a pair this process sent to a neighbour with a non-zero
offset) without periodic axis, `makelevel` leaves every send list and every
receive list of every interface class and every codimension empty, whatever the
overlap. -/
theorem C14_single_process_lists_empty (G : YaspGrid dim) (coords : CoordCont dim)
    (periodic : Bitset dim) (o_interior : iTupel dim) (overlap : Int)
    (hdims : ∀ j, G._torus.dims j = 1) (hcoord : ∀ j, G._torus.coord j = 0)
    (hnp : ∀ j, G._periodic j = false)
    (hrecv : ∀ lvl call index n, ∃ sg rg δ, (∃ k, δ k ≠ 0) ∧
      G._torus.received lvl call index n = sentGrids G sg rg δ) :
    ((makelevel G coords periodic o_interior overlap)._levels.getLast?).map allListsEmpty
      = some true := by
  have hz : ∀ lvl call index n, G._torus.received lvl call index n
      = (mpifriendly_ygrid.zero dim, mpifriendly_ygrid.zero dim) := by
    intro lvl call index n
    obtain ⟨sg, rg, δ, ⟨k, hk⟩, he⟩ := hrecv lvl call index n
    rw [he]
    apply sentGrids_of_skip
    rw [neighborMove_skip]
    refine ⟨k, hnp k, ?_⟩
    rw [hcoord k, hdims k]
    simp only [Nat.cast_one]
    omega
  obtain ⟨-, -, -, ⟨k, -⟩, -⟩ := hrecv 0 0 0 0
  have hl : ∀ index call sg rg, shiftLists G index call sg rg = ([], []) := by
    intro index call sg rg
    unfold shiftLists
    exact intersections_of_zero_records G sg rg _ _ k (fun n => by rw [hz]) (fun n => by rw [hz])
  have hb := buildLevel_allListsEmpty G coords periodic o_interior overlap hl
  simp [makelevel, hb]


/-- C14 at a concrete input: the single process of the one-dimensional
non-periodic grid with 4 cells and overlap 0, whose two neighbour entries lead
to the process itself. -/
theorem C14_single_process_lists_empty_witness :
    (∀ j, (single1 4 0)._torus.dims j = 1) ∧
    (∀ j, (single1 4 0)._torus.coord j = 0) ∧
    (∀ j, (single1 4 0)._periodic j = false) ∧
    (∀ lvl call index n, ∃ sg rg δ, (∃ k, δ k ≠ 0) ∧
      (single1 4 0)._torus.received lvl call index n = sentGrids (single1 4 0) sg rg δ) ∧
    ((makelevel (single1 4 0) (EquidistantCoordinates (tuple1 4)) (bits1 false) (tuple1 0)
        0)._levels.getLast?).map allListsEmpty = some true :=
  ⟨by decide, by decide, by decide,
    fun _ _ _ n => ⟨_, _, fun k => - tuple1 (if n = 0 then -1 else 1) k,
      ⟨0, by unfold tuple1; split_ifs <;> decide⟩, rfl⟩,
    C14_single_process_lists_empty (single1 4 0) (EquidistantCoordinates (tuple1 4))
      (bits1 false) (tuple1 0) 0 (by decide) (by decide) (by decide)
      (fun _ _ _ n => ⟨_, _, fun k => - tuple1 (if n = 0 then -1 else 1) k,
        ⟨0, by unfold tuple1; split_ifs <;> decide⟩, rfl⟩)⟩

/-- C15 as stated fails.  For process 0 of the two processes of the
one-dimensional non-periodic grid with 8 cells and overlap 1, the send list of
the interiorborder-interiorborder interface at codimension 0 is not a single
Intersection addressed to process 1 that covers 1 cell: it is empty. -/
theorem C15_cell_list_not_single :
    ¬ ((ranks1 (codimLists (twoProcLevel 0).send_interiorborder_interiorborder
          (twoProcLevel 0).send_interiorborder_interiorborder_data 0)).map
        (fun x => (x.1, x.2.2)) = [(1, 1)]) := by
  decide

/-- C15 amended.  For process 0 of the two processes of the one-dimensional
non-periodic grid with 8 cells and overlap 1 (blocks `[0,4)` and `[4,8)`): the
overlap range of the cells is `[0,5)` and so includes cell 4; the send list of
the interiorborder-interiorborder interface is empty at codimension 0 and holds
at codimension 1 exactly one Intersection, addressed to process 1, that covers
exactly the vertex 4; the send list of the interiorborder-overlapfront interface
holds at codimension 0 exactly one Intersection, addressed to process 1, that
covers exactly the cell 3. -/
theorem C15_two_process_lists :
    boxes1 ((twoProcLevel 0).overlap_data.take 1) = [(0, 5)] ∧
    (twoProcLevel 0).overlap.head? = some { dataBegin := 0, dataEnd := 1 } ∧
    ranks1 (codimLists (twoProcLevel 0).send_interiorborder_interiorborder
      (twoProcLevel 0).send_interiorborder_interiorborder_data 0) = [] ∧
    ranks1 (codimLists (twoProcLevel 0).send_interiorborder_interiorborder
      (twoProcLevel 0).send_interiorborder_interiorborder_data 1) = [(1, 4, 1)] ∧
    ranks1 (codimLists (twoProcLevel 0).send_interiorborder_overlapfront
      (twoProcLevel 0).send_interiorborder_overlapfront_data 0) = [(1, 3, 1)] := by
  decide

/-! ## Properties of globalRefine -/

/-- The loops of `makelevel` leave the container, the overlap width and the
level number of the level as set at its begin. -/
theorem buildLevel_scalars (G : YaspGrid dim) (coords : CoordCont dim) (periodic : Bitset dim)
    (o_interior : iTupel dim) (overlap : Int) :
    (buildLevel G coords periodic o_interior overlap).coords = coords ∧
    (buildLevel G coords periodic o_interior overlap).overlapSize = overlap ∧
    (buildLevel G coords periodic o_interior overlap).level_ = G.maxLevel := by
  have step : ∀ (g : YGridLevel dim) (codim : Nat),
      (g.coords = coords ∧ g.overlapSize = overlap ∧ g.level_ = G.maxLevel) →
      ((makelevelCodim G (overlapInfo G coords periodic o_interior overlap) overlap g
          codim).coords = coords ∧
       (makelevelCodim G (overlapInfo G coords periodic o_interior overlap) overlap g
          codim).overlapSize = overlap ∧
       (makelevelCodim G (overlapInfo G coords periodic o_interior overlap) overlap g
          codim).level_ = G.maxLevel) := by
    intro g codim hg
    have h1 := foldl_keeps
      (fun g : YGridLevel dim => g.coords = coords ∧ g.overlapSize = overlap
        ∧ g.level_ = G.maxLevel)
      (makelevelIndex G (overlapInfo G coords periodic o_interior overlap) overlap codim)
      (by
        intro g index hg
        unfold makelevelIndex
        by_cases hc : (bitsetOfIndex dim index).count = dim - codim
        · simpa [hc] using hg
        · simpa [hc] using hg)
      (List.range (2 ^ dim)) g hg
    simpa [makelevelCodim] using h1
  exact foldl_keeps
    (fun g : YGridLevel dim => g.coords = coords ∧ g.overlapSize = overlap
      ∧ g.level_ = G.maxLevel)
    (makelevelCodim G (overlapInfo G coords periodic o_interior overlap) overlap)
    step (List.range (dim + 1)) _ (by simp [YGridLevel.empty])

/-- Resizing the level stack by one appends an empty level. -/
theorem resizeLevels_succ (l : List (YGridLevel dim)) :
    resizeLevels (l.length + 1) l = l ++ [YGridLevel.empty dim] := by
  simp [resizeLevels, List.take_of_length_le]

/-- A refinement step appends one level, built by `makelevel`, and keeps the
levels that exist. -/
theorem refineStep_levels (G : YaspGrid dim) :
    (refineStep G)._levels = G._levels ++
      [buildLevel { G with _levels := G._levels ++ [YGridLevel.empty dim] }
        (G.finestLevel.coords.refine (refineFlags G).1 (refineFlags G).2 G.keep_ovlp
          G.finestLevel.overlapSize)
        G._periodic (refineOrigin G) (refineOverlap G)] := by
  simp [refineStep, makelevel, resizeLevels_succ, List.dropLast_concat]

/-- The coarsening loop removes the last `n` levels. -/
theorem coarsenLoop_levels (n : Nat) (G : YaspGrid dim) :
    (coarsenLoop n G)._levels = G._levels.take (G._levels.length - n) := by
  induction n generalizing G with
  | zero => simp [coarsenLoop]
  | succ n ih =>
    rw [coarsenLoop, ih]
    simp only [coarsenStep, List.length_dropLast, List.dropLast_eq_take, List.take_take,
      List.length_take]
    congr 1
    omega



/-- The level that a refinement step appends has the next level number. -/
theorem refineStep_numbered (G : YaspGrid dim) (h : levelsNumbered G) :
    levelsNumbered (refineStep G) := by
  unfold levelsNumbered at h ⊢
  rw [refineStep_levels]
  simp only [List.map_append, List.length_append, List.length_singleton, List.map_cons,
    List.map_nil, List.range_succ, h]
  rw [(buildLevel_scalars _ _ _ _ _).2.2]
  simp [maxLevel]

/-- Within the capacity of the level stack the refinement loop appends `n`
levels, keeps the levels that exist and keeps the numbering of the levels. -/
theorem refineLoop_levels (n : Nat) (G : YaspGrid dim)
    (hcap : G._levels.length + n ≤ levelCapacity) (h : levelsNumbered G) :
    (refineLoop n G)._levels.length = G._levels.length + n ∧
    (refineLoop n G)._levels.take G._levels.length = G._levels ∧
    levelsNumbered (refineLoop n G) := by
  induction n generalizing G with
  | zero => simp [refineLoop, h]
  | succ n ih =>
    have hc : G._levels.length + 1 ≤ levelCapacity := by omega
    rw [refineLoop, if_pos hc]
    have hl : (refineStep G)._levels.length = G._levels.length + 1 := by
      rw [refineStep_levels]
      simp
    obtain ⟨h1, h2, h3⟩ := ih (refineStep G) (by omega) (refineStep_numbered G h)
    refine ⟨by omega, ?_, h3⟩
    have h4 := congrArg (List.take G._levels.length) h2
    rw [List.take_take, hl, refineStep_levels] at h4
    simpa using h4



/-- C17.  `globalRefine(refCount)` with `refCount < -maxLevel()` throws a
`GridError` and leaves the grid, with its level stack, as it was; with
`refCount = -maxLevel()` it throws nothing and leaves exactly level 0. -/
theorem C17_coarsen_bound (G : YaspGrid dim) (refCount : Int)
    (h : refCount < - G.maxLevel) (hlen : 0 < G._levels.length) :
    globalRefine G refCount = (some DuneException.GridError, G) ∧
    (globalRefine G (- G.maxLevel)).1 = none ∧
    (globalRefine G (- G.maxLevel)).2._levels = G._levels.take 1 ∧
    (globalRefine G (- G.maxLevel)).2.maxLevel = 0 := by
  have hm : G.maxLevel = (G._levels.length : Int) - 1 := rfl
  have h0 : (- - G.maxLevel).toNat = G._levels.length - 1 := by
    rw [neg_neg, hm]
    omega
  have h1 : (- G.maxLevel).toNat = 0 := by
    rw [hm]
    omega
  have hl : (globalRefine G (- G.maxLevel)).2._levels = G._levels.take 1 := by
    simp only [globalRefine, lt_self_iff_false, if_false, h0, h1, refineLoop,
      coarsenLoop_levels]
    congr 1
    omega
  refine ⟨by simp [globalRefine, h], by simp [globalRefine], hl, ?_⟩
  have he : (globalRefine G (- G.maxLevel)).2.maxLevel
      = ((globalRefine G (- G.maxLevel)).2._levels.length : Int) - 1 := rfl
  rw [he, hl, List.length_take]
  omega

/-- C17 at a concrete input: the one-dimensional grid with three levels and
`refCount = -3`. -/
theorem C17_coarsen_bound_witness :
    (-3 : Int) < - serial1Refined.maxLevel ∧ 0 < serial1Refined._levels.length ∧
    (globalRefine serial1Refined (-3) = (some DuneException.GridError, serial1Refined) ∧
    (globalRefine serial1Refined (- serial1Refined.maxLevel)).1 = none ∧
    (globalRefine serial1Refined (- serial1Refined.maxLevel)).2._levels
      = serial1Refined._levels.take 1 ∧
    (globalRefine serial1Refined (- serial1Refined.maxLevel)).2.maxLevel = 0) :=
  ⟨by decide, by decide, C17_coarsen_bound serial1Refined (-3) (by decide) (by decide)⟩

/-- C18.  For `-maxLevel() <= refCount < 0`, `globalRefine(refCount)` throws
nothing, reduces `maxLevel()` by `|refCount|` and leaves the remaining levels
unchanged: the level stack is the old one cut after level
`maxLevel() - |refCount|`. -/
theorem C18_coarsen_frame (G : YaspGrid dim) (refCount : Int)
    (h1 : - G.maxLevel ≤ refCount) (h2 : refCount < 0) :
    (globalRefine G refCount).1 = none ∧
    (globalRefine G refCount).2.maxLevel = G.maxLevel + refCount ∧
    (globalRefine G refCount).2._levels
      = G._levels.take (G._levels.length - (- refCount).toNat) := by
  have hm : G.maxLevel = (G._levels.length : Int) - 1 := rfl
  have hn : ¬ (refCount < - G.maxLevel) := by omega
  have h0 : refCount.toNat = 0 := by omega
  have hl : (globalRefine G refCount).2._levels
      = G._levels.take (G._levels.length - (- refCount).toNat) := by
    simp only [globalRefine, hn, if_false, h0, refineLoop, coarsenLoop_levels]
  refine ⟨by simp [globalRefine, hn], ?_, hl⟩
  have he : (globalRefine G refCount).2.maxLevel
      = ((globalRefine G refCount).2._levels.length : Int) - 1 := rfl
  rw [he, hl, List.length_take]
  omega

/-- C18 at a concrete input: the one-dimensional grid with three levels and
`refCount = -1`. -/
theorem C18_coarsen_frame_witness :
    - serial1Refined.maxLevel ≤ (-1 : Int) ∧ (-1 : Int) < 0 ∧
    ((globalRefine serial1Refined (-1)).1 = none ∧
    (globalRefine serial1Refined (-1)).2.maxLevel = serial1Refined.maxLevel + (-1) ∧
    (globalRefine serial1Refined (-1)).2._levels
      = serial1Refined._levels.take (serial1Refined._levels.length - (- (-1 : Int)).toNat)) :=
  ⟨by decide, by decide, C18_coarsen_frame serial1Refined (-1) (by decide) (by decide)⟩



/-- C19.  For `refCount > 0` with `maxLevel() + refCount <= 31`, on a grid
whose levels are numbered by their position, `globalRefine(refCount)` throws
nothing, increases `maxLevel()` by exactly `refCount`, leaves the levels that
existed unchanged, and every level `i` of the resulting stack reports
`level() = i`. -/
theorem C19_refine_frame (G : YaspGrid dim) (refCount : Int) (h : 0 < refCount)
    (hcap : G.maxLevel + refCount ≤ 31) (hnum : levelsNumbered G) :
    (globalRefine G refCount).1 = none ∧
    (globalRefine G refCount).2.maxLevel = G.maxLevel + refCount ∧
    (globalRefine G refCount).2._levels.take G._levels.length = G._levels ∧
    levelsNumbered (globalRefine G refCount).2 := by
  have hm : G.maxLevel = (G._levels.length : Int) - 1 := rfl
  have hn : ¬ (refCount < - G.maxLevel) := by omega
  have h0 : (- refCount).toNat = 0 := by omega
  have he : (globalRefine G refCount).2 = refineLoop refCount.toNat G := by
    simp [globalRefine, hn, h0, coarsenLoop]
  have hc : G._levels.length + refCount.toNat ≤ levelCapacity := by
    unfold levelCapacity
    omega
  obtain ⟨h1, h2, h3⟩ := refineLoop_levels refCount.toNat G hc hnum
  refine ⟨by simp [globalRefine, hn], ?_, ?_, ?_⟩
  · rw [he]
    have hx : (refineLoop refCount.toNat G).maxLevel
        = ((refineLoop refCount.toNat G)._levels.length : Int) - 1 := rfl
    rw [hx, h1]
    omega
  · rw [he]
    exact h2
  · rw [he]
    exact h3

/-- The grid that the constructor makes has its level 0 numbered 0. -/
theorem construct_numbered (torus : Torus dim) (s : iTupel dim) (periodic : Bitset dim)
    (overlap : Int) (o_interior s_interior : iTupel dim) :
    levelsNumbered (construct torus s periodic overlap o_interior s_interior) := by
  simp [levelsNumbered, construct, init, EquidistantSetup, makelevel, equidistantInit,
    resizeLevels, (buildLevel_scalars _ _ _ _ _).2.2, maxLevel]
  rfl

/-- C19 at a concrete input: the one-dimensional grid as constructed, refined
twice. -/
theorem C19_refine_frame_witness :
    (0 : Int) < 2 ∧ serial1.maxLevel + 2 ≤ 31 ∧ levelsNumbered serial1 ∧
    ((globalRefine serial1 2).1 = none ∧
    (globalRefine serial1 2).2.maxLevel = serial1.maxLevel + 2 ∧
    (globalRefine serial1 2).2._levels.take serial1._levels.length = serial1._levels ∧
    levelsNumbered (globalRefine serial1 2).2) :=
  ⟨by decide, by decide, construct_numbered _ _ _ _ _ _,
    C19_refine_frame serial1 2 (by decide) (by decide) (construct_numbered _ _ _ _ _ _)⟩

/-- C20.  A refinement step of `globalRefine` builds the new level with twice
the overlap width of the previous finest level if `keep_ovlp` is set and with
the same width otherwise, and `overlapSize(level, codim)` returns the stored
width for every codimension; `keep_ovlp` is set by the constructor, assigned by
`refineOptions` and left alone by the refinement. -/
theorem C20_refined_overlap (G : YaspGrid dim) (codim : Nat) (b : Bool)
    (hlen : 0 < G._levels.length) (hcap : G._levels.length + 1 ≤ levelCapacity) :
    globalRefine G 1 = (none, refineStep G) ∧
    overlapSize G G.maxLevel codim = Except.ok G.finestLevel.overlapSize ∧
    overlapSize (refineStep G) (G.maxLevel + 1) codim
      = Except.ok (if G.keep_ovlp = true then 2 * G.finestLevel.overlapSize
          else G.finestLevel.overlapSize) ∧
    (refineStep G).keep_ovlp = G.keep_ovlp ∧
    (refineOptions G b).keep_ovlp = b := by
  have hm : G.maxLevel = (G._levels.length : Int) - 1 := rfl
  have hn : ¬ ((1 : Int) < - G.maxLevel) := by omega
  refine ⟨?_, ?_, ?_, ?_, rfl⟩
  · simp [globalRefine, hn, refineLoop, coarsenLoop, hcap]
  · have h1 : ¬ (G.maxLevel < 0 ∨ G.maxLevel > G.maxLevel) := by omega
    have h2 : G.maxLevel.toNat = G._levels.length - 1 := by omega
    simp only [overlapSize, begin, h1, if_false, h2, finestLevel]
    rw [List.getLast?_eq_getElem?]
    simp [List.get?_eq_getElem?]
  · have hx : (refineStep G).maxLevel = G.maxLevel + 1 := by
      have hy : (refineStep G).maxLevel = ((refineStep G)._levels.length : Int) - 1 := rfl
      rw [hy, refineStep_levels]
      simp only [List.length_append, List.length_singleton]
      omega
    have h1 : ¬ (G.maxLevel + 1 < 0 ∨ G.maxLevel + 1 > (refineStep G).maxLevel) := by
      rw [hx]
      omega
    have h2 : (G.maxLevel + 1).toNat = G._levels.length := by omega
    simp only [overlapSize, begin, h1, if_false, h2]
    rw [refineStep_levels]
    simp [List.get?_eq_getElem?, (buildLevel_scalars _ _ _ _ _).2.1, refineOverlap]
  · simp [refineStep, makelevel]

/-- C20 at a concrete input: the one-dimensional grid as constructed, whose
`keep_ovlp` is set. -/
theorem C20_refined_overlap_witness :
    0 < serial1._levels.length ∧ serial1._levels.length + 1 ≤ levelCapacity ∧
    serial1.keep_ovlp = true ∧
    (globalRefine serial1 1 = (none, refineStep serial1) ∧
    overlapSize serial1 serial1.maxLevel 0 = Except.ok serial1.finestLevel.overlapSize ∧
    overlapSize (refineStep serial1) (serial1.maxLevel + 1) 0
      = Except.ok (if serial1.keep_ovlp = true then 2 * serial1.finestLevel.overlapSize
          else serial1.finestLevel.overlapSize) ∧
    (refineStep serial1).keep_ovlp = serial1.keep_ovlp ∧
    (refineOptions serial1 false).keep_ovlp = false) :=
  ⟨by decide, by decide, by decide,
    C20_refined_overlap serial1 0 false (by decide) (by decide)⟩

/-- A bitset with `dim` set bits has every bit set. -/
theorem count_eq_dim (r : Bitset dim) (h : r.count = dim) (k : Fin dim) : r k = true := by
  unfold Bitset.count at h
  have hl : ((List.finRange dim).filter (fun i => r i)).length = (List.finRange dim).length := by
    rw [h, List.length_finRange]
  have hall := List.filter_length_eq_length.mp hl
  exact hall k (List.mem_finRange k)

/-- The index `2^dim - 1` has all `dim` bits set. -/
theorem count_allOnes (dim : Nat) : (bitsetOfIndex dim (2 ^ dim - 1)).count = dim := by
  unfold Bitset.count bitsetOfIndex
  have : (List.finRange dim).filter (fun i => (2 ^ dim - 1).testBit i.val) = List.finRange dim := by
    rw [List.filter_eq_self]
    intro a _
    simp [Nat.testBit_two_pow_sub_one]
  rw [this, List.length_finRange]

/-- The first shift pattern that `makelevel` stores is one of the cells: it
has every bit set. -/
theorem levelShifts_head (dim : Nat) :
    ∃ idx rest, levelShifts dim = idx :: rest ∧ ∀ k, bitsetOfIndex dim idx k = true := by
  have hmem : 2 ^ dim - 1 ∈ shiftsOfCodim dim 0 := by
    unfold shiftsOfCodim
    rw [List.mem_filter]
    refine ⟨?_, ?_⟩
    · rw [List.mem_range]
      have := Nat.two_pow_pos dim
      omega
    · simp [count_allOnes]
  have hne : shiftsOfCodim dim 0 ≠ [] := List.ne_nil_of_mem hmem
  obtain ⟨idx, rest, hs⟩ := List.exists_cons_of_ne_nil hne
  have hidx : idx ∈ shiftsOfCodim dim 0 := by
    rw [hs]
    exact List.mem_cons_self _ _
  unfold shiftsOfCodim at hidx
  rw [List.mem_filter] at hidx
  have hc : (bitsetOfIndex dim idx).count = dim := by simpa using hidx.2
  refine ⟨idx, rest ++ (List.map Nat.succ (List.range dim)).flatMap (shiftsOfCodim dim), ?_,
    count_eq_dim _ hc⟩
  unfold levelShifts
  rw [List.range_succ_eq_map, List.flatMap_cons, hs]
  rfl

/-- The loop over `index` does not touch the slices of the range families. -/
theorem makelevelIndex_slices (G : YaspGrid dim) (info : OverlapInfo dim) (overlap : Int)
    (codim : Nat) (l : List Nat) (g : YGridLevel dim) :
    (l.foldl (makelevelIndex G info overlap codim) g).interior = g.interior ∧
    (l.foldl (makelevelIndex G info overlap codim) g).overlap = g.overlap := by
  exact foldl_keeps
    (fun g1 : YGridLevel dim => g1.interior = g.interior ∧ g1.overlap = g.overlap)
    (makelevelIndex G info overlap codim)
    (by
      intro g1 index hg
      unfold makelevelIndex
      by_cases hc : (bitsetOfIndex dim index).count = dim - codim
      · simpa [hc] using hg
      · simpa [hc] using hg)
    l g ⟨rfl, rfl⟩

/-- The loop over `codim` only appends slices. -/
theorem makelevelCodim_slices (G : YaspGrid dim) (info : OverlapInfo dim) (overlap : Int)
    (cs : List Nat) (g : YGridLevel dim) :
    ∃ t1 t2, (cs.foldl (makelevelCodim G info overlap) g).interior = g.interior ++ t1 ∧
      (cs.foldl (makelevelCodim G info overlap) g).overlap = g.overlap ++ t2 := by
  induction cs generalizing g with
  | nil => exact ⟨[], [], by simp, by simp⟩
  | cons c cs ih =>
    rw [List.foldl_cons]
    obtain ⟨t1, t2, h1, h2⟩ := ih (makelevelCodim G info overlap g c)
    obtain ⟨k1, k2⟩ := makelevelIndex_slices G info overlap c (List.range (2 ^ dim)) g
    rw [h1, h2]
    simp only [makelevelCodim, k1, k2, List.append_assoc, List.singleton_append]
    exact ⟨_, _, rfl, rfl⟩

/-- After the loop over a non-empty list of codimensions, run on a level
without ranges, the first slice of the interior and of the overlap family
begins at position 0. -/
theorem makelevelCodim_head (G : YaspGrid dim) (info : OverlapInfo dim) (overlap : Int)
    (c : Nat) (cs : List Nat) (g : YGridLevel dim)
    (hg : g.interior = [] ∧ g.overlap = [] ∧ g.interior_data = [] ∧ g.overlap_data = []) :
    (((c :: cs).foldl (makelevelCodim G info overlap) g).interior.head?.map
      (fun y => y.dataBegin)) = some 0 ∧
    (((c :: cs).foldl (makelevelCodim G info overlap) g).overlap.head?.map
      (fun y => y.dataBegin)) = some 0 := by
  rw [List.foldl_cons]
  obtain ⟨t1, t2, h1, h2⟩ := makelevelCodim_slices G info overlap cs
    (makelevelCodim G info overlap g c)
  obtain ⟨k1, k2⟩ := makelevelIndex_slices G info overlap c (List.range (2 ^ dim)) g
  rw [h1, h2]
  simp [makelevelCodim, k1, k2, hg.1, hg.2.1, hg.2.2.1, hg.2.2.2]

/-- The slice of codimension 0 of the interior and of the overlap family of a
level built by `makelevel` begins at position 0 of the component array. -/
theorem buildLevel_slices (G : YaspGrid dim) (coords : CoordCont dim) (periodic : Bitset dim)
    (o_interior : iTupel dim) (overlap : Int) :
    ((buildLevel G coords periodic o_interior overlap).interior.head?.map
      (fun y => y.dataBegin)) = some 0 ∧
    ((buildLevel G coords periodic o_interior overlap).overlap.head?.map
      (fun y => y.dataBegin)) = some 0 := by
  unfold buildLevel
  rw [List.range_succ_eq_map]
  exact makelevelCodim_head G _ overlap 0 _ _ (by simp [YGridLevel.empty])

/-- The cell ranges `interior[0].dataBegin()` and `overlap[0].dataBegin()` of a
level built by `makelevel` are the ranges of a shift pattern with every bit
set. -/
theorem buildLevel_firstComponent (G : YaspGrid dim) (coords : CoordCont dim)
    (periodic : Bitset dim) (o_interior : iTupel dim) (overlap : Int) :
    ∃ r : Bitset dim, (∀ k, r k = true) ∧
      firstComponent (buildLevel G coords periodic o_interior overlap).interior
        (buildLevel G coords periodic o_interior overlap).interior_data
        = (makelevelComponents G coords periodic o_interior overlap r).interior ∧
      firstComponent (buildLevel G coords periodic o_interior overlap).overlap
        (buildLevel G coords periodic o_interior overlap).overlap_data
        = (makelevelComponents G coords periodic o_interior overlap r).overlap := by
  obtain ⟨idx, rest, hs, hr⟩ := levelShifts_head dim
  obtain ⟨-, d2, -, d4⟩ := buildLevel_data G coords periodic o_interior overlap
  obtain ⟨s1, s2⟩ := buildLevel_slices G coords periodic o_interior overlap
  refine ⟨bitsetOfIndex dim idx, hr, ?_, ?_⟩
  · unfold firstComponent
    rw [s1, d4, hs]
    rfl
  · unfold firstComponent
    rw [s2, d2, hs]
    rfl


/-- The new origin of a refinement step, axis by axis. -/
theorem refineOrigin_axis (G : YaspGrid dim) (k : Fin dim) :
    refineOrigin G k
      = 2 * (firstComponent G.finestLevel.interior G.finestLevel.interior_data).origin k := by
  have key := forAxes_local
    (fun (o : iTupel dim) j => o j)
    (fun i o =>
      setAt o i (2 * (firstComponent G.finestLevel.interior G.finestLevel.interior_data).origin i))
    (fun j t =>
      if j = j then
        2 * (firstComponent G.finestLevel.interior G.finestLevel.interior_data).origin j
      else t)
    (by
      intro i s j
      by_cases hj : j = i
      · subst hj
        simp [setAt_apply]
      · simp [setAt_apply, hj])
    (fun _ => 0) k
  simpa [refineOrigin] using key

/-- The finest level after a refinement step is the level that `makelevel`
builds from the refined container, the doubled origin and the new overlap. -/
theorem refineStep_finest (G : YaspGrid dim) :
    (refineStep G).finestLevel =
      buildLevel { G with _levels := G._levels ++ [YGridLevel.empty dim] }
        (G.finestLevel.coords.refine (refineFlags G).1 (refineFlags G).2 G.keep_ovlp
          G.finestLevel.overlapSize)
        G._periodic (refineOrigin G) (refineOverlap G) := by
  have h : (refineStep G).finestLevel = ((refineStep G)._levels.getLast?).getD
      (YGridLevel.empty dim) := rfl
  rw [h, refineStep_levels]
  simp

/-- While the new level is built the global size is twice the one of the
previous finest level. -/
theorem refineStep_globalSize (G : YaspGrid dim) (hlen : 0 < G._levels.length) (k : Fin dim) :
    globalSize { G with _levels := G._levels ++ [YGridLevel.empty dim] } k
      = 2 * G.globalSize k := by
  simp only [globalSize, levelSize, maxLevel, List.length_append, List.length_singleton]
  have h1 : ((↑(G._levels.length + 1) : Int) - 1).toNat = ((G._levels.length : Int) - 1).toNat + 1 := by
    omega
  rw [h1, pow_succ]
  ring


/-- A level built from twice the cell interior origin of a level that
`makelevel` built, with the same or twice its overlap, has that doubled origin
as the origin of its cell interior range. -/
theorem doubled_origin (G0 G1 : YaspGrid dim) (coords newcont : CoordCont dim)
    (periodic : Bitset dim) (o o1 : iTupel dim) (ov ov1 : Int) (r0 r1 : Bitset dim)
    (i : Fin dim) (hr0 : r0 i = true) (hr1 : r1 i = true) (hov : 0 ≤ ov)
    (ho1 : o1 i = 2 * (makelevelComponents G0 coords periodic o ov r0).interior.origin i)
    (hov1 : ov1 = 2 * ov ∨ ov1 = ov) :
    (makelevelComponents G1 newcont periodic o1 ov1 r1).interior.origin i = o1 i := by
  obtain ⟨-, -, -, -, -, -, a7, -⟩ := makelevelComponents_axis G0 coords periodic o ov r0 i
  obtain ⟨-, -, -, -, -, -, b7, -⟩ := makelevelComponents_axis G1 newcont periodic o1 ov1 r1 i
  obtain ⟨-, a2, a3, -⟩ := overlapInfo_axis G0 coords periodic o ov i
  obtain ⟨-, b2, b3, -⟩ := overlapInfo_axis G1 newcont periodic o1 ov1 i
  rw [a7, a2, a3] at ho1
  rw [b7, b2, b3]
  simp only [hr0, hr1, Bool.true_eq_false, false_and, if_false, add_zero, Bool.or_eq_true,
    decide_eq_true_eq] at ho1 ⊢
  by_cases hp : periodic i = true
  · simp only [hp, if_true, true_or] at ho1 ⊢
    omega
  · simp only [hp, Bool.false_eq_true, if_false, false_or] at ho1 ⊢
    clear a7 b7 a2 a3 b2 b3
    rcases hov1 with h | h <;> subst h <;> split_ifs at ho1 ⊢ <;> omega

/-- A level built from twice the cell interior origin of a level that
`makelevel` built has, on a shifted axis, interior ranges of twice the size if
either the overlap and the container are doubled, or the overlap is kept and
the container is doubled less the overlap on each side that had one. -/
theorem doubled_size (G0 G1 : YaspGrid dim) (coords newcont : CoordCont dim)
    (periodic : Bitset dim) (o o1 : iTupel dim) (ov ov1 : Int) (r0 r : Bitset dim)
    (i : Fin dim) (hr0 : r0 i = true) (hr : r i = true) (hov : 0 ≤ ov)
    (hgs : G1.globalSize i = 2 * G0.globalSize i)
    (ho1 : o1 i = 2 * (makelevelComponents G0 coords periodic o ov r0).interior.origin i)
    (hcase : (ov1 = 2 * ov ∧ newcont.size i = 2 * coords.size i) ∨
      (ov1 = ov ∧ newcont.size i = 2 * coords.size i
        - ((if (overlapInfo G0 coords periodic o ov).ovlp_low i = true then ov else 0)
          + (if (overlapInfo G0 coords periodic o ov).ovlp_up i = true then ov else 0)))) :
    (makelevelComponents G1 newcont periodic o1 ov1 r).interior.size i
      = 2 * (makelevelComponents G0 coords periodic o ov r).interior.size i := by
  obtain ⟨-, -, -, -, -, -, a7, -⟩ := makelevelComponents_axis G0 coords periodic o ov r0 i
  obtain ⟨-, -, -, -, -, -, -, a8⟩ := makelevelComponents_axis G0 coords periodic o ov r i
  obtain ⟨-, -, -, -, -, -, -, b8⟩ := makelevelComponents_axis G1 newcont periodic o1 ov1 r i
  obtain ⟨-, a2, a3, a4⟩ := overlapInfo_axis G0 coords periodic o ov i
  obtain ⟨-, -, b3, b4⟩ := overlapInfo_axis G1 newcont periodic o1 ov1 i
  rw [a7, a2, a3] at ho1
  rw [a3, a4] at hcase
  rw [b8, b3, b4, a8, a3, a4, hgs]
  simp only [hr0, hr, Bool.true_eq_false, false_and, if_false, add_zero, sub_zero,
    Bool.or_eq_true, decide_eq_true_eq, if_true] at ho1 hcase ⊢
  clear a7 a8 b8 a2 a3 a4 b3 b4
  by_cases hp : periodic i = true
  · simp only [hp, if_true, true_or] at ho1 hcase ⊢
    rcases hcase with ⟨h1, h2⟩ | ⟨h1, h2⟩ <;> rw [h2] <;> subst h1 <;> omega
  · simp only [hp, Bool.false_eq_true, if_false, false_or] at ho1 hcase ⊢
    by_cases c1 : o i - ov < 0 <;> by_cases c2 : 0 ≤ o i - ov <;>
    by_cases c3 : o i - ov + coords.size i < G0.globalSize i <;>
    by_cases c4 : 0 + coords.size i < G0.globalSize i <;>
    simp only [c1, c2, c3, c4, if_true, if_false] at ho1 hcase ⊢ <;>
    rcases hcase with ⟨h1, h2⟩ | ⟨h1, h2⟩ <;> rw [h2] <;> subst h1 <;>
      split_ifs <;> omega


/-- Within the capacity of the level stack `globalRefine(1)` is one refinement
step. -/
theorem globalRefine_one (G : YaspGrid dim) (hlen : 0 < G._levels.length)
    (hcap : G._levels.length + 1 ≤ levelCapacity) :
    globalRefine G 1 = (none, refineStep G) := by
  have hm : G.maxLevel = (G._levels.length : Int) - 1 := rfl
  have hn : ¬ ((1 : Int) < - G.maxLevel) := by omega
  simp [globalRefine, hn, refineLoop, coarsenLoop, hcap]

/-- The overlap of the new level is once or twice the overlap the finest level
was built with. -/
theorem refineOverlap_of_built (G G0 : YaspGrid dim) (coords : CoordCont dim) (o : iTupel dim)
    (ov : Int) (hb : G.finestLevel = buildLevel G0 coords G._periodic o ov) :
    refineOverlap G = if G.keep_ovlp = true then 2 * ov else ov := by
  unfold refineOverlap
  rw [hb, (buildLevel_scalars G0 coords G._periodic o ov).2.1]

/-- C21.  In a refinement step of `globalRefine`, on a grid whose finest level
was built by `makelevel` with a non-negative overlap, the interior origin
handed to `makelevel` is on every axis exactly twice the origin of the cell
interior range `interior[0].dataBegin()` of the previous finest level, and the
cell interior range of the new level has that doubled origin. -/
theorem C21_refined_origin (G G0 : YaspGrid dim) (coords : CoordCont dim) (o : iTupel dim)
    (ov : Int) (hb : G.finestLevel = buildLevel G0 coords G._periodic o ov) (hov : 0 ≤ ov)
    (i : Fin dim) :
    (refineStep G).finestLevel =
      buildLevel { G with _levels := G._levels ++ [YGridLevel.empty dim] }
        (G.finestLevel.coords.refine (refineFlags G).1 (refineFlags G).2 G.keep_ovlp
          G.finestLevel.overlapSize)
        G._periodic (refineOrigin G) (refineOverlap G) ∧
    refineOrigin G i
      = 2 * (firstComponent G.finestLevel.interior G.finestLevel.interior_data).origin i ∧
    (firstComponent (refineStep G).finestLevel.interior
        (refineStep G).finestLevel.interior_data).origin i
      = 2 * (firstComponent G.finestLevel.interior G.finestLevel.interior_data).origin i := by
  refine ⟨refineStep_finest G, refineOrigin_axis G i, ?_⟩
  have hX := refineOrigin_axis G i
  have hO := refineOverlap_of_built G G0 coords o ov hb
  rw [← hX, refineStep_finest]
  generalize G.finestLevel.coords.refine (refineFlags G).1 (refineFlags G).2 G.keep_ovlp
    G.finestLevel.overlapSize = newcont
  obtain ⟨r1, hr1, hi1, -⟩ := buildLevel_firstComponent
    { G with _levels := G._levels ++ [YGridLevel.empty dim] } newcont G._periodic
    (refineOrigin G) (refineOverlap G)
  obtain ⟨r0, hr0, hi0, -⟩ := buildLevel_firstComponent G0 coords G._periodic o ov
  rw [hi1]
  rw [hb, hi0] at hX
  refine doubled_origin G0 _ coords newcont G._periodic o (refineOrigin G) ov (refineOverlap G)
    r0 r1 i (hr0 i) (hr1 i) hov hX ?_
  rw [hO]
  by_cases hk : G.keep_ovlp = true
  · simp [hk]
  · simp [hk]

/-- C21 at a concrete input: the one-dimensional grid as constructed, whose
level 0 `makelevel` built with overlap 1. -/
theorem C21_refined_origin_witness :
    serial1.finestLevel = buildLevel serial1Base serial1Coords serial1._periodic (tuple1 0) 1 ∧
    (0 : Int) ≤ 1 ∧
    ((refineStep serial1).finestLevel =
      buildLevel { serial1 with _levels := serial1._levels ++ [YGridLevel.empty 1] }
        (serial1.finestLevel.coords.refine (refineFlags serial1).1 (refineFlags serial1).2
          serial1.keep_ovlp serial1.finestLevel.overlapSize)
        serial1._periodic (refineOrigin serial1) (refineOverlap serial1) ∧
    refineOrigin serial1 0
      = 2 * (firstComponent serial1.finestLevel.interior
          serial1.finestLevel.interior_data).origin 0 ∧
    (firstComponent (refineStep serial1).finestLevel.interior
        (refineStep serial1).finestLevel.interior_data).origin 0
      = 2 * (firstComponent serial1.finestLevel.interior
          serial1.finestLevel.interior_data).origin 0) :=
  ⟨rfl, by decide,
    C21_refined_origin serial1 serial1Base serial1Coords (tuple1 0) 1 rfl (by decide) 0⟩

/-- C22 (evaluation at a failing input).  One-dimensional grid of a single
process with 4 cells and overlap 1, keep-physical-overlap set: `globalRefine(1)`
turns the interior ranges of sizes 4 (cells) and 5 (vertices) into ranges of
sizes 8 and 9, so the vertex range is not doubled. -/
theorem C22_vertex_range_not_doubled :
    serial1.keep_ovlp = true ∧
    (globalRefine serial1 1).1 = none ∧
    serial1.finestLevel.interior_data.map (fun c => c.size 0) = [4, 5] ∧
    (globalRefine serial1 1).2.finestLevel.interior_data.map (fun c => c.size 0) = [8, 9] := by
  decide

/-- C22 (amended).  After one `globalRefine(1)` on a grid whose finest level was
built by `makelevel` with a non-negative overlap, the interior range of every
shift pattern of the new finest level has, on every axis on which the pattern
is shifted (for the cells: on every axis), exactly twice the size of the
corresponding interior range of the previous finest level, if the
keep-physical-overlap option is set, and also if it is not set provided that on
this axis the overlap flags that `globalRefine` computes agree with the flags
that `makelevel` computed for the previous finest level. -/
theorem C22_refined_interior_sizes (G G0 : YaspGrid dim) (coords : CoordCont dim)
    (o : iTupel dim) (ov : Int)
    (hb : G.finestLevel = buildLevel G0 coords G._periodic o ov)
    (hgs : ∀ i, G0.globalSize i = G.globalSize i) (hov : 0 ≤ ov)
    (hlen : 0 < G._levels.length) (hcap : G._levels.length + 1 ≤ levelCapacity)
    (k : Fin dim)
    (hk : G.keep_ovlp = true ∨
      ((refineFlags G).1 k = (overlapInfo G0 coords G._periodic o ov).ovlp_low k ∧
       (refineFlags G).2 k = (overlapInfo G0 coords G._periodic o ov).ovlp_up k))
    (n idx : Nat) (hn : (levelShifts dim).get? n = some idx)
    (hr : bitsetOfIndex dim idx k = true) :
    ∃ a b, (globalRefine G 1).2.finestLevel.interior_data.get? n = some a ∧
      G.finestLevel.interior_data.get? n = some b ∧ a.size k = 2 * b.size k := by
  have hX := refineOrigin_axis G k
  have hO := refineOverlap_of_built G G0 coords o ov hb
  have hG := refineStep_globalSize G hlen k
  rw [← hgs k] at hG
  rw [globalRefine_one G hlen hcap]
  simp only []
  rw [refineStep_finest]
  have hc : (G.finestLevel.coords.refine (refineFlags G).1 (refineFlags G).2 G.keep_ovlp
      G.finestLevel.overlapSize).size k
      = 2 * coords.size k
        - (if G.keep_ovlp = true then 0
           else (if (refineFlags G).1 k = true then ov else 0)
            + (if (refineFlags G).2 k = true then ov else 0)) := by
    rw [hb, (buildLevel_scalars G0 coords G._periodic o ov).1,
      (buildLevel_scalars G0 coords G._periodic o ov).2.1]
    rfl
  generalize G.finestLevel.coords.refine (refineFlags G).1 (refineFlags G).2 G.keep_ovlp
    G.finestLevel.overlapSize = newcont at hc
  obtain ⟨r0, hr0, hi0, -⟩ := buildLevel_firstComponent G0 coords G._periodic o ov
  rw [hb, hi0] at hX
  obtain ⟨-, -, -, d4⟩ := buildLevel_data G0 coords G._periodic o ov
  obtain ⟨-, -, -, e4⟩ := buildLevel_data
    { G with _levels := G._levels ++ [YGridLevel.empty dim] } newcont G._periodic
    (refineOrigin G) (refineOverlap G)
  rw [hb, d4, e4]
  rw [List.get?_eq_getElem?] at hn
  refine ⟨_, _, by rw [List.get?_eq_getElem?, List.getElem?_map, hn]; rfl,
    by rw [List.get?_eq_getElem?, List.getElem?_map, hn]; rfl, ?_⟩
  refine doubled_size G0 _ coords newcont G._periodic o (refineOrigin G) ov (refineOverlap G)
    r0 (bitsetOfIndex dim idx) k (hr0 k) hr hov hG hX ?_
  rw [hO, hc]
  rcases hk with hk | ⟨h1, h2⟩
  · left
    simp [hk]
  · by_cases hkeep : G.keep_ovlp = true
    · left
      simp [hkeep]
    · right
      simp [hkeep, h1, h2]

/-- C22 (amended) at a concrete input: the cells of the one-dimensional grid as
constructed, with the keep-physical-overlap option switched off. -/
theorem C22_refined_interior_sizes_witness :
    ∃ a b, (globalRefine (refineOptions serial1 false) 1).2.finestLevel.interior_data.get? 0
        = some a ∧
      (refineOptions serial1 false).finestLevel.interior_data.get? 0 = some b ∧
      a.size 0 = 2 * b.size 0 :=
  C22_refined_interior_sizes (refineOptions serial1 false) serial1Base serial1Coords (tuple1 0) 1
    rfl (fun _ => rfl) (by decide) (by decide) (by decide) 0
    (Or.inr ⟨by decide, by decide⟩) 0 1 (by decide) (by decide)

/-- The collective maximum is an upper bound of all values passed in and is
one of them. -/
theorem commMax_spec (others : List Int) (value : Int) :
    value ≤ commMax others value ∧ (∀ x ∈ others, x ≤ commMax others value) ∧
    (commMax others value = value ∨ commMax others value ∈ others) := by
  unfold commMax
  induction others generalizing value with
  | nil => simp
  | cons a l ih =>
    rw [List.foldl_cons]
    obtain ⟨h1, h2, h3⟩ := ih (max value a)
    refine ⟨le_trans (le_max_left _ _) h1, ?_, ?_⟩
    · intro x hx
      rcases List.mem_cons.mp hx with hx | hx
      · subst hx
        exact le_trans (le_max_right _ _) h1
      · exact h2 x hx
    · rcases h3 with h3 | h3
      · rw [h3]
        rcases max_choice value a with hm | hm
        · left
          exact hm
        · right
          rw [hm]
          exact List.mem_cons_self _ _
      · right
        exact List.mem_cons_of_mem _ h3

/-- C23.  While no adaptation is active, `mark(refCount, e)` returns false and
leaves the grid, so the refine counter, unchanged when `e` is not on the finest
level; otherwise it returns true and sets the counter to the maximum of the old
counter and `refCount`, so that a `refCount` not above the counter changes
nothing; `getMark(e2)` then returns the counter for the entities of the finest
level and 0 for all others. -/
theorem C23_mark (G : YaspGrid dim) (refCount : Int) (e e2 : Entity)
    (hA : G.adaptActive = false) :
    (e.level ≠ G.maxLevel → mark G refCount e = some (false, G)) ∧
    (e.level = G.maxLevel → mark G refCount e
      = some (true, { G with adaptRefCount := max G.adaptRefCount refCount })) ∧
    (e.level = G.maxLevel → refCount ≤ G.adaptRefCount → mark G refCount e = some (true, G)) ∧
    (∀ b G1, mark G refCount e = some (b, G1) →
      G1.maxLevel = G.maxLevel ∧
      getMark G1 e2 = if e2.level = G.maxLevel then G1.adaptRefCount else 0) := by
  refine ⟨?_, ?_, ?_, ?_⟩
  · intro h
    simp [mark, hA, h]
  · intro h
    simp [mark, hA, h]
  · intro h hle
    have hm : mark G refCount e
        = some (true, { G with adaptRefCount := max G.adaptRefCount refCount }) := by
      simp [mark, hA, h]
    rw [hm, max_eq_left hle]
  · intro b G1 hm
    by_cases h : e.level = G.maxLevel
    · simp only [mark, hA, h, ne_eq, not_true_eq_false, if_false, Bool.false_eq_true,
        Option.some.injEq, Prod.mk.injEq] at hm
      obtain ⟨-, rfl⟩ := hm
      exact ⟨rfl, rfl⟩
    · simp only [mark, hA, h, ne_eq, not_false_eq_true, if_true, if_false, Bool.false_eq_true,
        Option.some.injEq, Prod.mk.injEq] at hm
      obtain ⟨-, rfl⟩ := hm
      exact ⟨rfl, rfl⟩

/-- C23 at a concrete input: the one-dimensional grid as constructed and then
refined twice, a refinement count of 2, an entity of level 2 and one of
level 0. -/
theorem C23_mark_witness :
    serial1Refined.adaptActive = false ∧
    mark serial1Refined 2 { level := 0 } = some (false, serial1Refined) ∧
    mark serial1Refined 2 { level := 2 }
      = some (true, { serial1Refined with adaptRefCount := 2 }) ∧
    getMark { serial1Refined with adaptRefCount := 2 } { level := 2 } = 2 ∧
    getMark { serial1Refined with adaptRefCount := 2 } { level := 0 } = 0 :=
  ⟨by decide,
    (C23_mark serial1Refined 2 { level := 0 } { level := 2 } (by decide)).1 (by decide),
    (C23_mark serial1Refined 2 { level := 2 } { level := 2 } (by decide)).2.1 (by decide),
    by decide, by decide⟩

/-- C24 (evaluation at a failing input).  Two processes whose refine counters
are 1 and 3: `preAdapt` sets the counter of both to 3, while the minimum of the
two counters is 1. -/
theorem C24_preAdapt_takes_maximum :
    (preAdapt { twoProc 0 with adaptRefCount := 1 } [3]).2.adaptRefCount = 3 ∧
    (preAdapt { twoProc 1 with adaptRefCount := 3 } [1]).2.adaptRefCount = 3 ∧
    min (1 : Int) 3 = 1 := by
  decide

/-- C24 (amended).  `preAdapt` sets `adaptActive` and sets the refine counter to
the global maximum of the counters of all processes: a value that is at least
the counter of this process and of every other process and is the counter of
one of them; it returns true exactly when that resulting counter is negative,
and it changes nothing else. -/
theorem C24_preAdapt_global_maximum (G : YaspGrid dim) (others : List Int) :
    G.adaptRefCount ≤ (preAdapt G others).2.adaptRefCount ∧
    (∀ x ∈ others, x ≤ (preAdapt G others).2.adaptRefCount) ∧
    ((preAdapt G others).2.adaptRefCount = G.adaptRefCount ∨
      (preAdapt G others).2.adaptRefCount ∈ others) ∧
    ((preAdapt G others).1 = true ↔ (preAdapt G others).2.adaptRefCount < 0) ∧
    (preAdapt G others).2
      = { G with adaptActive := true, adaptRefCount := (preAdapt G others).2.adaptRefCount } := by
  obtain ⟨h1, h2, h3⟩ := commMax_spec others G.adaptRefCount
  refine ⟨h1, h2, h3, ?_, rfl⟩
  simp [preAdapt]

/-! ## The loops of communicateCodim -/

/-- A loop that appends calls to a list appends the calls of all passes. -/
theorem foldl_append_flatMap {α β : Type} (g : α → List β) (l : List α) (c : List β) :
    l.foldl (fun c p => c ++ g p) c = c ++ l.flatMap g := by
  induction l generalizing c with
  | nil => simp
  | cons a l ih => simp [List.foldl_cons, ih, List.flatMap_cons, List.append_assoc]

/-- A loop that does not change its state leaves it as it was. -/
theorem foldl_unchanged {α σ : Type} (l : List α) (s : σ) :
    l.foldl (fun v _ => v) s = s := by
  induction l generalizing s with
  | nil => rfl
  | cons a l ih => simp [List.foldl_cons, ih]

/-- A loop that writes entry `cnt` of a vector in pass `cnt` fills the
vector. -/
theorem foldl_enumFrom_set {α : Type} (f : Nat → α → Int) (l : List α) (k : Nat)
    (pre post : List Int) (hk : pre.length = k) (hpost : post.length = l.length) :
    (l.enumFrom k).foldl (fun v p => v.set p.1 (f p.1 p.2)) (pre ++ post)
      = pre ++ (l.enumFrom k).map (fun p => f p.1 p.2) := by
  induction l generalizing k pre post with
  | nil =>
    have : post = [] := List.length_eq_zero.mp hpost
    simp [this]
  | cons a l ih =>
    cases post with
    | nil => simp at hpost
    | cons d post =>
      simp only [List.enumFrom_cons, List.foldl_cons, List.map_cons]
      have hset : (pre ++ d :: post).set k (f k a) = (pre ++ [f k a]) ++ post := by
        rw [← hk, List.set_append_right _ _ (le_refl _)]
        simp
      rw [hset, ih (k + 1) (pre ++ [f k a]) post (by simp [hk]) (by simpa using hpost)]
      simp

/-- The loop that fills a vector of the length of the list. -/
theorem foldl_enum_set {α : Type} (f : Nat → α → Int) (l : List α) (v : List Int)
    (hv : v.length = l.length) :
    l.enum.foldl (fun v p => v.set p.1 (f p.1 p.2)) v = l.enum.map (fun p => f p.1 p.2) := by
  have := foldl_enumFrom_set f l 0 [] v rfl hv
  simpa [List.enum] using this

/-- Summation loop `n += f(e)`. -/
theorem foldl_add_sum {α : Type} (f : α → Nat) (l : List α) (a : Nat) :
    l.foldl (fun n e => n + f e) a = a + (l.map f).sum := by
  induction l generalizing a with
  | nil => simp
  | cons x l ih => simp [List.foldl_cons, ih, Nat.add_assoc]

/-- A loop whose passes write the two size vectors independently of each other
and append calls that do not depend on the state. -/
theorem forList_fields {α E : Type} (l : List α) (A B : Nat → α → List Int → List Int)
    (C : Nat → α → List (CommEvent E)) (st : CommResult E) :
    forList l (fun cnt x (st : CommResult E) =>
        ({ send_size := A cnt x st.send_size, recv_size := B cnt x st.recv_size
           calls := st.calls ++ C cnt x } : CommResult E)) st
      = { send_size := l.enum.foldl (fun v p => A p.1 p.2 v) st.send_size
          recv_size := l.enum.foldl (fun v p => B p.1 p.2 v) st.recv_size
          calls := st.calls ++ l.enum.flatMap (fun p => C p.1 p.2) } := by
  unfold forList
  generalize l.enum = L
  induction L generalizing st with
  | nil => simp
  | cons p L ih =>
    simp only [List.foldl_cons, List.flatMap_cons]
    rw [ih]
    simp [List.append_assoc]

/-- A loop whose passes only append calls, which may depend on the size
vectors. -/
theorem forList_reads {α E : Type} (l : List α)
    (C : Nat → α → List Int → List Int → List (CommEvent E)) (st : CommResult E) :
    (forList l (fun cnt x (st : CommResult E) =>
        ({ send_size := st.send_size, recv_size := st.recv_size
           calls := st.calls ++ C cnt x st.send_size st.recv_size } : CommResult E)) st)
      = { send_size := st.send_size, recv_size := st.recv_size
          calls := st.calls ++ l.enum.flatMap (fun p => C p.1 p.2 st.send_size st.recv_size) } := by
  unfold forList
  generalize l.enum = L
  induction L generalizing st with
  | nil => simp
  | cons p L ih =>
    simp only [List.foldl_cons, List.flatMap_cons]
    rw [ih]
    simp [List.append_assoc]

/-- Mapping over the enumerated list a function of the element only. -/
theorem enum_map_snd_comp {α β : Type} (f : α → β) (l : List α) :
    l.enum.map (fun p => f p.2) = l.map f := by
  have h : (fun p : Nat × α => f p.2) = f ∘ Prod.snd := rfl
  rw [h, ← List.map_map, List.enum_map_snd]

/-- Concatenating over the enumerated list lists that depend on the element
only. -/
theorem enum_flatMap_snd {α β : Type} (g : α → List β) (l : List α) :
    l.enum.flatMap (fun p => g p.2) = l.flatMap g := by
  have h1 : l.enum.flatMap (fun p => g p.2) = (l.enum.map (fun p => g p.2)).flatten := rfl
  have h2 : l.flatMap g = (l.map g).flatten := rfl
  rw [h1, h2, enum_map_snd_comp]

/-- Concatenating one-element lists is mapping. -/
theorem flatMap_single {α β : Type} (f : α → β) (l : List α) :
    l.flatMap (fun x => [f x]) = l.map f := by
  induction l with
  | nil => rfl
  | cons a l ih => simp [List.flatMap_cons, ih]

/-- The size vectors and the calls of the size computation for a fixed
size. -/
theorem sizesFixed_run {E : Type} (data : DataHandle E) (visit : EntityRange dim E)
    (sl rl : List (Intersection dim)) (st : CommResult E)
    (h1 : st.send_size.length = sl.length) (h2 : st.recv_size.length = rl.length) :
    sizesFixed data visit sl rl st
      = { send_size := sl.map (fun s => s.grid.totalsize * (data.size (visit.first s) : Int))
          recv_size := rl.map (fun s => s.grid.totalsize * (data.size (visit.first s) : Int))
          calls := st.calls ++ sl.map (fun s => CommEvent.size (visit.first s))
            ++ rl.map (fun s => CommEvent.size (visit.first s)) } := by
  simp only [sizesFixed]
  rw [forList_fields sl
    (fun cnt s v => v.set cnt (s.grid.totalsize * (data.size (visit.first s) : Int)))
    (fun _ _ v => v) (fun _ s => [CommEvent.size (visit.first s)]) st]
  rw [forList_fields rl (fun _ _ v => v)
    (fun cnt s v => v.set cnt (s.grid.totalsize * (data.size (visit.first s) : Int)))
    (fun _ s => [CommEvent.size (visit.first s)])]
  simp only [foldl_unchanged]
  rw [foldl_enum_set (fun _ s => s.grid.totalsize * (data.size (visit.first s) : Int)) sl _ h1,
    foldl_enum_set (fun _ s => s.grid.totalsize * (data.size (visit.first s) : Int)) rl _ h2,
    enum_map_snd_comp (fun s => s.grid.totalsize * (data.size (visit.first s) : Int)) sl,
    enum_map_snd_comp (fun s => s.grid.totalsize * (data.size (visit.first s) : Int)) rl,
    enum_flatMap_snd (fun s => [CommEvent.size (visit.first s)]) sl,
    enum_flatMap_snd (fun s => [CommEvent.size (visit.first s)]) rl]
  simp [flatMap_single]

/-- The size vectors and the calls of the size computation for a variable
size. -/
theorem sizesVariable_run {E : Type} (data : DataHandle E) (visit : EntityRange dim E)
    (recvSizes : Nat → Nat → Nat) (sl rl : List (Intersection dim)) (st : CommResult E)
    (h1 : st.send_size.length = sl.length) (h2 : st.recv_size.length = rl.length) :
    sizesVariable data visit recvSizes sl rl st
      = { send_size := sl.map (fun s => (((visit.entities s).map data.size).sum : Int))
          recv_size := rl.enum.map (fun p =>
            ((((List.range p.2.grid.totalsize.toNat).map (recvSizes p.1)).sum : Nat) : Int))
          calls := st.calls
            ++ sl.flatMap (fun s => (visit.entities s).map (fun e => CommEvent.size e)
                ++ [CommEvent.send s.rank s.grid.totalsize])
            ++ rl.map (fun s => CommEvent.recv s.rank s.grid.totalsize)
            ++ [CommEvent.exchange] } := by
  simp only [sizesVariable, foldl_add_sum, Nat.zero_add, List.append_assoc]
  rw [forList_fields sl
    (fun cnt s v => v.set cnt ((((visit.entities s).map data.size).sum : Nat) : Int))
    (fun _ _ v => v)
    (fun _ s => (visit.entities s).map (fun e => CommEvent.size e)
      ++ [CommEvent.send s.rank s.grid.totalsize]) st]
  rw [forList_fields rl (fun _ _ v => v) (fun _ _ v => v)
    (fun _ s => [CommEvent.recv s.rank s.grid.totalsize])]
  have h3 := fun (st : CommResult E) => forList_fields rl (fun _ _ v => v)
    (fun cnt s v => v.set cnt
      ((((List.range s.grid.totalsize.toNat).map (recvSizes cnt)).sum : Nat) : Int))
    (fun _ _ => []) st
  simp only [List.append_nil] at h3
  rw [h3]
  simp only [foldl_unchanged]
  rw [foldl_enum_set (fun _ s => ((((visit.entities s).map data.size).sum : Nat) : Int)) sl _ h1,
    foldl_enum_set (fun cnt s =>
      ((((List.range s.grid.totalsize.toNat).map (recvSizes cnt)).sum : Nat) : Int)) rl _ h2,
    enum_map_snd_comp (fun s => ((((visit.entities s).map data.size).sum : Nat) : Int)) sl,
    enum_flatMap_snd (fun s => (visit.entities s).map (fun e => CommEvent.size e)
      ++ [CommEvent.send s.rank s.grid.totalsize]) sl,
    enum_flatMap_snd (fun s => [CommEvent.recv s.rank s.grid.totalsize]) rl]
  simp [flatMap_single, List.append_assoc]

/-- The data phase leaves the size vectors alone and issues its calls in four
blocks: gather and send per send Intersection, the receive requests, one
exchange, scatter per receive Intersection. -/
theorem dataPhase_run {E : Type} (data : DataHandle E) (visit : EntityRange dim E)
    (recvSizes : Nat → Nat → Nat) (fixed : Bool) (sl rl : List (Intersection dim))
    (st : CommResult E) :
    dataPhase data visit recvSizes fixed sl rl st
      = { send_size := st.send_size
          recv_size := st.recv_size
          calls := st.calls
            ++ sl.enum.flatMap (fun p => (visit.entities p.2).map (fun e => CommEvent.gather e)
                ++ [CommEvent.send p.2.rank (st.send_size.getD p.1 (-1))])
            ++ rl.enum.flatMap (fun p => [CommEvent.recv p.2.rank (st.recv_size.getD p.1 (-1))])
            ++ [CommEvent.exchange]
            ++ rl.enum.flatMap (fun p =>
                if fixed = true then
                  CommEvent.size (visit.first p.2)
                    :: (visit.entities p.2).map
                      (fun e => CommEvent.scatter e (data.size (visit.first p.2)))
                else
                  (visit.entities p.2).enum.map
                    (fun q => CommEvent.scatter q.2 (recvSizes p.1 q.1))) } := by
  simp only [dataPhase, List.append_assoc]
  rw [forList_reads sl (fun cnt s v _ => (visit.entities s).map (fun e => CommEvent.gather e)
      ++ [CommEvent.send s.rank (v.getD cnt (-1))]) st]
  rw [forList_reads rl (fun cnt s _ w => [CommEvent.recv s.rank (w.getD cnt (-1))])]
  rw [forList_reads rl (fun cnt s _ _ =>
      if fixed = true then
        CommEvent.size (visit.first s)
          :: (visit.entities s).map (fun e => CommEvent.scatter e (data.size (visit.first s)))
      else
        (visit.entities s).enum.map (fun q => CommEvent.scatter q.2 (recvSizes cnt q.1)))]
  simp [List.append_assoc]


/-- For a contained codimension on an existing level `communicateCodim` runs
the size computation and the data phase on the selected lists. -/
theorem communicateCodim_run {E : Type} (G : YaspGrid dim) (data : DataHandle E)
    (visit : EntityRange dim E) (recvSizes : Nat → Nat → Nat) (iftype : InterfaceType)
    (dir : CommunicationDirection) (level : Int) (codim : Nat) (g : YGridLevel dim)
    (hc : data.contains dim codim = true) (hg : G.begin level = Except.ok g) :
    communicateCodim G data visit recvSizes iftype dir level codim
      = Except.ok (dataPhase data visit recvSizes (data.fixedsize dim codim)
          (((selectLists g iftype dir codim).1).getD [])
          (((selectLists g iftype dir codim).2).getD [])
          (if data.fixedsize dim codim = true then
            sizesFixed data visit (((selectLists g iftype dir codim).1).getD [])
              (((selectLists g iftype dir codim).2).getD [])
              { send_size := List.replicate (((selectLists g iftype dir codim).1).getD []).length (-1)
                recv_size := List.replicate (((selectLists g iftype dir codim).2).getD []).length (-1)
                calls := [] }
           else
            sizesVariable data visit recvSizes (((selectLists g iftype dir codim).1).getD [])
              (((selectLists g iftype dir codim).2).getD [])
              { send_size := List.replicate (((selectLists g iftype dir codim).1).getD []).length (-1)
                recv_size := List.replicate (((selectLists g iftype dir codim).2).getD []).length (-1)
                calls := [] })) := by
  simp only [communicateCodim, hc, hg, Bool.not_true, Bool.false_eq_true, if_false]

/-- On an existing level `begin` returns the level. -/
theorem begin_ok (G : YaspGrid dim) (level : Int) (hl : 0 ≤ level ∧ level ≤ G.maxLevel) :
    G.begin level = Except.ok ((G._levels.get? level.toNat).getD (YGridLevel.empty dim)) := by
  have h : ¬ (level < 0 ∨ level > G.maxLevel) := by omega
  simp only [begin, h, if_false]

/-- On an existing level `communicateCodim` throws nothing. -/
theorem communicateCodim_ok {E : Type} (G : YaspGrid dim) (data : DataHandle E)
    (visit : EntityRange dim E) (recvSizes : Nat → Nat → Nat) (iftype : InterfaceType)
    (dir : CommunicationDirection) (level : Int) (codim : Nat)
    (hl : 0 ≤ level ∧ level ≤ G.maxLevel) :
    ∃ r, communicateCodim G data visit recvSizes iftype dir level codim = Except.ok r := by
  by_cases hc : data.contains dim codim = true
  · exact ⟨_, communicateCodim_run G data visit recvSizes iftype dir level codim _ hc
      (begin_ok G level hl)⟩
  · exact ⟨{ send_size := [], recv_size := [], calls := [] }, by simp [communicateCodim, hc]⟩

/-- The recursion over the codimensions calls `communicateCodim` for the
contained codimensions from `n` down to 0. -/
theorem comm_run {E : Type} (G : YaspGrid dim) (data : DataHandle E)
    (visit : Nat → EntityRange dim E) (recvSizes : Nat → Nat → Nat → Nat)
    (iftype : InterfaceType) (dir : CommunicationDirection) (level : Int)
    (hl : 0 ≤ level ∧ level ≤ G.maxLevel) (n : Nat) :
    ∃ rs, YaspCommunicateMeta.comm G data visit recvSizes iftype dir level n = Except.ok rs ∧
      rs.map Prod.fst = ((List.range (n + 1)).reverse).filter (fun c => data.contains dim c) ∧
      ∀ p ∈ rs, communicateCodim G data (visit p.1) (recvSizes p.1) iftype dir level p.1
        = Except.ok p.2 := by
  induction n with
  | zero =>
    by_cases hc : data.contains dim 0 = true
    · obtain ⟨r, hr⟩ := communicateCodim_ok G data (visit 0) (recvSizes 0) iftype dir level 0 hl
      refine ⟨[(0, r)], ?_, ?_, ?_⟩
      · simp [YaspCommunicateMeta.comm, hc, hr]
      · simp [List.range_succ, hc]
      · intro p hp
        simp only [List.mem_singleton] at hp
        subst hp
        exact hr
    · refine ⟨[], ?_, ?_, ?_⟩
      · simp [YaspCommunicateMeta.comm, hc]
      · simp [List.range_succ, hc]
      · intro p hp
        simp at hp
  | succ n ih =>
    obtain ⟨rs, h1, h2, h3⟩ := ih
    have hrange : (List.range (n + 1 + 1)).reverse = (n + 1) :: (List.range (n + 1)).reverse := by
      rw [List.range_succ, List.reverse_append]
      rfl
    by_cases hc : data.contains dim (n + 1) = true
    · obtain ⟨r, hr⟩ := communicateCodim_ok G data (visit (n + 1)) (recvSizes (n + 1)) iftype dir
        level (n + 1) hl
      refine ⟨(n + 1, r) :: rs, ?_, ?_, ?_⟩
      · simp [YaspCommunicateMeta.comm, hc, hr, h1]
      · rw [hrange, List.filter_cons]
        simp [hc, h2]
      · intro p hp
        rcases List.mem_cons.mp hp with hp | hp
        · subst hp
          exact hr
        · exact h3 p hp
    · refine ⟨rs, ?_, ?_, h3⟩
      · simp [YaspCommunicateMeta.comm, hc, h1]
      · rw [hrange, List.filter_cons]
        simp [hc, h2]

/-- C25.  In the forward direction `communicateCodim` selects the send list
and the receive list built from (interiorborder, interiorborder) for
`InteriorBorder_InteriorBorder_Interface`, from (interiorborder, overlapfront)
for `InteriorBorder_All_Interface`, from (overlap, overlapfront) for
`Overlap_OverlapFront_Interface` and `Overlap_All_Interface`, and from
(overlapfront, overlapfront) for `All_All_Interface`; both pointers are set for
every interface type, and the backward direction uses the forward pair with
send list and receive list exchanged. -/
theorem C25_list_selection (g : YGridLevel dim) (codim : Nat) (iftype : InterfaceType)
    (dir : CommunicationDirection) :
    selectLists g InterfaceType.InteriorBorder_InteriorBorder_Interface
        CommunicationDirection.ForwardCommunication codim
      = (some (codimLists g.send_interiorborder_interiorborder
            g.send_interiorborder_interiorborder_data codim),
         some (codimLists g.recv_interiorborder_interiorborder
            g.recv_interiorborder_interiorborder_data codim)) ∧
    selectLists g InterfaceType.InteriorBorder_All_Interface
        CommunicationDirection.ForwardCommunication codim
      = (some (codimLists g.send_interiorborder_overlapfront
            g.send_interiorborder_overlapfront_data codim),
         some (codimLists g.recv_overlapfront_interiorborder
            g.recv_overlapfront_interiorborder_data codim)) ∧
    selectLists g InterfaceType.Overlap_OverlapFront_Interface
        CommunicationDirection.ForwardCommunication codim
      = (some (codimLists g.send_overlap_overlapfront g.send_overlap_overlapfront_data codim),
         some (codimLists g.recv_overlapfront_overlap g.recv_overlapfront_overlap_data codim)) ∧
    selectLists g InterfaceType.Overlap_All_Interface
        CommunicationDirection.ForwardCommunication codim
      = (some (codimLists g.send_overlap_overlapfront g.send_overlap_overlapfront_data codim),
         some (codimLists g.recv_overlapfront_overlap g.recv_overlapfront_overlap_data codim)) ∧
    selectLists g InterfaceType.All_All_Interface
        CommunicationDirection.ForwardCommunication codim
      = (some (codimLists g.send_overlapfront_overlapfront
            g.send_overlapfront_overlapfront_data codim),
         some (codimLists g.recv_overlapfront_overlapfront
            g.recv_overlapfront_overlapfront_data codim)) ∧
    ((selectLists g iftype dir codim).1.isSome = true ∧
      (selectLists g iftype dir codim).2.isSome = true) ∧
    selectLists g iftype CommunicationDirection.BackwardCommunication codim
      = ((selectLists g iftype CommunicationDirection.ForwardCommunication codim).2,
         (selectLists g iftype CommunicationDirection.ForwardCommunication codim).1) := by
  refine ⟨rfl, rfl, rfl, rfl, rfl, ?_, ?_⟩
  · cases iftype <;> cases dir <;> exact ⟨rfl, rfl⟩
  · cases iftype <;> rfl

/-- C26.  On an existing level `communicate` calls `communicateCodim` for
exactly the codimensions `c` in `[0, dim]` with `data.contains(dim, c)`, in
descending order of `c`; and for a codimension that the data handle does not
contain `communicateCodim` returns, on any level, without a call to `gather`,
`scatter`, `size`, `send`, `recv` or `exchange`. -/
theorem C26_contained_codims {E : Type} (G : YaspGrid dim) (data : DataHandle E)
    (visit : Nat → EntityRange dim E) (recvSizes : Nat → Nat → Nat → Nat)
    (iftype : InterfaceType) (dir : CommunicationDirection) (level : Int)
    (hl : 0 ≤ level ∧ level ≤ G.maxLevel) :
    (∃ rs, communicate G data visit recvSizes iftype dir level = Except.ok rs ∧
      rs.map Prod.fst = ((List.range (dim + 1)).reverse).filter (fun c => data.contains dim c) ∧
      ∀ p ∈ rs, communicateCodim G data (visit p.1) (recvSizes p.1) iftype dir level p.1
        = Except.ok p.2) ∧
    (∀ (c : Nat) (v : EntityRange dim E) (rsz : Nat → Nat → Nat) (lvl : Int),
      data.contains dim c = false →
      communicateCodim G data v rsz iftype dir lvl c
        = Except.ok { send_size := [], recv_size := [], calls := [] }) := by
  refine ⟨comm_run G data visit recvSizes iftype dir level hl dim, ?_⟩
  intro c v rsz lvl hc
  simp [communicateCodim, hc]


/-- Selecting from calls none of which is selected. -/
theorem filterMap_const_none {α β : Type} (l : List α) :
    l.filterMap (fun _ => (none : Option β)) = [] := by
  induction l with
  | nil => rfl
  | cons a l ih => simp [List.filterMap_cons, ih]

/-- Selecting from calls all of which are selected. -/
theorem filterMap_some_map {α β : Type} (f : α → β) (l : List α) :
    l.filterMap (fun x => some (f x)) = l.map f := by
  induction l with
  | nil => rfl
  | cons a l ih => simp [List.filterMap_cons, ih]

/-- Concatenating empty lists. -/
theorem flatMap_const_nil {α β : Type} (l : List α) :
    l.flatMap (fun _ => ([] : List β)) = [] := by
  induction l with
  | nil => rfl
  | cons a l ih => simp [List.flatMap_cons, ih]

/-- All calls of `communicateCodim` for a contained codimension on an existing
level, in closed form: the size vectors and the list of calls. -/
theorem communicateCodim_calls {E : Type} (G : YaspGrid dim) (data : DataHandle E)
    (visit : EntityRange dim E) (recvSizes : Nat → Nat → Nat) (iftype : InterfaceType)
    (dir : CommunicationDirection) (level : Int) (codim : Nat) (g : YGridLevel dim)
    (hc : data.contains dim codim = true) (hg : G.begin level = Except.ok g) :
    ∃ r, communicateCodim G data visit recvSizes iftype dir level codim = Except.ok r ∧
      r.send_size
        = (if data.fixedsize dim codim = true then
            (((selectLists g iftype dir codim).1).getD []).map
              (fun s => s.grid.totalsize * (data.size (visit.first s) : Int))
           else
            (((selectLists g iftype dir codim).1).getD []).map
              (fun s => (((visit.entities s).map data.size).sum : Int))) ∧
      r.recv_size
        = (if data.fixedsize dim codim = true then
            (((selectLists g iftype dir codim).2).getD []).map
              (fun s => s.grid.totalsize * (data.size (visit.first s) : Int))
           else
            (((selectLists g iftype dir codim).2).getD []).enum.map (fun p =>
              ((((List.range p.2.grid.totalsize.toNat).map (recvSizes p.1)).sum : Nat) : Int))) ∧
      r.calls
        = (if data.fixedsize dim codim = true then
            (((selectLists g iftype dir codim).1).getD []).map
                (fun s => CommEvent.size (visit.first s))
              ++ (((selectLists g iftype dir codim).2).getD []).map
                (fun s => CommEvent.size (visit.first s))
           else
            (((selectLists g iftype dir codim).1).getD []).flatMap
                (fun s => (visit.entities s).map (fun e => CommEvent.size e)
                  ++ [CommEvent.send s.rank s.grid.totalsize])
              ++ (((selectLists g iftype dir codim).2).getD []).map
                (fun s => CommEvent.recv s.rank s.grid.totalsize)
              ++ [CommEvent.exchange])
          ++ (((selectLists g iftype dir codim).1).getD []).enum.flatMap
              (fun p => (visit.entities p.2).map (fun e => CommEvent.gather e)
                ++ [CommEvent.send p.2.rank (r.send_size.getD p.1 (-1))])
          ++ (((selectLists g iftype dir codim).2).getD []).enum.flatMap
              (fun p => [CommEvent.recv p.2.rank (r.recv_size.getD p.1 (-1))])
          ++ [CommEvent.exchange]
          ++ (((selectLists g iftype dir codim).2).getD []).enum.flatMap (fun p =>
              if data.fixedsize dim codim = true then
                CommEvent.size (visit.first p.2)
                  :: (visit.entities p.2).map
                    (fun e => CommEvent.scatter e (data.size (visit.first p.2)))
              else
                (visit.entities p.2).enum.map
                  (fun q => CommEvent.scatter q.2 (recvSizes p.1 q.1))) := by
  rw [communicateCodim_run G data visit recvSizes iftype dir level codim g hc hg]
  generalize ((selectLists g iftype dir codim).1).getD [] = sl
  generalize ((selectLists g iftype dir codim).2).getD [] = rl
  refine ⟨_, rfl, ?_⟩
  rw [dataPhase_run]
  by_cases hf : data.fixedsize dim codim = true
  · simp only [hf, if_true]
    rw [sizesFixed_run data visit sl rl _ (by simp) (by simp)]
    simp
  · simp only [hf, if_false]
    rw [sizesVariable_run data visit recvSizes sl rl _ (by simp) (by simp)]
    simp

/-- C27.  For a contained codimension on an existing level, `communicateCodim`
ends with one entry of `send_size` per send Intersection and one entry of
`recv_size` per receive Intersection: for a fixed size, the `totalsize` of the
Intersection times `data.size` of its first entity; for a variable size,
`send_size[k]` is the sum of `data.size(e)` over the entities `e` of the `k`-th
send Intersection and `recv_size[k]` the sum of the `totalsize` many per-entity
sizes received in the `k`-th receive buffer. -/
theorem C27_buffer_sizes {E : Type} (G : YaspGrid dim) (data : DataHandle E)
    (visit : EntityRange dim E) (recvSizes : Nat → Nat → Nat) (iftype : InterfaceType)
    (dir : CommunicationDirection) (level : Int) (codim : Nat) (g : YGridLevel dim)
    (hc : data.contains dim codim = true) (hg : G.begin level = Except.ok g) :
    ∃ r, communicateCodim G data visit recvSizes iftype dir level codim = Except.ok r ∧
      r.send_size.length = (((selectLists g iftype dir codim).1).getD []).length ∧
      r.recv_size.length = (((selectLists g iftype dir codim).2).getD []).length ∧
      (∀ k s, (((selectLists g iftype dir codim).1).getD []).get? k = some s →
        r.send_size.get? k = some
          (if data.fixedsize dim codim = true then
            s.grid.totalsize * (data.size (visit.first s) : Int)
           else (((visit.entities s).map data.size).sum : Int))) ∧
      (∀ k s, (((selectLists g iftype dir codim).2).getD []).get? k = some s →
        r.recv_size.get? k = some
          (if data.fixedsize dim codim = true then
            s.grid.totalsize * (data.size (visit.first s) : Int)
           else ((((List.range s.grid.totalsize.toNat).map (recvSizes k)).sum : Nat) : Int))) := by
  obtain ⟨r, hr, h1, h2, -⟩ :=
    communicateCodim_calls G data visit recvSizes iftype dir level codim g hc hg
  refine ⟨r, hr, ?_, ?_, ?_, ?_⟩
  · rw [h1]
    split_ifs <;> simp
  · rw [h2]
    split_ifs <;> simp
  · intro k s hs
    rw [List.get?_eq_getElem?] at hs
    rw [h1, List.get?_eq_getElem?]
    split_ifs <;> simp [List.getElem?_map, hs]
  · intro k s hs
    rw [List.get?_eq_getElem?] at hs
    rw [h2, List.get?_eq_getElem?]
    split_ifs <;> simp [List.getElem?_map, List.getElem?_enum, hs]

/-- C28.  In the data phase of `communicateCodim`, for a contained codimension
on an existing level, the `gather` calls are, in order, one per entity of the
send Intersections in the order of the list and of the iteration over each
range, and the `scatter` calls one per entity of the receive Intersections in
the same order, with `data.size` of the first entity of the Intersection as
count for a fixed size and with the `i`-th received per-entity size for the
`i`-th entity for a variable size. -/
theorem C28_gather_scatter {E : Type} (G : YaspGrid dim) (data : DataHandle E)
    (visit : EntityRange dim E) (recvSizes : Nat → Nat → Nat) (iftype : InterfaceType)
    (dir : CommunicationDirection) (level : Int) (codim : Nat) (g : YGridLevel dim)
    (hc : data.contains dim codim = true) (hg : G.begin level = Except.ok g) :
    ∃ r, communicateCodim G data visit recvSizes iftype dir level codim = Except.ok r ∧
      r.calls.filterMap CommEvent.gathered
        = (((selectLists g iftype dir codim).1).getD []).flatMap visit.entities ∧
      r.calls.filterMap CommEvent.scattered
        = (((selectLists g iftype dir codim).2).getD []).enum.flatMap (fun p =>
            if data.fixedsize dim codim = true then
              (visit.entities p.2).map (fun e => (e, data.size (visit.first p.2)))
            else
              (visit.entities p.2).enum.map (fun q => (q.2, recvSizes p.1 q.1))) := by
  obtain ⟨r, hr, -, -, h3⟩ :=
    communicateCodim_calls G data visit recvSizes iftype dir level codim g hc hg
  refine ⟨r, hr, ?_, ?_⟩
  · rw [h3, ← enum_flatMap_snd visit.entities]
    by_cases hf : data.fixedsize dim codim = true
    · simp [hf, List.filterMap_append, List.filterMap_flatMap, List.filterMap_map,
        Function.comp_def, CommEvent.gathered, filterMap_const_none, flatMap_const_nil]
    · simp [hf, List.filterMap_append, List.filterMap_flatMap, List.filterMap_map,
        Function.comp_def, CommEvent.gathered, filterMap_const_none, flatMap_const_nil]
  · rw [h3]
    by_cases hf : data.fixedsize dim codim = true
    · simp [hf, List.filterMap_append, List.filterMap_flatMap, List.filterMap_map,
        Function.comp_def, CommEvent.scattered, filterMap_const_none, flatMap_const_nil,
        filterMap_some_map]
    · simp [hf, List.filterMap_append, List.filterMap_flatMap, List.filterMap_map,
        Function.comp_def, CommEvent.scattered, filterMap_const_none, flatMap_const_nil,
        filterMap_some_map]

/-- C29.  For a contained codimension on an existing level, `communicateCodim`
calls `exchange()` of the torus exactly once if the data handle has a fixed
size and exactly twice otherwise, whatever the lists hold; with a variable size
no `gather` and no `scatter` precedes the first of the two; and if the send
list and the receive list are both empty, the exchanges are the only calls. -/
theorem C29_exchange_count {E : Type} (G : YaspGrid dim) (data : DataHandle E)
    (visit : EntityRange dim E) (recvSizes : Nat → Nat → Nat) (iftype : InterfaceType)
    (dir : CommunicationDirection) (level : Int) (codim : Nat) (g : YGridLevel dim)
    (hc : data.contains dim codim = true) (hg : G.begin level = Except.ok g) :
    ∃ r, communicateCodim G data visit recvSizes iftype dir level codim = Except.ok r ∧
      r.calls.countP CommEvent.isExchange
        = (if data.fixedsize dim codim = true then 1 else 2) ∧
      (data.fixedsize dim codim = false →
        ∃ a b, r.calls = a ++ CommEvent.exchange :: b ∧
          a.filterMap CommEvent.gathered = [] ∧ a.filterMap CommEvent.scattered = [] ∧
          a.countP CommEvent.isExchange = 0) ∧
      ((((selectLists g iftype dir codim).1).getD []) = [] →
        (((selectLists g iftype dir codim).2).getD []) = [] →
        r.calls = if data.fixedsize dim codim = true then [CommEvent.exchange]
          else [CommEvent.exchange, CommEvent.exchange]) := by
  obtain ⟨r, hr, -, -, h3⟩ :=
    communicateCodim_calls G data visit recvSizes iftype dir level codim g hc hg
  refine ⟨r, hr, ?_, ?_, ?_⟩
  · rw [h3]
    by_cases hf : data.fixedsize dim codim = true
    · simp [hf, List.countP_append, List.countP_flatMap, List.countP_map, Function.comp_def,
        CommEvent.isExchange]
    · simp [hf, List.countP_append, List.countP_flatMap, List.countP_map, Function.comp_def,
        CommEvent.isExchange]
  · intro hf
    refine ⟨(((selectLists g iftype dir codim).1).getD []).flatMap
        (fun s => (visit.entities s).map (fun e => CommEvent.size e)
          ++ [CommEvent.send s.rank s.grid.totalsize])
        ++ (((selectLists g iftype dir codim).2).getD []).map
          (fun s => CommEvent.recv s.rank s.grid.totalsize),
      (((selectLists g iftype dir codim).1).getD []).enum.flatMap
          (fun p => (visit.entities p.2).map (fun e => CommEvent.gather e)
            ++ [CommEvent.send p.2.rank (r.send_size.getD p.1 (-1))])
        ++ ((((selectLists g iftype dir codim).2).getD []).enum.flatMap
          (fun p => [CommEvent.recv p.2.rank (r.recv_size.getD p.1 (-1))])
        ++ (CommEvent.exchange
          :: (((selectLists g iftype dir codim).2).getD []).enum.flatMap (fun p =>
              (visit.entities p.2).enum.map
                (fun q => CommEvent.scatter q.2 (recvSizes p.1 q.1))))), ?_, ?_, ?_, ?_⟩
    · rw [h3]
      simp only [hf, Bool.false_eq_true, if_false, List.append_assoc, List.singleton_append,
        List.cons_append, List.nil_append]
    · simp [List.filterMap_append, List.filterMap_flatMap, List.filterMap_map,
        Function.comp_def, CommEvent.gathered, filterMap_const_none, flatMap_const_nil]
    · simp [List.filterMap_append, List.filterMap_flatMap, List.filterMap_map,
        Function.comp_def, CommEvent.scattered, filterMap_const_none, flatMap_const_nil,
        filterMap_some_map]
    · simp [List.countP_append, List.countP_flatMap, List.countP_map, Function.comp_def,
        CommEvent.isExchange]
  · intro hs hrl
    rw [h3, hs, hrl]
    split_ifs <;> rfl


/-- C26 at a concrete input: process 0 of the two processes of the
one-dimensional grid, level 0, a data handle that contains both
codimensions. -/
theorem C26_contained_codims_witness :
    ((0 : Int) ≤ 0 ∧ (0 : Int) ≤ twoProcGrid.maxLevel) ∧
    ((∃ rs, communicate twoProcGrid (data1 false) (fun _ => visit1) (fun _ _ _ => 1) InterfaceType.All_All_Interface CommunicationDirection.ForwardCommunication 0 = Except.ok rs ∧
      rs.map Prod.fst = ((List.range (1 + 1)).reverse).filter (fun c => (data1 false).contains 1 c) ∧
      ∀ p ∈ rs, communicateCodim twoProcGrid (data1 false) ((fun _ => visit1) p.1) ((fun _ _ _ => 1) p.1) InterfaceType.All_All_Interface CommunicationDirection.ForwardCommunication 0 p.1
        = Except.ok p.2) ∧
    (∀ (c : Nat) (v : EntityRange 1 Int) (rsz : Nat → Nat → Nat) (lvl : Int),
      (data1 false).contains 1 c = false →
      communicateCodim twoProcGrid (data1 false) v rsz InterfaceType.All_All_Interface CommunicationDirection.ForwardCommunication lvl c
        = Except.ok { send_size := [], recv_size := [], calls := [] })) :=
  ⟨by decide,
    C26_contained_codims twoProcGrid (data1 false) (fun _ => visit1) (fun _ _ _ => 1)
      InterfaceType.All_All_Interface CommunicationDirection.ForwardCommunication 0
      (by decide)⟩

/-- C27 at a concrete input: the cells of process 0 of the two processes of the
one-dimensional grid, all-all interface, a data handle of variable size. -/
theorem C27_buffer_sizes_witness :
    (data1 false).contains 1 0 = true ∧ twoProcGrid.begin 0 = Except.ok (twoProcLevel 0) ∧
    (∃ r, communicateCodim twoProcGrid (data1 false) visit1 (fun _ _ => 1) InterfaceType.All_All_Interface CommunicationDirection.ForwardCommunication 0 0 = Except.ok r ∧
      r.send_size.length = (((selectLists (twoProcLevel 0) InterfaceType.All_All_Interface CommunicationDirection.ForwardCommunication 0).1).getD []).length ∧
      r.recv_size.length = (((selectLists (twoProcLevel 0) InterfaceType.All_All_Interface CommunicationDirection.ForwardCommunication 0).2).getD []).length ∧
      (∀ k s, (((selectLists (twoProcLevel 0) InterfaceType.All_All_Interface CommunicationDirection.ForwardCommunication 0).1).getD []).get? k = some s →
        r.send_size.get? k = some
          (if (data1 false).fixedsize 1 0 = true then
            s.grid.totalsize * ((data1 false).size (visit1.first s) : Int)
           else (((visit1.entities s).map (data1 false).size).sum : Int))) ∧
      (∀ k s, (((selectLists (twoProcLevel 0) InterfaceType.All_All_Interface CommunicationDirection.ForwardCommunication 0).2).getD []).get? k = some s →
        r.recv_size.get? k = some
          (if (data1 false).fixedsize 1 0 = true then
            s.grid.totalsize * ((data1 false).size (visit1.first s) : Int)
           else ((((List.range s.grid.totalsize.toNat).map ((fun _ _ => 1) k)).sum : Nat) : Int)))) :=
  ⟨rfl, rfl,
    C27_buffer_sizes twoProcGrid (data1 false) visit1 (fun _ _ => 1) InterfaceType.All_All_Interface
      CommunicationDirection.ForwardCommunication 0 0 (twoProcLevel 0) rfl rfl⟩

/-- C28 at a concrete input: the cells of process 0 of the two processes of the
one-dimensional grid, all-all interface, a data handle of fixed size. -/
theorem C28_gather_scatter_witness :
    (data1 true).contains 1 0 = true ∧ twoProcGrid.begin 0 = Except.ok (twoProcLevel 0) ∧
    (∃ r, communicateCodim twoProcGrid (data1 true) visit1 (fun _ _ => 1) InterfaceType.All_All_Interface CommunicationDirection.ForwardCommunication 0 0 = Except.ok r ∧
      r.calls.filterMap CommEvent.gathered
        = (((selectLists (twoProcLevel 0) InterfaceType.All_All_Interface CommunicationDirection.ForwardCommunication 0).1).getD []).flatMap visit1.entities ∧
      r.calls.filterMap CommEvent.scattered
        = (((selectLists (twoProcLevel 0) InterfaceType.All_All_Interface CommunicationDirection.ForwardCommunication 0).2).getD []).enum.flatMap (fun p =>
            if (data1 true).fixedsize 1 0 = true then
              (visit1.entities p.2).map (fun e => (e, (data1 true).size (visit1.first p.2)))
            else
              (visit1.entities p.2).enum.map (fun q => (q.2, (fun (_ : Nat) (_ : Nat) => 1) p.1 q.1)))) :=
  ⟨rfl, rfl,
    C28_gather_scatter twoProcGrid (data1 true) visit1 (fun _ _ => 1) InterfaceType.All_All_Interface
      CommunicationDirection.ForwardCommunication 0 0 (twoProcLevel 0) rfl rfl⟩

/-- C29 at a concrete input: the cells of process 0 of the two processes of the
one-dimensional grid, all-all interface, a data handle of variable size. -/
theorem C29_exchange_count_witness :
    (data1 false).contains 1 0 = true ∧ twoProcGrid.begin 0 = Except.ok (twoProcLevel 0) ∧
    (∃ r, communicateCodim twoProcGrid (data1 false) visit1 (fun _ _ => 1) InterfaceType.All_All_Interface CommunicationDirection.ForwardCommunication 0 0 = Except.ok r ∧
      r.calls.countP CommEvent.isExchange
        = (if (data1 false).fixedsize 1 0 = true then 1 else 2) ∧
      ((data1 false).fixedsize 1 0 = false →
        ∃ a b, r.calls = a ++ CommEvent.exchange :: b ∧
          a.filterMap CommEvent.gathered = [] ∧ a.filterMap CommEvent.scattered = [] ∧
          a.countP CommEvent.isExchange = 0) ∧
      ((((selectLists (twoProcLevel 0) InterfaceType.All_All_Interface CommunicationDirection.ForwardCommunication 0).1).getD []) = [] →
        (((selectLists (twoProcLevel 0) InterfaceType.All_All_Interface CommunicationDirection.ForwardCommunication 0).2).getD []) = [] →
        r.calls = if (data1 false).fixedsize 1 0 = true then [CommEvent.exchange]
          else [CommEvent.exchange, CommEvent.exchange])) :=
  ⟨rfl, rfl,
    C29_exchange_count twoProcGrid (data1 false) visit1 (fun _ _ => 1) InterfaceType.All_All_Interface
      CommunicationDirection.ForwardCommunication 0 0 (twoProcLevel 0) rfl rfl⟩


/-- C30 (counterexample).  On the one-dimensional grid as constructed, whose
only level is level 0, the requests for level 1 fail, but `begin`, `size` and
`overlapSize` raise a `GridError`, not a `RangeError`; `levelIndexSet` raises a
`RangeError`. -/
theorem C30_level_requests_raise_GridError :
    serial1.maxLevel = 0 ∧
    thrown (serial1.begin 1) = some DuneException.GridError ∧
    thrown (size serial1 1 0) = some DuneException.GridError ∧
    thrown (overlapSize serial1 1 0) = some DuneException.GridError ∧
    thrown (levelIndexSet serial1 1) = some DuneException.RangeError := by
  decide

/-- C30 (amended).  Every request indexed by a level fails exactly when
`level < 0` or `level > maxLevel()`: `begin(level)`, `levelbegin` and `levelend`
(so `lbegin` and `lend`), `size(level, codim)`, `overlapSize(level, codim)` and
`levelIndexSet(level)`.  The failure raised is a `GridError` for `begin(level)`,
`size(level, codim)` and `overlapSize(level, codim)`, and a `RangeError` for
`levelIndexSet(level)`. -/
theorem C30_level_requests (G : YaspGrid dim) (level : Int) (cd codim : Nat)
    (pitype : PartitionIteratorType) :
    thrown (G.begin level)
      = (if level < 0 ∨ level > G.maxLevel then some DuneException.GridError else none) ∧
    (thrown (levelbegin G cd pitype level) ≠ none ↔ (level < 0 ∨ level > G.maxLevel)) ∧
    (thrown (levelend G cd pitype level) ≠ none ↔ (level < 0 ∨ level > G.maxLevel)) ∧
    thrown (size G level codim)
      = (if level < 0 ∨ level > G.maxLevel then some DuneException.GridError else none) ∧
    thrown (overlapSize G level codim)
      = (if level < 0 ∨ level > G.maxLevel then some DuneException.GridError else none) ∧
    thrown (levelIndexSet G level)
      = (if level < 0 ∨ level > G.maxLevel then some DuneException.RangeError else none) := by
  by_cases h : level < 0 ∨ level > G.maxLevel
  · simp [begin, levelbegin, levelend, size, overlapSize, levelIndexSet, thrown, h]
  · refine ⟨?_, ?_, ?_, ?_, ?_, ?_⟩
    · simp [begin, thrown, h]
    · cases pitype <;>
        simp [begin, levelbegin, levelend, thrown, h, PartitionIteratorType.value]
    · cases pitype <;> simp [begin, levelend, thrown, h, PartitionIteratorType.value]
    · simp [begin, size, thrown, h]
    · simp [begin, overlapSize, thrown, h]
    · simp [levelIndexSet, thrown, h]

/-- The number of set bits as the number of axes on which the bit is set. -/
theorem count_eq_card (r : Bitset dim) :
    r.count = (Finset.univ.filter (fun i : Fin dim => r i = true)).card := by
  unfold Bitset.count
  rw [← List.toFinset_card_of_nodup ((List.nodup_finRange dim).filter _)]
  congr 1
  ext i
  simp

/-- Two indices below `2^dim` with the same `dim` bits are equal. -/
theorem bitsetOfIndex_injective (dim : Nat) (m n : Nat) (hm : m < 2 ^ dim) (hn : n < 2 ^ dim)
    (h : bitsetOfIndex dim m = bitsetOfIndex dim n) : m = n := by
  apply Nat.eq_of_testBit_eq
  intro i
  by_cases hi : i < dim
  · exact congrFun h ⟨i, hi⟩
  · have h1 : 2 ^ dim ≤ 2 ^ i := Nat.pow_le_pow_right (by decide) (by omega)
    rw [Nat.testBit_lt_two_pow (lt_of_lt_of_le hm h1),
      Nat.testBit_lt_two_pow (lt_of_lt_of_le hn h1)]

/-- Every bit mask is the mask of an index below `2^dim`. -/
theorem bitsetOfIndex_surjective (dim : Nat) (r : Bitset dim) :
    ∃ n, n < 2 ^ dim ∧ bitsetOfIndex dim n = r := by
  have hinj : Set.InjOn (bitsetOfIndex dim) (Finset.range (2 ^ dim) : Set Nat) := by
    intro m hm n hn h
    exact bitsetOfIndex_injective dim m n (by simpa using hm) (by simpa using hn) h
  have hcard : ((Finset.range (2 ^ dim)).image (bitsetOfIndex dim)).card
      = (Finset.univ : Finset (Bitset dim)).card := by
    rw [Finset.card_image_of_injOn hinj]
    simp [Bitset]
  have himg : (Finset.range (2 ^ dim)).image (bitsetOfIndex dim) = Finset.univ :=
    Finset.eq_univ_of_card _ hcard
  have hr : r ∈ (Finset.range (2 ^ dim)).image (bitsetOfIndex dim) := by
    rw [himg]
    exact Finset.mem_univ r
  obtain ⟨n, hn, hnr⟩ := Finset.mem_image.mp hr
  exact ⟨n, by simpa using hn, hnr⟩

/-- The axes on which the bit of the index is set. -/
theorem shiftsOfCodim_card (dim k : Nat) :
    ((List.range (2 ^ dim)).filter (fun index => (bitsetOfIndex dim index).count = k)).length
      = Nat.choose dim k := by
  have h1 : ((List.range (2 ^ dim)).filter
      (fun index => (bitsetOfIndex dim index).count = k)).length
      = ((Finset.range (2 ^ dim)).filter
          (fun index => (bitsetOfIndex dim index).count = k)).card := by
    rw [← List.toFinset_card_of_nodup ((List.nodup_range _).filter _)]
    congr 1
    ext i
    simp
  rw [h1]
  have h2 : ((Finset.range (2 ^ dim)).filter
        (fun index => (bitsetOfIndex dim index).count = k)).card
      = (Finset.powersetCard k (Finset.univ : Finset (Fin dim))).card := by
    apply Finset.card_bij
      (fun n _ => Finset.univ.filter (fun i : Fin dim => bitsetOfIndex dim n i = true))
    · intro n hn
      rw [Finset.mem_filter] at hn
      rw [Finset.mem_powersetCard]
      exact ⟨Finset.subset_univ _, by rw [← count_eq_card]; exact hn.2⟩
    · intro m hm n hn h
      rw [Finset.mem_filter, Finset.mem_range] at hm hn
      apply bitsetOfIndex_injective dim m n hm.1 hn.1
      funext i
      have := congrArg (fun T : Finset (Fin dim) => decide (i ∈ T)) h
      simp only [Finset.mem_filter, Finset.mem_univ, true_and] at this
      by_cases c1 : bitsetOfIndex dim m i = true <;> by_cases c2 : bitsetOfIndex dim n i = true <;>
        simp_all
    · intro T hT
      rw [Finset.mem_powersetCard] at hT
      obtain ⟨n, hn, hnr⟩ := bitsetOfIndex_surjective dim (fun i => decide (i ∈ T))
      refine ⟨n, ?_, ?_⟩
      · rw [Finset.mem_filter, Finset.mem_range]
        refine ⟨hn, ?_⟩
        rw [count_eq_card, hnr]
        simpa using hT.2
      · rw [hnr]
        ext i
        simp
  rw [h2, Finset.card_powersetCard, Finset.card_univ, Fintype.card_fin]


/-- One pass of the loop over `index` advances all twelve insertion iterators
by one if the shift pattern is accepted and leaves them otherwise; the slices
are not touched. -/
theorem makelevelIndex_aligned (G : YaspGrid dim) (info : OverlapInfo dim) (overlap : Int)
    (codim : Nat) (g : YGridLevel dim) (index n : Nat) (sl : List YGrid)
    (h : aligned g n sl) :
    aligned (makelevelIndex G info overlap codim g index)
      (n + (if (bitsetOfIndex dim index).count = dim - codim then 1 else 0)) sl := by
  unfold aligned at h ⊢
  unfold makelevelIndex
  by_cases hc : (bitsetOfIndex dim index).count = dim - codim
  · simp only [hc, ne_eq, not_true_eq_false, if_false, if_true, List.length_append,
      List.length_singleton]
    obtain ⟨⟨h1, h2, h3, h4, h5, h6, h7, h8, h9, h10, h11, h12⟩, hs⟩ := h
    exact ⟨⟨by rw [h1], by rw [h2], by rw [h3], by rw [h4], by rw [h5], by rw [h6], by rw [h7],
      by rw [h8], by rw [h9], by rw [h10], by rw [h11], by rw [h12]⟩, hs⟩
  · simpa only [hc, ne_eq, not_false_eq_true, if_true, if_false, Nat.add_zero] using h

/-- The loop over `index` advances the insertion iterators by the number of
accepted shift patterns. -/
theorem makelevelIndex_fold_aligned (G : YaspGrid dim) (info : OverlapInfo dim) (overlap : Int)
    (codim : Nat) (l : List Nat) (g : YGridLevel dim) (n : Nat) (sl : List YGrid)
    (h : aligned g n sl) :
    aligned (l.foldl (makelevelIndex G info overlap codim) g)
      (n + (l.filter (fun index => (bitsetOfIndex dim index).count = dim - codim)).length)
      sl := by
  induction l generalizing g n with
  | nil => simpa using h
  | cons a l ih =>
    rw [List.foldl_cons]
    have h1 := ih _ _ (makelevelIndex_aligned G info overlap codim g a n sl h)
    by_cases hc : (bitsetOfIndex dim a).count = dim - codim
    · simpa [List.filter_cons, hc, Nat.add_assoc, Nat.add_comm 1] using h1
    · simpa [List.filter_cons, hc] using h1

/-- One pass of the loop over `codim` appends to every array of slices the
slice from the old insertion position to the new one. -/
theorem makelevelCodim_aligned (G : YaspGrid dim) (info : OverlapInfo dim) (overlap : Int)
    (g : YGridLevel dim) (codim n : Nat) (sl : List YGrid) (h : aligned g n sl) :
    aligned (makelevelCodim G info overlap g codim)
      (n + (shiftsOfCodim dim codim).length)
      (sl ++ [{ dataBegin := n, dataEnd := n + (shiftsOfCodim dim codim).length }]) := by
  have h1 := makelevelIndex_fold_aligned G info overlap codim (List.range (2 ^ dim)) g n sl h
  unfold aligned at h h1 ⊢
  unfold makelevelCodim
  obtain ⟨⟨a1, a2, a3, a4, a5, a6, a7, a8, a9, a10, a11, a12⟩,
    ⟨b1, b2, b3, b4, b5, b6, b7, b8, b9, b10, b11, b12⟩⟩ := h1
  obtain ⟨⟨c1, c2, c3, c4, c5, c6, c7, c8, c9, c10, c11, c12⟩, -⟩ := h
  simp only [shiftsOfCodim]
  refine ⟨⟨a1, a2, a3, a4, a5, a6, a7, a8, a9, a10, a11, a12⟩, ?_⟩
  simp only [a1, a2, a3, a4, a5, a6, a7, a8, a9, a10, a11, a12, b1, b2, b3, b4, b5, b6, b7, b8,
    b9, b10, b11, b12, c1, c2, c3, c4, c5, c6, c7, c8, c9, c10, c11, c12, and_self]

/-- The loop over the codimensions appends consecutive slices. -/
theorem makelevelCodim_fold_aligned (G : YaspGrid dim) (info : OverlapInfo dim) (overlap : Int)
    (cs : List Nat) (g : YGridLevel dim) (n : Nat) (sl : List YGrid) (h : aligned g n sl) :
    aligned (cs.foldl (makelevelCodim G info overlap) g)
      (n + (cs.map (fun c => (shiftsOfCodim dim c).length)).sum)
      (sl ++ codimSlices (cs.map (fun c => (shiftsOfCodim dim c).length)) n) := by
  induction cs generalizing g n sl with
  | nil => simpa [codimSlices] using h
  | cons c cs ih =>
    rw [List.foldl_cons]
    have h1 := ih _ _ _ (makelevelCodim_aligned G info overlap g c n sl h)
    simpa [codimSlices, Nat.add_assoc, List.append_assoc] using h1

/-- The level that `makelevel` builds: insertion positions and slices. -/
theorem buildLevel_aligned (G : YaspGrid dim) (coords : CoordCont dim) (periodic : Bitset dim)
    (o_interior : iTupel dim) (overlap : Int) :
    aligned (buildLevel G coords periodic o_interior overlap)
      ((List.range (dim + 1)).map (fun c => (shiftsOfCodim dim c).length)).sum
      (codimSlices ((List.range (dim + 1)).map (fun c => (shiftsOfCodim dim c).length)) 0) := by
  have h := makelevelCodim_fold_aligned G (overlapInfo G coords periodic o_interior overlap)
    overlap (List.range (dim + 1))
    { YGridLevel.empty dim with overlapSize := overlap, level_ := G.maxLevel, coords := coords }
    0 [] (by simp [aligned, YGridLevel.empty])
  simpa [buildLevel] using h


/-- A bit mask of `dim` bits has at most `dim` set bits. -/
theorem count_le_dim (r : Bitset dim) : r.count ≤ dim := by
  unfold Bitset.count
  calc ((List.finRange dim).filter (fun i => r i)).length
      ≤ (List.finRange dim).length := List.length_filter_le _ _
    _ = dim := List.length_finRange dim

/-- Membership in the list of shift patterns of a codimension. -/
theorem mem_shiftsOfCodim (dim codim index : Nat) :
    index ∈ shiftsOfCodim dim codim
      ↔ index < 2 ^ dim ∧ (bitsetOfIndex dim index).count = dim - codim := by
  simp [shiftsOfCodim, List.mem_filter]

/-- The loop nest of `makelevel` accepts every index below `2^dim` exactly
once. -/
theorem levelShifts_perm (dim : Nat) : List.Perm (levelShifts dim) (List.range (2 ^ dim)) := by
  have hnd : (levelShifts dim).Nodup := by
    unfold levelShifts
    rw [List.nodup_flatMap]
    refine ⟨?_, ?_⟩
    · intro c _
      exact (List.nodup_range _).filter _
    · refine List.Pairwise.imp_of_mem ?_ (List.pairwise_lt_range (dim + 1))
      intro a b ha hb hab
      rw [List.mem_range] at ha hb
      intro x hxa hxb
      rw [mem_shiftsOfCodim] at hxa hxb
      omega
  rw [List.perm_ext_iff_of_nodup hnd (List.nodup_range _)]
  intro a
  unfold levelShifts
  rw [List.mem_flatMap, List.mem_range]
  constructor
  · rintro ⟨c, -, hc⟩
    exact ((mem_shiftsOfCodim dim c a).mp hc).1
  · intro ha
    refine ⟨dim - (bitsetOfIndex dim a).count, ?_, ?_⟩
    · rw [List.mem_range]
      omega
    · rw [mem_shiftsOfCodim]
      have := count_le_dim (bitsetOfIndex dim a)
      exact ⟨ha, by omega⟩

/-- Codimension `c` has `binomial(dim, c)` shift patterns. -/
theorem shiftsOfCodim_length (dim c : Nat) (hc : c ≤ dim) :
    (shiftsOfCodim dim c).length = Nat.choose dim c := by
  unfold shiftsOfCodim
  rw [shiftsOfCodim_card, Nat.choose_symm hc]

/-- The numbers of shift patterns of the codimensions `0..dim`. -/
theorem shiftsOfCodim_counts (dim : Nat) :
    (List.range (dim + 1)).map (fun c => (shiftsOfCodim dim c).length)
      = (List.range (dim + 1)).map (Nat.choose dim) := by
  apply List.map_congr_left
  intro c hc
  rw [List.mem_range] at hc
  exact shiftsOfCodim_length dim c (by omega)

/-- All codimensions together have `2^dim` shift patterns. -/
theorem shiftsOfCodim_total (dim : Nat) :
    ((List.range (dim + 1)).map (fun c => (shiftsOfCodim dim c).length)).sum = 2 ^ dim := by
  have h1 : ((List.range (dim + 1)).map (fun c => (shiftsOfCodim dim c).length)).sum
      = (levelShifts dim).length := by
    unfold levelShifts
    rw [List.length_flatMap]
    rfl
  rw [h1, (levelShifts_perm dim).length_eq, List.length_range]

/-- Entry `c` of a list of consecutive slices. -/
theorem codimSlices_get (ks : List Nat) (n c k : Nat) (hk : ks.get? c = some k) :
    (codimSlices ks n).get? c
      = some { dataBegin := n + (ks.take c).sum, dataEnd := n + (ks.take c).sum + k } := by
  induction ks generalizing n c with
  | nil => simp at hk
  | cons a ks ih =>
    cases c with
    | zero =>
      simp only [List.get?_cons_zero, Option.some.injEq] at hk
      subst hk
      simp [codimSlices]
    | succ c =>
      simp only [List.get?_cons_succ] at hk
      simp only [codimSlices, List.get?_cons_succ, List.take_succ_cons, List.sum_cons]
      rw [ih (n + a) c hk]
      simp [Nat.add_assoc]

/-- The slice of codimension `codim` of a family of a level built by
`makelevel` holds the components of the shift patterns of that codimension, in
the order of the loop over `index`. -/
theorem slice_of_levelShifts {α : Type} (f : Nat → α) (codim : Nat) (hc : codim ≤ dim) :
    ∃ y, (codimSlices ((List.range (dim + 1)).map (fun c => (shiftsOfCodim dim c).length)) 0).get?
        codim = some y ∧
      (((levelShifts dim).map f).drop y.dataBegin).take (y.dataEnd - y.dataBegin)
        = (shiftsOfCodim dim codim).map f := by
  have hget : ((List.range (dim + 1)).map (fun c => (shiftsOfCodim dim c).length)).get? codim
      = some (shiftsOfCodim dim codim).length := by
    rw [List.get?_eq_getElem?, List.getElem?_map, List.getElem?_range (by omega)]
    rfl
  refine ⟨_, codimSlices_get _ 0 codim _ hget, ?_⟩
  simp only [Nat.zero_add, Nat.add_sub_cancel_left]
  have hL : levelShifts dim = ((List.range (dim + 1)).map (shiftsOfCodim dim)).flatten := rfl
  have hm : (List.range (dim + 1)).map (fun c => (shiftsOfCodim dim c).length)
      = ((List.range (dim + 1)).map (shiftsOfCodim dim)).map List.length := by
    rw [List.map_map]
    rfl
  rw [← List.map_drop, ← List.map_take, hL, hm, List.drop_sum_flatten]
  have hd : ((List.range (dim + 1)).map (shiftsOfCodim dim)).drop codim
      = shiftsOfCodim dim codim
        :: ((List.range (dim + 1)).map (shiftsOfCodim dim)).drop (codim + 1) := by
    rw [List.drop_eq_getElem_cons (by simp; omega)]
    simp
  rw [hd, List.flatten_cons, List.take_left']
  rfl


/-- The components of `overlapfront[codim]` of a level built by `makelevel`
are the overlapfront ranges of the shift patterns of that codimension. -/
theorem buildLevel_codimComponents (G : YaspGrid dim) (coords : CoordCont dim)
    (periodic : Bitset dim) (o_interior : iTupel dim) (overlap : Int) (codim : Nat)
    (hc : codim ≤ dim) :
    codimComponents (buildLevel G coords periodic o_interior overlap).overlapfront
        (buildLevel G coords periodic o_interior overlap).overlapfront_data codim
      = (shiftsOfCodim dim codim).map (fun index =>
          (makelevelComponents G coords periodic o_interior overlap
            (bitsetOfIndex dim index)).overlapfront) := by
  obtain ⟨y, hy, hslice⟩ := slice_of_levelShifts (fun index =>
    (makelevelComponents G coords periodic o_interior overlap
      (bitsetOfIndex dim index)).overlapfront) codim hc
  have ha := (buildLevel_aligned G coords periodic o_interior overlap).2.1
  have hd := (buildLevel_data G coords periodic o_interior overlap).1
  unfold codimComponents
  rw [ha, hy, hd]
  exact hslice

/-- C36.  `makelevel` assigns every index below `2^dim` to exactly one
codimension, the one with `dim - codim` set bits; codimension `c` receives
`binomial(dim, c)` components; in each of the twelve arrays the slices of the
codimensions follow one another from position 0, slice `c` holding
`binomial(dim, c)` entries, and all twelve insertion positions end at `2^dim`;
the slice of codimension `c` holds the components of its shift patterns. -/
theorem C36_shift_patterns (G : YaspGrid dim) (coords : CoordCont dim) (periodic : Bitset dim)
    (o_interior : iTupel dim) (overlap : Int) (c : Nat) (hc : c ≤ dim) :
    List.Perm (levelShifts dim) (List.range (2 ^ dim)) ∧
    (∀ index, index ∈ shiftsOfCodim dim c
      ↔ index < 2 ^ dim ∧ (bitsetOfIndex dim index).count = dim - c) ∧
    (shiftsOfCodim dim c).length = Nat.choose dim c ∧
    aligned (buildLevel G coords periodic o_interior overlap) (2 ^ dim)
      (codimSlices ((List.range (dim + 1)).map (Nat.choose dim)) 0) ∧
    codimComponents (buildLevel G coords periodic o_interior overlap).overlapfront
        (buildLevel G coords periodic o_interior overlap).overlapfront_data c
      = (shiftsOfCodim dim c).map (fun index =>
          (makelevelComponents G coords periodic o_interior overlap
            (bitsetOfIndex dim index)).overlapfront) := by
  refine ⟨levelShifts_perm dim, mem_shiftsOfCodim dim c, shiftsOfCodim_length dim c hc, ?_,
    buildLevel_codimComponents G coords periodic o_interior overlap c hc⟩
  have h := buildLevel_aligned G coords periodic o_interior overlap
  rw [shiftsOfCodim_total, shiftsOfCodim_counts] at h
  exact h

/-- C36 at a concrete input: the vertices (codimension 1) of level 0 of the
one-dimensional grid of 4 cells. -/
theorem C36_shift_patterns_witness :
    1 ≤ 1 ∧
    (List.Perm (levelShifts 1) (List.range (2 ^ 1)) ∧
    (∀ index, index ∈ shiftsOfCodim 1 1
      ↔ index < 2 ^ 1 ∧ (bitsetOfIndex 1 index).count = 1 - 1) ∧
    (shiftsOfCodim 1 1).length = Nat.choose 1 1 ∧
    aligned (buildLevel serial1Base serial1Coords (bits1 false) (tuple1 0) 1) (2 ^ 1)
      (codimSlices ((List.range (1 + 1)).map (Nat.choose 1)) 0) ∧
    codimComponents (buildLevel serial1Base serial1Coords (bits1 false) (tuple1 0) 1).overlapfront
        (buildLevel serial1Base serial1Coords (bits1 false) (tuple1 0) 1).overlapfront_data 1
      = (shiftsOfCodim 1 1).map (fun index =>
          (makelevelComponents serial1Base serial1Coords (bits1 false) (tuple1 0) 1
            (bitsetOfIndex 1 index)).overlapfront)) :=
  ⟨by decide, C36_shift_patterns serial1Base serial1Coords (bits1 false) (tuple1 0) 1 1
    (by decide)⟩

/-- Level 0 of a constructed grid is the level that `makelevel` builds from the
container of `EquidistantSetup`. -/
theorem construct_levels (torus : Torus dim) (s : iTupel dim) (periodic : Bitset dim)
    (overlap : Int) (o_interior s_interior : iTupel dim) :
    (construct torus s periodic overlap o_interior s_interior)._levels
      = [buildLevel (constructBase torus s periodic overlap)
          (constructCoords torus s periodic overlap o_interior s_interior) periodic o_interior
          overlap] := by
  simp [construct, init, EquidistantSetup, makelevel, equidistantInit, resizeLevels,
    constructBase, constructCoords]

/-- Level 0 of a constructed grid exists. -/
theorem construct_begin (torus : Torus dim) (s : iTupel dim) (periodic : Bitset dim)
    (overlap : Int) (o_interior s_interior : iTupel dim) :
    (construct torus s periodic overlap o_interior s_interior).begin 0
      = Except.ok (buildLevel (constructBase torus s periodic overlap)
          (constructCoords torus s periodic overlap o_interior s_interior) periodic o_interior
          overlap) := by
  have hl := construct_levels torus s periodic overlap o_interior s_interior
  have hm : (construct torus s periodic overlap o_interior s_interior).maxLevel = 0 := by
    unfold maxLevel
    rw [hl]
    rfl
  unfold begin
  rw [hm, hl]
  simp

/-- The loop of `size` sums the values of `totalsize()`. -/
theorem foldl_totalsize (l : List (YGridComponent dim)) (a : Int) :
    l.foldl (fun count it => count + it.totalsize) a = a + (l.map (fun it => it.totalsize)).sum := by
  induction l generalizing a with
  | nil => simp
  | cons x l ih => simp [List.foldl_cons, ih, add_assoc]

/-- Summing over the shift patterns with `k` set bits is summing over the sets
of `k` axes. -/
theorem sum_shiftsOfCodim (dim k : Nat) (F : Finset (Fin dim) → Int) :
    (((List.range (2 ^ dim)).filter (fun index => (bitsetOfIndex dim index).count = k)).map
      (fun n => F (Finset.univ.filter (fun i : Fin dim => bitsetOfIndex dim n i = true)))).sum
      = ∑ R ∈ Finset.powersetCard k (Finset.univ : Finset (Fin dim)), F R := by
  rw [← List.sum_toFinset _ ((List.nodup_range _).filter _)]
  apply Finset.sum_bij
    (fun n _ => Finset.univ.filter (fun i : Fin dim => bitsetOfIndex dim n i = true))
  · intro n hn
    simp only [List.mem_toFinset, List.mem_filter, List.mem_range, decide_eq_true_eq]
      at hn
    rw [Finset.mem_powersetCard]
    exact ⟨Finset.subset_univ _, by rw [← count_eq_card]; exact hn.2⟩
  · intro m hm n hn h
    simp only [List.mem_toFinset, List.mem_filter, List.mem_range,
      decide_eq_true_eq] at hm hn
    apply bitsetOfIndex_injective dim m n hm.1 hn.1
    funext i
    have := congrArg (fun T : Finset (Fin dim) => decide (i ∈ T)) h
    simp only [Finset.mem_filter, Finset.mem_univ, true_and] at this
    by_cases c1 : bitsetOfIndex dim m i = true <;> by_cases c2 : bitsetOfIndex dim n i = true <;>
      simp_all
  · intro T hT
    rw [Finset.mem_powersetCard] at hT
    obtain ⟨n, hn, hnr⟩ := bitsetOfIndex_surjective dim (fun i => decide (i ∈ T))
    refine ⟨n, ?_, ?_⟩
    · simp only [List.mem_toFinset, List.mem_filter, List.mem_range,
        decide_eq_true_eq]
      refine ⟨hn, ?_⟩
      rw [count_eq_card, hnr]
      simpa using hT.2
    · rw [hnr]
      ext i
      simp
  · intro n _
    rfl


/-- The overlapfront range of a shift pattern on level 0 of a grid of a single
process without periodic axes: `s` entities on a shifted axis, `s + 1` on the
others. -/
theorem single_overlapfront_size (torus : Torus dim) (s : iTupel dim) (overlap : Int)
    (hov : 0 ≤ overlap) (r : Bitset dim) (i : Fin dim) :
    (makelevelComponents (constructBase torus s (fun _ => false) overlap)
      (constructCoords torus s (fun _ => false) overlap (fun _ => 0) s) (fun _ => false)
      (fun _ => 0) overlap r).overlapfront.size i
      = if r i = true then s i else s i + 1 := by
  obtain ⟨-, h2, -⟩ := makelevelComponents_axis (constructBase torus s (fun _ => false) overlap)
    (constructCoords torus s (fun _ => false) overlap (fun _ => 0) s) (fun _ => false)
    (fun _ => 0) overlap r i
  have hc := equidistantOverlapSize_axis (constructBase torus s (fun _ => false) overlap)
    (fun _ => false) overlap (fun _ => 0) s i
  have hcs : (constructBase torus s (fun _ => false) overlap)._coarseSize i = s i := rfl
  rw [h2]
  simp only [constructCoords, EquidistantCoordinates, hc, hcs, Bool.false_eq_true, or_false]
  have e1 : ¬ ((0 : Int) - overlap > 0) := by omega
  by_cases e2 : (0 : Int) + s i + overlap ≤ s i
  · have e3 : overlap = 0 := by omega
    simp only [e1, e2, e3, if_true, if_false, add_zero]
    split_ifs <;> omega
  · simp only [e1, e2, if_false, add_zero]
    split_ifs <;> omega

/-- The number of entities of such a range. -/
theorem single_overlapfront_totalsize (torus : Torus dim) (s : iTupel dim) (overlap : Int)
    (hov : 0 ≤ overlap) (n : Nat) :
    (makelevelComponents (constructBase torus s (fun _ => false) overlap)
      (constructCoords torus s (fun _ => false) overlap (fun _ => 0) s) (fun _ => false)
      (fun _ => 0) overlap (bitsetOfIndex dim n)).overlapfront.totalsize
      = (∏ i ∈ Finset.univ.filter (fun i : Fin dim => bitsetOfIndex dim n i = true), s i)
        * ∏ i ∈ (Finset.univ.filter (fun i : Fin dim => bitsetOfIndex dim n i = true))ᶜ,
            (s i + 1) := by
  unfold YGridComponent.totalsize
  rw [← Fin.prod_univ_def]
  simp only [single_overlapfront_size torus s overlap hov]
  rw [Finset.prod_ite, Finset.compl_filter]

/-- C31.  `size(level, codim)` is the sum of `totalsize()` over the overlapfront
components of the codimension; on level 0 of a grid of a single process without
periodic axes, with coarse cell counts `s` and an overlap that is not negative,
it is the sum over the sets `R` of `dim - codim` axes of the product of `s[i]`
over `R` times the product of `s[i]+1` over the other axes, so the product of
the `s[i]` for the cells and the product of the `s[i]+1` for the vertices; and
`size(level, type)` is 0 for a type that is not a cube. -/
theorem C31_size (torus : Torus dim) (s : iTupel dim) (overlap : Int) (codim : Nat)
    (hov : 0 ≤ overlap) (hc : codim ≤ dim) :
    (∀ (G : YaspGrid dim) (level : Int) (c : Nat) (g : YGridLevel dim),
      G.begin level = Except.ok g →
      size G level c = Except.ok
        ((codimComponents g.overlapfront g.overlapfront_data c).map
          (fun it => it.totalsize)).sum) ∧
    size (construct torus s (fun _ => false) overlap (fun _ => 0) s) 0 codim
      = Except.ok (∑ R ∈ Finset.powersetCard (dim - codim) (Finset.univ : Finset (Fin dim)),
          (∏ i ∈ R, s i) * ∏ i ∈ Rᶜ, (s i + 1)) ∧
    size (construct torus s (fun _ => false) overlap (fun _ => 0) s) 0 0
      = Except.ok (∏ i : Fin dim, s i) ∧
    size (construct torus s (fun _ => false) overlap (fun _ => 0) s) 0 dim
      = Except.ok (∏ i : Fin dim, (s i + 1)) ∧
    (∀ (G : YaspGrid dim) (level : Int) (type : GeometryType),
      type.isCube = false → sizeOfType G level type = Except.ok 0) := by
  have hsum : ∀ (G : YaspGrid dim) (level : Int) (c : Nat) (g : YGridLevel dim),
      G.begin level = Except.ok g →
      size G level c = Except.ok
        ((codimComponents g.overlapfront g.overlapfront_data c).map
          (fun it => it.totalsize)).sum := by
    intro G level c g hg
    unfold size
    rw [hg]
    simp only [foldl_totalsize, zero_add]
  have hclosed : ∀ c, c ≤ dim →
      size (construct torus s (fun _ => false) overlap (fun _ => 0) s) 0 c
        = Except.ok (∑ R ∈ Finset.powersetCard (dim - c) (Finset.univ : Finset (Fin dim)),
            (∏ i ∈ R, s i) * ∏ i ∈ Rᶜ, (s i + 1)) := by
    intro c hcd
    rw [hsum _ 0 c _ (construct_begin torus s (fun _ => false) overlap (fun _ => 0) s),
      buildLevel_codimComponents _ _ _ _ _ c hcd, List.map_map]
    have hf : ((fun it : YGridComponent dim => it.totalsize) ∘ fun index =>
        (makelevelComponents (constructBase torus s (fun _ => false) overlap)
          (constructCoords torus s (fun _ => false) overlap (fun _ => 0) s) (fun _ => false)
          (fun _ => 0) overlap (bitsetOfIndex dim index)).overlapfront)
        = fun n => (fun R : Finset (Fin dim) => (∏ i ∈ R, s i) * ∏ i ∈ Rᶜ, (s i + 1))
            (Finset.univ.filter (fun i : Fin dim => bitsetOfIndex dim n i = true)) := by
      funext n
      exact single_overlapfront_totalsize torus s overlap hov n
    rw [hf]
    unfold shiftsOfCodim
    rw [sum_shiftsOfCodim dim (dim - c)
      (fun R : Finset (Fin dim) => (∏ i ∈ R, s i) * ∏ i ∈ Rᶜ, (s i + 1))]
  refine ⟨hsum, hclosed codim hc, ?_, ?_, ?_⟩
  · rw [hclosed 0 (Nat.zero_le _)]
    have h : Finset.powersetCard (dim - 0) (Finset.univ : Finset (Fin dim)) = {Finset.univ} := by
      have := Finset.powersetCard_self (Finset.univ : Finset (Fin dim))
      simpa using this
    rw [h]
    simp
  · rw [hclosed dim (le_refl _)]
    simp
  · intro G level type ht
    simp [sizeOfType, ht]


/-- C31 at a concrete input: the cells and the vertices of the one-dimensional
grid of a single process with 4 cells and overlap 1. -/
theorem C31_size_witness :
    (0 : Int) ≤ 1 ∧ 1 ≤ 1 ∧
    size serial1 0 0 = Except.ok (∏ i : Fin 1, tuple1 4 i) ∧
    size serial1 0 1 = Except.ok (∏ i : Fin 1, (tuple1 4 i + 1)) :=
  ⟨by decide, by decide,
    (C31_size { coord := tuple1 0, dims := fun _ => 1 } (tuple1 4) 1 1 (by decide)
      (by decide)).2.2.1,
    (C31_size { coord := tuple1 0, dims := fun _ => 1 } (tuple1 4) 1 1 (by decide)
      (by decide)).2.2.2.1⟩

/-- C32 (counterexample).  Two-dimensional grid of a single process with
`2 x 3` cells, axis 1 periodic, overlap 1: the macro grid has `2 * 3 = 6`
boundary faces, all on axis 0, but `numBoundarySegments()` is 10, because the
product over the other axes runs over the overlap range, which holds `3 + 2`
cells on the periodic axis.  With overlap 0 the periodic axis itself is
counted: the one-dimensional periodic grid of 4 cells has 2 boundary segments,
and it has 0 with overlap 1. -/
theorem C32_boundary_segments_count_overlap_cells :
    (serial2 true 1).numBoundarySegments = 10 ∧
    (serial2 false 1).numBoundarySegments = 2 * 3 + 2 * 2 ∧
    (construct { coord := tuple1 0, dims := fun _ => 1 } (tuple1 4) (bits1 true) 0 (tuple1 0)
      (tuple1 4)).numBoundarySegments = 2 ∧
    periodic1.numBoundarySegments = 0 := by
  decide

/-- C35 (evaluation at a failing input).  One-dimensional periodic grid of a
single process with 4 cells and overlap 1: `makelevel` built level 0 with both
overlap flags set, and the refinement step of `globalRefine` computes both
flags as false, because the cell range of the overlap family has origin -1 and
ends at the global size. -/
theorem C35_refine_flags_false_on_periodic_axis :
    periodic1._periodic 0 = true ∧
    periodic1.finestLevel
      = buildLevel (constructBase { coord := tuple1 0, dims := fun _ => 1 } (tuple1 4)
          (bits1 true) 1)
        (constructCoords { coord := tuple1 0, dims := fun _ => 1 } (tuple1 4) (bits1 true) 1
          (tuple1 0) (tuple1 4))
        (bits1 true) (tuple1 0) 1 ∧
    (overlapInfo (constructBase { coord := tuple1 0, dims := fun _ => 1 } (tuple1 4)
          (bits1 true) 1)
        (constructCoords { coord := tuple1 0, dims := fun _ => 1 } (tuple1 4) (bits1 true) 1
          (tuple1 0) (tuple1 4))
        (bits1 true) (tuple1 0) 1).ovlp_low 0 = true ∧
    (overlapInfo (constructBase { coord := tuple1 0, dims := fun _ => 1 } (tuple1 4)
          (bits1 true) 1)
        (constructCoords { coord := tuple1 0, dims := fun _ => 1 } (tuple1 4) (bits1 true) 1
          (tuple1 0) (tuple1 4))
        (bits1 true) (tuple1 0) 1).ovlp_up 0 = true ∧
    (firstComponent periodic1.finestLevel.overlap periodic1.finestLevel.overlap_data).origin 0
      = -1 ∧
    (firstComponent periodic1.finestLevel.overlap periodic1.finestLevel.overlap_data).max 0 + 1
      = 5 ∧
    periodic1.globalSize 0 = 4 ∧
    (refineFlags periodic1).1 0 = false ∧
    (refineFlags periodic1).2 0 = false :=
  ⟨by decide, rfl, by decide, by decide, by decide, by decide, by decide, by decide, by decide⟩

/-- The refinement loop does not touch the refinement counter and only appends
levels. -/
theorem refineLoop_frame (n : Nat) (G : YaspGrid dim) :
    (refineLoop n G).adaptRefCount = G.adaptRefCount ∧
    ∃ t, (refineLoop n G)._levels = G._levels ++ t := by
  induction n generalizing G with
  | zero => exact ⟨rfl, [], by simp [refineLoop]⟩
  | succ n ih =>
    unfold refineLoop
    by_cases hc : G._levels.length + 1 ≤ levelCapacity
    · simp only [hc, if_true]
      obtain ⟨h1, t, h2⟩ := ih (refineStep G)
      refine ⟨?_, ?_⟩
      · rw [h1]
        rfl
      · rw [h2, refineStep_levels]
        exact ⟨_, List.append_assoc _ _ _⟩
    · simp only [hc, if_false]
      exact ⟨trivial, [], by simp⟩

/-- With a counter that is not negative `adapt` throws nothing, keeps the
counter and only appends levels. -/
theorem adapt_frame (G : YaspGrid dim) (h : 0 ≤ G.adaptRefCount) (hl : 0 < G._levels.length) :
    (adapt G).2.1 = none ∧ (adapt G).2.2.adaptRefCount = G.adaptRefCount ∧
    ∃ t, (adapt G).2.2._levels = G._levels ++ t := by
  have hm : G.maxLevel = (G._levels.length : Int) - 1 := rfl
  have hn : ¬ (G.adaptRefCount < - G.maxLevel) := by omega
  have h0 : (- G.adaptRefCount).toNat = 0 := by omega
  obtain ⟨h1, h2⟩ := refineLoop_frame G.adaptRefCount.toNat G
  have e : adapt G = (decide (G.adaptRefCount > 0), none, refineLoop G.adaptRefCount.toNat G) := by
    simp only [adapt, globalRefine, hn, if_false, h0, coarsenLoop]
  rw [e]
  exact ⟨rfl, h1, h2⟩

/-- One call of the adaptation interface keeps the counter non-negative and only
appends levels. -/
theorem applyCall_invariant (G G1 : YaspGrid dim) (c : AdaptCall)
    (h : 0 ≤ G.adaptRefCount) (hl : 0 < G._levels.length) (hc : applyCall G c = some G1) :
    0 ≤ G1.adaptRefCount ∧ ∃ t, G1._levels = G._levels ++ t := by
  cases c with
  | mark refCount e =>
    simp only [applyCall, mark] at hc
    split_ifs at hc
    · simp at hc
    · simp only [Option.map_some', Option.some.injEq] at hc
      subst hc
      exact ⟨h, [], by simp⟩
    · simp only [Option.map_some', Option.some.injEq] at hc
      subst hc
      exact ⟨le_trans h (le_max_left _ _), [], by simp⟩
  | preAdapt others =>
    simp only [applyCall, Option.some.injEq] at hc
    subst hc
    exact ⟨le_trans h (commMax_spec others G.adaptRefCount).1, [], by simp [preAdapt]⟩
  | adapt =>
    obtain ⟨h1, h2, h3⟩ := adapt_frame G h hl
    simp only [applyCall, h1, Option.some.injEq] at hc
    subst hc
    exact ⟨by rw [h2]; exact h, h3⟩
  | postAdapt =>
    simp only [applyCall, Option.some.injEq] at hc
    subst hc
    exact ⟨le_refl _, [], by simp [postAdapt]⟩

/-- A sequence of calls of the adaptation interface keeps the counter
non-negative and only appends levels. -/
theorem runCalls_invariant (calls : List AdaptCall) (G G1 : YaspGrid dim)
    (h : 0 ≤ G.adaptRefCount) (hl : 0 < G._levels.length) (hc : runCalls calls G = some G1) :
    0 ≤ G1.adaptRefCount ∧ ∃ t, G1._levels = G._levels ++ t := by
  induction calls generalizing G with
  | nil =>
    simp only [runCalls, Option.some.injEq] at hc
    subst hc
    exact ⟨h, [], by simp⟩
  | cons c cs ih =>
    simp only [runCalls] at hc
    cases hG : applyCall G c with
    | none => simp [hG] at hc
    | some G2 =>
      simp only [hG] at hc
      obtain ⟨k1, t, k2⟩ := applyCall_invariant G G2 c h hl hG
      obtain ⟨k3, t2, k4⟩ := ih G2 k1 (by rw [k2]; simp; omega) hc
      exact ⟨k3, t ++ t2, by rw [k4, k2]; simp⟩

/-- C34.  Starting from a constructed grid, after any sequence of `mark`,
`preAdapt`, `adapt` and `postAdapt` calls that return, the refine counter is not
negative; so `preAdapt` does not return true, whatever the other processes pass
in, and `adapt` throws nothing and removes no level: the levels of the
constructed grid and of the grid before `adapt` stay as they are. -/
theorem C34_refine_counter_nonnegative (torus : Torus dim) (s : iTupel dim)
    (periodic : Bitset dim) (overlap : Int) (o_interior s_interior : iTupel dim)
    (calls : List AdaptCall) (G : YaspGrid dim)
    (h : runCalls calls (construct torus s periodic overlap o_interior s_interior) = some G) :
    0 ≤ G.adaptRefCount ∧
    (∃ t, G._levels = (construct torus s periodic overlap o_interior s_interior)._levels ++ t) ∧
    (∀ others, (preAdapt G others).1 = false) ∧
    (adapt G).2.1 = none ∧
    (∃ t, (adapt G).2.2._levels = G._levels ++ t) := by
  have hl0 : 0 < (construct torus s periodic overlap o_interior s_interior)._levels.length := by
    rw [construct_levels]
    simp
  obtain ⟨h1, t, h2⟩ := runCalls_invariant calls _ G (le_refl _) hl0 h
  have hl : 0 < G._levels.length := by
    rw [h2]
    simp
    omega
  obtain ⟨a1, -, a3⟩ := adapt_frame G h1 hl
  refine ⟨h1, ⟨t, h2⟩, ?_, a1, a3⟩
  intro others
  have := (commMax_spec others G.adaptRefCount).1
  simp only [preAdapt, decide_eq_false_iff_not, not_lt]
  omega

/-- C34 at a concrete input: on the one-dimensional grid as constructed, an
entity of level 0 is marked with -3, then `preAdapt`, `adapt` and `postAdapt`
are called. -/
theorem C34_refine_counter_nonnegative_witness :
    runCalls [AdaptCall.mark (-3) { level := 0 }, AdaptCall.preAdapt [], AdaptCall.adapt,
        AdaptCall.postAdapt] serial1
      = some { serial1 with adaptActive := false, adaptRefCount := 0 } ∧
    (0 ≤ ({ serial1 with adaptActive := false, adaptRefCount := 0 } : YaspGrid 1).adaptRefCount ∧
    (∃ t, ({ serial1 with adaptActive := false, adaptRefCount := 0 } : YaspGrid 1)._levels
      = serial1._levels ++ t) ∧
    (∀ others, (preAdapt ({ serial1 with adaptActive := false, adaptRefCount := 0 } : YaspGrid 1)
      others).1 = false) ∧
    (adapt ({ serial1 with adaptActive := false, adaptRefCount := 0 } : YaspGrid 1)).2.1 = none ∧
    (∃ t, (adapt ({ serial1 with adaptActive := false, adaptRefCount := 0 } : YaspGrid 1)).2.2._levels
      = ({ serial1 with adaptActive := false, adaptRefCount := 0 } : YaspGrid 1)._levels ++ t)) :=
  ⟨rfl, C34_refine_counter_nonnegative { coord := tuple1 0, dims := fun _ => 1 } (tuple1 4)
    (bits1 false) 1 (tuple1 0) (tuple1 4)
    [AdaptCall.mark (-3) { level := 0 }, AdaptCall.preAdapt [], AdaptCall.adapt,
      AdaptCall.postAdapt] { serial1 with adaptActive := false, adaptRefCount := 0 }
    (show runCalls [AdaptCall.mark (-3) { level := 0 }, AdaptCall.preAdapt [], AdaptCall.adapt,
        AdaptCall.postAdapt] serial1
      = some { serial1 with adaptActive := false, adaptRefCount := 0 } from rfl)⟩

/-- The loop of lines 671-680 writes every entry of `sides` once. -/
theorem boundarySides_axis (G : YaspGrid dim) (k : Fin dim) :
    boundarySides G k
      = (if (firstComponent G.coarsestLevel.overlap G.coarsestLevel.overlap_data).origin k = 0
          then 1 else 0)
        + (if (firstComponent G.coarsestLevel.overlap G.coarsestLevel.overlap_data).origin k
              + (firstComponent G.coarsestLevel.overlap G.coarsestLevel.overlap_data).size k
            = G.levelSize 0 k then 1 else 0) := by
  unfold boundarySides
  exact forAxes_local (fun (st : iTupel dim) j => st j) _
    (fun j _ =>
      (if (firstComponent G.coarsestLevel.overlap G.coarsestLevel.overlap_data).origin j = 0
          then 1 else 0)
        + (if (firstComponent G.coarsestLevel.overlap G.coarsestLevel.overlap_data).origin j
              + (firstComponent G.coarsestLevel.overlap G.coarsestLevel.overlap_data).size j
            = G.levelSize 0 j then 1 else 0))
    (by
      intro i s j
      simp only [setAt_apply])
    (fun _ => 0) k

/-- Product loop that skips the axis `k`. -/
theorem foldl_mul_skip (k : Fin dim) (f : Fin dim → Int) (l : List (Fin dim)) (a : Int) :
    l.foldl (fun offset j => if j = k then offset else offset * f j) a
      = a * (l.map (fun j => if j = k then 1 else f j)).prod := by
  induction l generalizing a with
  | nil => simp
  | cons x l ih =>
    rw [List.foldl_cons, ih, List.map_cons, List.prod_cons]
    by_cases hx : x = k
    · simp [hx]
    · simp [hx, mul_assoc]

/-- The loop of lines 684-689 multiplies the sizes of the other axes. -/
theorem boundaryOffset_prod (G : YaspGrid dim) (k : Fin dim) :
    boundaryOffset G k
      = ∏ l : Fin dim, (if l = k then 1
          else (firstComponent G.coarsestLevel.overlap G.coarsestLevel.overlap_data).size l) := by
  unfold boundaryOffset forAxes
  rw [foldl_mul_skip, one_mul, Fin.prod_univ_def]

/-- Summation loop over integers. -/
theorem foldl_add_int {α : Type} (f : α → Int) (l : List α) (a : Int) :
    l.foldl (fun n e => n + f e) a = a + (l.map f).sum := by
  induction l generalizing a with
  | nil => simp
  | cons x l ih => simp [List.foldl_cons, ih, add_assoc]

/-- The loop of lines 681-691 sums `sides[k] * offset` over the axes. -/
theorem boundarysegmentssize_sum (G : YaspGrid dim) :
    boundarysegmentssize G = ∑ k : Fin dim, boundarySides G k * boundaryOffset G k := by
  unfold boundarysegmentssize forAxes
  rw [foldl_add_int, zero_add, Fin.sum_univ_def]

/-- The cell range of the overlap family on level 0 of a grid of a single
process: on a periodic axis it begins at `-overlap` and holds `s + 2 * overlap`
cells, on the other axes it begins at 0 and holds `s` cells. -/
theorem single_overlap_cells (torus : Torus dim) (s : iTupel dim) (periodic : Bitset dim)
    (overlap : Int) (hov : 0 ≤ overlap) (k : Fin dim) :
    (firstComponent
        (construct torus s periodic overlap (fun _ => 0) s).coarsestLevel.overlap
        (construct torus s periodic overlap (fun _ => 0) s).coarsestLevel.overlap_data).origin k
      = (if periodic k = true then -overlap else 0) ∧
    (firstComponent
        (construct torus s periodic overlap (fun _ => 0) s).coarsestLevel.overlap
        (construct torus s periodic overlap (fun _ => 0) s).coarsestLevel.overlap_data).size k
      = (if periodic k = true then s k + 2 * overlap else s k) := by
  have hl : (construct torus s periodic overlap (fun _ => 0) s).coarsestLevel
      = buildLevel (constructBase torus s periodic overlap)
          (constructCoords torus s periodic overlap (fun _ => 0) s) periodic (fun _ => 0)
          overlap := by
    unfold coarsestLevel
    rw [construct_levels]
    rfl
  rw [hl]
  obtain ⟨r, hr, -, h2⟩ := buildLevel_firstComponent (constructBase torus s periodic overlap)
    (constructCoords torus s periodic overlap (fun _ => 0) s) periodic (fun _ => 0) overlap
  rw [h2]
  obtain ⟨-, -, h3, h4, -⟩ := makelevelComponents_axis (constructBase torus s periodic overlap)
    (constructCoords torus s periodic overlap (fun _ => 0) s) periodic (fun _ => 0) overlap r k
  obtain ⟨-, ho, -, -⟩ := overlapInfo_axis (constructBase torus s periodic overlap)
    (constructCoords torus s periodic overlap (fun _ => 0) s) periodic (fun _ => 0) overlap k
  have hc := equidistantOverlapSize_axis (constructBase torus s periodic overlap)
    periodic overlap (fun _ => 0) s k
  have hcs : (constructBase torus s periodic overlap)._coarseSize k = s k := rfl
  rw [h3, h4, ho]
  simp only [constructCoords, EquidistantCoordinates, hc, hr k, Bool.true_eq_false,
    false_and, if_false, add_zero, sub_zero]
  rw [hcs]
  clear hc h3 h4 ho h2 hl
  by_cases hp : periodic k = true
  · simp only [hp, or_true, if_true]
    constructor <;> omega
  · have e1 : ¬ ((0 : Int) - overlap > 0) := by omega
    simp only [hp, Bool.false_eq_true, or_false, if_false, if_true, e1]
    by_cases e2 : (0 : Int) + s k + overlap ≤ s k
    · have e3 : overlap = 0 := by omega
      simp only [e2, e3, if_true]
      constructor <;> simp
    · simp only [e2, if_false]
      constructor
      · split_ifs with h1
        · rfl
        · omega
      · omega

/-- The size of level 0 of a constructed grid is the coarse size. -/
theorem construct_levelSize (torus : Torus dim) (s : iTupel dim) (periodic : Bitset dim)
    (overlap : Int) (o_interior s_interior : iTupel dim) (k : Fin dim) :
    (construct torus s periodic overlap o_interior s_interior).levelSize 0 k = s k := by
  simp [levelSize, construct, init, EquidistantSetup, makelevel, equidistantInit]

/-- What `init()` stores in `nBSegments` is computed from the level stack and
the coarse size, which `init()` leaves as they are. -/
theorem construct_numBoundarySegments (torus : Torus dim) (s : iTupel dim)
    (periodic : Bitset dim) (overlap : Int) (o_interior s_interior : iTupel dim) :
    (construct torus s periodic overlap o_interior s_interior).numBoundarySegments
      = boundarysegmentssize (construct torus s periodic overlap o_interior s_interior) :=
  rfl

/-- C32 (amended).  For an equidistant grid of a single process with coarse
cell counts `s` and an overlap that is not negative, `numBoundarySegments()`
counts the faces of the cell range of the overlap family of level 0 that lie on
the border of the domain: the axis `k` contributes `sides[k]` times the product
over the other axes `l` of the number of cells of that range, which is `s[l]`
on an axis that is not periodic and `s[l] + 2 * overlap` on a periodic axis;
`sides[k]` is 2, except on a periodic axis with a positive overlap, where it is
0.  Without periodic axes the value is the number of boundary faces of the
macro grid, the sum over `k` of `2 *` the product of the `s[l]` over the other
axes. -/
theorem C32_numBoundarySegments (torus : Torus dim) (s : iTupel dim) (periodic : Bitset dim)
    (overlap : Int) (hov : 0 ≤ overlap) :
    (construct torus s periodic overlap (fun _ => 0) s).numBoundarySegments
      = ∑ k : Fin dim, (if periodic k = true ∧ 0 < overlap then 0 else 2)
          * ∏ l : Fin dim,
              (if l = k then 1 else if periodic l = true then s l + 2 * overlap else s l) ∧
    ((∀ k, periodic k = false) →
      (construct torus s periodic overlap (fun _ => 0) s).numBoundarySegments
        = ∑ k : Fin dim, 2 * ∏ l : Fin dim, (if l = k then 1 else s l)) := by
  have hmain : (construct torus s periodic overlap (fun _ => 0) s).numBoundarySegments
      = ∑ k : Fin dim, (if periodic k = true ∧ 0 < overlap then 0 else 2)
          * ∏ l : Fin dim,
              (if l = k then 1 else if periodic l = true then s l + 2 * overlap else s l) := by
    rw [construct_numBoundarySegments, boundarysegmentssize_sum]
    apply Finset.sum_congr rfl
    intro k _
    rw [boundarySides_axis, boundaryOffset_prod, construct_levelSize,
      (single_overlap_cells torus s periodic overlap hov k).1,
      (single_overlap_cells torus s periodic overlap hov k).2]
    congr 1
    · by_cases hp : periodic k = true
      · by_cases h0 : 0 < overlap
        · have a1 : ¬ (-overlap = 0) := by omega
          have a2 : ¬ (-overlap + (s k + 2 * overlap) = s k) := by omega
          simp only [hp, h0, if_true, and_self, a1, a2, if_false, add_zero]
        · have a0 : overlap = 0 := by omega
          simp [hp, a0]
      · simp [hp]
    · apply Finset.prod_congr rfl
      intro l _
      rw [(single_overlap_cells torus s periodic overlap hov l).2]
  refine ⟨hmain, ?_⟩
  intro hnp
  rw [hmain]
  apply Finset.sum_congr rfl
  intro k _
  simp [hnp]

/-- C32 (amended) at a concrete input: the grid of `2 x 3` cells with the
periodic axis 1 and overlap 1, where axis 0 contributes `2 * (3 + 2)` and the
periodic axis contributes 0. -/
theorem C32_numBoundarySegments_witness :
    (0 : Int) ≤ 1 ∧
    (construct { coord := tuple2 0 0, dims := fun _ => 1 } (tuple2 2 3) (bits2 false true) 1
        (fun _ => 0) (tuple2 2 3)).numBoundarySegments
      = ∑ k : Fin 2, (if bits2 false true k = true ∧ (0 : Int) < 1 then 0 else 2)
          * ∏ l : Fin 2,
              (if l = k then 1
                else if bits2 false true l = true then tuple2 2 3 l + 2 * 1 else tuple2 2 3 l) ∧
    (∑ k : Fin 2, (if bits2 false true k = true ∧ (0 : Int) < 1 then 0 else 2)
          * ∏ l : Fin 2,
              (if l = k then 1
                else if bits2 false true l = true then tuple2 2 3 l + 2 * 1 else tuple2 2 3 l))
      = 10 :=
  ⟨by decide,
    (C32_numBoundarySegments { coord := tuple2 0 0, dims := fun _ => 1 } (tuple2 2 3)
      (bits2 false true) 1 (by decide)).1,
    by decide⟩

end YaspGrid

namespace McmgMapper

/-- One pass of the constructor loop: the new `n` and the new offsets. -/
theorem constructStep_apply {E : Type} (dimension : Nat) (is : IndexSet E)
    (contains : Nat → GeometryType → Bool) (m : Mapper) (p k : Nat × GeometryType) :
    (constructStep dimension is contains m p).n
      = m.n + (if contains p.1 p.2 = true then is.size p.1 p.2 else 0) ∧
    (constructStep dimension is contains m p).offset k.1 k.2
      = if contains p.1 p.2 = true ∧ writes dimension p k then m.n else m.offset k.1 k.2 := by
  refine ⟨?_, ?_⟩
  · unfold constructStep
    split_ifs <;> simp
  · unfold constructStep writes setOffset
    by_cases hc : contains p.1 p.2 = true
    · by_cases hd : (p.1 : Int) < (dimension : Int) - 1
      · simp [hc, hd]
      · by_cases h1 : k.1 = p.1
        · by_cases h2 : k.2 = GeometryType.simplex
          · simp [hc, hd, h1, h2]
          · by_cases h3 : k.2 = GeometryType.cube
            · simp [hc, hd, h1, h3]
            · simp [hc, hd, h1, h2, h3]
        · simp [hc, hd, h1]
    · simp [hc]

/-- The constructor loop adds the sizes of the contained pairs to `n`. -/
theorem foldl_n {E : Type} (dimension : Nat) (is : IndexSet E)
    (contains : Nat → GeometryType → Bool) (l : List (Nat × GeometryType)) (m : Mapper) :
    (l.foldl (constructStep dimension is contains) m).n
      = m.n + ((l.filter (fun p => contains p.1 p.2)).map (fun p => is.size p.1 p.2)).sum := by
  induction l generalizing m with
  | nil => simp
  | cons p l ih =>
    rw [List.foldl_cons, ih, (constructStep_apply dimension is contains m p p).1]
    by_cases hc : contains p.1 p.2 = true
    · simp [List.filter_cons, hc, add_assoc]
    · simp [List.filter_cons, hc]

/-- The constructor loop leaves an offset that no contained pair writes. -/
theorem foldl_offset_kept {E : Type} (dimension : Nat) (is : IndexSet E)
    (contains : Nat → GeometryType → Bool) (l : List (Nat × GeometryType)) (m : Mapper)
    (k : Nat × GeometryType)
    (h : ∀ q ∈ l, contains q.1 q.2 = true → ¬ writes dimension q k) :
    (l.foldl (constructStep dimension is contains) m).offset k.1 k.2 = m.offset k.1 k.2 := by
  induction l generalizing m with
  | nil => rfl
  | cons p l ih =>
    rw [List.foldl_cons, ih _ (fun q hq => h q (List.mem_cons_of_mem _ hq)),
      (constructStep_apply dimension is contains m p k).2]
    have hp := h p (List.mem_cons_self _ _)
    by_cases hc : contains p.1 p.2 = true
    · simp [hc, hp hc]
    · simp [hc]

/-- The offset that the pass for a contained pair writes is the sum of the
sizes of the contained pairs before it, if no later pass writes it again. -/
theorem foldl_offset_written {E : Type} (dimension : Nat) (is : IndexSet E)
    (contains : Nat → GeometryType → Bool) (l1 l2 : List (Nat × GeometryType))
    (p k : Nat × GeometryType) (m : Mapper) (hc : contains p.1 p.2 = true)
    (hw : writes dimension p k)
    (h : ∀ q ∈ l2, contains q.1 q.2 = true → ¬ writes dimension q k) :
    ((l1 ++ p :: l2).foldl (constructStep dimension is contains) m).offset k.1 k.2
      = m.n + ((l1.filter (fun p => contains p.1 p.2)).map (fun p => is.size p.1 p.2)).sum := by
  rw [List.foldl_append, List.foldl_cons, foldl_offset_kept dimension is contains l2 _ k h,
    (constructStep_apply dimension is contains _ p k).2, foldl_n]
  simp [hc, hw]

/-- The pairs of the loop nest are pairwise distinct if no list of geometry
types repeats a type. -/
theorem loopPairs_nodup {E : Type} (dimension : Nat) (is : IndexSet E)
    (hnodup : ∀ c, (is.geomTypes c).Nodup) : (loopPairs dimension is).Nodup := by
  unfold loopPairs
  rw [List.nodup_flatMap]
  refine ⟨?_, ?_⟩
  · intro c _
    exact (hnodup c).map (fun a b hab => by simpa using hab)
  · refine List.Pairwise.imp_of_mem ?_ (List.pairwise_lt_range (dimension + 1))
    intro a b _ _ hab x hxa hxb
    rw [List.mem_map] at hxa hxb
    obtain ⟨t1, -, h1⟩ := hxa
    obtain ⟨t2, -, h2⟩ := hxb
    have : a = b := by
      have e1 := congrArg Prod.fst h1
      have e2 := congrArg Prod.fst h2
      simp only at e1 e2
      omega
    omega

/-- Membership in the pairs of the loop nest. -/
theorem mem_loopPairs {E : Type} (dimension : Nat) (is : IndexSet E) (p : Nat × GeometryType) :
    p ∈ loopPairs dimension is ↔ p.1 ≤ dimension ∧ p.2 ∈ is.geomTypes p.1 := by
  unfold loopPairs
  rw [List.mem_flatMap]
  constructor
  · rintro ⟨c, hc, hp⟩
    rw [List.mem_range] at hc
    rw [List.mem_map] at hp
    obtain ⟨t, ht, rfl⟩ := hp
    exact ⟨by simp only; omega, ht⟩
  · rintro ⟨h1, h2⟩
    exact ⟨p.1, by rw [List.mem_range]; omega, by rw [List.mem_map]; exact ⟨p.2, h2, rfl⟩⟩

/-- Two distinct members of a list: one of them comes first. -/
theorem two_members {α : Type} (l : List α) (a b : α) (ha : a ∈ l) (hb : b ∈ l) (hab : a ≠ b) :
    (∃ l1 l2 l3, l = l1 ++ a :: (l2 ++ b :: l3)) ∨ (∃ l1 l2 l3, l = l1 ++ b :: (l2 ++ a :: l3)) := by
  obtain ⟨l1, l2, rfl⟩ := List.append_of_mem ha
  rcases List.mem_append.mp hb with h | h
  · obtain ⟨m1, m2, rfl⟩ := List.append_of_mem h
    right
    exact ⟨m1, m2, l2, by simp⟩
  · rcases List.mem_cons.mp h with h | h
    · exact absurd h.symm hab
    · obtain ⟨m1, m2, rfl⟩ := List.append_of_mem h
      left
      exact ⟨l1, m1, m2, rfl⟩

/-- The sum of the sizes of a list of pairs is not negative. -/
theorem sizes_nonneg {E : Type} (is : IndexSet E) (contains : Nat → GeometryType → Bool)
    (hsize : ∀ c t, 0 ≤ is.size c t) (l : List (Nat × GeometryType)) :
    0 ≤ ((l.filter (fun p => contains p.1 p.2)).map (fun p => is.size p.1 p.2)).sum := by
  apply List.sum_nonneg
  intro x hx
  rw [List.mem_map] at hx
  obtain ⟨p, -, rfl⟩ := hx
  exact hsize _ _

/-- The sum over the contained pairs of the loop nest, codimension by
codimension. -/
theorem loopPairs_sum {E : Type} (is : IndexSet E) (contains : Nat → GeometryType → Bool)
    (cs : List Nat) :
    (((cs.flatMap (fun c => (is.geomTypes c).map (fun t => (c, t)))).filter
        (fun p => contains p.1 p.2)).map (fun p => is.size p.1 p.2)).sum
      = (cs.map (fun c => (((is.geomTypes c).filter (contains c)).map (is.size c)).sum)).sum := by
  induction cs with
  | nil => simp
  | cons c cs ih =>
    rw [List.flatMap_cons, List.filter_append, List.map_append, List.sum_append, ih,
      List.map_cons, List.sum_cons]
    congr 1
    rw [List.filter_map, List.map_map]
    rfl


/-- The offset of a contained pair of the loop nest is the sum of the sizes of
the contained pairs before it, and `n` is the sum of all their sizes. -/
theorem offset_of_pair {E : Type} (dimension : Nat) (is : IndexSet E)
    (contains : Nat → GeometryType → Bool)
    (hnodup : ∀ c, (is.geomTypes c).Nodup)
    (hlow : ∀ (c : Nat) (t : GeometryType), (dimension : Int) - 1 ≤ (c : Int) → t ∈ is.geomTypes c → contains c t = true →
      (t = GeometryType.cube ∨ t = GeometryType.simplex) ∧
        ∀ t1, t1 ∈ is.geomTypes c → contains c t1 = true → t1 = t)
    (l1 l2 : List (Nat × GeometryType)) (p : Nat × GeometryType)
    (hl : loopPairs dimension is = l1 ++ p :: l2) (hc : contains p.1 p.2 = true) :
    (construct dimension is contains).offset p.1 p.2
      = ((l1.filter (fun p => contains p.1 p.2)).map (fun p => is.size p.1 p.2)).sum ∧
    size (construct dimension is contains)
      = ((l1.filter (fun p => contains p.1 p.2)).map (fun p => is.size p.1 p.2)).sum
        + is.size p.1 p.2
        + ((l2.filter (fun p => contains p.1 p.2)).map (fun p => is.size p.1 p.2)).sum := by
  have hnd := loopPairs_nodup dimension is hnodup
  have hmem : ∀ q, q ∈ loopPairs dimension is → q.2 ∈ is.geomTypes q.1 :=
    fun q hq => ((mem_loopPairs dimension is q).mp hq).2
  have hp : p ∈ loopPairs dimension is := by
    rw [hl]
    exact List.mem_append_right _ (List.mem_cons_self _ _)
  have hpl2 : p ∉ l2 := by
    rw [hl] at hnd
    have h1 := (List.nodup_append.mp hnd).2.1
    exact (List.nodup_cons.mp h1).1
  have hw : writes dimension p p := by
    unfold writes
    refine ⟨rfl, ?_⟩
    by_cases hd : (p.1 : Int) < (dimension : Int) - 1
    · simp [hd]
    · simp only [hd, if_false]
      exact (hlow p.1 p.2 (by omega) (hmem p hp) hc).1
  have hlater : ∀ q ∈ l2, contains q.1 q.2 = true → ¬ writes dimension q p := by
    intro q hq hcq hwq
    have hqm : q ∈ loopPairs dimension is := by
      rw [hl]
      exact List.mem_append_right _ (List.mem_cons_of_mem _ hq)
    have hne : q ≠ p := fun h => hpl2 (h ▸ hq)
    unfold writes at hwq
    obtain ⟨h1, h2⟩ := hwq
    by_cases hd : (q.1 : Int) < (dimension : Int) - 1
    · simp only [hd, if_true] at h2
      exact hne (Prod.ext h1.symm h2.symm)
    · have hu := (hlow q.1 q.2 (by omega) (hmem q hqm) hcq).2 p.2
        (by rw [← h1]; exact hmem p hp) (by rw [← h1]; exact hc)
      exact hne (Prod.ext h1.symm hu.symm)
  refine ⟨?_, ?_⟩
  · unfold construct
    rw [hl, foldl_offset_written dimension is contains l1 l2 p p _ hc hw hlater]
    simp
  · unfold size construct
    rw [hl, foldl_n]
    simp [List.filter_append, List.filter_cons, hc, add_assoc]

/-- C33 (evaluation at a failing input).  One-dimensional grid whose index set
lists the vertices under two geometry types, cube and simplex, one vertex of
each, both with index 0 within their type, and a layout that contains
everything: `size()` is 2, and `map` sends both vertices to 1, because the
second pass overwrites the offset that the first pass wrote for both types. -/
theorem C33_two_types_share_offset :
    twoVertexTypes.index false < twoVertexTypes.size (twoVertexTypes.codimension false)
      (twoVertexTypes.type false) ∧
    twoVertexTypes.index true < twoVertexTypes.size (twoVertexTypes.codimension true)
      (twoVertexTypes.type true) ∧
    size (construct 1 twoVertexTypes (fun _ _ => true)) = 2 ∧
    map twoVertexTypes (construct 1 twoVertexTypes (fun _ _ => true)) false = 1 ∧
    map twoVertexTypes (construct 1 twoVertexTypes (fun _ _ => true)) true = 1 := by
  decide

/-- C33 (amended).  For a mapper built over an index set that lists no geometry
type twice, has sizes that are not negative and, for every codimension from
`dimension - 1` on, lists at most one type that the layout contains, a cube or a
simplex: `size()` is the sum of `is.size(c, t)` over the codimensions `c` up to
the dimension and the listed types `t` that the layout contains; every entity
of a listed and contained type with index in `[0, is.size(c, t))` is mapped into
`[0, size())`; and two such entities with the same image are equal, if the
index is injective on the entities of one codimension and type. -/
theorem C33_mapper {E : Type} (dimension : Nat) (is : IndexSet E)
    (contains : Nat → GeometryType → Bool)
    (hnodup : ∀ c, (is.geomTypes c).Nodup)
    (hsize : ∀ c t, 0 ≤ is.size c t)
    (hlow : ∀ (c : Nat) (t : GeometryType), (dimension : Int) - 1 ≤ (c : Int) → t ∈ is.geomTypes c → contains c t = true →
      (t = GeometryType.cube ∨ t = GeometryType.simplex) ∧
        ∀ t1, t1 ∈ is.geomTypes c → contains c t1 = true → t1 = t)
    (hinj : ∀ e1 e2, mapped dimension is contains e1 → mapped dimension is contains e2 →
      is.codimension e1 = is.codimension e2 → is.type e1 = is.type e2 →
      is.index e1 = is.index e2 → e1 = e2) :
    size (construct dimension is contains)
      = ((List.range (dimension + 1)).map
          (fun c => (((is.geomTypes c).filter (contains c)).map (is.size c)).sum)).sum ∧
    (∀ e, mapped dimension is contains e →
      0 ≤ map is (construct dimension is contains) e ∧
      map is (construct dimension is contains) e < size (construct dimension is contains)) ∧
    (∀ e1 e2, mapped dimension is contains e1 → mapped dimension is contains e2 →
      map is (construct dimension is contains) e1 = map is (construct dimension is contains) e2 →
      e1 = e2) := by
  have hpair : ∀ e, mapped dimension is contains e →
      (is.codimension e, is.type e) ∈ loopPairs dimension is :=
    fun e he => (mem_loopPairs dimension is _).mpr ⟨he.1, he.2.1⟩
  refine ⟨?_, ?_, ?_⟩
  · unfold size construct
    rw [foldl_n]
    unfold loopPairs
    rw [loopPairs_sum]
    simp
  · intro e he
    obtain ⟨l1, l2, hl⟩ := List.append_of_mem (hpair e he)
    obtain ⟨h1, h2⟩ := offset_of_pair dimension is contains hnodup hlow l1 l2 _ hl he.2.2.1
    have s1 := sizes_nonneg is contains hsize l1
    have s2 := sizes_nonneg is contains hsize l2
    unfold map
    simp only at h1 h2
    rw [h1, h2]
    have a := he.2.2.2.1
    have b := he.2.2.2.2
    constructor <;> omega
  · intro e1 e2 he1 he2 hm
    by_cases hp : (is.codimension e1, is.type e1) = (is.codimension e2, is.type e2)
    · have hc : is.codimension e1 = is.codimension e2 := congrArg Prod.fst hp
      have ht : is.type e1 = is.type e2 := congrArg Prod.snd hp
      apply hinj e1 e2 he1 he2 hc ht
      unfold map at hm
      rw [hc, ht] at hm
      omega
    · exfalso
      have a1 := he1.2.2.2.1
      have b1 := he1.2.2.2.2
      have a2 := he2.2.2.2.1
      have b2 := he2.2.2.2.2
      unfold map at hm
      rcases two_members _ _ _ (hpair e1 he1) (hpair e2 he2) hp with
        ⟨l1, l2, l3, hl⟩ | ⟨l1, l2, l3, hl⟩
      · obtain ⟨h1, -⟩ := offset_of_pair dimension is contains hnodup hlow l1 _ _ hl he1.2.2.1
        have hl2 : loopPairs dimension is
            = (l1 ++ (is.codimension e1, is.type e1) :: l2)
              ++ (is.codimension e2, is.type e2) :: l3 := by
          rw [hl]
          simp
        obtain ⟨h2, -⟩ := offset_of_pair dimension is contains hnodup hlow _ _ _ hl2 he2.2.2.1
        have s2 := sizes_nonneg is contains hsize l2
        simp only at h1 h2
        rw [h1, h2] at hm
        simp only [List.filter_append, List.filter_cons, he1.2.2.1, if_true, List.map_append,
          List.map_cons, List.sum_append, List.sum_cons] at hm
        omega
      · obtain ⟨h2, -⟩ := offset_of_pair dimension is contains hnodup hlow l1 _ _ hl he2.2.2.1
        have hl2 : loopPairs dimension is
            = (l1 ++ (is.codimension e2, is.type e2) :: l2)
              ++ (is.codimension e1, is.type e1) :: l3 := by
          rw [hl]
          simp
        obtain ⟨h1, -⟩ := offset_of_pair dimension is contains hnodup hlow _ _ _ hl2 he1.2.2.1
        have s2 := sizes_nonneg is contains hsize l2
        simp only at h1 h2
        rw [h1, h2] at hm
        simp only [List.filter_append, List.filter_cons, he2.2.2.1, if_true, List.map_append,
          List.map_cons, List.sum_append, List.sum_cons] at hm
        omega


/-- C33 (amended) at a concrete input: a one-dimensional grid with 2 elements
and 3 vertices and a layout that contains everything; vertex 2 is mapped to
`2 + 2 = 4` of 5. -/
theorem C33_mapper_witness :
    mapped 1 lineIndexSet (fun _ _ => true) (true, 2) ∧
    size (construct 1 lineIndexSet (fun _ _ => true)) = 5 ∧
    map lineIndexSet (construct 1 lineIndexSet (fun _ _ => true)) (true, 2) = 4 ∧
    (0 ≤ map lineIndexSet (construct 1 lineIndexSet (fun _ _ => true)) (true, 2) ∧
      map lineIndexSet (construct 1 lineIndexSet (fun _ _ => true)) (true, 2)
        < size (construct 1 lineIndexSet (fun _ _ => true))) :=
  ⟨by decide, by decide, by decide,
    (C33_mapper 1 lineIndexSet (fun _ _ => true)
      (fun _ => by simp [lineIndexSet])
      (fun c _ => by simp only [lineIndexSet]; split_ifs <;> decide)
      (fun c t _ ht _ => by
        simp only [lineIndexSet, List.mem_singleton] at ht ⊢
        exact ⟨Or.inl ht, fun t1 h1 _ => h1.trans ht.symm⟩)
      (fun e1 e2 _ _ hc _ hi => by
        simp only [lineIndexSet] at hc hi
        have h2 : e1.2 = e2.2 := by exact_mod_cast hi
        have h1 : e1.1 = e2.1 := by
          cases h : e1.1 <;> cases h' : e2.1 <;> simp_all
        exact Prod.ext h1 h2)).2.1 (true, 2) (by decide)⟩

end McmgMapper

namespace OneDGrid

theorem boundaryLoop_spec (heap : Heap) (side : Fin 2) (next : OneDEntityImp → Option Nat)
    (hw : wellFormed heap) :
    ∀ (fuel a : Nat), (heap a).level_ < fuel →
      ∃ b, boundaryLoop heap side next fuel a = some b ∧
        (b = true ↔ ∃ t, SideChain heap side a t ∧ next (heap t) = none) := by
  intro fuel
  induction fuel with
  | zero =>
    intro a h
    have := (hw a).1
    simp at h
    omega
  | succ k ih =>
    intro a h
    by_cases hl : (heap a).level_ = 0
    · refine ⟨(next (heap a)).isNone, ?_, ?_⟩
      · simp [boundaryLoop, hl]
      · constructor
        · intro hb
          exact ⟨a, SideChain.top a hl, Option.isNone_iff_eq_none.mp hb⟩
        · rintro ⟨t, hc, hn⟩
          cases hc with
          | top _ _ => exact Option.isNone_iff_eq_none.mpr hn
          | up _ f _ h1 _ _ _ => exact absurd hl h1
    · obtain ⟨f, hf, hlf⟩ := (hw a).2 hl
      by_cases hs : (heap f).sons_ side = some a
      · have hk : (heap f).level_ < k := by
          rw [hlf]
          push_cast at h
          omega
        obtain ⟨b, hb, hiff⟩ := ih f hk
        refine ⟨b, ?_, ?_⟩
        · simp [boundaryLoop, hl, hf, hs, hb]
        · rw [hiff]
          constructor
          · rintro ⟨t, hc, hn⟩
            exact ⟨t, SideChain.up a f t hl hf hs hc, hn⟩
          · rintro ⟨t, hc, hn⟩
            cases hc with
            | top _ h0 => exact absurd h0 hl
            | up _ g _ _ hg _ hc2 =>
              rw [hf] at hg
              cases hg
              exact ⟨t, hc2, hn⟩
      · refine ⟨false, ?_, ?_⟩
        · simp [boundaryLoop, hl, hf, hs]
        · constructor
          · intro hb
            cases hb
          · rintro ⟨t, hc, _⟩
            cases hc with
            | top _ h0 => exact absurd h0 hl
            | up _ g _ _ hg hs2 _ =>
              rw [hf] at hg
              cases hg
              exact absurd hs2 hs

theorem boundary_spec (heap : Heap) (fuel c : Nat) (n : Int) (hw : wellFormed heap)
    (hf : (heap c).level_ < fuel) :
    ∃ b, boundary heap fuel { center_ := c, neighbor_ := n } = some b ∧
      (n % 2 = 0 → (b = true ↔ (heap c).pred_ = none ∧
        ∃ t, SideChain heap 0 c t ∧ (heap t).pred_ = none)) ∧
      (n % 2 ≠ 0 → (b = true ↔ (heap c).succ_ = none ∧
        ∃ t, SideChain heap 1 c t ∧ (heap t).succ_ = none)) := by
  by_cases hn : n % 2 = 0
  · cases hp : (heap c).pred_ with
    | some p =>
      refine ⟨false, by simp [boundary, hn, hp], ?_, fun h => absurd hn h⟩
      intro _
      simp
    | none =>
      obtain ⟨b, hb, hiff⟩ := boundaryLoop_spec heap 0 (fun e => e.pred_) hw fuel c hf
      refine ⟨b, by simp [boundary, hn, hp, hb], ?_, fun h => absurd hn h⟩
      intro _
      rw [hiff]
      simp
  · cases hp : (heap c).succ_ with
    | some p =>
      refine ⟨false, by simp [boundary, hn, hp], fun h => absurd h hn, ?_⟩
      intro _
      simp
    | none =>
      obtain ⟨b, hb, hiff⟩ := boundaryLoop_spec heap 1 (fun e => e.succ_) hw fuel c hf
      refine ⟨b, by simp [boundary, hn, hp, hb], fun h => absurd h hn, ?_⟩
      intro _
      rw [hiff]
      simp

theorem skipSlot_spec (heap : Heap) (fuel c : Nat) (slot : Int) (lln : Bool)
    (hw : wellFormed heap) (hf : (heap c).level_ < fuel) :
    ∃ b, skipSlot heap fuel c slot lln = some b ∧
      (b = true ↔ ((heap c).isLeaf = false ∨
        boundary heap fuel { center_ := c, neighbor_ := slot } = some true ∨ lln = true)) := by
  obtain ⟨b, hb, _⟩ := boundary_spec heap fuel c slot hw hf
  cases hleaf : (heap c).isLeaf with
  | false => exact ⟨true, by simp [skipSlot, hleaf], by simp⟩
  | true =>
    cases b with
    | true => exact ⟨true, by simp [skipSlot, hleaf, hb], by simp [hb]⟩
    | false => exact ⟨lln, by simp [skipSlot, hleaf, hb], by simp [hb]⟩

theorem twoElements_wellFormed : wellFormed twoElements := by
  intro a
  unfold twoElements
  by_cases h : a = 1 <;> simp [h]

/-- Claim C38: on a well-formed element tree `boundary()` returns once the fuel
exceeds the level of the centre; for an even `neighbor_` it returns true
exactly if the centre has no predecessor, every element on the chain from the
centre up to its ancestor of level 0 is the son `sons_[0]` of its father, and
that ancestor has no predecessor; for an odd `neighbor_` the same holds with
successor and `sons_[1]`. -/
theorem C38_boundary (heap : Heap) (fuel c : Nat) (n : Int) (hw : wellFormed heap)
    (hf : (heap c).level_ < fuel) :
    ∃ b, boundary heap fuel { center_ := c, neighbor_ := n } = some b ∧
      (n % 2 = 0 → (b = true ↔ (heap c).pred_ = none ∧
        ∃ t, SideChain heap 0 c t ∧ (heap t).pred_ = none)) ∧
      (n % 2 ≠ 0 → (b = true ↔ (heap c).succ_ = none ∧
        ∃ t, SideChain heap 1 c t ∧ (heap t).succ_ = none)) :=
  boundary_spec heap fuel c n hw hf

theorem C38_boundary_witness :
    wellFormed twoElements ∧ (twoElements 0).level_ < (1 : Nat) ∧
    ∃ b, boundary twoElements 1 { center_ := 0, neighbor_ := 0 } = some b ∧
      ((0 : Int) % 2 = 0 → (b = true ↔ (twoElements 0).pred_ = none ∧
        ∃ t, SideChain twoElements 0 0 t ∧ (twoElements t).pred_ = none)) ∧
      ((0 : Int) % 2 ≠ 0 → (b = true ↔ (twoElements 0).succ_ = none ∧
        ∃ t, SideChain twoElements 1 0 t ∧ (twoElements t).succ_ = none)) :=
  ⟨twoElements_wellFormed, by decide,
    C38_boundary twoElements 1 0 0 twoElements_wellFormed (by decide)⟩

/-- Claim C37: on a well-formed element tree `increment()`, started from a
`neighbor_` in 0..3, returns with a strictly larger `neighbor_` in 1..4 and the
same centre.  The result is not the slot 2 if the centre is not a leaf, or
`boundary()` is true for the left side, or the left level neighbour is an
adjacent leaf; it is not the slot 3 under the same conditions for the right
side; and if the centre is not a leaf, or is a leaf with adjacent leaf level
neighbours on both sides, the iterator goes from 0 to 1 and from 1 to 4. -/
theorem C37_increment (heap : Heap) (fuel c : Nat) (n : Int) (hw : wellFormed heap)
    (hf : (heap c).level_ < fuel) (h0 : 0 ≤ n) (h3 : n ≤ 3) :
    ∃ m, increment heap fuel { center_ := c, neighbor_ := n }
        = some { center_ := c, neighbor_ := m } ∧
      n < m ∧ 1 ≤ m ∧ m ≤ 4 ∧
      (((heap c).isLeaf = false ∨
          boundary heap fuel { center_ := c, neighbor_ := 2 } = some true ∨
          leftLeafLevelNeighbor heap c = true) → m ≠ 2) ∧
      (((heap c).isLeaf = false ∨
          boundary heap fuel { center_ := c, neighbor_ := 3 } = some true ∨
          rightLeafLevelNeighbor heap c = true) → m ≠ 3) ∧
      (((heap c).isLeaf = false ∨
          (leftLeafLevelNeighbor heap c = true ∧ rightLeafLevelNeighbor heap c = true)) →
        (n = 0 → m = 1) ∧ (n = 1 → m = 4)) := by
  obtain ⟨b2, hb2, i2⟩ :=
    skipSlot_spec heap fuel c 2 (leftLeafLevelNeighbor heap c) hw hf
  obtain ⟨b3, hb3, i3⟩ :=
    skipSlot_spec heap fuel c 3 (rightLeafLevelNeighbor heap c) hw hf
  have hn : n = 0 ∨ n = 1 ∨ n = 2 ∨ n = 3 := by omega
  rcases hn with rfl | rfl | rfl | rfl
  · refine ⟨1, by simp [increment], by decide, by decide, by decide, by simp, by simp, ?_⟩
    intro _
    simp
  · cases b2 with
    | false =>
      refine ⟨2, by simp [increment, hb2], by decide, by decide, by decide, ?_, by simp, ?_⟩
      · intro h
        have := i2.mpr h
        cases this
      · intro h
        have : false = true := i2.mpr (by
          rcases h with h | ⟨h, _⟩
          · exact Or.inl h
          · exact Or.inr (Or.inr h))
        cases this
    | true =>
      cases b3 with
      | false =>
        refine ⟨3, by simp [increment, hb2, hb3], by decide, by decide, by decide, by simp,
          ?_, ?_⟩
        · intro h
          have := i3.mpr h
          cases this
        · intro h
          have : false = true := i3.mpr (by
            rcases h with h | ⟨_, h⟩
            · exact Or.inl h
            · exact Or.inr (Or.inr h))
          cases this
      | true =>
        refine ⟨4, by simp [increment, hb2, hb3], by decide, by decide, by decide, by simp,
          by simp, ?_⟩
        intro _
        simp
  · cases b3 with
    | false =>
      refine ⟨3, by simp [increment, hb3], by decide, by decide, by decide, by simp, ?_, ?_⟩
      · intro h
        have := i3.mpr h
        cases this
      · intro _
        simp
    | true =>
      refine ⟨4, by simp [increment, hb3], by decide, by decide, by decide, by simp,
        by simp, ?_⟩
      intro _
      simp
  · refine ⟨4, by simp [increment], by decide, by decide, by decide, by simp, by simp, ?_⟩
    intro _
    simp

theorem C37_increment_witness :
    wellFormed twoElements ∧ (twoElements 0).level_ < (1 : Nat) ∧ (0 : Int) ≤ 1 ∧ (1 : Int) ≤ 3 ∧
    ∃ m, increment twoElements 1 { center_ := 0, neighbor_ := 1 }
        = some { center_ := 0, neighbor_ := m } ∧
      1 < m ∧ 1 ≤ m ∧ m ≤ 4 ∧
      (((twoElements 0).isLeaf = false ∨
          boundary twoElements 1 { center_ := 0, neighbor_ := 2 } = some true ∨
          leftLeafLevelNeighbor twoElements 0 = true) → m ≠ 2) ∧
      (((twoElements 0).isLeaf = false ∨
          boundary twoElements 1 { center_ := 0, neighbor_ := 3 } = some true ∨
          rightLeafLevelNeighbor twoElements 0 = true) → m ≠ 3) ∧
      (((twoElements 0).isLeaf = false ∨
          (leftLeafLevelNeighbor twoElements 0 = true ∧
            rightLeafLevelNeighbor twoElements 0 = true)) →
        ((1 : Int) = 0 → m = 1) ∧ ((1 : Int) = 1 → m = 4)) :=
  ⟨twoElements_wellFormed, by decide, by decide, by decide,
    C37_increment twoElements 1 0 1 twoElements_wellFormed (by decide) (by decide) (by decide)⟩

end OneDGrid

namespace Alberta

theorem mem_codims (firstCodim dim c : Nat) :
    c ∈ codims firstCodim dim ↔ firstCodim ≤ c ∧ c ≤ dim := by
  unfold codims
  rw [List.mem_range'_1]
  omega

theorem codims_nodup (firstCodim dim : Nat) : (codims firstCodim dim).Nodup :=
  List.nodup_range' _ _

theorem hasSubEntity_iff {El : Type} (dim : Nat) (hI : HierarchicIndexSet El) (codim : Nat)
    (s : Int) (e : El) :
    hasSubEntity dim hI codim s e = true ↔
      ∃ i, i < NumSubEntities dim codim ∧ hI.subIndex codim e i = s := by
  simp [hasSubEntity]

theorem markStep_fold {El : Type} (hI : HierarchicIndexSet El) (codim : Nat) (e : El)
    (index : Int) (vec : List Int) :
    ∀ n, (∀ i, i < n → 0 ≤ hI.subIndex codim e i ∧ hI.subIndex codim e i < vec.length) →
      ∃ vec1, (List.range n).foldlM (markStep hI codim e index) vec = some vec1 ∧
        vec1.length = vec.length ∧
        ∀ s, s < vec.length → ∃ v v1, vec.get? s = some v ∧ vec1.get? s = some v1 ∧
          ((v < 0 ∧ ∃ i, i < n ∧ hI.subIndex codim e i = s) → v1 = index) ∧
          (¬ (v < 0 ∧ ∃ i, i < n ∧ hI.subIndex codim e i = s) → v1 = v) := by
  intro n
  induction n with
  | zero =>
    intro _
    refine ⟨vec, rfl, rfl, ?_⟩
    intro s hs
    refine ⟨vec.get ⟨s, hs⟩, vec.get ⟨s, hs⟩, List.get?_eq_get hs, List.get?_eq_get hs, ?_, ?_⟩
    · rintro ⟨_, i, hi, _⟩
      omega
    · intro _
      rfl
  | succ n ih =>
    intro h
    obtain ⟨vec1, hf, hlen, hsp⟩ := ih (fun i hi => h i (by omega))
    obtain ⟨hk0, hk1⟩ := h n (by omega)
    have hkl : (hI.subIndex codim e n).toNat < vec.length := by omega
    have hkc : ((hI.subIndex codim e n).toNat : Int) = hI.subIndex codim e n :=
      Int.toNat_of_nonneg hk0
    obtain ⟨v, v1, hv, hv1, hA, hB⟩ := hsp _ hkl
    rw [List.range_succ, List.foldlM_append, hf]
    simp only [List.foldlM_cons, List.foldlM_nil, Option.some_bind, Option.bind_eq_bind, markStep, hk0,
      if_true, hv1, Option.bind_some, pure]
    refine ⟨_, rfl, ?_, ?_⟩
    · split_ifs
      · rw [List.length_set, hlen]
      · exact hlen
    · intro s hs
      obtain ⟨w, w1, hw, hw1, hC, hD⟩ := hsp s hs
      by_cases hsk : s = (hI.subIndex codim e n).toNat
      · subst hsk
        rw [hv] at hw
        cases hw
        rw [hv1] at hw1
        cases hw1
        by_cases hneg : v1 < 0
        · refine ⟨v, index, hv, ?_, fun _ => rfl, ?_⟩
          · rw [if_pos hneg, List.get?_eq_getElem?, List.getElem?_set_self (by omega)]
          · intro hno
            exfalso
            apply hno
            refine ⟨?_, n, by omega, hkc.symm⟩
            by_contra hv0
            have : v1 = v := hB (fun hh => hv0 hh.1)
            omega
        · refine ⟨v, v1, hv, ?_, ?_, ?_⟩
          · rw [if_neg hneg]
            exact hv1
          · rintro ⟨hvn, _⟩
            by_cases hex : ∃ i, i < n ∧ hI.subIndex codim e i = ((hI.subIndex codim e n).toNat : Int)
            · exact hA ⟨hvn, hex⟩
            · have : v1 = v := hB (fun hh => hex hh.2)
              omega
          · intro hno
            apply hB
            rintro ⟨hvn, i, hi, hie⟩
            exact hno ⟨hvn, i, by omega, hie⟩
      · have hne : hI.subIndex codim e n ≠ (s : Int) := by
          intro hh
          apply hsk
          rw [hh]
          rfl
        refine ⟨w, w1, hw, ?_, ?_, ?_⟩
        · split_ifs
          · rw [List.get?_eq_getElem?, List.getElem?_set_ne (fun hh => hsk hh.symm),
              ← List.get?_eq_getElem?]
            exact hw1
          · exact hw1
        · rintro ⟨hwn, i, hi, hie⟩
          apply hC
          refine ⟨hwn, i, ?_, hie⟩
          rcases Nat.lt_succ_iff_lt_or_eq.mp hi with h1 | h1
          · exact h1
          · subst h1
            exact absurd hie hne
        · intro hno
          apply hD
          rintro ⟨hwn, i, hi, hie⟩
          exact hno ⟨hwn, i, by omega, hie⟩

theorem firstIndex_nonneg {El : Type} (dim : Nat) (hI : HierarchicIndexSet El) (codim : Nat)
    (es : List El) (s : Int) (hidx : ∀ e ∈ es, 0 ≤ hI.subIndex 0 e 0) :
    firstIndex dim hI codim es s < 0 ↔ es.find? (hasSubEntity dim hI codim s) = none := by
  unfold firstIndex
  cases hf : es.find? (hasSubEntity dim hI codim s) with
  | none => simp
  | some x =>
    have := hidx x (List.mem_of_find?_eq_some hf)
    simp only [reduceCtorEq, iff_false, not_lt]
    exact this

theorem markVec_step {El : Type} (dim : Nat) (hI : HierarchicIndexSet El) (codim : Nat)
    (es : List El) (e : El) (vec : List Int)
    (hes : ∀ x ∈ es, 0 ≤ hI.subIndex 0 x 0)
    (hsub : ∀ i, i < NumSubEntities dim codim →
      0 ≤ hI.subIndex codim e i ∧ hI.subIndex codim e i < hI.size codim)
    (hlen : vec.length = hI.size codim)
    (hvec : ∀ s, s < hI.size codim → vec.get? s = some (firstIndex dim hI codim es s)) :
    ∃ vec1, (List.range (NumSubEntities dim codim)).foldlM
        (markStep hI codim e (hI.subIndex 0 e 0)) vec = some vec1 ∧
      vec1.length = hI.size codim ∧
      ∀ s, s < hI.size codim →
        vec1.get? s = some (firstIndex dim hI codim (es ++ [e]) s) := by
  obtain ⟨vec1, hf, hl, hsp⟩ := markStep_fold hI codim e (hI.subIndex 0 e 0) vec
    (NumSubEntities dim codim) (fun i hi => by
      have := hsub i hi
      rw [hlen]
      exact this)
  refine ⟨vec1, hf, by rw [hl, hlen], ?_⟩
  intro s hs
  obtain ⟨v, v1, hv, hv1, hA, hB⟩ := hsp s (by rw [hlen]; exact hs)
  rw [hvec s hs] at hv
  cases hv
  rw [hv1]
  congr 1
  have hneg := firstIndex_nonneg dim hI codim es (s : Int) hes
  have hap : firstIndex dim hI codim (es ++ [e]) s =
      match es.find? (hasSubEntity dim hI codim s) with
      | some x => hI.subIndex 0 x 0
      | none => if hasSubEntity dim hI codim s e = true then hI.subIndex 0 e 0 else -1 := by
    unfold firstIndex
    rw [List.find?_append]
    cases es.find? (hasSubEntity dim hI codim s) with
    | some x => rfl
    | none =>
      by_cases hh : hasSubEntity dim hI codim s e = true
      · simp [List.find?, hh]
      · simp [List.find?, hh]
  rw [hap]
  cases hfind : es.find? (hasSubEntity dim hI codim s) with
  | some x =>
    have hnn : ¬ firstIndex dim hI codim es s < 0 := by
      rw [hneg, hfind]
      simp
    rw [hB (fun hh => hnn hh.1)]
    unfold firstIndex
    rw [hfind]
  | none =>
    have hlt : firstIndex dim hI codim es s < 0 := hneg.mpr hfind
    by_cases hh : hasSubEntity dim hI codim s e = true
    · simp only [hh, if_true]
      exact hA ⟨hlt, (hasSubEntity_iff dim hI codim s e).mp hh⟩
    · simp only [hh]
      rw [hB (fun h2 => hh ((hasSubEntity_iff dim hI codim s e).mpr h2.2))]
      unfold firstIndex
      rw [hfind]
      rfl

theorem foldlM_update_spec (f : Nat → List Int → Option (List Int))
    (P : Nat → List Int → Prop) :
    ∀ (cs : List Nat) (mk : Nat → List Int), cs.Nodup →
      (∀ c ∈ cs, ∃ v, f c (mk c) = some v ∧ P c v) →
      ∃ mk1, cs.foldlM (fun m c => (f c (m c)).map (Function.update m c)) mk = some mk1 ∧
        (∀ c ∈ cs, P c (mk1 c)) ∧ (∀ c, c ∉ cs → mk1 c = mk c) := by
  intro cs
  induction cs with
  | nil =>
    intro mk _ _
    exact ⟨mk, rfl, by simp, fun _ _ => rfl⟩
  | cons c cs ih =>
    intro mk hnd h
    obtain ⟨v, hv, hP⟩ := h c (List.mem_cons_self _ _)
    have hc : c ∉ cs := (List.nodup_cons.mp hnd).1
    obtain ⟨mk1, hf, hall, hrest⟩ := ih (Function.update mk c v) (List.nodup_cons.mp hnd).2
      (fun d hd => by
        have hdc : d ≠ c := fun hh => hc (hh ▸ hd)
        rw [Function.update_noteq hdc]
        exact h d (List.mem_cons_of_mem _ hd))
    refine ⟨mk1, ?_, ?_, ?_⟩
    · simp only [List.foldlM_cons, hv, Option.map_some', Option.bind_eq_bind, Option.some_bind]
      exact hf
    · intro d hd
      rcases List.mem_cons.mp hd with rfl | hd
      · rw [hrest _ hc, Function.update_same]
        exact hP
      · exact hall d hd
    · intro d hd
      have hdc : d ≠ c := fun hh => hd (hh ▸ List.mem_cons_self _ _)
      rw [hrest d (fun hh => hd (List.mem_cons_of_mem _ hh)), Function.update_noteq hdc]

theorem foldl_update_spec (g : Nat → List Int) :
    ∀ (cs : List Nat) (mk : Nat → List Int) (c : Nat), c ∈ cs →
      (cs.foldl (fun m d => Function.update m d (g d)) mk) c = g c := by
  intro cs
  induction cs using List.reverseRecOn with
  | nil =>
    intro _ _ h
    cases h
  | append_singleton cs d ih =>
    intro mk c hc
    rw [List.foldl_append]
    simp only [List.foldl_cons, List.foldl_nil]
    by_cases hcd : c = d
    · subst hcd
      rw [Function.update_same]
    · rw [Function.update_noteq hcd]
      apply ih
      rcases List.mem_append.mp hc with h | h
      · exact h
      · simp at h
        exact absurd h hcd

theorem markRange_spec {El : Type} (dim firstCodim : Nat) (hI : HierarchicIndexSet El) :
    ∀ (rest es : List El) (mk : Nat → List Int),
      (∀ e ∈ es ++ rest, 0 ≤ hI.subIndex 0 e 0) →
      (∀ e ∈ rest, ∀ c, firstCodim ≤ c → c ≤ dim → ∀ i, i < NumSubEntities dim c →
        0 ≤ hI.subIndex c e i ∧ hI.subIndex c e i < hI.size c) →
      (∀ c, firstCodim ≤ c → c ≤ dim → (mk c).length = hI.size c ∧
        ∀ s, s < hI.size c → (mk c).get? s = some (firstIndex dim hI c es s)) →
      ∃ mk1, rest.foldlM (forLoopMark dim firstCodim hI) mk = some mk1 ∧
        ∀ c, firstCodim ≤ c → c ≤ dim → (mk1 c).length = hI.size c ∧
          ∀ s, s < hI.size c →
            (mk1 c).get? s = some (firstIndex dim hI c (es ++ rest) s) := by
  intro rest
  induction rest with
  | nil =>
    intro es mk _ _ h
    refine ⟨mk, rfl, ?_⟩
    rw [List.append_nil]
    exact h
  | cons e rest ih =>
    intro es mk hidx hsub hinv
    have hstep := foldlM_update_spec
      (fun c vec => (List.range (NumSubEntities dim c)).foldlM
        (markStep hI c e (hI.subIndex 0 e 0)) vec)
      (fun c vec => vec.length = hI.size c ∧
        ∀ s, s < hI.size c → vec.get? s = some (firstIndex dim hI c (es ++ [e]) s))
      (codims firstCodim dim) mk (codims_nodup _ _)
      (fun c hc => by
        obtain ⟨h1, h2⟩ := (mem_codims _ _ _).mp hc
        exact markVec_step dim hI c es e (mk c)
          (fun x hx => hidx x (List.mem_append_left _ hx))
          (hsub e (List.mem_cons_self _ _) c h1 h2)
          (hinv c h1 h2).1 (hinv c h1 h2).2)
    obtain ⟨mk1, hf, hall, _⟩ := hstep
    have hfl : forLoopMark dim firstCodim hI mk e = some mk1 := hf
    obtain ⟨mk2, hf2, hall2⟩ := ih (es ++ [e]) mk1
      (fun x hx => hidx x (by simpa using hx))
      (fun x hx => hsub x (List.mem_cons_of_mem _ hx))
      (fun c h1 h2 => hall c ((mem_codims _ _ _).mpr ⟨h1, h2⟩))
    refine ⟨mk2, ?_, ?_⟩
    · simp only [List.foldlM_cons, hfl, Option.bind_eq_bind, Option.some_bind]
      exact hf2
    · intro c h1 h2
      have := hall2 c h1 h2
      simpa using this

theorem markSubEntities_spec {El : Type} (dim firstCodim : Nat) (M : AlbertaMarkerVector El)
    (range : List El)
    (hidx : ∀ e ∈ range, 0 ≤ M.hIndexSet_.subIndex 0 e 0)
    (hsub : ∀ e ∈ range, ∀ c, firstCodim ≤ c → c ≤ dim → ∀ i, i < NumSubEntities dim c →
      0 ≤ M.hIndexSet_.subIndex c e i ∧ M.hIndexSet_.subIndex c e i < M.hIndexSet_.size c) :
    ∃ M1, markSubEntities dim firstCodim M range = some M1 ∧ M1.up2Date_ = true ∧
      M1.hIndexSet_ = M.hIndexSet_ ∧
      ∀ c, firstCodim ≤ c → c ≤ dim →
        (M1.marker_ c).length = M.hIndexSet_.size c ∧
        ∀ s, s < M.hIndexSet_.size c →
          (M1.marker_ c).get? s = some (firstIndex dim M.hIndexSet_ c range s) := by
  obtain ⟨mk1, hf, hall⟩ := markRange_spec dim firstCodim M.hIndexSet_ range []
    ((codims firstCodim dim).foldl
      (fun mk codim => Function.update mk codim (List.replicate (M.hIndexSet_.size codim) (-1)))
      M.marker_)
    (by simpa using hidx) hsub
    (fun c h1 h2 => by
      rw [foldl_update_spec (fun codim => List.replicate (M.hIndexSet_.size codim) (-1)) _ _ c
        ((mem_codims _ _ _).mpr ⟨h1, h2⟩)]
      refine ⟨List.length_replicate _ _, ?_⟩
      intro s hs
      rw [List.get?_eq_getElem?, List.getElem?_replicate]
      simp [hs, firstIndex])
  refine ⟨{ M with marker_ := mk1, up2Date_ := true }, ?_, rfl, rfl, ?_⟩
  · simp only [markSubEntities, hf, Option.map_some']
  · simpa using hall

theorem twoTriangles_subIndex :
    ∀ e ∈ [0, 1], ∀ c, 1 ≤ c → c ≤ 2 → ∀ i, i < NumSubEntities 2 c →
      0 ≤ twoTrianglesMarker.hIndexSet_.subIndex c e i ∧
      twoTrianglesMarker.hIndexSet_.subIndex c e i < twoTrianglesMarker.hIndexSet_.size c := by
  intro e he c h1 h2 i hi
  have hc : c = 1 ∨ c = 2 := by omega
  have hee : e = 0 ∨ e = 1 := by simpa using he
  rcases hc with rfl | rfl
  · have h3 : i < 3 := hi
    rcases hee with rfl | rfl <;>
      simp [twoTrianglesMarker, twoTriangles] <;> omega
  · have h3 : i < 3 := hi
    rcases hee with rfl | rfl <;>
      simp [twoTrianglesMarker, twoTriangles] <;> omega

/-- Claim C39: if the hierarchic indices of the elements of the range are not
negative and the subentity indices lie in `[0, size( codim ))`, then
`markSubEntities( begin, end )` returns with `up2Date_` set, and for every
codimension `c` in `[firstCodim, dim]` the vector `marker_[c]` has `size( c )`
entries, the entry `s` being the hierarchic index of the first element of the
range that has `s` as a subentity of codimension `c`, or -1 if no element has
it.  If moreover distinct elements have distinct indices, then
`subEntityOnElement< c >` is true exactly on the first element of the range that
has the subentity, so for every subentity that some element has it is true on
exactly one element of the range. -/
theorem C39_markSubEntities {El : Type} (dim firstCodim : Nat) (M : AlbertaMarkerVector El)
    (range : List El)
    (hidx : ∀ e ∈ range, 0 ≤ M.hIndexSet_.subIndex 0 e 0)
    (hsub : ∀ e ∈ range, ∀ c, firstCodim ≤ c → c ≤ dim → ∀ i, i < NumSubEntities dim c →
      0 ≤ M.hIndexSet_.subIndex c e i ∧ M.hIndexSet_.subIndex c e i < M.hIndexSet_.size c)
    (hinj : ∀ e1 ∈ range, ∀ e2 ∈ range,
      M.hIndexSet_.subIndex 0 e1 0 = M.hIndexSet_.subIndex 0 e2 0 → e1 = e2) :
    ∃ M1, markSubEntities dim firstCodim M range = some M1 ∧ M1.up2Date_ = true ∧
      ∀ c, firstCodim ≤ c → c ≤ dim →
        (M1.marker_ c).length = M.hIndexSet_.size c ∧
        (∀ s, s < M.hIndexSet_.size c →
          (M1.marker_ c).get? s = some (firstIndex dim M.hIndexSet_ c range s)) ∧
        (∀ e ∈ range, ∀ i, i < NumSubEntities dim c →
          ∃ b, subEntityOnElement c M1 e i = some b ∧
            (b = true ↔ range.find?
              (hasSubEntity dim M.hIndexSet_ c (M.hIndexSet_.subIndex c e i)) = some e)) ∧
        (∀ s, s < M.hIndexSet_.size c →
          (∃ e ∈ range, hasSubEntity dim M.hIndexSet_ c s e = true) →
          ∃! e, e ∈ range ∧ ∃ i, i < NumSubEntities dim c ∧
            M.hIndexSet_.subIndex c e i = s ∧ subEntityOnElement c M1 e i = some true) := by
  obtain ⟨M1, hM, hup, hI, hall⟩ := markSubEntities_spec dim firstCodim M range hidx hsub
  have hon : ∀ c, firstCodim ≤ c → c ≤ dim → ∀ e ∈ range, ∀ i, i < NumSubEntities dim c →
      ∃ b, subEntityOnElement c M1 e i = some b ∧
        (b = true ↔ range.find?
          (hasSubEntity dim M.hIndexSet_ c (M.hIndexSet_.subIndex c e i)) = some e) := by
    intro c h1 h2 e he i hi
    obtain ⟨hlen, hget⟩ := hall c h1 h2
    obtain ⟨hs0, hs1⟩ := hsub e he c h1 h2 i hi
    have hsn : (M.hIndexSet_.subIndex c e i).toNat < M.hIndexSet_.size c := by omega
    have hcast : (((M.hIndexSet_.subIndex c e i).toNat : Nat) : Int) = M.hIndexSet_.subIndex c e i :=
      Int.toNat_of_nonneg hs0
    have hg := hget _ hsn
    rw [hcast] at hg
    have hhas : hasSubEntity dim M.hIndexSet_ c (M.hIndexSet_.subIndex c e i) e = true :=
      (hasSubEntity_iff _ _ _ _ _).mpr ⟨i, hi, rfl⟩
    have hpos : 0 < (M1.marker_ c).length := by omega
    cases hfind : range.find?
        (hasSubEntity dim M.hIndexSet_ c (M.hIndexSet_.subIndex c e i)) with
    | none =>
      have := List.find?_eq_none.mp hfind e he
      exact absurd hhas this
    | some x =>
      have hx : x ∈ range := List.mem_of_find?_eq_some hfind
      refine ⟨decide (M.hIndexSet_.subIndex 0 x 0 = M.hIndexSet_.subIndex 0 e 0), ?_, ?_⟩
      · unfold subEntityOnElement
        rw [hI]
        simp only [gt_iff_lt, hpos, if_true, hs0, hg, Option.map_some']
        unfold firstIndex
        rw [hfind]
      · rw [decide_eq_true_iff]
        constructor
        · intro h
          rw [hinj x hx e he h]
        · intro h
          cases h
          rfl
  refine ⟨M1, hM, hup, ?_⟩
  intro c h1 h2
  refine ⟨(hall c h1 h2).1, (hall c h1 h2).2, hon c h1 h2, ?_⟩
  intro s hs hex
  cases hfind : range.find? (hasSubEntity dim M.hIndexSet_ c s) with
  | none =>
    obtain ⟨e, he, hh⟩ := hex
    exact absurd hh (List.find?_eq_none.mp hfind e he)
  | some x =>
    have hx : x ∈ range := List.mem_of_find?_eq_some hfind
    have hxh : hasSubEntity dim M.hIndexSet_ c s x = true := List.find?_some hfind
    obtain ⟨i, hi, hie⟩ := (hasSubEntity_iff _ _ _ _ _).mp hxh
    refine ⟨x, ⟨hx, i, hi, hie, ?_⟩, ?_⟩
    · obtain ⟨b, hb, hiff⟩ := hon c h1 h2 x hx i hi
      rw [hie] at hiff
      rw [hb, hiff.mpr hfind]
    · rintro y ⟨hy, j, hj, hje, hsy⟩
      obtain ⟨b, hb, hiff⟩ := hon c h1 h2 y hy j hj
      rw [hje] at hiff
      rw [hsy] at hb
      cases hb
      have := hiff.mp rfl
      rw [hfind] at this
      cases this
      rfl

theorem C39_markSubEntities_witness :
    (∀ e ∈ [0, 1], 0 ≤ twoTrianglesMarker.hIndexSet_.subIndex 0 e 0) ∧
    (∀ e1 ∈ [0, 1], ∀ e2 ∈ [0, 1],
      twoTrianglesMarker.hIndexSet_.subIndex 0 e1 0
        = twoTrianglesMarker.hIndexSet_.subIndex 0 e2 0 → e1 = e2) ∧
    ∃ M1, markSubEntities 2 1 twoTrianglesMarker [0, 1] = some M1 ∧ M1.up2Date_ = true ∧
      ∀ c, 1 ≤ c → c ≤ 2 →
        (M1.marker_ c).length = twoTrianglesMarker.hIndexSet_.size c ∧
        (∀ s, s < twoTrianglesMarker.hIndexSet_.size c →
          (M1.marker_ c).get? s
            = some (firstIndex 2 twoTrianglesMarker.hIndexSet_ c [0, 1] s)) ∧
        (∀ e ∈ [0, 1], ∀ i, i < NumSubEntities 2 c →
          ∃ b, subEntityOnElement c M1 e i = some b ∧
            (b = true ↔ [0, 1].find?
              (hasSubEntity 2 twoTrianglesMarker.hIndexSet_ c
                (twoTrianglesMarker.hIndexSet_.subIndex c e i)) = some e)) ∧
        (∀ s, s < twoTrianglesMarker.hIndexSet_.size c →
          (∃ e ∈ [0, 1], hasSubEntity 2 twoTrianglesMarker.hIndexSet_ c s e = true) →
          ∃! e, e ∈ [0, 1] ∧ ∃ i, i < NumSubEntities 2 c ∧
            twoTrianglesMarker.hIndexSet_.subIndex c e i = s ∧
            subEntityOnElement c M1 e i = some true) :=
  ⟨by decide, by decide,
    C39_markSubEntities 2 1 twoTrianglesMarker [0, 1] (by decide) twoTriangles_subIndex
      (by decide)⟩

theorem preorder_cons (m : Nat) (t : Tree) (up : List (Fin 2 × Tree)) :
    preorder m t up = { macroIndex := m, tree := t, up := up } :: (preorder m t up).tail := by
  cases t <;> rfl

theorem fin2_ne_one (i : Fin 2) (h : ¬ i = 1) : i = 0 := by
  omega

theorem climb_spec (m : Nat) :
    ∀ (up : List (Fin 2 × Tree)) (t : Tree),
      (climb m t up).macroIndex = m ∧
      after m (climb m t up).tree (climb m t up).up = after m t up ∧
      ((climb m t up).up = [] ∨ ∃ sibling up1, (climb m t up).up = (0, sibling) :: up1) := by
  intro up
  induction up with
  | nil =>
    intro t
    exact ⟨rfl, rfl, Or.inl rfl⟩
  | cons p up ih =>
    intro t
    obtain ⟨i, sibling⟩ := p
    by_cases hi : i = 1
    · subst hi
      have h := ih (fatherTree t 1 sibling)
      have e : climb m t ((1, sibling) :: up) = climb m (fatherTree t 1 sibling) up := by
        simp [climb]
      rw [e]
      refine ⟨h.1, ?_, h.2.2⟩
      rw [h.2.1]
      simp [after]
    · have h0 := fin2_ne_one i hi
      subst h0
      have e : climb m t ((0, sibling) :: up)
          = { macroIndex := m, tree := t, up := (0, sibling) :: up } := by
        simp [climb]
      rw [e]
      exact ⟨rfl, rfl, Or.inr ⟨sibling, up, rfl⟩⟩

theorem drop_of_get? (macros : List Tree) (k : Nat) (t : Tree) (h : macros.get? k = some t) :
    macros.drop k = t :: macros.drop (k + 1) := by
  rw [List.get?_eq_getElem?] at h
  obtain ⟨hk, ht⟩ := List.getElem?_eq_some_iff.mp h
  rw [← ht]
  exact List.drop_eq_getElem_cons hk

theorem nextElement_spec (macros : List Tree) (e : ElementInfo) :
    remaining macros (nextElement macros e.macroIndex e).2 = future macros e ∧
    ∀ x, (nextElement macros e.macroIndex e).2 = some x →
      (nextElement macros e.macroIndex e).1 = x.macroIndex := by
  obtain ⟨m, t, up⟩ := e
  cases t with
  | node a b =>
    have hn : nextElement macros m { macroIndex := m, tree := Tree.node a b, up := up }
        = (m, some { macroIndex := m, tree := a, up := (0, b) :: up }) := by
      simp [nextElement, ElementInfo.isLeaf, ElementInfo.child]
    rw [hn]
    refine ⟨?_, ?_⟩
    · simp only [remaining, future]
      rw [← List.cons_append, ← List.cons_append, ← preorder_cons]
      simp [preorder, after, fatherTree, List.append_assoc]
    · intro x hx
      cases hx
      rfl
  | leaf =>
    obtain ⟨hm, haf, hup⟩ := climb_spec m up Tree.leaf
    have hfut : future macros { macroIndex := m, tree := Tree.leaf, up := up }
        = after m (climb m Tree.leaf up).tree (climb m Tree.leaf up).up ++
          preorderFrom (m + 1) (macros.drop (m + 1)) := by
      rw [haf]
      simp [future, preorder]
    rw [hfut]
    rcases hup with h0 | ⟨sibling, up1, h1⟩
    · have hn : nextElement macros m { macroIndex := m, tree := Tree.leaf, up := up }
          = (m + 1, macroElement macros (m + 1)) := by
        simp [nextElement, ElementInfo.isLeaf, ElementInfo.level, h0]
      rw [hn, h0]
      cases hg : macros.get? (m + 1) with
      | none =>
        have hlen : macros.length ≤ m + 1 := by
          rw [List.get?_eq_getElem?] at hg
          exact List.getElem?_eq_none_iff.mp hg
        refine ⟨?_, ?_⟩
        · simp only [macroElement, hg, Option.map_none', remaining, after, List.nil_append,
            List.drop_eq_nil_of_le hlen, preorderFrom]
        · intro x hx
          change macroElement macros (m + 1) = some x at hx
          simp only [macroElement, hg, Option.map_none'] at hx
          cases hx
      | some t1 =>
        refine ⟨?_, ?_⟩
        · simp only [macroElement, hg, Option.map_some', remaining, future, after,
            List.nil_append, List.append_nil]
          rw [drop_of_get? macros (m + 1) t1 hg]
          simp only [preorderFrom]
          rw [← List.cons_append, ← preorder_cons]
        · intro x hx
          change macroElement macros (m + 1) = some x at hx
          simp only [macroElement, hg, Option.map_some', Option.some.injEq] at hx
          rw [← hx]
    · have hn : nextElement macros m { macroIndex := m, tree := Tree.leaf, up := up }
          = (m, some { macroIndex := m, tree := sibling,
                       up := (1, (climb m Tree.leaf up).tree) :: up1 }) := by
        have hpos : ¬ ((up1.length : Int) + 1 = 0) := by omega
        simp [nextElement, ElementInfo.isLeaf, ElementInfo.level, h1, ElementInfo.father,
          ElementInfo.child, fatherTree, hm, hpos]
      rw [hn, h1]
      refine ⟨?_, ?_⟩
      · simp only [remaining, future]
        rw [← List.cons_append, ← List.cons_append, ← preorder_cons]
        simp [after, fatherTree, List.append_assoc]
      · intro x hx
        cases hx
        rfl

theorem stopAtElement_some (leafIterator : Bool) (level_ : Int) (e : ElementInfo) :
    stopAtElement leafIterator level_ (some e) = wanted leafIterator level_ e := by
  unfold stopAtElement wanted
  cases leafIterator
  · simp only [Bool.false_eq_true, if_false]
    by_cases h : level_ = e.level
    · simp [h]
    · have h2 : ¬ e.level = level_ := fun hh => h hh.symm
      simp [h, h2]
  · simp

theorem nextElementStop_spec (macros : List Tree) (leafIterator : Bool) (level_ : Int) :
    ∀ (fuel m : Nat) (r : Option ElementInfo),
      (∀ e, r = some e → m = e.macroIndex) →
      (remaining macros r).length < fuel →
      ∃ m1 r1, nextElementStop macros leafIterator level_ fuel (m, r) = some (m1, r1) ∧
        (∀ y, r1 = some y → m1 = y.macroIndex ∧ wanted leafIterator level_ y = true) ∧
        (remaining macros r).filter (wanted leafIterator level_)
          = (remaining macros r1).filter (wanted leafIterator level_) ∧
        (remaining macros r1).length ≤ (remaining macros r).length := by
  intro fuel
  induction fuel with
  | zero =>
    intro m r _ h
    omega
  | succ k ih =>
    intro m r hm hlen
    cases r with
    | none =>
      refine ⟨m, none, rfl, ?_, rfl, le_refl _⟩
      intro y hy
      cases hy
    | some e =>
      have hme : m = e.macroIndex := hm e rfl
      subst hme
      by_cases hw : wanted leafIterator level_ e = true
      · refine ⟨e.macroIndex, some e, ?_, ?_, rfl, le_refl _⟩
        · simp [nextElementStop, stopAtElement_some, hw]
        · intro y hy
          cases hy
          exact ⟨rfl, hw⟩
      · obtain ⟨hrem, hmac⟩ := nextElement_spec macros e
        have hl2 : (remaining macros (nextElement macros e.macroIndex e).2).length < k := by
          rw [hrem]
          simp only [remaining, List.length_cons] at hlen
          omega
        obtain ⟨m1, r1, hrun, hy, hfil, hle⟩ :=
          ih (nextElement macros e.macroIndex e).1 (nextElement macros e.macroIndex e).2 hmac hl2
        refine ⟨m1, r1, ?_, hy, ?_, ?_⟩
        · simp only [nextElementStop, stopAtElement_some, hw, Bool.not_false, if_true]
          exact hrun
        · rw [← hfil, hrem]
          simp only [remaining]
          rw [List.filter_cons_of_neg hw]
        · rw [hrem] at hle
          have hone : (remaining macros (some e)).length = (future macros e).length + 1 := rfl
          omega

theorem visited_spec (macros : List Tree) (fuel : Nat) :
    ∀ (steps : Nat) (it : AlbertaGridTreeIterator),
      (∀ y, it.elementInfo = some y →
        it.macroIterator_ = y.macroIndex ∧ wanted it.leafIterator it.level_ y = true) →
      (remaining macros it.elementInfo).length < fuel →
      ((remaining macros it.elementInfo).filter (wanted it.leafIterator it.level_)).length
        ≤ steps →
      visited macros fuel steps it
        = some ((remaining macros it.elementInfo).filter (wanted it.leafIterator it.level_)) := by
  intro steps
  induction steps with
  | zero =>
    intro it hy _ hs
    obtain ⟨lf, lv, m, r⟩ := it
    cases r with
    | none => rfl
    | some e =>
      have hw := (hy e rfl).2
      simp only [remaining] at hs
      rw [List.filter_cons_of_pos hw] at hs
      simp at hs
  | succ n ih =>
    intro it hy hf hs
    obtain ⟨lf, lv, m, r⟩ := it
    cases r with
    | none => rfl
    | some e =>
      obtain ⟨hm, hw⟩ := hy e rfl
      simp only at hm hw hf hs
      subst hm
      obtain ⟨hrem, hmac⟩ := nextElement_spec macros e
      have hl2 : (remaining macros (nextElement macros e.macroIndex e).2).length < fuel := by
        rw [hrem]
        simp only [remaining, List.length_cons] at hf
        omega
      obtain ⟨m1, r1, hrun, hy1, hfil, hle⟩ :=
        nextElementStop_spec macros lf lv fuel (nextElement macros e.macroIndex e).1
          (nextElement macros e.macroIndex e).2 hmac hl2
      have hinc : AlbertaGridTreeIterator.increment macros fuel
          { leafIterator := lf, level_ := lv, macroIterator_ := e.macroIndex,
            elementInfo := some e }
          = some { leafIterator := lf, level_ := lv, macroIterator_ := m1,
                   elementInfo := r1 } := by
        simp only [AlbertaGridTreeIterator.increment, goNextElement, hrun, Option.map_some']
      have hrec := ih { leafIterator := lf, level_ := lv, macroIterator_ := m1,
                        elementInfo := r1 } hy1
        (by
          rw [hrem] at hle
          simp only [remaining, List.length_cons] at hf
          simp only
          omega)
        (by
          simp only
          rw [← hfil, hrem]
          simp only [remaining] at hs
          rw [List.filter_cons_of_pos hw] at hs
          simp only [List.length_cons] at hs
          omega)
      have hgoal : (remaining macros (some e)).filter (wanted lf lv)
          = e :: (remaining macros r1).filter (wanted lf lv) := by
        rw [← hfil, hrem]
        exact List.filter_cons_of_pos hw
      simp only [visited, hinc, hrec, Option.map_some']
      rw [hgoal]

theorem remaining_first (macros : List Tree) :
    remaining macros (macroElement macros 0) = elements macros := by
  cases macros with
  | nil => rfl
  | cons t ts =>
    simp only [macroElement, List.get?_cons_zero, Option.map_some', remaining, future,
      elements, preorderFrom, after, List.append_nil, List.drop_succ_cons, List.drop_zero,
      Nat.zero_add]
    rw [← List.cons_append, ← preorder_cons]

theorem mem_preorder (m : Nat) :
    ∀ (t : Tree) (up : List (Fin 2 × Tree)) (e : ElementInfo), e ∈ preorder m t up →
      e.macroIndex = m ∧ ∃ ext, e.up = ext ++ up := by
  intro t
  induction t with
  | leaf =>
    intro up e he
    simp only [preorder, List.mem_singleton] at he
    subst he
    exact ⟨rfl, [], rfl⟩
  | node a b iha ihb =>
    intro up e he
    simp only [preorder, List.mem_cons, List.mem_append] at he
    rcases he with he | he | he
    · subst he
      exact ⟨rfl, [], rfl⟩
    · obtain ⟨h1, ext, h2⟩ := iha _ e he
      exact ⟨h1, ext ++ [(0, b)], by rw [h2]; simp⟩
    · obtain ⟨h1, ext, h2⟩ := ihb _ e he
      exact ⟨h1, ext ++ [(1, a)], by rw [h2]; simp⟩

theorem preorder_nodup (m : Nat) :
    ∀ (t : Tree) (up : List (Fin 2 × Tree)), (preorder m t up).Nodup := by
  intro t
  induction t with
  | leaf =>
    intro up
    simp [preorder]
  | node a b iha ihb =>
    intro up
    simp only [preorder]
    rw [List.nodup_cons, List.nodup_append]
    refine ⟨?_, iha _, ihb _, ?_⟩
    · intro hmem
      rcases List.mem_append.mp hmem with h | h
      · obtain ⟨_, ext, h2⟩ := mem_preorder m _ _ _ h
        have := congrArg List.length h2
        simp at this
        omega
      · obtain ⟨_, ext, h2⟩ := mem_preorder m _ _ _ h
        have := congrArg List.length h2
        simp at this
        omega
    · intro x hxa hxb
      obtain ⟨_, e1, h1⟩ := mem_preorder m _ _ _ hxa
      obtain ⟨_, e2, h2⟩ := mem_preorder m _ _ _ hxb
      rw [h1] at h2
      have := (List.append_inj' h2 rfl).2
      simp at this

theorem mem_preorderFrom :
    ∀ (ts : List Tree) (first : Nat) (e : ElementInfo), e ∈ preorderFrom first ts →
      first ≤ e.macroIndex := by
  intro ts
  induction ts with
  | nil =>
    intro first e he
    simp [preorderFrom] at he
  | cons t ts ih =>
    intro first e he
    simp only [preorderFrom, List.mem_append] at he
    rcases he with he | he
    · rw [(mem_preorder first _ _ _ he).1]
    · have := ih _ e he
      omega

theorem preorderFrom_nodup :
    ∀ (ts : List Tree) (first : Nat), (preorderFrom first ts).Nodup := by
  intro ts
  induction ts with
  | nil =>
    intro first
    simp [preorderFrom]
  | cons t ts ih =>
    intro first
    simp only [preorderFrom]
    rw [List.nodup_append]
    refine ⟨preorder_nodup _ _ _, ih _, ?_⟩
    intro x hx1 hx2
    have h1 := (mem_preorder first _ _ _ hx1).1
    have h2 := mem_preorderFrom _ _ _ hx2
    omega

/-- Claim C40: on a forest of binary refinement trees over the macro elements,
with more fuel than the forest has elements and at least as many steps as there
are elements to visit, the constructor of the tree iterator of codimension 0
returns, and the elements visited by construction and repeated `increment()`
up to the invalid element are the leaf elements (leaf iterator), respectively
the elements of level `level_` (level iterator), in depth-first order (child 0
before child 1, macro elements in macro order); the depth-first list of the
elements repeats none, so each is visited exactly once. -/
theorem C40_tree_traversal (macros : List Tree) (leafIterator : Bool) (travLevel : Int)
    (fuel steps : Nat) (hfuel : (elements macros).length < fuel)
    (hsteps : ((elements macros).filter (wanted leafIterator travLevel)).length ≤ steps) :
    ∃ it, AlbertaGridTreeIterator.construct macros leafIterator travLevel fuel = some it ∧
      visited macros fuel steps it
        = some ((elements macros).filter (wanted leafIterator travLevel)) ∧
      (elements macros).Nodup := by
  obtain ⟨m1, r1, hrun, hy, hfil, hle⟩ :=
    nextElementStop_spec macros leafIterator travLevel fuel 0 (macroElement macros 0)
      (by
        intro e he
        cases macros with
        | nil => simp [macroElement] at he
        | cons t ts =>
          simp only [macroElement, List.get?_cons_zero, Option.map_some',
            Option.some.injEq] at he
          rw [← he])
      (by rw [remaining_first]; exact hfuel)
  rw [remaining_first] at hfil hle
  refine ⟨{ leafIterator := leafIterator, level_ := travLevel, macroIterator_ := m1,
            elementInfo := r1 }, ?_, ?_, preorderFrom_nodup _ _⟩
  · simp only [AlbertaGridTreeIterator.construct, hrun, Option.map_some']
  · rw [hfil]
    apply visited_spec macros fuel steps _ hy
    · simp only
      omega
    · simp only
      rw [← hfil]
      exact hsteps

theorem C40_tree_traversal_witness :
    (elements smallForest).length < 7 ∧
    ((elements smallForest).filter (wanted true 0)).length ≤ 4 ∧
    ∃ it, AlbertaGridTreeIterator.construct smallForest true 0 7 = some it ∧
      visited smallForest 7 4 it = some ((elements smallForest).filter (wanted true 0)) ∧
      (elements smallForest).Nodup :=
  ⟨by decide, by decide, C40_tree_traversal smallForest true 0 7 4 (by decide) (by decide)⟩

end Alberta

end Dune
